import Mathlib

/-!
# NES core (mapper 0): a shallow embedding of the CPU, the bus and the PPU register port

The C sources `ines.c`, `nes.c`, `ppu.c` and `cpu6502.c` are transcribed function by
function.  The machine is one aggregate `nes_t`; every C function that takes a pointer
into the aggregate becomes a function on `nes_t` that returns the new aggregate (and the
returned value, when there is one, as the first component of a pair).

Machine integers are natural numbers.  A store into a `uint8_t`, `uint16_t` or
`uint64_t` location that can leave the range carries an explicit `% 256`, `% 65536` or
`% 2 ^ 64`.  Arrays are functions from the index to the element.
-/

namespace NES

/-! ## Data model (`ines.h`, `cpu6502.h`, `ppu.h`, `nes.h`) -/

inductive nes_mirror_t where
  | NES_MIRROR_HORIZONTAL
  | NES_MIRROR_VERTICAL
  | NES_MIRROR_FOURSCREEN
  deriving DecidableEq, Repr

open nes_mirror_t

structure ines_info_t where
  mapper : Nat
  mirror : nes_mirror_t
  has_battery : Bool
  has_trainer : Bool
  is_nes2 : Bool
  prg_rom_size : Nat
  chr_rom_size : Nat
  prg_ram_size : Nat

structure cart_t where
  info : ines_info_t
  prg_rom : Nat → Nat
  chr : Nat → Nat
  chr_is_ram : Bool

structure cpu6502_t where
  pc : Nat
  a : Nat
  x : Nat
  y : Nat
  sp : Nat
  p : Nat
  cycles : Nat
  nmi_pending : Bool
  irq_pending : Bool

structure ppu_t where
  reg_ctrl : Nat
  reg_mask : Nat
  reg_status : Nat
  oam_addr : Nat
  oam : Nat → Nat
  vram : Nat → Nat
  palette : Nat → Nat
  chr_read_buffer : Nat
  v : Nat
  t : Nat
  x : Nat
  w : Bool
  scroll_x : Nat
  scroll_y : Nat
  scroll_x_next : Nat
  scroll_y_next : Nat
  render_ctrl : Nat
  render_ctrl_next : Nat
  scanline : Int
  dot : Int
  frame_ready : Bool
  framebuffer : Nat → Nat
  scan_spr_count : Nat
  scan_spr_i : Nat → Nat
  scan_spr_y : Nat → Nat
  scan_spr_tile : Nat → Nat
  scan_spr_attr : Nat → Nat
  scan_spr_x : Nat → Nat

structure nes_t where
  cart : cart_t
  cpu : cpu6502_t
  ppu : ppu_t
  ram : Nat → Nat
  cpu_stall : Int
  pad1_state : Nat
  pad1_shift : Nat
  pad_strobe : Bool
  last_bus : Nat
  dbg_nmi_count : Nat

/-- Array store `m[i] = v`. -/
def mem_set (m : Nat → Nat) (i v : Nat) : Nat → Nat :=
  fun j => if j = i then v else m j

/-- The all-zero array left by `memset`/`calloc`. -/
def mem_zero : Nat → Nat := fun _ => 0

/-! ## PPU bus (`nes.c`) -/

/-- `mirror_nametable_addr`; the callers pass `ppu_addr` in `0x2000..0x3EFF`. -/
def mirror_nametable_addr (n : nes_t) (ppu_addr : Nat) : Nat :=
  let nt := (ppu_addr - 0x2000) &&& 0x0FFF
  let table := nt / 0x0400
  let offset := nt &&& 0x03FF
  let m := n.cart.info.mirror
  if m = NES_MIRROR_FOURSCREEN then nt &&& 0x07FF
  else
    let vram_table :=
      if m = NES_MIRROR_HORIZONTAL then (if table < 2 then 0 else 1)
      else (if table = 0 ∨ table = 2 then 0 else 1)
    (vram_table * 0x0400 + offset) % 65536

/-- The palette index after the four mirrors, shared by `ppu_bus_read`/`ppu_bus_write`. -/
def palette_index (addr : Nat) : Nat :=
  let pal := addr &&& 0x1F
  let pal := if pal = 0x10 then 0x00 else pal
  let pal := if pal = 0x14 then 0x04 else pal
  let pal := if pal = 0x18 then 0x08 else pal
  let pal := if pal = 0x1C then 0x0C else pal
  pal

def ppu_bus_read (n : nes_t) (addr : Nat) : Nat :=
  let addr := addr &&& 0x3FFF
  if addr < 0x2000 then n.cart.chr (addr % n.cart.info.chr_rom_size)
  else if addr < 0x3F00 then n.ppu.vram (mirror_nametable_addr n addr &&& 0x07FF)
  else n.ppu.palette (palette_index addr)

def ppu_bus_write (n : nes_t) (addr v : Nat) : nes_t :=
  let addr := addr &&& 0x3FFF
  if addr < 0x2000 then
    if n.cart.chr_is_ram then
      { n with cart := { n.cart with chr := mem_set n.cart.chr (addr % n.cart.info.chr_rom_size) v } }
    else n
  else if addr < 0x3F00 then
    { n with ppu := { n.ppu with vram := mem_set n.ppu.vram (mirror_nametable_addr n addr &&& 0x07FF) v } }
  else
    { n with ppu := { n.ppu with palette := mem_set n.ppu.palette (palette_index addr) (v &&& 0x3F) } }

def nes_ppu_bus_read (n : nes_t) (addr : Nat) : Nat := ppu_bus_read n addr

def nes_ppu_bus_write (n : nes_t) (addr v : Nat) : nes_t := ppu_bus_write n addr v

/-! ## CPU interrupt lines (`cpu6502.c`) -/

def cpu6502_set_nmi (n : nes_t) : nes_t :=
  { n with cpu := { n.cpu with nmi_pending := true } }

def cpu6502_set_irq (n : nes_t) (level : Bool) : nes_t :=
  { n with cpu := { n.cpu with irq_pending := level } }

/-! ## PPU register port (`ppu.c`) -/

/-- The all-zero PPU left by `memset(p, 0, sizeof(*p))`. -/
def ppu_zero : ppu_t :=
  { reg_ctrl := 0, reg_mask := 0, reg_status := 0, oam_addr := 0, oam := mem_zero,
    vram := mem_zero, palette := mem_zero, chr_read_buffer := 0, v := 0, t := 0, x := 0,
    w := false, scroll_x := 0, scroll_y := 0, scroll_x_next := 0, scroll_y_next := 0,
    render_ctrl := 0, render_ctrl_next := 0, scanline := 0, dot := 0, frame_ready := false,
    framebuffer := mem_zero, scan_spr_count := 0, scan_spr_i := mem_zero,
    scan_spr_y := mem_zero, scan_spr_tile := mem_zero, scan_spr_attr := mem_zero,
    scan_spr_x := mem_zero }

def ppu_reset : ppu_t :=
  { ppu_zero with
    reg_status := 0xA0, scanline := -1, dot := 0, scroll_x := 0, scroll_y := 0,
    scroll_x_next := 0, scroll_y_next := 0, render_ctrl := 0, render_ctrl_next := 0 }

/-- The increment `p->v += (p->reg_ctrl & 0x04) ? 32 : 1` on the 16-bit `v`. -/
def ppu_v_inc (p : ppu_t) : Nat :=
  (p.v + (if p.reg_ctrl &&& 0x04 ≠ 0 then 32 else 1)) % 65536

def ppu_cpu_read (n : nes_t) (addr : Nat) : Nat × nes_t :=
  let addr := addr &&& 7
  if addr = 2 then
    (n.ppu.reg_status,
      { n with ppu := { n.ppu with reg_status := n.ppu.reg_status &&& 0x7F, w := false } })
  else if addr = 4 then
    (n.ppu.oam n.ppu.oam_addr, n)
  else if addr = 7 then
    let vaddr := n.ppu.v &&& 0x3FFF
    let value := nes_ppu_bus_read n vaddr
    if vaddr ≥ 0x3F00 then
      (value,
        { n with ppu := { n.ppu with
            chr_read_buffer := nes_ppu_bus_read n ((vaddr - 0x1000) % 65536),
            v := ppu_v_inc n.ppu } })
    else
      (n.ppu.chr_read_buffer,
        { n with ppu := { n.ppu with chr_read_buffer := value, v := ppu_v_inc n.ppu } })
  else (0, n)

def ppu_cpu_write (n : nes_t) (addr v : Nat) : nes_t :=
  let addr := addr &&& 7
  if addr = 0 then
    let prev := n.ppu.reg_ctrl
    let n := { n with ppu := { n.ppu with reg_ctrl := v, render_ctrl_next := v } }
    let n :=
      if prev &&& 0x80 = 0 ∧ v &&& 0x80 ≠ 0 ∧ n.ppu.reg_status &&& 0x80 ≠ 0 then cpu6502_set_nmi n
      else n
    { n with ppu := { n.ppu with t := ((n.ppu.t &&& 0xF3FF) ||| ((v &&& 0x03) <<< 10)) % 65536 } }
  else if addr = 1 then
    { n with ppu := { n.ppu with reg_mask := v } }
  else if addr = 3 then
    { n with ppu := { n.ppu with oam_addr := v } }
  else if addr = 4 then
    { n with ppu := { n.ppu with
        oam := mem_set n.ppu.oam n.ppu.oam_addr v, oam_addr := (n.ppu.oam_addr + 1) % 256 } }
  else if addr = 5 then
    if ¬ n.ppu.w then
      { n with ppu := { n.ppu with
          scroll_x_next := v, x := v &&& 7,
          t := ((n.ppu.t &&& 0xFFE0) ||| (v >>> 3)) % 65536, w := true } }
    else
      let t1 := ((n.ppu.t &&& 0x8FFF) ||| ((v &&& 0x07) <<< 12)) % 65536
      { n with ppu := { n.ppu with
          scroll_y_next := v,
          t := ((t1 &&& 0xFC1F) ||| ((v &&& 0xF8) <<< 2)) % 65536, w := false } }
  else if addr = 6 then
    if ¬ n.ppu.w then
      { n with ppu := { n.ppu with
          t := ((n.ppu.t &&& 0x00FF) ||| ((v &&& 0x3F) <<< 8)) % 65536, w := true } }
    else
      let t1 := ((n.ppu.t &&& 0xFF00) ||| v) % 65536
      { n with ppu := { n.ppu with t := t1, v := t1, w := false } }
  else if addr = 7 then
    let vaddr := n.ppu.v &&& 0x3FFF
    let n := nes_ppu_bus_write n vaddr v
    { n with ppu := { n.ppu with v := ppu_v_inc n.ppu } }
  else n

/-! ## CPU bus (`nes.c`) -/

/-- `cart_cpu_read`.  The last line is the C expression `prg_rom[offset % prg_size]`; it is
the code's value whenever `prg_rom_size` is not 0.  With `prg_rom_size = 0` the C modulo has
a zero divisor and no value, while `%` here returns `offset`: there the function stands for
nothing the code computes, and `cart_cpu_read_checked` below makes that case explicit. -/
def cart_cpu_read (n : nes_t) (addr : Nat) : Nat :=
  if addr < 0x8000 then 0
  else
    let prg_size := n.cart.info.prg_rom_size
    let offset := addr - 0x8000
    let offset := if prg_size = 16 * 1024 then offset % (16 * 1024) else offset
    n.cart.prg_rom (offset % prg_size)

def cart_cpu_write (n : nes_t) (_addr _v : Nat) : nes_t := n

def nes_cpu_read (n : nes_t) (addr : Nat) : Nat × nes_t :=
  let r : Nat × nes_t :=
    if addr < 0x2000 then (n.ram (addr &&& 0x07FF), n)
    else if addr < 0x4000 then ppu_cpu_read n (0x2000 ||| (addr &&& 7))
    else if addr = 0x4016 then
      if n.pad_strobe then (0x40 ||| (n.pad1_state &&& 1), n)
      else
        (0x40 ||| (n.pad1_shift &&& 1),
          { n with pad1_shift := ((n.pad1_shift >>> 1) ||| 0x80) % 256 })
    else if addr = 0x4017 then (0x40, n)
    else if addr ≥ 0x8000 then (cart_cpu_read n addr, n)
    else (n.last_bus, n)
  (r.1, { r.2 with last_bus := r.1 })

/-- The loop of OAM DMA: iterations `i, i+1, ..` of
`oam[(uint8_t)(oam_addr + i)] = nes_cpu_read(n, base + i)`, `k` of them. -/
def oam_dma_loop (base : Nat) : Nat → Nat → nes_t → nes_t
  | 0, _, n => n
  | k + 1, i, n =>
    let r := nes_cpu_read n ((base + i) % 65536)
    let n1 : nes_t :=
      { r.2 with ppu := { r.2.ppu with
          oam := mem_set r.2.ppu.oam ((r.2.ppu.oam_addr + i) % 256) r.1 } }
    oam_dma_loop base k (i + 1) n1

def nes_cpu_write (n : nes_t) (addr v : Nat) : nes_t :=
  let n := { n with last_bus := v }
  if addr < 0x2000 then { n with ram := mem_set n.ram (addr &&& 0x07FF) v }
  else if addr < 0x4000 then ppu_cpu_write n (0x2000 ||| (addr &&& 7)) v
  else if addr = 0x4014 then
    let base := (v <<< 8) % 65536
    let n := oam_dma_loop base 256 0 n
    { n with cpu_stall := n.cpu_stall + (513 + ((n.cpu.cycles &&& 1 : Nat) : Int)) }
  else if addr = 0x4016 then
    let strobe : Bool := decide (v &&& 1 ≠ 0)
    let prev := n.pad_strobe
    let n := { n with pad_strobe := strobe }
    if strobe ∨ (prev ∧ ¬ strobe) then { n with pad1_shift := n.pad1_state } else n
  else if addr ≥ 0x8000 then cart_cpu_write n addr v
  else n

/-! ## CPU core (`cpu6502.c`) -/

@[simp] def P_C : Nat := 1 <<< 0
@[simp] def P_Z : Nat := 1 <<< 1
@[simp] def P_I : Nat := 1 <<< 2
@[simp] def P_D : Nat := 1 <<< 3
@[simp] def P_B : Nat := 1 <<< 4
@[simp] def P_U : Nat := 1 <<< 5
@[simp] def P_V : Nat := 1 <<< 6
@[simp] def P_N : Nat := 1 <<< 7

/-- Assignment `c->pc = v`. -/
def set_pc (n : nes_t) (v : Nat) : nes_t := { n with cpu := { n.cpu with pc := v } }
/-- Assignment `c->a = v`. -/
def set_a (n : nes_t) (v : Nat) : nes_t := { n with cpu := { n.cpu with a := v } }
/-- Assignment `c->x = v`. -/
def set_x (n : nes_t) (v : Nat) : nes_t := { n with cpu := { n.cpu with x := v } }
/-- Assignment `c->y = v`. -/
def set_y (n : nes_t) (v : Nat) : nes_t := { n with cpu := { n.cpu with y := v } }
/-- Assignment `c->sp = v`. -/
def set_sp (n : nes_t) (v : Nat) : nes_t := { n with cpu := { n.cpu with sp := v } }
/-- Assignment `c->p = v`. -/
def set_p (n : nes_t) (v : Nat) : nes_t := { n with cpu := { n.cpu with p := v } }

/-- The idiom `if (cond) c->p |= F; else c->p &= (uint8_t)~F;`. -/
def flag_assign (n : nes_t) (f : Nat) (cond : Prop) [Decidable cond] : nes_t :=
  if cond then set_p n (n.cpu.p ||| f) else set_p n (n.cpu.p &&& (0xFF ^^^ f))

def rd (n : nes_t) (a : Nat) : Nat × nes_t := nes_cpu_read n a

def wr (n : nes_t) (a v : Nat) : nes_t := nes_cpu_write n a v

def set_nz (n : nes_t) (v : Nat) : nes_t :=
  let n := flag_assign n P_Z (v = 0)
  flag_assign n P_N (v &&& 0x80 ≠ 0)

def push (n : nes_t) (v : Nat) : nes_t :=
  let n := wr n (0x0100 ||| n.cpu.sp) v
  set_sp n ((n.cpu.sp + 255) % 256)

def pull (n : nes_t) : Nat × nes_t :=
  let n := set_sp n ((n.cpu.sp + 1) % 256)
  rd n (0x0100 ||| n.cpu.sp)

def rd16 (n : nes_t) (a : Nat) : Nat × nes_t :=
  let r := rd n a
  let lo := r.1
  let r := rd r.2 ((a + 1) % 65536)
  let hi := r.1
  ((lo ||| (hi <<< 8)) % 65536, r.2)

def rd16_wrap_bug (n : nes_t) (a : Nat) : Nat × nes_t :=
  let r := rd n a
  let lo := r.1
  let r := rd r.2 (((a &&& 0xFF00) ||| ((a + 1) &&& 0x00FF)) % 65536)
  let hi := r.1
  ((lo ||| (hi <<< 8)) % 65536, r.2)

/-- The all-zero CPU left by `memset(c, 0, sizeof(*c))`. -/
def cpu_zero : cpu6502_t :=
  { pc := 0, a := 0, x := 0, y := 0, sp := 0, p := 0, cycles := 0,
    nmi_pending := false, irq_pending := false }

def cpu6502_reset (n : nes_t) : nes_t :=
  let n := { n with cpu := cpu_zero }
  let n := set_sp n 0xFD
  let n := set_p n ((P_I ||| P_U) % 256)
  let r := rd16 n 0xFFFC
  let n := set_pc r.2 r.1
  { n with cpu := { n.cpu with cycles := 7 } }

def do_interrupt (n : nes_t) (vector : Nat) (is_brk : Bool) : Nat × nes_t :=
  let n := push n ((n.cpu.pc >>> 8) % 256)
  let n := push n ((n.cpu.pc &&& 0xFF) % 256)
  let p := n.cpu.p
  let p := p ||| P_U
  let p := if is_brk then p ||| P_B else p &&& (0xFF ^^^ P_B)
  let n := push n p
  let n := set_p n (n.cpu.p ||| P_I)
  let r := rd16 n vector
  let n := set_pc r.2 r.1
  (7, n)

structure ea_t where
  addr : Nat
  page_cross : Nat

def ea_imm (n : nes_t) : ea_t × nes_t :=
  let pc := n.cpu.pc
  let n := set_pc n ((pc + 1) % 65536)
  ({ addr := pc, page_cross := 0 }, n)

def ea_zp (n : nes_t) : ea_t × nes_t :=
  let pc := n.cpu.pc
  let n := set_pc n ((pc + 1) % 65536)
  let r := rd n pc
  ({ addr := r.1, page_cross := 0 }, r.2)

def ea_zpx (n : nes_t) : ea_t × nes_t :=
  let pc := n.cpu.pc
  let n := set_pc n ((pc + 1) % 65536)
  let r := rd n pc
  ({ addr := (r.1 + r.2.cpu.x) % 256, page_cross := 0 }, r.2)

def ea_zpy (n : nes_t) : ea_t × nes_t :=
  let pc := n.cpu.pc
  let n := set_pc n ((pc + 1) % 65536)
  let r := rd n pc
  ({ addr := (r.1 + r.2.cpu.y) % 256, page_cross := 0 }, r.2)

def ea_abs (n : nes_t) : ea_t × nes_t :=
  let r := rd16 n n.cpu.pc
  let n := set_pc r.2 ((r.2.cpu.pc + 2) % 65536)
  ({ addr := r.1, page_cross := 0 }, n)

def ea_absx (n : nes_t) (add_cycle : Bool) : ea_t × nes_t :=
  let r := rd16 n n.cpu.pc
  let base := r.1
  let n := set_pc r.2 ((r.2.cpu.pc + 2) % 65536)
  let a := (base + n.cpu.x) % 65536
  ({ addr := a,
     page_cross := if add_cycle ∧ (base &&& 0xFF00) ≠ (a &&& 0xFF00) then 1 else 0 }, n)

def ea_absy (n : nes_t) (add_cycle : Bool) : ea_t × nes_t :=
  let r := rd16 n n.cpu.pc
  let base := r.1
  let n := set_pc r.2 ((r.2.cpu.pc + 2) % 65536)
  let a := (base + n.cpu.y) % 65536
  ({ addr := a,
     page_cross := if add_cycle ∧ (base &&& 0xFF00) ≠ (a &&& 0xFF00) then 1 else 0 }, n)

/-- `ea_indx`; the two pointer reads are taken left to right. -/
def ea_indx (n : nes_t) : ea_t × nes_t :=
  let pc := n.cpu.pc
  let n := set_pc n ((pc + 1) % 65536)
  let r := rd n pc
  let n := r.2
  let zp := (r.1 + n.cpu.x) % 256
  let r := rd n zp
  let lo := r.1
  let r := rd r.2 ((zp + 1) % 256)
  let hi := r.1
  ({ addr := (lo ||| (hi <<< 8)) % 65536, page_cross := 0 }, r.2)

/-- `ea_indy`; the two pointer reads are taken left to right. -/
def ea_indy (n : nes_t) (add_cycle : Bool) : ea_t × nes_t :=
  let pc := n.cpu.pc
  let n := set_pc n ((pc + 1) % 65536)
  let r := rd n pc
  let zp := r.1
  let r := rd r.2 zp
  let lo := r.1
  let r := rd r.2 ((zp + 1) % 256)
  let hi := r.1
  let n := r.2
  let base := (lo ||| (hi <<< 8)) % 65536
  let a := (base + n.cpu.y) % 65536
  ({ addr := a,
     page_cross := if add_cycle ∧ (base &&& 0xFF00) ≠ (a &&& 0xFF00) then 1 else 0 }, n)

/-- The cast `(int8_t)b` of a byte. -/
def int8_of (b : Nat) : Int := if b % 256 ≥ 128 then ((b % 256 : Nat) : Int) - 256 else ((b % 256 : Nat) : Int)

def branch (n : nes_t) (cond : Bool) : Nat × nes_t :=
  let pc := n.cpu.pc
  let n := set_pc n ((pc + 1) % 65536)
  let r := rd n pc
  let rel := int8_of r.1
  let n := r.2
  if ¬ cond then (2, n)
  else
    let old := n.cpu.pc
    let n := set_pc n ((((n.cpu.pc : Nat) : Int) + rel) % 65536).toNat
    (2 + 1 + (if (old &&& 0xFF00) ≠ (n.cpu.pc &&& 0xFF00) then 1 else 0), n)

def op_adc (n : nes_t) (m : Nat) : nes_t :=
  let sum := (n.cpu.a + m + (if n.cpu.p &&& P_C ≠ 0 then 1 else 0)) % 65536
  let res := sum % 256
  let n := flag_assign n P_C (sum > 0xFF)
  let n := flag_assign n P_V (((n.cpu.a ^^^ res) &&& (m ^^^ res) &&& 0x80) ≠ 0)
  let n := set_a n res
  set_nz n n.cpu.a

/-- `op_sbc`; `(uint8_t)~m` is `m ^ 0xFF` on a byte. -/
def op_sbc (n : nes_t) (m : Nat) : nes_t :=
  op_adc n ((m ^^^ 0xFF) % 256)

def op_cmp (n : nes_t) (r m : Nat) : nes_t :=
  let diff := (r + 0x10000 - m) % 0x10000
  let n := flag_assign n P_C (r ≥ m)
  set_nz n (diff % 256)

def op_asl (n : nes_t) (v : Nat) : Nat × nes_t :=
  let n := flag_assign n P_C (v &&& 0x80 ≠ 0)
  let v := (v <<< 1) % 256
  let n := set_nz n v
  (v, n)

def op_lsr (n : nes_t) (v : Nat) : Nat × nes_t :=
  let n := flag_assign n P_C (v &&& 0x01 ≠ 0)
  let v := (v >>> 1) % 256
  let n := set_nz n v
  (v, n)

def op_rol (n : nes_t) (v : Nat) : Nat × nes_t :=
  let cin := if n.cpu.p &&& P_C ≠ 0 then 1 else 0
  let n := flag_assign n P_C (v &&& 0x80 ≠ 0)
  let v := ((v <<< 1) ||| cin) % 256
  let n := set_nz n v
  (v, n)

def op_ror (n : nes_t) (v : Nat) : Nat × nes_t :=
  let cin := if n.cpu.p &&& P_C ≠ 0 then 0x80 else 0x00
  let n := flag_assign n P_C (v &&& 0x01 ≠ 0)
  let v := ((v >>> 1) ||| cin) % 256
  let n := set_nz n v
  (v, n)

def op_anc (n : nes_t) (imm : Nat) : nes_t :=
  let n := set_a n (n.cpu.a &&& imm)
  let n := set_nz n n.cpu.a
  flag_assign n P_C (n.cpu.a &&& 0x80 ≠ 0)

def op_alr (n : nes_t) (imm : Nat) : nes_t :=
  let n := set_a n (n.cpu.a &&& imm)
  let o := op_lsr n n.cpu.a
  set_a o.2 o.1

def op_arr (n : nes_t) (imm : Nat) : nes_t :=
  let n := set_a n (n.cpu.a &&& imm)
  let o := op_ror n n.cpu.a
  let n := set_a o.2 o.1
  let b5 := (n.cpu.a >>> 5) &&& 1
  let b6 := (n.cpu.a >>> 6) &&& 1
  let n := flag_assign n P_C (b6 ≠ 0)
  flag_assign n P_V ((b5 ^^^ b6) ≠ 0)

def op_sbx (n : nes_t) (imm : Nat) : nes_t :=
  let t := (n.cpu.a &&& n.cpu.x) % 256
  let diff := (t + 0x10000 - imm) % 0x10000
  let n := set_x n (diff % 256)
  let n := flag_assign n P_C (t ≥ imm)
  set_nz n n.cpu.x

/-- The statement `c->cycles += k` on the 64-bit counter. -/
def add_cycles (n : nes_t) (k : Nat) : nes_t :=
  { n with cpu := { n.cpu with cycles := (n.cpu.cycles + k) % 2 ^ 64 } }

set_option maxRecDepth 16000 in
/-- The `switch (op)` of `cpu6502_step`, one branch per `case`, in source order; `n` is the
machine after the opcode fetch and the result is `(cycles, machine)`. -/
def exec_opcode (op : Nat) (n : nes_t) : Nat × nes_t :=
  if op = 0x69 then
    let ee := ea_imm n; let e := ee.1; let n := ee.2; let r := rd n e.addr;
    let n := op_adc r.2 r.1; (2, n)
  else if op = 0x65 then
    let ee := ea_zp n; let e := ee.1; let n := ee.2; let r := rd n e.addr; let n := op_adc r.2 r.1;
    (3, n)
  else if op = 0x75 then
    let ee := ea_zpx n; let e := ee.1; let n := ee.2; let r := rd n e.addr;
    let n := op_adc r.2 r.1; (4, n)
  else if op = 0x6D then
    let ee := ea_abs n; let e := ee.1; let n := ee.2; let r := rd n e.addr;
    let n := op_adc r.2 r.1; (4, n)
  else if op = 0x7D then
    let ee := ea_absx n true; let e := ee.1; let n := ee.2; let r := rd n e.addr;
    let n := op_adc r.2 r.1; (4 + e.page_cross, n)
  else if op = 0x79 then
    let ee := ea_absy n true; let e := ee.1; let n := ee.2; let r := rd n e.addr;
    let n := op_adc r.2 r.1; (4 + e.page_cross, n)
  else if op = 0x61 then
    let ee := ea_indx n; let e := ee.1; let n := ee.2; let r := rd n e.addr;
    let n := op_adc r.2 r.1; (6, n)
  else if op = 0x71 then
    let ee := ea_indy n true; let e := ee.1; let n := ee.2; let r := rd n e.addr;
    let n := op_adc r.2 r.1; (5 + e.page_cross, n)
  else if op = 0xE9 then
    let ee := ea_imm n; let e := ee.1; let n := ee.2; let r := rd n e.addr;
    let n := op_sbc r.2 r.1; (2, n)
  else if op = 0xE5 then
    let ee := ea_zp n; let e := ee.1; let n := ee.2; let r := rd n e.addr; let n := op_sbc r.2 r.1;
    (3, n)
  else if op = 0xF5 then
    let ee := ea_zpx n; let e := ee.1; let n := ee.2; let r := rd n e.addr;
    let n := op_sbc r.2 r.1; (4, n)
  else if op = 0xED then
    let ee := ea_abs n; let e := ee.1; let n := ee.2; let r := rd n e.addr;
    let n := op_sbc r.2 r.1; (4, n)
  else if op = 0xFD then
    let ee := ea_absx n true; let e := ee.1; let n := ee.2; let r := rd n e.addr;
    let n := op_sbc r.2 r.1; (4 + e.page_cross, n)
  else if op = 0xF9 then
    let ee := ea_absy n true; let e := ee.1; let n := ee.2; let r := rd n e.addr;
    let n := op_sbc r.2 r.1; (4 + e.page_cross, n)
  else if op = 0xE1 then
    let ee := ea_indx n; let e := ee.1; let n := ee.2; let r := rd n e.addr;
    let n := op_sbc r.2 r.1; (6, n)
  else if op = 0xF1 then
    let ee := ea_indy n true; let e := ee.1; let n := ee.2; let r := rd n e.addr;
    let n := op_sbc r.2 r.1; (5 + e.page_cross, n)
  else if op = 0x29 then
    let ee := ea_imm n; let e := ee.1; let n := ee.2; let r := rd n e.addr;
    let n := set_a r.2 (r.2.cpu.a &&& r.1); let n := set_nz n n.cpu.a; (2, n)
  else if op = 0x25 then
    let ee := ea_zp n; let e := ee.1; let n := ee.2; let r := rd n e.addr;
    let n := set_a r.2 (r.2.cpu.a &&& r.1); let n := set_nz n n.cpu.a; (3, n)
  else if op = 0x35 then
    let ee := ea_zpx n; let e := ee.1; let n := ee.2; let r := rd n e.addr;
    let n := set_a r.2 (r.2.cpu.a &&& r.1); let n := set_nz n n.cpu.a; (4, n)
  else if op = 0x2D then
    let ee := ea_abs n; let e := ee.1; let n := ee.2; let r := rd n e.addr;
    let n := set_a r.2 (r.2.cpu.a &&& r.1); let n := set_nz n n.cpu.a; (4, n)
  else if op = 0x3D then
    let ee := ea_absx n true; let e := ee.1; let n := ee.2; let r := rd n e.addr;
    let n := set_a r.2 (r.2.cpu.a &&& r.1); let n := set_nz n n.cpu.a; (4 + e.page_cross, n)
  else if op = 0x39 then
    let ee := ea_absy n true; let e := ee.1; let n := ee.2; let r := rd n e.addr;
    let n := set_a r.2 (r.2.cpu.a &&& r.1); let n := set_nz n n.cpu.a; (4 + e.page_cross, n)
  else if op = 0x21 then
    let ee := ea_indx n; let e := ee.1; let n := ee.2; let r := rd n e.addr;
    let n := set_a r.2 (r.2.cpu.a &&& r.1); let n := set_nz n n.cpu.a; (6, n)
  else if op = 0x31 then
    let ee := ea_indy n true; let e := ee.1; let n := ee.2; let r := rd n e.addr;
    let n := set_a r.2 (r.2.cpu.a &&& r.1); let n := set_nz n n.cpu.a; (5 + e.page_cross, n)
  else if op = 0x09 then
    let ee := ea_imm n; let e := ee.1; let n := ee.2; let r := rd n e.addr;
    let n := set_a r.2 (r.2.cpu.a ||| r.1); let n := set_nz n n.cpu.a; (2, n)
  else if op = 0x05 then
    let ee := ea_zp n; let e := ee.1; let n := ee.2; let r := rd n e.addr;
    let n := set_a r.2 (r.2.cpu.a ||| r.1); let n := set_nz n n.cpu.a; (3, n)
  else if op = 0x15 then
    let ee := ea_zpx n; let e := ee.1; let n := ee.2; let r := rd n e.addr;
    let n := set_a r.2 (r.2.cpu.a ||| r.1); let n := set_nz n n.cpu.a; (4, n)
  else if op = 0x0D then
    let ee := ea_abs n; let e := ee.1; let n := ee.2; let r := rd n e.addr;
    let n := set_a r.2 (r.2.cpu.a ||| r.1); let n := set_nz n n.cpu.a; (4, n)
  else if op = 0x1D then
    let ee := ea_absx n true; let e := ee.1; let n := ee.2; let r := rd n e.addr;
    let n := set_a r.2 (r.2.cpu.a ||| r.1); let n := set_nz n n.cpu.a; (4 + e.page_cross, n)
  else if op = 0x19 then
    let ee := ea_absy n true; let e := ee.1; let n := ee.2; let r := rd n e.addr;
    let n := set_a r.2 (r.2.cpu.a ||| r.1); let n := set_nz n n.cpu.a; (4 + e.page_cross, n)
  else if op = 0x01 then
    let ee := ea_indx n; let e := ee.1; let n := ee.2; let r := rd n e.addr;
    let n := set_a r.2 (r.2.cpu.a ||| r.1); let n := set_nz n n.cpu.a; (6, n)
  else if op = 0x11 then
    let ee := ea_indy n true; let e := ee.1; let n := ee.2; let r := rd n e.addr;
    let n := set_a r.2 (r.2.cpu.a ||| r.1); let n := set_nz n n.cpu.a; (5 + e.page_cross, n)
  else if op = 0x49 then
    let ee := ea_imm n; let e := ee.1; let n := ee.2; let r := rd n e.addr;
    let n := set_a r.2 (r.2.cpu.a ^^^ r.1); let n := set_nz n n.cpu.a; (2, n)
  else if op = 0x45 then
    let ee := ea_zp n; let e := ee.1; let n := ee.2; let r := rd n e.addr;
    let n := set_a r.2 (r.2.cpu.a ^^^ r.1); let n := set_nz n n.cpu.a; (3, n)
  else if op = 0x55 then
    let ee := ea_zpx n; let e := ee.1; let n := ee.2; let r := rd n e.addr;
    let n := set_a r.2 (r.2.cpu.a ^^^ r.1); let n := set_nz n n.cpu.a; (4, n)
  else if op = 0x4D then
    let ee := ea_abs n; let e := ee.1; let n := ee.2; let r := rd n e.addr;
    let n := set_a r.2 (r.2.cpu.a ^^^ r.1); let n := set_nz n n.cpu.a; (4, n)
  else if op = 0x5D then
    let ee := ea_absx n true; let e := ee.1; let n := ee.2; let r := rd n e.addr;
    let n := set_a r.2 (r.2.cpu.a ^^^ r.1); let n := set_nz n n.cpu.a; (4 + e.page_cross, n)
  else if op = 0x59 then
    let ee := ea_absy n true; let e := ee.1; let n := ee.2; let r := rd n e.addr;
    let n := set_a r.2 (r.2.cpu.a ^^^ r.1); let n := set_nz n n.cpu.a; (4 + e.page_cross, n)
  else if op = 0x41 then
    let ee := ea_indx n; let e := ee.1; let n := ee.2; let r := rd n e.addr;
    let n := set_a r.2 (r.2.cpu.a ^^^ r.1); let n := set_nz n n.cpu.a; (6, n)
  else if op = 0x51 then
    let ee := ea_indy n true; let e := ee.1; let n := ee.2; let r := rd n e.addr;
    let n := set_a r.2 (r.2.cpu.a ^^^ r.1); let n := set_nz n n.cpu.a; (5 + e.page_cross, n)
  else if op = 0xA9 then
    let ee := ea_imm n; let e := ee.1; let n := ee.2; let r := rd n e.addr; let n := set_a r.2 r.1;
    let n := set_nz n n.cpu.a; (2, n)
  else if op = 0xA5 then
    let ee := ea_zp n; let e := ee.1; let n := ee.2; let r := rd n e.addr; let n := set_a r.2 r.1;
    let n := set_nz n n.cpu.a; (3, n)
  else if op = 0xB5 then
    let ee := ea_zpx n; let e := ee.1; let n := ee.2; let r := rd n e.addr; let n := set_a r.2 r.1;
    let n := set_nz n n.cpu.a; (4, n)
  else if op = 0xAD then
    let ee := ea_abs n; let e := ee.1; let n := ee.2; let r := rd n e.addr; let n := set_a r.2 r.1;
    let n := set_nz n n.cpu.a; (4, n)
  else if op = 0xBD then
    let ee := ea_absx n true; let e := ee.1; let n := ee.2; let r := rd n e.addr;
    let n := set_a r.2 r.1; let n := set_nz n n.cpu.a; (4 + e.page_cross, n)
  else if op = 0xB9 then
    let ee := ea_absy n true; let e := ee.1; let n := ee.2; let r := rd n e.addr;
    let n := set_a r.2 r.1; let n := set_nz n n.cpu.a; (4 + e.page_cross, n)
  else if op = 0xA1 then
    let ee := ea_indx n; let e := ee.1; let n := ee.2; let r := rd n e.addr;
    let n := set_a r.2 r.1; let n := set_nz n n.cpu.a; (6, n)
  else if op = 0xB1 then
    let ee := ea_indy n true; let e := ee.1; let n := ee.2; let r := rd n e.addr;
    let n := set_a r.2 r.1; let n := set_nz n n.cpu.a; (5 + e.page_cross, n)
  else if op = 0xA2 then
    let ee := ea_imm n; let e := ee.1; let n := ee.2; let r := rd n e.addr; let n := set_x r.2 r.1;
    let n := set_nz n n.cpu.x; (2, n)
  else if op = 0xA6 then
    let ee := ea_zp n; let e := ee.1; let n := ee.2; let r := rd n e.addr; let n := set_x r.2 r.1;
    let n := set_nz n n.cpu.x; (3, n)
  else if op = 0xB6 then
    let ee := ea_zpy n; let e := ee.1; let n := ee.2; let r := rd n e.addr; let n := set_x r.2 r.1;
    let n := set_nz n n.cpu.x; (4, n)
  else if op = 0xAE then
    let ee := ea_abs n; let e := ee.1; let n := ee.2; let r := rd n e.addr; let n := set_x r.2 r.1;
    let n := set_nz n n.cpu.x; (4, n)
  else if op = 0xBE then
    let ee := ea_absy n true; let e := ee.1; let n := ee.2; let r := rd n e.addr;
    let n := set_x r.2 r.1; let n := set_nz n n.cpu.x; (4 + e.page_cross, n)
  else if op = 0xA0 then
    let ee := ea_imm n; let e := ee.1; let n := ee.2; let r := rd n e.addr; let n := set_y r.2 r.1;
    let n := set_nz n n.cpu.y; (2, n)
  else if op = 0xA4 then
    let ee := ea_zp n; let e := ee.1; let n := ee.2; let r := rd n e.addr; let n := set_y r.2 r.1;
    let n := set_nz n n.cpu.y; (3, n)
  else if op = 0xB4 then
    let ee := ea_zpx n; let e := ee.1; let n := ee.2; let r := rd n e.addr; let n := set_y r.2 r.1;
    let n := set_nz n n.cpu.y; (4, n)
  else if op = 0xAC then
    let ee := ea_abs n; let e := ee.1; let n := ee.2; let r := rd n e.addr; let n := set_y r.2 r.1;
    let n := set_nz n n.cpu.y; (4, n)
  else if op = 0xBC then
    let ee := ea_absx n true; let e := ee.1; let n := ee.2; let r := rd n e.addr;
    let n := set_y r.2 r.1; let n := set_nz n n.cpu.y; (4 + e.page_cross, n)
  else if op = 0x85 then
    let ee := ea_zp n; let e := ee.1; let n := ee.2; let n := wr n e.addr n.cpu.a; (3, n)
  else if op = 0x95 then
    let ee := ea_zpx n; let e := ee.1; let n := ee.2; let n := wr n e.addr n.cpu.a; (4, n)
  else if op = 0x8D then
    let ee := ea_abs n; let e := ee.1; let n := ee.2; let n := wr n e.addr n.cpu.a; (4, n)
  else if op = 0x9D then
    let ee := ea_absx n false; let e := ee.1; let n := ee.2; let n := wr n e.addr n.cpu.a; (5, n)
  else if op = 0x99 then
    let ee := ea_absy n false; let e := ee.1; let n := ee.2; let n := wr n e.addr n.cpu.a; (5, n)
  else if op = 0x81 then
    let ee := ea_indx n; let e := ee.1; let n := ee.2; let n := wr n e.addr n.cpu.a; (6, n)
  else if op = 0x91 then
    let ee := ea_indy n false; let e := ee.1; let n := ee.2; let n := wr n e.addr n.cpu.a; (6, n)
  else if op = 0x86 then
    let ee := ea_zp n; let e := ee.1; let n := ee.2; let n := wr n e.addr n.cpu.x; (3, n)
  else if op = 0x96 then
    let ee := ea_zpy n; let e := ee.1; let n := ee.2; let n := wr n e.addr n.cpu.x; (4, n)
  else if op = 0x8E then
    let ee := ea_abs n; let e := ee.1; let n := ee.2; let n := wr n e.addr n.cpu.x; (4, n)
  else if op = 0x84 then
    let ee := ea_zp n; let e := ee.1; let n := ee.2; let n := wr n e.addr n.cpu.y; (3, n)
  else if op = 0x94 then
    let ee := ea_zpx n; let e := ee.1; let n := ee.2; let n := wr n e.addr n.cpu.y; (4, n)
  else if op = 0x8C then
    let ee := ea_abs n; let e := ee.1; let n := ee.2; let n := wr n e.addr n.cpu.y; (4, n)
  else if op = 0xC9 then
    let ee := ea_imm n; let e := ee.1; let n := ee.2; let r := rd n e.addr;
    let n := op_cmp r.2 r.2.cpu.a r.1; (2, n)
  else if op = 0xC5 then
    let ee := ea_zp n; let e := ee.1; let n := ee.2; let r := rd n e.addr;
    let n := op_cmp r.2 r.2.cpu.a r.1; (3, n)
  else if op = 0xD5 then
    let ee := ea_zpx n; let e := ee.1; let n := ee.2; let r := rd n e.addr;
    let n := op_cmp r.2 r.2.cpu.a r.1; (4, n)
  else if op = 0xCD then
    let ee := ea_abs n; let e := ee.1; let n := ee.2; let r := rd n e.addr;
    let n := op_cmp r.2 r.2.cpu.a r.1; (4, n)
  else if op = 0xDD then
    let ee := ea_absx n true; let e := ee.1; let n := ee.2; let r := rd n e.addr;
    let n := op_cmp r.2 r.2.cpu.a r.1; (4 + e.page_cross, n)
  else if op = 0xD9 then
    let ee := ea_absy n true; let e := ee.1; let n := ee.2; let r := rd n e.addr;
    let n := op_cmp r.2 r.2.cpu.a r.1; (4 + e.page_cross, n)
  else if op = 0xC1 then
    let ee := ea_indx n; let e := ee.1; let n := ee.2; let r := rd n e.addr;
    let n := op_cmp r.2 r.2.cpu.a r.1; (6, n)
  else if op = 0xD1 then
    let ee := ea_indy n true; let e := ee.1; let n := ee.2; let r := rd n e.addr;
    let n := op_cmp r.2 r.2.cpu.a r.1; (5 + e.page_cross, n)
  else if op = 0xE0 then
    let ee := ea_imm n; let e := ee.1; let n := ee.2; let r := rd n e.addr;
    let n := op_cmp r.2 r.2.cpu.x r.1; (2, n)
  else if op = 0xE4 then
    let ee := ea_zp n; let e := ee.1; let n := ee.2; let r := rd n e.addr;
    let n := op_cmp r.2 r.2.cpu.x r.1; (3, n)
  else if op = 0xEC then
    let ee := ea_abs n; let e := ee.1; let n := ee.2; let r := rd n e.addr;
    let n := op_cmp r.2 r.2.cpu.x r.1; (4, n)
  else if op = 0xC0 then
    let ee := ea_imm n; let e := ee.1; let n := ee.2; let r := rd n e.addr;
    let n := op_cmp r.2 r.2.cpu.y r.1; (2, n)
  else if op = 0xC4 then
    let ee := ea_zp n; let e := ee.1; let n := ee.2; let r := rd n e.addr;
    let n := op_cmp r.2 r.2.cpu.y r.1; (3, n)
  else if op = 0xCC then
    let ee := ea_abs n; let e := ee.1; let n := ee.2; let r := rd n e.addr;
    let n := op_cmp r.2 r.2.cpu.y r.1; (4, n)
  else if op = 0x24 then
    let ee := ea_zp n; let e := ee.1; let n := ee.2; let r := rd n e.addr; let n := r.2;
    let m := r.1; let r := (n.cpu.a &&& m) % 256; let n := flag_assign n P_Z (r = 0);
    let n := flag_assign n P_N (m &&& 0x80 ≠ 0); let n := flag_assign n P_V (m &&& 0x40 ≠ 0); (3, n)
  else if op = 0x2C then
    let ee := ea_abs n; let e := ee.1; let n := ee.2; let r := rd n e.addr; let n := r.2;
    let m := r.1; let r := (n.cpu.a &&& m) % 256; let n := flag_assign n P_Z (r = 0);
    let n := flag_assign n P_N (m &&& 0x80 ≠ 0); let n := flag_assign n P_V (m &&& 0x40 ≠ 0); (4, n)
  else if op = 0xE6 then
    let ee := ea_zp n; let e := ee.1; let n := ee.2; let r := rd n e.addr; let n := r.2;
    let v := (r.1 + 1) % 256; let n := wr n e.addr v; let n := set_nz n v; (5, n)
  else if op = 0xF6 then
    let ee := ea_zpx n; let e := ee.1; let n := ee.2; let r := rd n e.addr; let n := r.2;
    let v := (r.1 + 1) % 256; let n := wr n e.addr v; let n := set_nz n v; (6, n)
  else if op = 0xEE then
    let ee := ea_abs n; let e := ee.1; let n := ee.2; let r := rd n e.addr; let n := r.2;
    let v := (r.1 + 1) % 256; let n := wr n e.addr v; let n := set_nz n v; (6, n)
  else if op = 0xFE then
    let ee := ea_absx n false; let e := ee.1; let n := ee.2; let r := rd n e.addr; let n := r.2;
    let v := (r.1 + 1) % 256; let n := wr n e.addr v; let n := set_nz n v; (7, n)
  else if op = 0xC6 then
    let ee := ea_zp n; let e := ee.1; let n := ee.2; let r := rd n e.addr; let n := r.2;
    let v := (r.1 + 255) % 256; let n := wr n e.addr v; let n := set_nz n v; (5, n)
  else if op = 0xD6 then
    let ee := ea_zpx n; let e := ee.1; let n := ee.2; let r := rd n e.addr; let n := r.2;
    let v := (r.1 + 255) % 256; let n := wr n e.addr v; let n := set_nz n v; (6, n)
  else if op = 0xCE then
    let ee := ea_abs n; let e := ee.1; let n := ee.2; let r := rd n e.addr; let n := r.2;
    let v := (r.1 + 255) % 256; let n := wr n e.addr v; let n := set_nz n v; (6, n)
  else if op = 0xDE then
    let ee := ea_absx n false; let e := ee.1; let n := ee.2; let r := rd n e.addr; let n := r.2;
    let v := (r.1 + 255) % 256; let n := wr n e.addr v; let n := set_nz n v; (7, n)
  else if op = 0xE8 then
    let n := set_x n ((n.cpu.x + 1) % 256); let n := set_nz n n.cpu.x; (2, n)
  else if op = 0xC8 then
    let n := set_y n ((n.cpu.y + 1) % 256); let n := set_nz n n.cpu.y; (2, n)
  else if op = 0xCA then
    let n := set_x n ((n.cpu.x + 255) % 256); let n := set_nz n n.cpu.x; (2, n)
  else if op = 0x88 then
    let n := set_y n ((n.cpu.y + 255) % 256); let n := set_nz n n.cpu.y; (2, n)
  else if op = 0x0A then
    let o := op_asl n n.cpu.a; let n := set_a o.2 o.1; (2, n)
  else if op = 0x06 then
    let ee := ea_zp n; let e := ee.1; let n := ee.2; let r := rd n e.addr; let o := op_asl r.2 r.1;
    let v := o.1; let n := o.2; let n := wr n e.addr v; (5, n)
  else if op = 0x16 then
    let ee := ea_zpx n; let e := ee.1; let n := ee.2; let r := rd n e.addr;
    let o := op_asl r.2 r.1; let v := o.1; let n := o.2; let n := wr n e.addr v; (6, n)
  else if op = 0x0E then
    let ee := ea_abs n; let e := ee.1; let n := ee.2; let r := rd n e.addr;
    let o := op_asl r.2 r.1; let v := o.1; let n := o.2; let n := wr n e.addr v; (6, n)
  else if op = 0x1E then
    let ee := ea_absx n false; let e := ee.1; let n := ee.2; let r := rd n e.addr;
    let o := op_asl r.2 r.1; let v := o.1; let n := o.2; let n := wr n e.addr v; (7, n)
  else if op = 0x4A then
    let o := op_lsr n n.cpu.a; let n := set_a o.2 o.1; (2, n)
  else if op = 0x46 then
    let ee := ea_zp n; let e := ee.1; let n := ee.2; let r := rd n e.addr; let o := op_lsr r.2 r.1;
    let v := o.1; let n := o.2; let n := wr n e.addr v; (5, n)
  else if op = 0x56 then
    let ee := ea_zpx n; let e := ee.1; let n := ee.2; let r := rd n e.addr;
    let o := op_lsr r.2 r.1; let v := o.1; let n := o.2; let n := wr n e.addr v; (6, n)
  else if op = 0x4E then
    let ee := ea_abs n; let e := ee.1; let n := ee.2; let r := rd n e.addr;
    let o := op_lsr r.2 r.1; let v := o.1; let n := o.2; let n := wr n e.addr v; (6, n)
  else if op = 0x5E then
    let ee := ea_absx n false; let e := ee.1; let n := ee.2; let r := rd n e.addr;
    let o := op_lsr r.2 r.1; let v := o.1; let n := o.2; let n := wr n e.addr v; (7, n)
  else if op = 0x2A then
    let o := op_rol n n.cpu.a; let n := set_a o.2 o.1; (2, n)
  else if op = 0x26 then
    let ee := ea_zp n; let e := ee.1; let n := ee.2; let r := rd n e.addr; let o := op_rol r.2 r.1;
    let v := o.1; let n := o.2; let n := wr n e.addr v; (5, n)
  else if op = 0x36 then
    let ee := ea_zpx n; let e := ee.1; let n := ee.2; let r := rd n e.addr;
    let o := op_rol r.2 r.1; let v := o.1; let n := o.2; let n := wr n e.addr v; (6, n)
  else if op = 0x2E then
    let ee := ea_abs n; let e := ee.1; let n := ee.2; let r := rd n e.addr;
    let o := op_rol r.2 r.1; let v := o.1; let n := o.2; let n := wr n e.addr v; (6, n)
  else if op = 0x3E then
    let ee := ea_absx n false; let e := ee.1; let n := ee.2; let r := rd n e.addr;
    let o := op_rol r.2 r.1; let v := o.1; let n := o.2; let n := wr n e.addr v; (7, n)
  else if op = 0x6A then
    let o := op_ror n n.cpu.a; let n := set_a o.2 o.1; (2, n)
  else if op = 0x66 then
    let ee := ea_zp n; let e := ee.1; let n := ee.2; let r := rd n e.addr; let o := op_ror r.2 r.1;
    let v := o.1; let n := o.2; let n := wr n e.addr v; (5, n)
  else if op = 0x76 then
    let ee := ea_zpx n; let e := ee.1; let n := ee.2; let r := rd n e.addr;
    let o := op_ror r.2 r.1; let v := o.1; let n := o.2; let n := wr n e.addr v; (6, n)
  else if op = 0x6E then
    let ee := ea_abs n; let e := ee.1; let n := ee.2; let r := rd n e.addr;
    let o := op_ror r.2 r.1; let v := o.1; let n := o.2; let n := wr n e.addr v; (6, n)
  else if op = 0x7E then
    let ee := ea_absx n false; let e := ee.1; let n := ee.2; let r := rd n e.addr;
    let o := op_ror r.2 r.1; let v := o.1; let n := o.2; let n := wr n e.addr v; (7, n)
  else if op = 0x4C then
    let r := rd16 n n.cpu.pc; let a := r.1; let n := r.2; let n := set_pc n a; (3, n)
  else if op = 0x6C then
    let r := rd16 n n.cpu.pc; let ptr := r.1; let n := r.2; let r := rd16_wrap_bug n ptr;
    let n := set_pc r.2 r.1; (5, n)
  else if op = 0x20 then
    let r := rd16 n n.cpu.pc; let a := r.1; let n := r.2;
    let n := set_pc n ((n.cpu.pc + 2) % 65536); let ret := (n.cpu.pc + 65535) % 65536;
    let n := push n ((ret >>> 8) % 256); let n := push n (ret &&& 0xFF); let n := set_pc n a; (6, n)
  else if op = 0x60 then
    let r := pull n; let lo := r.1; let n := r.2; let r := pull n; let hi := r.1; let n := r.2;
    let n := set_pc n (((hi <<< 8) ||| lo) % 65536); let n := set_pc n ((n.cpu.pc + 1) % 65536);
    (6, n)
  else if op = 0x40 then
    let r := pull n; let n := set_p r.2 ((r.1 ||| P_U) &&& (0xFF ^^^ P_B)); let r := pull n;
    let lo := r.1; let n := r.2; let r := pull n; let hi := r.1; let n := r.2;
    let n := set_pc n (((hi <<< 8) ||| lo) % 65536); (6, n)
  else if op = 0x10 then
    branch n (decide (¬ (n.cpu.p &&& P_N ≠ 0)))
  else if op = 0x30 then
    branch n (decide (n.cpu.p &&& P_N ≠ 0))
  else if op = 0x50 then
    branch n (decide (¬ (n.cpu.p &&& P_V ≠ 0)))
  else if op = 0x70 then
    branch n (decide (n.cpu.p &&& P_V ≠ 0))
  else if op = 0x90 then
    branch n (decide (¬ (n.cpu.p &&& P_C ≠ 0)))
  else if op = 0xB0 then
    branch n (decide (n.cpu.p &&& P_C ≠ 0))
  else if op = 0xD0 then
    branch n (decide (¬ (n.cpu.p &&& P_Z ≠ 0)))
  else if op = 0xF0 then
    branch n (decide (n.cpu.p &&& P_Z ≠ 0))
  else if op = 0xAA then
    let n := set_x n n.cpu.a; let n := set_nz n n.cpu.x; (2, n)
  else if op = 0x8A then
    let n := set_a n n.cpu.x; let n := set_nz n n.cpu.a; (2, n)
  else if op = 0xA8 then
    let n := set_y n n.cpu.a; let n := set_nz n n.cpu.y; (2, n)
  else if op = 0x98 then
    let n := set_a n n.cpu.y; let n := set_nz n n.cpu.a; (2, n)
  else if op = 0xBA then
    let n := set_x n n.cpu.sp; let n := set_nz n n.cpu.x; (2, n)
  else if op = 0x9A then
    let n := set_sp n n.cpu.x; (2, n)
  else if op = 0x48 then
    let n := push n n.cpu.a; (3, n)
  else if op = 0x68 then
    let r := pull n; let n := set_a r.2 r.1; let n := set_nz n n.cpu.a; (4, n)
  else if op = 0x08 then
    let n := push n ((n.cpu.p ||| P_B ||| P_U) % 256); (3, n)
  else if op = 0x28 then
    let r := pull n; let n := set_p r.2 ((r.1 ||| P_U) &&& (0xFF ^^^ P_B)); (4, n)
  else if op = 0x18 then
    let n := set_p n (n.cpu.p &&& (0xFF ^^^ P_C)); (2, n)
  else if op = 0x38 then
    let n := set_p n (n.cpu.p ||| P_C); (2, n)
  else if op = 0x58 then
    let n := set_p n (n.cpu.p &&& (0xFF ^^^ P_I)); (2, n)
  else if op = 0x78 then
    let n := set_p n (n.cpu.p ||| P_I); (2, n)
  else if op = 0xB8 then
    let n := set_p n (n.cpu.p &&& (0xFF ^^^ P_V)); (2, n)
  else if op = 0xD8 then
    let n := set_p n (n.cpu.p &&& (0xFF ^^^ P_D)); (2, n)
  else if op = 0xF8 then
    let n := set_p n (n.cpu.p ||| P_D); (2, n)
  else if op = 0x00 then
    let n := set_pc n ((n.cpu.pc + 1) % 65536); do_interrupt n 0xFFFE true
  else if op = 0xEA then
    (2, n)
  else if op = 0x1A ∨ op = 0x3A ∨ op = 0x5A ∨ op = 0x7A ∨ op = 0xDA ∨ op = 0xFA then
    (2, n)
  else if op = 0x80 ∨ op = 0x82 ∨ op = 0x89 ∨ op = 0xC2 ∨ op = 0xE2 then
    let n := set_pc n ((n.cpu.pc + 1) % 65536); (2, n)
  else if op = 0x04 ∨ op = 0x44 ∨ op = 0x64 then
    let n := set_pc n ((n.cpu.pc + 1) % 65536); (3, n)
  else if op = 0x14 ∨ op = 0x34 ∨ op = 0x54 ∨ op = 0x74 ∨ op = 0xD4 ∨ op = 0xF4 then
    let n := set_pc n ((n.cpu.pc + 1) % 65536); (4, n)
  else if op = 0x0C then
    let n := set_pc n ((n.cpu.pc + 2) % 65536); (4, n)
  else if op = 0x1C ∨ op = 0x3C ∨ op = 0x5C ∨ op = 0x7C ∨ op = 0xDC ∨ op = 0xFC then
    let n := set_pc n ((n.cpu.pc + 2) % 65536); (4, n)
  else if op = 0xA7 then
    let ee := ea_zp n; let e := ee.1; let n := ee.2; let r := rd n e.addr; let n := r.2;
    let v := r.1; let n := set_a n v; let n := set_x n v; let n := set_nz n v; (3, n)
  else if op = 0xB7 then
    let ee := ea_zpy n; let e := ee.1; let n := ee.2; let r := rd n e.addr; let n := r.2;
    let v := r.1; let n := set_a n v; let n := set_x n v; let n := set_nz n v; (4, n)
  else if op = 0xAF then
    let ee := ea_abs n; let e := ee.1; let n := ee.2; let r := rd n e.addr; let n := r.2;
    let v := r.1; let n := set_a n v; let n := set_x n v; let n := set_nz n v; (4, n)
  else if op = 0xBF then
    let ee := ea_absy n true; let e := ee.1; let n := ee.2; let r := rd n e.addr; let n := r.2;
    let v := r.1; let n := set_a n v; let n := set_x n v; let n := set_nz n v; (4 + e.page_cross, n)
  else if op = 0xA3 then
    let ee := ea_indx n; let e := ee.1; let n := ee.2; let r := rd n e.addr; let n := r.2;
    let v := r.1; let n := set_a n v; let n := set_x n v; let n := set_nz n v; (6, n)
  else if op = 0xB3 then
    let ee := ea_indy n true; let e := ee.1; let n := ee.2; let r := rd n e.addr; let n := r.2;
    let v := r.1; let n := set_a n v; let n := set_x n v; let n := set_nz n v; (5 + e.page_cross, n)
  else if op = 0x87 then
    let ee := ea_zp n; let e := ee.1; let n := ee.2;
    let n := wr n e.addr ((n.cpu.a &&& n.cpu.x) % 256); (3, n)
  else if op = 0x97 then
    let ee := ea_zpy n; let e := ee.1; let n := ee.2;
    let n := wr n e.addr ((n.cpu.a &&& n.cpu.x) % 256); (4, n)
  else if op = 0x8F then
    let ee := ea_abs n; let e := ee.1; let n := ee.2;
    let n := wr n e.addr ((n.cpu.a &&& n.cpu.x) % 256); (4, n)
  else if op = 0x83 then
    let ee := ea_indx n; let e := ee.1; let n := ee.2;
    let n := wr n e.addr ((n.cpu.a &&& n.cpu.x) % 256); (6, n)
  else if op = 0x07 then
    let ee := ea_zp n; let e := ee.1; let n := ee.2; let r := rd n e.addr; let o := op_asl r.2 r.1;
    let v := o.1; let n := o.2; let n := wr n e.addr v; let n := set_a n (n.cpu.a ||| v);
    let n := set_nz n n.cpu.a; (5, n)
  else if op = 0x17 then
    let ee := ea_zpx n; let e := ee.1; let n := ee.2; let r := rd n e.addr;
    let o := op_asl r.2 r.1; let v := o.1; let n := o.2; let n := wr n e.addr v;
    let n := set_a n (n.cpu.a ||| v); let n := set_nz n n.cpu.a; (6, n)
  else if op = 0x0F then
    let ee := ea_abs n; let e := ee.1; let n := ee.2; let r := rd n e.addr;
    let o := op_asl r.2 r.1; let v := o.1; let n := o.2; let n := wr n e.addr v;
    let n := set_a n (n.cpu.a ||| v); let n := set_nz n n.cpu.a; (6, n)
  else if op = 0x1F then
    let ee := ea_absx n false; let e := ee.1; let n := ee.2; let r := rd n e.addr;
    let o := op_asl r.2 r.1; let v := o.1; let n := o.2; let n := wr n e.addr v;
    let n := set_a n (n.cpu.a ||| v); let n := set_nz n n.cpu.a; (7, n)
  else if op = 0x1B then
    let ee := ea_absy n false; let e := ee.1; let n := ee.2; let r := rd n e.addr;
    let o := op_asl r.2 r.1; let v := o.1; let n := o.2; let n := wr n e.addr v;
    let n := set_a n (n.cpu.a ||| v); let n := set_nz n n.cpu.a; (7, n)
  else if op = 0x03 then
    let ee := ea_indx n; let e := ee.1; let n := ee.2; let r := rd n e.addr;
    let o := op_asl r.2 r.1; let v := o.1; let n := o.2; let n := wr n e.addr v;
    let n := set_a n (n.cpu.a ||| v); let n := set_nz n n.cpu.a; (8, n)
  else if op = 0x13 then
    let ee := ea_indy n false; let e := ee.1; let n := ee.2; let r := rd n e.addr;
    let o := op_asl r.2 r.1; let v := o.1; let n := o.2; let n := wr n e.addr v;
    let n := set_a n (n.cpu.a ||| v); let n := set_nz n n.cpu.a; (8, n)
  else if op = 0x27 then
    let ee := ea_zp n; let e := ee.1; let n := ee.2; let r := rd n e.addr; let o := op_rol r.2 r.1;
    let v := o.1; let n := o.2; let n := wr n e.addr v; let n := set_a n (n.cpu.a &&& v);
    let n := set_nz n n.cpu.a; (5, n)
  else if op = 0x37 then
    let ee := ea_zpx n; let e := ee.1; let n := ee.2; let r := rd n e.addr;
    let o := op_rol r.2 r.1; let v := o.1; let n := o.2; let n := wr n e.addr v;
    let n := set_a n (n.cpu.a &&& v); let n := set_nz n n.cpu.a; (6, n)
  else if op = 0x2F then
    let ee := ea_abs n; let e := ee.1; let n := ee.2; let r := rd n e.addr;
    let o := op_rol r.2 r.1; let v := o.1; let n := o.2; let n := wr n e.addr v;
    let n := set_a n (n.cpu.a &&& v); let n := set_nz n n.cpu.a; (6, n)
  else if op = 0x3F then
    let ee := ea_absx n false; let e := ee.1; let n := ee.2; let r := rd n e.addr;
    let o := op_rol r.2 r.1; let v := o.1; let n := o.2; let n := wr n e.addr v;
    let n := set_a n (n.cpu.a &&& v); let n := set_nz n n.cpu.a; (7, n)
  else if op = 0x3B then
    let ee := ea_absy n false; let e := ee.1; let n := ee.2; let r := rd n e.addr;
    let o := op_rol r.2 r.1; let v := o.1; let n := o.2; let n := wr n e.addr v;
    let n := set_a n (n.cpu.a &&& v); let n := set_nz n n.cpu.a; (7, n)
  else if op = 0x23 then
    let ee := ea_indx n; let e := ee.1; let n := ee.2; let r := rd n e.addr;
    let o := op_rol r.2 r.1; let v := o.1; let n := o.2; let n := wr n e.addr v;
    let n := set_a n (n.cpu.a &&& v); let n := set_nz n n.cpu.a; (8, n)
  else if op = 0x33 then
    let ee := ea_indy n false; let e := ee.1; let n := ee.2; let r := rd n e.addr;
    let o := op_rol r.2 r.1; let v := o.1; let n := o.2; let n := wr n e.addr v;
    let n := set_a n (n.cpu.a &&& v); let n := set_nz n n.cpu.a; (8, n)
  else if op = 0x47 then
    let ee := ea_zp n; let e := ee.1; let n := ee.2; let r := rd n e.addr; let o := op_lsr r.2 r.1;
    let v := o.1; let n := o.2; let n := wr n e.addr v; let n := set_a n (n.cpu.a ^^^ v);
    let n := set_nz n n.cpu.a; (5, n)
  else if op = 0x57 then
    let ee := ea_zpx n; let e := ee.1; let n := ee.2; let r := rd n e.addr;
    let o := op_lsr r.2 r.1; let v := o.1; let n := o.2; let n := wr n e.addr v;
    let n := set_a n (n.cpu.a ^^^ v); let n := set_nz n n.cpu.a; (6, n)
  else if op = 0x4F then
    let ee := ea_abs n; let e := ee.1; let n := ee.2; let r := rd n e.addr;
    let o := op_lsr r.2 r.1; let v := o.1; let n := o.2; let n := wr n e.addr v;
    let n := set_a n (n.cpu.a ^^^ v); let n := set_nz n n.cpu.a; (6, n)
  else if op = 0x5F then
    let ee := ea_absx n false; let e := ee.1; let n := ee.2; let r := rd n e.addr;
    let o := op_lsr r.2 r.1; let v := o.1; let n := o.2; let n := wr n e.addr v;
    let n := set_a n (n.cpu.a ^^^ v); let n := set_nz n n.cpu.a; (7, n)
  else if op = 0x5B then
    let ee := ea_absy n false; let e := ee.1; let n := ee.2; let r := rd n e.addr;
    let o := op_lsr r.2 r.1; let v := o.1; let n := o.2; let n := wr n e.addr v;
    let n := set_a n (n.cpu.a ^^^ v); let n := set_nz n n.cpu.a; (7, n)
  else if op = 0x43 then
    let ee := ea_indx n; let e := ee.1; let n := ee.2; let r := rd n e.addr;
    let o := op_lsr r.2 r.1; let v := o.1; let n := o.2; let n := wr n e.addr v;
    let n := set_a n (n.cpu.a ^^^ v); let n := set_nz n n.cpu.a; (8, n)
  else if op = 0x53 then
    let ee := ea_indy n false; let e := ee.1; let n := ee.2; let r := rd n e.addr;
    let o := op_lsr r.2 r.1; let v := o.1; let n := o.2; let n := wr n e.addr v;
    let n := set_a n (n.cpu.a ^^^ v); let n := set_nz n n.cpu.a; (8, n)
  else if op = 0x67 then
    let ee := ea_zp n; let e := ee.1; let n := ee.2; let r := rd n e.addr; let o := op_ror r.2 r.1;
    let v := o.1; let n := o.2; let n := wr n e.addr v; let n := op_adc n v; (5, n)
  else if op = 0x77 then
    let ee := ea_zpx n; let e := ee.1; let n := ee.2; let r := rd n e.addr;
    let o := op_ror r.2 r.1; let v := o.1; let n := o.2; let n := wr n e.addr v;
    let n := op_adc n v; (6, n)
  else if op = 0x6F then
    let ee := ea_abs n; let e := ee.1; let n := ee.2; let r := rd n e.addr;
    let o := op_ror r.2 r.1; let v := o.1; let n := o.2; let n := wr n e.addr v;
    let n := op_adc n v; (6, n)
  else if op = 0x7F then
    let ee := ea_absx n false; let e := ee.1; let n := ee.2; let r := rd n e.addr;
    let o := op_ror r.2 r.1; let v := o.1; let n := o.2; let n := wr n e.addr v;
    let n := op_adc n v; (7, n)
  else if op = 0x7B then
    let ee := ea_absy n false; let e := ee.1; let n := ee.2; let r := rd n e.addr;
    let o := op_ror r.2 r.1; let v := o.1; let n := o.2; let n := wr n e.addr v;
    let n := op_adc n v; (7, n)
  else if op = 0x63 then
    let ee := ea_indx n; let e := ee.1; let n := ee.2; let r := rd n e.addr;
    let o := op_ror r.2 r.1; let v := o.1; let n := o.2; let n := wr n e.addr v;
    let n := op_adc n v; (8, n)
  else if op = 0x73 then
    let ee := ea_indy n false; let e := ee.1; let n := ee.2; let r := rd n e.addr;
    let o := op_ror r.2 r.1; let v := o.1; let n := o.2; let n := wr n e.addr v;
    let n := op_adc n v; (8, n)
  else if op = 0xC7 then
    let ee := ea_zp n; let e := ee.1; let n := ee.2; let r := rd n e.addr; let n := r.2;
    let v := (r.1 + 255) % 256; let n := wr n e.addr v; let n := op_cmp n n.cpu.a v; (5, n)
  else if op = 0xD7 then
    let ee := ea_zpx n; let e := ee.1; let n := ee.2; let r := rd n e.addr; let n := r.2;
    let v := (r.1 + 255) % 256; let n := wr n e.addr v; let n := op_cmp n n.cpu.a v; (6, n)
  else if op = 0xCF then
    let ee := ea_abs n; let e := ee.1; let n := ee.2; let r := rd n e.addr; let n := r.2;
    let v := (r.1 + 255) % 256; let n := wr n e.addr v; let n := op_cmp n n.cpu.a v; (6, n)
  else if op = 0xDF then
    let ee := ea_absx n false; let e := ee.1; let n := ee.2; let r := rd n e.addr; let n := r.2;
    let v := (r.1 + 255) % 256; let n := wr n e.addr v; let n := op_cmp n n.cpu.a v; (7, n)
  else if op = 0xDB then
    let ee := ea_absy n false; let e := ee.1; let n := ee.2; let r := rd n e.addr; let n := r.2;
    let v := (r.1 + 255) % 256; let n := wr n e.addr v; let n := op_cmp n n.cpu.a v; (7, n)
  else if op = 0xC3 then
    let ee := ea_indx n; let e := ee.1; let n := ee.2; let r := rd n e.addr; let n := r.2;
    let v := (r.1 + 255) % 256; let n := wr n e.addr v; let n := op_cmp n n.cpu.a v; (8, n)
  else if op = 0xD3 then
    let ee := ea_indy n false; let e := ee.1; let n := ee.2; let r := rd n e.addr; let n := r.2;
    let v := (r.1 + 255) % 256; let n := wr n e.addr v; let n := op_cmp n n.cpu.a v; (8, n)
  else if op = 0xE7 then
    let ee := ea_zp n; let e := ee.1; let n := ee.2; let r := rd n e.addr; let n := r.2;
    let v := (r.1 + 1) % 256; let n := wr n e.addr v; let n := op_sbc n v; (5, n)
  else if op = 0xF7 then
    let ee := ea_zpx n; let e := ee.1; let n := ee.2; let r := rd n e.addr; let n := r.2;
    let v := (r.1 + 1) % 256; let n := wr n e.addr v; let n := op_sbc n v; (6, n)
  else if op = 0xEF then
    let ee := ea_abs n; let e := ee.1; let n := ee.2; let r := rd n e.addr; let n := r.2;
    let v := (r.1 + 1) % 256; let n := wr n e.addr v; let n := op_sbc n v; (6, n)
  else if op = 0xFF then
    let ee := ea_absx n false; let e := ee.1; let n := ee.2; let r := rd n e.addr; let n := r.2;
    let v := (r.1 + 1) % 256; let n := wr n e.addr v; let n := op_sbc n v; (7, n)
  else if op = 0xFB then
    let ee := ea_absy n false; let e := ee.1; let n := ee.2; let r := rd n e.addr; let n := r.2;
    let v := (r.1 + 1) % 256; let n := wr n e.addr v; let n := op_sbc n v; (7, n)
  else if op = 0xE3 then
    let ee := ea_indx n; let e := ee.1; let n := ee.2; let r := rd n e.addr; let n := r.2;
    let v := (r.1 + 1) % 256; let n := wr n e.addr v; let n := op_sbc n v; (8, n)
  else if op = 0xF3 then
    let ee := ea_indy n false; let e := ee.1; let n := ee.2; let r := rd n e.addr; let n := r.2;
    let v := (r.1 + 1) % 256; let n := wr n e.addr v; let n := op_sbc n v; (8, n)
  else if op = 0x0B then
    let ee := ea_imm n; let e := ee.1; let n := ee.2; let r := rd n e.addr;
    let n := op_anc r.2 r.1; (2, n)
  else if op = 0x2B then
    let ee := ea_imm n; let e := ee.1; let n := ee.2; let r := rd n e.addr;
    let n := op_anc r.2 r.1; (2, n)
  else if op = 0x4B then
    let ee := ea_imm n; let e := ee.1; let n := ee.2; let r := rd n e.addr;
    let n := op_alr r.2 r.1; (2, n)
  else if op = 0x6B then
    let ee := ea_imm n; let e := ee.1; let n := ee.2; let r := rd n e.addr;
    let n := op_arr r.2 r.1; (2, n)
  else if op = 0xCB then
    let ee := ea_imm n; let e := ee.1; let n := ee.2; let r := rd n e.addr;
    let n := op_sbx r.2 r.1; (2, n)
  else if op = 0xEB then
    let ee := ea_imm n; let e := ee.1; let n := ee.2; let r := rd n e.addr;
    let n := op_sbc r.2 r.1; (2, n)
  else if op = 0x8B then
    let ee := ea_imm n; let e := ee.1; let n := ee.2; let r := rd n e.addr; let n := r.2;
    let imm := r.1; let n := set_a n ((n.cpu.x &&& imm) % 256); let n := set_nz n n.cpu.a; (2, n)
  else if op = 0xAB then
    let ee := ea_imm n; let e := ee.1; let n := ee.2; let r := rd n e.addr; let n := r.2;
    let imm := r.1; let n := set_a n imm; let n := set_x n imm; let n := set_nz n imm; (2, n)
  else if op = 0xBB then
    let ee := ea_absy n true; let e := ee.1; let n := ee.2; let r := rd n e.addr; let n := r.2;
    let v := (r.1 &&& n.cpu.sp) % 256; let n := set_sp n v; let n := set_a n v; let n := set_x n v;
    let n := set_nz n v; (4 + e.page_cross, n)
  else if op = 0x9B then
    let ee := ea_absy n false; let e := ee.1; let n := ee.2; let sp := (n.cpu.a &&& n.cpu.x) % 256;
    let n := set_sp n sp; let m := (((e.addr >>> 8) + 1) &&& 0xFF) % 256;
    let n := wr n e.addr ((sp &&& m) % 256); (5, n)
  else if op = 0x9C then
    let ee := ea_absx n false; let e := ee.1; let n := ee.2;
    let m := (((e.addr >>> 8) + 1) &&& 0xFF) % 256; let n := wr n e.addr ((n.cpu.y &&& m) % 256);
    (5, n)
  else if op = 0x9E then
    let ee := ea_absy n false; let e := ee.1; let n := ee.2;
    let m := (((e.addr >>> 8) + 1) &&& 0xFF) % 256; let n := wr n e.addr ((n.cpu.x &&& m) % 256);
    (5, n)
  else if op = 0x9F then
    let ee := ea_absy n false; let e := ee.1; let n := ee.2;
    let m := (((e.addr >>> 8) + 1) &&& 0xFF) % 256;
    let n := wr n e.addr ((n.cpu.a &&& n.cpu.x &&& m) % 256); (5, n)
  else if op = 0x93 then
    let ee := ea_indy n false; let e := ee.1; let n := ee.2;
    let m := (((e.addr >>> 8) + 1) &&& 0xFF) % 256;
    let n := wr n e.addr ((n.cpu.a &&& n.cpu.x &&& m) % 256); (6, n)
  else (2, n)

def cpu6502_step (n : nes_t) : Nat × nes_t :=
  if n.cpu_stall > 0 then
    let n := { n with cpu_stall := n.cpu_stall - 1 }
    let n := add_cycles n 1
    (1, n)
  else if n.cpu.nmi_pending then
    let n := { n with cpu := { n.cpu with nmi_pending := false } }
    let n := { n with dbg_nmi_count := (n.dbg_nmi_count + 1) % 2 ^ 64 }
    let r := do_interrupt n 0xFFFA false
    (r.1, add_cycles r.2 r.1)
  else if n.cpu.irq_pending ∧ ¬ (n.cpu.p &&& P_I ≠ 0) then
    let r := do_interrupt n 0xFFFE false
    (r.1, add_cycles r.2 r.1)
  else
    let pc := n.cpu.pc
    let n := set_pc n ((pc + 1) % 65536)
    let r := rd n pc
    let op := r.1
    let e := exec_opcode op r.2
    (e.1, add_cycles e.2 e.1)

/-! ## Reset (`nes.c`) -/

def nes_reset (n : nes_t) : nes_t :=
  let n := { n with ram := mem_zero }
  let n := { n with ppu := ppu_reset }
  let n := { n with pad1_state := 0 }
  let n := { n with pad1_shift := 0 }
  let n := { n with pad_strobe := false }
  let n := { n with last_bus := 0 }
  let n := { n with cpu_stall := 0 }
  let n := { n with dbg_nmi_count := 0 }
  cpu6502_reset n

/-! ## Cartridge loader (`ines.c`) and `nes_load` (`nes.c`)

The ROM file is the list of its bytes, `none` when `fopen` fails.  Allocation is taken to
succeed. -/

/-- The all-zero cartridge left by `memset(cart, 0, sizeof(*cart))`. -/
def cart_zero : cart_t :=
  { info := { mapper := 0, mirror := NES_MIRROR_HORIZONTAL, has_battery := false,
              has_trainer := false, is_nes2 := false, prg_rom_size := 0, chr_rom_size := 0,
              prg_ram_size := 0 },
    prg_rom := mem_zero, chr := mem_zero, chr_is_ram := false }

def cart_free (_cart : cart_t) : cart_t := cart_zero

/-- `read_exact(f, buf, k)` with the file position at `pos`: `fread` delivers `k` bytes. -/
def read_exact (f : List Nat) (pos k : Nat) : Bool := decide (pos + k ≤ f.length)

/-- The buffer filled by a successful `read_exact` of `len` bytes at file position `pos`. -/
def file_bytes (f : List Nat) (pos len : Nat) : Nat → Nat :=
  fun i => if i < len then f.getD (pos + i) 0 else 0

def ines_load (file : Option (List Nat)) : Except String cart_t :=
  match file with
  | none => Except.error "failed to open ROM"
  | some f =>
    if ¬ read_exact f 0 16 then Except.error "failed to read header"
    else
      let h : Nat → Nat := fun i => f.getD i 0
      if h 0 = 0x7F ∧ h 1 = 0x45 ∧ h 2 = 0x4C ∧ h 3 = 0x46 then
        Except.error "input is an ELF executable, not an iNES .nes ROM"
      else if ¬ (h 0 = 0x4E ∧ h 1 = 0x45 ∧ h 2 = 0x53 ∧ h 3 = 0x1A) then
        Except.error "not an iNES ROM (missing NES\\x1A header)"
      else
        let prg_chunks := h 4
        let chr_chunks := h 5
        let flags6 := h 6
        let flags7 := h 7
        let prg_ram_chunks := h 8
        let nes2 : Bool := decide (flags7 &&& 0x0C = 0x08)
        let mapper_lo := (flags6 >>> 4) % 256
        let mapper_hi := (flags7 >>> 4) % 256
        let info : ines_info_t :=
          { is_nes2 := nes2,
            has_trainer := decide (flags6 &&& 0x04 ≠ 0),
            has_battery := decide (flags6 &&& 0x02 ≠ 0),
            mirror :=
              if flags6 &&& 0x08 ≠ 0 then NES_MIRROR_FOURSCREEN
              else if flags6 &&& 0x01 ≠ 0 then NES_MIRROR_VERTICAL else NES_MIRROR_HORIZONTAL,
            mapper := (mapper_lo ||| (mapper_hi <<< 4)) % 256,
            prg_rom_size := prg_chunks * 16 * 1024,
            chr_rom_size := chr_chunks * 8 * 1024,
            prg_ram_size := if prg_ram_chunks ≠ 0 then prg_ram_chunks * 8 * 1024 else 8 * 1024 }
        let pos := 16
        if info.has_trainer ∧ ¬ read_exact f pos 512 then Except.error "failed to read trainer"
        else
          let pos := if info.has_trainer then pos + 512 else pos
          if ¬ read_exact f pos info.prg_rom_size then Except.error "failed reading PRG ROM"
          else
            let prg_rom := file_bytes f pos info.prg_rom_size
            let pos := pos + info.prg_rom_size
            if info.chr_rom_size = 0 then
              Except.ok
                { info := { info with chr_rom_size := 8 * 1024 },
                  prg_rom := prg_rom, chr := mem_zero, chr_is_ram := true }
            else if ¬ read_exact f pos info.chr_rom_size then Except.error "failed reading CHR"
            else
              Except.ok
                { info := info, prg_rom := prg_rom,
                  chr := file_bytes f pos info.chr_rom_size, chr_is_ram := false }

/-- The all-zero machine left by `memset(n, 0, sizeof(*n))`. -/
def nes_zero : nes_t :=
  { cart := cart_zero, cpu := cpu_zero, ppu := ppu_zero, ram := mem_zero, cpu_stall := 0,
    pad1_state := 0, pad1_shift := 0, pad_strobe := false, last_bus := 0, dbg_nmi_count := 0 }

/-- `nes_load`: `Except.ok` is the `true` return with the loaded machine, `Except.error` the
`false` return with the text written to `err`. -/
def nes_load (file : Option (List Nat)) : Except String nes_t :=
  let n := nes_zero
  match ines_load file with
  | Except.error e => Except.error e
  | Except.ok cart =>
    let n := { n with cart := cart }
    if n.cart.info.mapper ≠ 0 then
      let n := { n with cart := cart_free n.cart }
      Except.error
        ("unsupported mapper " ++ toString n.cart.info.mapper ++
          " (this build supports mapper 0 only)")
    else Except.ok (nes_reset n)

/-! ## Example machines

A 16 KiB mapper-0 cartridge whose vectors are NMI = `$9000`, reset = `$8000` and
IRQ/BRK = `$A000`, and machines that run a short program placed in RAM at `$0200`. -/

def demo_prg : Nat → Nat := fun i =>
  if i = 0x3FFA then 0x00 else if i = 0x3FFB then 0x90
  else if i = 0x3FFC then 0x00 else if i = 0x3FFD then 0x80
  else if i = 0x3FFE then 0x00 else if i = 0x3FFF then 0xA0
  else 0xEA

def demo_cart : cart_t :=
  { info := { cart_zero.info with prg_rom_size := 16 * 1024, chr_rom_size := 8 * 1024 },
    prg_rom := demo_prg, chr := mem_zero, chr_is_ram := true }

/-- The machine after `nes_reset` with the example cartridge. -/
def demo_nes : nes_t := nes_reset { nes_zero with cart := demo_cart }

/-- The array that holds `bytes` from index `base` on and zero elsewhere. -/
def mem_of_list (base : Nat) (bytes : List Nat) : Nat → Nat :=
  fun i => if base ≤ i ∧ i < base + bytes.length then bytes.getD (i - base) 0 else 0

/-- The example machine with `code` in RAM at `$0200` and the PC there. -/
def demo_run (code : List Nat) : nes_t :=
  set_pc { demo_nes with ram := mem_of_list 0x0200 code } 0x0200

/-- The example machine with the NMI latch set. -/
def demo_nmi : nes_t := cpu6502_set_nmi demo_nes

/-- The example machine with the IRQ line asserted and the I flag clear. -/
def demo_irq : nes_t := cpu6502_set_irq (set_p demo_nes 0x20) true

/-- The example machine in the middle of a stall of three cycles. -/
def demo_stall : nes_t := { demo_nmi with cpu_stall := 3 }

/-- The example machine about to execute a `BRK` placed in RAM at `$0200`. -/
def demo_brk : nes_t := demo_run [0x00]

/-- The example machine with `A = $50`, carry set, about to run `ADC #$50` then `SBC #$B0`. -/
def demo_alu : nes_t := set_p (set_a (demo_run [0x69, 0x50, 0xE9, 0xB0]) 0x50) 0x25

/-- The opcode fetch `rd(n, c->pc++)` at the head of the instruction path of
`cpu6502_step`: the opcode and the machine after the fetch. -/
def fetch_opcode (n : nes_t) : Nat × nes_t :=
  rd (set_pc n ((n.cpu.pc + 1) % 65536)) n.cpu.pc

/-- The step executes an instruction: no stall is pending, the NMI latch is clear and no
IRQ is taken. -/
def instr_path (n : nes_t) : Prop :=
  ¬ 0 < n.cpu_stall ∧ n.cpu.nmi_pending = false ∧
    ¬ (n.cpu.irq_pending = true ∧ n.cpu.p &&& P_I = 0)

instance (n : nes_t) : Decidable (instr_path n) := by
  unfold instr_path; infer_instance

/-- The example machine about to run `JMP ($10FF)`, with `$34` at `$10FF` and `$12` at
`$1000` (RAM cells `$0FF` and `$000` through the mirror). -/
def demo_jmp : nes_t :=
  set_pc { demo_nes with
    ram := mem_set (mem_set (mem_of_list 0x0200 [0x6C, 0xFF, 0x10]) 0x0FF 0x34) 0x000 0x12 }
    0x0200

/-- The condition under which each conditional branch opcode is taken, by mnemonic:
`BPL` N clear, `BMI` N set, `BVC` V clear, `BVS` V set, `BCC` C clear, `BCS` C set,
`BNE` Z clear, `BEQ` Z set. -/
def branch_taken (op p : Nat) : Prop :=
  if op = 0x10 then p &&& 0x80 = 0
  else if op = 0x30 then p &&& 0x80 ≠ 0
  else if op = 0x50 then p &&& 0x40 = 0
  else if op = 0x70 then p &&& 0x40 ≠ 0
  else if op = 0x90 then p &&& 0x01 = 0
  else if op = 0xB0 then p &&& 0x01 ≠ 0
  else if op = 0xD0 then p &&& 0x02 = 0
  else if op = 0xF0 then p &&& 0x02 ≠ 0
  else False

instance (op p : Nat) : Decidable (branch_taken op p) := by
  unfold branch_taken; infer_instance

/-- The example machine with Z set, at `$02FD`, about to run `BEQ +$10` (target `$030F`). -/
def demo_beq : nes_t :=
  set_p (set_pc { demo_nes with ram := mem_of_list 0x02FD [0xF0, 0x10] } 0x02FD) 0x26

/-- The example machine with Z set, about to run `BNE +$10`, which is not taken. -/
def demo_bne : nes_t := set_p (demo_run [0xD0, 0x10]) 0x26

/-- The page-cross penalty: 1 when indexing `base` by `i` leaves the 256-byte page of
`base`, else 0. -/
def page_penalty (base i : Nat) : Nat :=
  if base / 256 ≠ ((base + i) % 65536) / 256 then 1 else 0

/-- The example machine with `X = $01`, about to run `LDA $10FF,X` (crosses into `$1100`). -/
def demo_ldax : nes_t := set_x (demo_run [0xBD, 0xFF, 0x10]) 0x01

/-- The example machine with `X = $01`, about to run `STA $10FF,X`. -/
def demo_stax : nes_t := set_x (demo_run [0x9D, 0xFF, 0x10]) 0x01

/-- The example machine with `$11` at `$01FD` and `$22` at `$01FE`; its SP is `$FD`. -/
def demo_stack : nes_t :=
  { demo_nes with ram := mem_set (mem_set mem_zero 0x01FD 0x11) 0x01FE 0x22 }

/-- An iNES header: magic, one 16 KiB PRG chunk, no CHR chunk, mapper 0. -/
def demo_hdr : List Nat := [0x4E, 0x45, 0x53, 0x1A, 1, 0, 0, 0, 0, 0, 0, 0, 0, 0, 0, 0]

/-- A complete 16 KiB mapper-0 iNES image with CHR RAM: the header and a PRG filled with
`$EA` whose last six bytes are `00 00 00 80 00 00`. -/
def demo_rom : List Nat :=
  demo_hdr ++ (List.replicate (16384 - 6) 0xEA ++ [0x00, 0x00, 0x00, 0x80, 0x00, 0x00])

/-- The cartridge that `ines_load` builds from `demo_rom`. -/
def demo_rom_cart : cart_t :=
  { info := { mapper := 0, mirror := NES_MIRROR_HORIZONTAL, has_battery := false,
              has_trainer := false, is_nes2 := false, prg_rom_size := 16 * 1024,
              chr_rom_size := 8 * 1024, prg_ram_size := 8 * 1024 },
    prg_rom := file_bytes demo_rom 16 (16 * 1024), chr := mem_zero, chr_is_ram := true }

/-! ## PPU rendering and the PPU tick (`ppu.c`)

Pixel coordinates and scanline numbers are C `int`s and are integers here. -/

/-- The 64-entry RGB table of `nes_palette_rgb`. -/
def nes_palette_table : List Nat :=
  [0xFF666666, 0xFF002A88, 0xFF1412A7, 0xFF3B00A4, 0xFF5C007E, 0xFF6E0040, 0xFF6C0600, 0xFF561D00,
   0xFF333500, 0xFF0B4800, 0xFF005200, 0xFF004F08, 0xFF00404D, 0xFF000000, 0xFF000000, 0xFF000000,
   0xFFADADAD, 0xFF155FD9, 0xFF4240FF, 0xFF7527FE, 0xFFA01ACC, 0xFFB71E7B, 0xFFB53120, 0xFF994E00,
   0xFF6B6D00, 0xFF388700, 0xFF0C9300, 0xFF008F32, 0xFF007C8D, 0xFF000000, 0xFF000000, 0xFF000000,
   0xFFFFFEFF, 0xFF64B0FF, 0xFF9290FF, 0xFFC676FF, 0xFFF36AFF, 0xFFFE6ECC, 0xFFFE8170, 0xFFEA9E22,
   0xFFBCBE00, 0xFF88D800, 0xFF5CE430, 0xFF45E082, 0xFF48CDDE, 0xFF4F4F4F, 0xFF000000, 0xFF000000,
   0xFFFFFEFF, 0xFFC0DFFF, 0xFFD3D2FF, 0xFFE8C8FF, 0xFFFBC2FF, 0xFFFEC4EA, 0xFFFECCC5, 0xFFF7D8A5,
   0xFFE4E594, 0xFFCFEF96, 0xFFBDF4AB, 0xFFB3F3CC, 0xFFB5EBF2, 0xFFB8B8B8, 0xFF000000, 0xFF000000]

def nes_palette_rgb (idx : Nat) : Nat := nes_palette_table.getD (idx &&& 0x3F) 0

/-- The pattern pixel `(((hi >> bit) & 1) << 1) | ((lo >> bit) & 1)` of two plane bytes. -/
def plane_pixel (lo hi bit : Nat) : Nat :=
  ((((hi >>> bit) &&& 1) <<< 1) ||| ((lo >>> bit) &&& 1)) % 256

/-- `ppu_get_bg_pixel`: the returned pixel and the value stored in `*out_pal_index`.
`& 511` on the `int` sum is its residue modulo 512. -/
def ppu_get_bg_pixel (n : nes_t) (x y : Int) : Nat × Nat :=
  let show_bg : Bool := decide (n.ppu.reg_mask &&& 0x08 ≠ 0)
  if ¬ show_bg then (0, 0)
  else
    let X : Nat := ((x + (n.ppu.scroll_x : Int)) % 512).toNat
    let Y0 : Int := Int.tmod (y + (n.ppu.scroll_y : Int)) 480
    let Y : Nat := (if Y0 < 0 then Y0 + 480 else Y0).toNat
    let sx := X &&& 255
    let sy := Y % 240
    let tile_x := sx / 8
    let tile_y := sy / 8
    let fine_y := sy &&& 7
    let nt := n.ppu.render_ctrl &&& 0x03
    let nt := if X ≥ 256 then nt ^^^ 1 else nt
    let nt := if Y ≥ 240 then nt ^^^ 2 else nt
    let base_nt := (0x2000 + nt * 0x0400) % 65536
    let base_pt := if n.ppu.render_ctrl &&& 0x10 ≠ 0 then 0x1000 else 0x0000
    let nt_addr := (base_nt + tile_y * 32 + tile_x) % 65536
    let tile := nes_ppu_bus_read n nt_addr
    let at_addr := (base_nt + 0x3C0 + (tile_y / 4) * 8 + (tile_x / 4)) % 65536
    let attr := nes_ppu_bus_read n at_addr
    let quadrant := (if tile_y &&& 2 ≠ 0 then 2 else 0) ||| (if tile_x &&& 2 ≠ 0 then 1 else 0)
    let pal :=
      if quadrant = 0 then (attr &&& 0x03) % 256
      else if quadrant = 1 then ((attr >>> 2) &&& 0x03) % 256
      else if quadrant = 2 then ((attr >>> 4) &&& 0x03) % 256
      else if quadrant = 3 then ((attr >>> 6) &&& 0x03) % 256
      else 0
    let pt_addr := (base_pt + tile * 16 + fine_y) % 65536
    let lo := nes_ppu_bus_read n pt_addr
    let hi := nes_ppu_bus_read n ((pt_addr + 8) % 65536)
    let bit := 7 - (sx &&& 7)
    (plane_pixel lo hi bit, pal)

/-- The loop of `eval_sprites_for_scanline`: iterations `i, i+1, ..`, `k` of them, on the
PPU and the running count `found`. -/
def eval_sprites_loop (y sprite_h : Int) : Nat → Nat → ppu_t × Nat → ppu_t × Nat
  | 0, _, s => s
  | k + 1, i, (p, found) =>
    let sy := p.oam (i * 4 + 0)
    let top : Int := (sy : Int) + 1
    if y < top ∨ y ≥ top + sprite_h then eval_sprites_loop y sprite_h k (i + 1) (p, found)
    else
      let p :=
        if found < 8 then
          { p with
            scan_spr_i := mem_set p.scan_spr_i found (i % 256),
            scan_spr_y := mem_set p.scan_spr_y found sy,
            scan_spr_tile := mem_set p.scan_spr_tile found (p.oam (i * 4 + 1)),
            scan_spr_attr := mem_set p.scan_spr_attr found (p.oam (i * 4 + 2)),
            scan_spr_x := mem_set p.scan_spr_x found (p.oam (i * 4 + 3)) }
        else p
      eval_sprites_loop y sprite_h k (i + 1) (p, found + 1)

def eval_sprites_for_scanline (n : nes_t) (y : Int) : nes_t :=
  let p := n.ppu
  let p := { p with scan_spr_count := 0 }
  let p := { p with reg_status := p.reg_status &&& 0xDF }
  let sprite_h : Int := if p.reg_ctrl &&& 0x20 ≠ 0 then 16 else 8
  let r := eval_sprites_loop y sprite_h 64 0 (p, 0)
  let p := r.1
  let found := r.2
  let p := if found > 8 then { p with reg_status := p.reg_status ||| 0x20 } else p
  let p := { p with scan_spr_count := (if found > 8 then 8 else found) % 256 }
  { n with ppu := p }

/-- The pattern address and pixel of one sprite at row `row`, column `col`, as computed in
`sprite_pixel` and `sprite0_pixel` after the flips; `base_pt8` serves 8-pixel sprites. -/
def sprite_pattern_pixel (n : nes_t) (sprite_h : Int) (base_pt8 tile : Nat) (row : Int)
    (col : Nat) : Nat :=
  let pt_addr : Nat :=
    if sprite_h = 8 then (((base_pt8 + tile * 16 : Nat) : Int) + row).emod 65536 |>.toNat
    else
      let table := if tile &&& 1 ≠ 0 then 0x1000 else 0x0000
      let tile_base := (tile &&& 0xFE) % 65536
      let tile_base := if row ≥ 8 then (tile_base + 1) % 65536 else tile_base
      let row := if row ≥ 8 then row - 8 else row
      (((table + tile_base * 16 : Nat) : Int) + row).emod 65536 |>.toNat
  let lo := nes_ppu_bus_read n pt_addr
  let hi := nes_ppu_bus_read n ((pt_addr + 8) % 65536)
  let bit := 7 - col
  plane_pixel lo hi bit

/-- The values `sprite_pixel` returns and leaves in its three out-parameters. -/
structure sprite_out where
  px : Nat
  palette : Nat
  priority : Nat
  is_sprite0 : Bool

/-- The loop of `sprite_pixel` over the cached sprites `si, si+1, ..`, `k` of them; `o`
holds the out-parameters as the caller initialised them. -/
def sprite_pixel_loop (n : nes_t) (y x sprite_h : Int) (base_pt8 : Nat) (o : sprite_out) :
    Nat → Nat → sprite_out
  | 0, _ => { o with px := 0 }
  | k + 1, si =>
    let spr_x := n.ppu.scan_spr_x si
    let spr_y := n.ppu.scan_spr_y si
    let tile := n.ppu.scan_spr_tile si
    let attr := n.ppu.scan_spr_attr si
    let top : Int := (spr_y : Int) + 1
    if x < (spr_x : Int) ∨ x ≥ (spr_x : Int) + 8 then
      sprite_pixel_loop n y x sprite_h base_pt8 o k (si + 1)
    else
      let row : Int := y - top
      let col : Int := x - (spr_x : Int)
      let flip_h : Bool := decide (attr &&& 0x40 ≠ 0)
      let flip_v : Bool := decide (attr &&& 0x80 ≠ 0)
      let col := if flip_h then 7 - col else col
      let row := if flip_v then (sprite_h - 1) - row else row
      let px := sprite_pattern_pixel n sprite_h base_pt8 tile row col.toNat
      if px = 0 then sprite_pixel_loop n y x sprite_h base_pt8 o k (si + 1)
      else
        { px := px, palette := (attr &&& 0x03) % 256,
          priority := if attr &&& 0x20 ≠ 0 then 1 else 0,
          is_sprite0 := decide (n.ppu.scan_spr_i si = 0) }

def sprite_pixel (n : nes_t) (y x : Int) (o : sprite_out) : sprite_out :=
  let show_spr : Bool := decide (n.ppu.reg_mask &&& 0x10 ≠ 0)
  if ¬ show_spr then { o with px := 0 }
  else if x < 8 ∧ ¬ (n.ppu.reg_mask &&& 0x04 ≠ 0) then { o with px := 0 }
  else
    let sprite_h : Int := if n.ppu.render_ctrl &&& 0x20 ≠ 0 then 16 else 8
    let base_pt8 := if n.ppu.render_ctrl &&& 0x08 ≠ 0 then 0x1000 else 0x0000
    sprite_pixel_loop n y x sprite_h base_pt8 o n.ppu.scan_spr_count 0

def sprite0_pixel (n : nes_t) (y x : Int) : Nat :=
  if n.ppu.reg_mask &&& 0x10 = 0 then 0
  else if x < 8 ∧ ¬ (n.ppu.reg_mask &&& 0x04 ≠ 0) then 0
  else
    let spr_y := n.ppu.oam 0
    let tile := n.ppu.oam 1
    let attr := n.ppu.oam 2
    let spr_x := n.ppu.oam 3
    let sprite_h : Int := if n.ppu.render_ctrl &&& 0x20 ≠ 0 then 16 else 8
    let top : Int := (spr_y : Int) + 1
    if y < top ∨ y ≥ top + sprite_h then 0
    else if x < (spr_x : Int) ∨ x ≥ (spr_x : Int) + 8 then 0
    else
      let row : Int := y - top
      let col : Int := x - (spr_x : Int)
      let flip_h : Bool := decide (attr &&& 0x40 ≠ 0)
      let flip_v : Bool := decide (attr &&& 0x80 ≠ 0)
      let col := if flip_h then 7 - col else col
      let row := if flip_v then (sprite_h - 1) - row else row
      let base_pt8 := if n.ppu.render_ctrl &&& 0x08 ≠ 0 then 0x1000 else 0x0000
      sprite_pattern_pixel n sprite_h base_pt8 tile row col.toNat

/-- The colour index that one iteration of `render_scanline` computes for pixel `x`. -/
def render_pixel (n : nes_t) (y x : Int) : Nat :=
  let bg := ppu_get_bg_pixel n x y
  let pal_index := bg.2
  let bg_px := if x < 8 ∧ ¬ (n.ppu.reg_mask &&& 0x02 ≠ 0) then 0 else bg.1
  let sp := sprite_pixel n y x { px := 0, palette := 0, priority := 0, is_sprite0 := false }
  let sp_px := sp.px
  let bg_opaque : Bool := decide (bg_px ≠ 0) && decide (n.ppu.reg_mask &&& 0x08 ≠ 0)
  let sp_opaque : Bool := decide (sp_px ≠ 0) && decide (n.ppu.reg_mask &&& 0x10 ≠ 0)
  if sp_opaque ∧ (¬ bg_opaque ∨ sp.priority = 0) then
    let pal_addr := (0x3F10 + 1 + sp.palette * 4 + (sp_px - 1)) % 65536
    nes_ppu_bus_read n pal_addr &&& 0x3F
  else if bg_opaque then
    let pal_addr := (0x3F00 + 1 + pal_index * 4 + (bg_px - 1)) % 65536
    nes_ppu_bus_read n pal_addr &&& 0x3F
  else n.ppu.palette 0 &&& 0x3F

/-- The loop of `render_scanline`: pixels `x, x+1, ..`, `k` of them, written into the
framebuffer `fb`; nothing that a pixel is computed from changes during the loop. -/
def render_scanline_loop (n : nes_t) (y : Int) : Nat → Nat → (Nat → Nat) → (Nat → Nat)
  | 0, _, fb => fb
  | k + 1, x, fb =>
    let color_idx := render_pixel n y (x : Int)
    let fb := mem_set fb (y * 256 + (x : Int)).toNat (nes_palette_rgb color_idx)
    render_scanline_loop n y k (x + 1) fb

def render_scanline (n : nes_t) (y : Int) : nes_t :=
  { n with ppu := { n.ppu with framebuffer := render_scanline_loop n y 256 0 n.ppu.framebuffer } }

/-- First block of `ppu_tick`: at (scanline -1, dot 0) the scroll and control latches
are loaded. -/
def ppu_tick_frame_latch (n : nes_t) : nes_t :=
  if n.ppu.scanline = -1 ∧ n.ppu.dot = 0 then
    { n with ppu := { n.ppu with
        scroll_x := n.ppu.scroll_x_next, scroll_y := n.ppu.scroll_y_next,
        render_ctrl := n.ppu.render_ctrl_next } }
  else n

/-- Second block of `ppu_tick`: at dot 257 of a visible scanline the horizontal scroll
and the control latch are loaded. -/
def ppu_tick_line_latch (n : nes_t) : nes_t :=
  if n.ppu.scanline ≥ 0 ∧ n.ppu.scanline < 240 ∧ n.ppu.dot = 257 then
    { n with ppu := { n.ppu with
        scroll_x := n.ppu.scroll_x_next, render_ctrl := n.ppu.render_ctrl_next } }
  else n

/-- Third block of `ppu_tick`: at dot 0 of a visible scanline the sprites are evaluated
and the line is rendered. -/
def ppu_tick_render (n : nes_t) : nes_t :=
  if n.ppu.scanline ≥ 0 ∧ n.ppu.scanline < 240 ∧ n.ppu.dot = 0 then
    let n := eval_sprites_for_scanline n n.ppu.scanline
    render_scanline n n.ppu.scanline
  else n

/-- Fourth block of `ppu_tick`: the sprite-0 hit.  The background pixel that the source
also computes here is discarded (`(void)bg_px`) and its computation has no effect. -/
def ppu_tick_sprite0 (n : nes_t) : nes_t :=
  if n.ppu.reg_status &&& 0x40 = 0 ∧ n.ppu.scanline ≥ 0 ∧ n.ppu.scanline < 240 ∧
      n.ppu.dot ≥ 1 ∧ n.ppu.dot ≤ 256 then
    let x : Int := n.ppu.dot - 1
    if ¬ (x < 8 ∧ (¬ (n.ppu.reg_mask &&& 0x02 ≠ 0) ∨ ¬ (n.ppu.reg_mask &&& 0x04 ≠ 0))) then
      let s0 := sprite0_pixel n n.ppu.scanline x
      if s0 ≠ 0 ∧ n.ppu.reg_mask &&& 0x08 ≠ 0 ∧ n.ppu.reg_mask &&& 0x10 ≠ 0 then
        { n with ppu := { n.ppu with reg_status := n.ppu.reg_status ||| 0x40 } }
      else n
    else n
  else n

/-- Fifth block of `ppu_tick`: at (scanline 241, dot 1) vblank starts. -/
def ppu_tick_vblank (n : nes_t) : nes_t :=
  if n.ppu.scanline = 241 ∧ n.ppu.dot = 1 then
    let n : nes_t := { n with ppu := { n.ppu with reg_status := n.ppu.reg_status ||| 0x80 } }
    let n : nes_t := if n.ppu.reg_ctrl &&& 0x80 ≠ 0 then cpu6502_set_nmi n else n
    { n with ppu := { n.ppu with frame_ready := true } }
  else n

/-- Sixth block of `ppu_tick`: at (scanline -1, dot 1) vblank and the sprite-0 hit are
cleared. -/
def ppu_tick_prerender (n : nes_t) : nes_t :=
  if n.ppu.scanline = -1 ∧ n.ppu.dot = 1 then
    let n : nes_t := { n with ppu := { n.ppu with reg_status := n.ppu.reg_status &&& 0x7F } }
    { n with ppu := { n.ppu with reg_status := n.ppu.reg_status &&& 0xBF } }
  else n

/-- Last block of `ppu_tick`: the dot and scanline counters advance. -/
def ppu_tick_advance (n : nes_t) : nes_t :=
  let n : nes_t := { n with ppu := { n.ppu with dot := n.ppu.dot + 1 } }
  if n.ppu.dot ≥ 341 then
    let n : nes_t := { n with ppu := { n.ppu with dot := 0 } }
    let n : nes_t := { n with ppu := { n.ppu with scanline := n.ppu.scanline + 1 } }
    if n.ppu.scanline ≥ 261 then { n with ppu := { n.ppu with scanline := -1 } } else n
  else n

/-- `ppu_tick`: its seven blocks in source order. -/
def ppu_tick (n : nes_t) : nes_t :=
  let n := ppu_tick_frame_latch n
  let n := ppu_tick_line_latch n
  let n := ppu_tick_render n
  let n := ppu_tick_sprite0 n
  let n := ppu_tick_vblank n
  let n := ppu_tick_prerender n
  ppu_tick_advance n

/-- The machine after `k` successive CPU reads of `$4016`. -/
def pad_reads (n : nes_t) : Nat → nes_t
  | 0 => n
  | k + 1 => (nes_cpu_read (pad_reads n k) 0x4016).2

/-- The example machine in vblank (`PPUSTATUS = $E0`) with the write toggle set and NMI
generation off. -/
def demo_vblank : nes_t :=
  { demo_nes with ppu := { demo_nes.ppu with reg_status := 0xE0, w := true } }

/-- The VRAM index of a nametable address as the mirroring rule states it: logical table
`T = ((addr - $2000) & $FFF) / $400` and offset `o = addr & $3FF` give `P*$400 + o` with
`P = T / 2` under horizontal and `P = T mod 2` under vertical mirroring; four-screen
takes `(addr - $2000) & $7FF`. -/
def nametable_index (m : nes_mirror_t) (addr : Nat) : Nat :=
  let T := ((addr - 0x2000) &&& 0x0FFF) / 0x0400
  let o := addr &&& 0x03FF
  match m with
  | NES_MIRROR_HORIZONTAL => (T / 2) * 0x0400 + o
  | NES_MIRROR_VERTICAL => (T % 2) * 0x0400 + o
  | NES_MIRROR_FOURSCREEN => (addr - 0x2000) &&& 0x07FF

/-- The example machine with a vertically mirroring cartridge. -/
def demo_vertical : nes_t :=
  { demo_nes with cart := { demo_cart with
      info := { demo_cart.info with mirror := NES_MIRROR_VERTICAL } } }

/-- The example machine with `$AA` stored at `$0200..$02FF` (and zero elsewhere in RAM). -/
def demo_dma : nes_t :=
  { demo_nes with ram := fun i => if 0x0200 ≤ i ∧ i < 0x0300 then 0xAA else 0 }

/-- The example machine with controller byte `$81` (A and Right held). -/
def demo_pad : nes_t := { demo_nes with pad1_state := 0x81 }

/-- The example machine with the VRAM address at `$3EFF`, the last nametable-mirror byte
below the palette, holding `$55` (VRAM index `$6FF` under horizontal mirroring), and the
read buffer holding `$11`. -/
def demo_ppudata : nes_t :=
  { demo_nes with ppu := { demo_nes.ppu with
      v := 0x3EFF, chr_read_buffer := 0x11,
      vram := mem_set demo_nes.ppu.vram 0x06FF 0x55 } }

/-- The example machine with the VRAM address at `$2005`, that byte holding `$55`, and the
read buffer holding `$11`. -/
def demo_ppudata_low : nes_t :=
  { demo_nes with ppu := { demo_nes.ppu with
      v := 0x2005, chr_read_buffer := 0x11,
      vram := mem_set demo_nes.ppu.vram 0x0005 0x55 } }

/-- The example machine at (scanline 241, dot 1) with NMI generation on and a clear status. -/
def demo_tick_vblank : nes_t :=
  { demo_nes with ppu := { demo_nes.ppu with
      scanline := 241, dot := 1, reg_ctrl := 0x80, reg_status := 0x00 } }

/-- The example machine at (scanline -1, dot 1) with status `$E0`. -/
def demo_tick_prerender : nes_t :=
  { demo_nes with ppu := { demo_nes.ppu with scanline := -1, dot := 1, reg_status := 0xE0 } }

/-- The example machine at (scanline 100, dot 0), in vblank status `$80`, with eight-line
sprites all at `Y = 0`. -/
def demo_tick_visible : nes_t :=
  { demo_nes with ppu := { demo_nes.ppu with scanline := 100, dot := 0, reg_status := 0x80 } }

/-- The example machine about to execute the undecoded opcode `$02` placed in RAM at
`$0200`. -/
def demo_unknown : nes_t := demo_run [0x02]

/-! ## The iNES header, as the claims about the loader read it -/

/-- Byte `i` of the file (zero past its end). -/
def hdr (f : List Nat) (i : Nat) : Nat := f.getD i 0

/-- The file starts with `N`, `E`, `S`, `$1A`. -/
def has_nes_magic (f : List Nat) : Prop :=
  hdr f 0 = 0x4E ∧ hdr f 1 = 0x45 ∧ hdr f 2 = 0x53 ∧ hdr f 3 = 0x1A

instance (f : List Nat) : Decidable (has_nes_magic f) := by
  unfold has_nes_magic; infer_instance

/-- The file starts with `$7F`, `E`, `L`, `F`. -/
def has_elf_magic (f : List Nat) : Prop :=
  hdr f 0 = 0x7F ∧ hdr f 1 = 0x45 ∧ hdr f 2 = 0x4C ∧ hdr f 3 = 0x46

instance (f : List Nat) : Decidable (has_elf_magic f) := by
  unfold has_elf_magic; infer_instance

/-- Length of the trainer that the header announces: 512 when byte 6 bit 2 is set. -/
def trainer_len (f : List Nat) : Nat := if hdr f 6 &&& 0x04 ≠ 0 then 512 else 0

/-- Length of a complete image: header, optional trainer, and the PRG and CHR sizes that
the header announces. -/
def image_len (f : List Nat) : Nat :=
  16 + trainer_len f + hdr f 4 * 16384 + hdr f 5 * 8192

/-- The mapper number of the header: `(byte 6 >> 4) | (byte 7 & $F0)`. -/
def hdr_mapper (f : List Nat) : Nat := (hdr f 6 >>> 4) ||| (hdr f 7 &&& 0xF0)

/-- The first sixteen bytes of an ELF executable. -/
def demo_elf : List Nat := [0x7F, 0x45, 0x4C, 0x46, 2, 1, 1, 0, 0, 0, 0, 0, 0, 0, 0, 0]

/-! ## Checked cartridge reads

The C code indexes `prg_rom` and divides by `prg_size`; both are undefined for some inputs.
The checked read makes that explicit. -/

/-- Number of bytes that `ines_load` allocates for PRG:
`malloc(prg_rom_size ? prg_rom_size : 1)`. -/
def prg_alloc (c : cart_t) : Nat :=
  if c.info.prg_rom_size ≠ 0 then c.info.prg_rom_size else 1

/-- `cart_cpu_read` with its modulo and its array index checked: `none` where the C code has
undefined behaviour, a zero divisor in `offset % prg_size` or an index outside the
allocation of `prg_rom`. -/
def cart_cpu_read_checked (n : nes_t) (addr : Nat) : Option Nat :=
  if addr < 0x8000 then some 0
  else
    let prg_size := n.cart.info.prg_rom_size
    let offset := addr - 0x8000
    let offset := if prg_size = 16 * 1024 then offset % (16 * 1024) else offset
    if prg_size = 0 then none
    else if offset % prg_size < prg_alloc n.cart then some (n.cart.prg_rom (offset % prg_size))
    else none

/-- A header-only iNES file: NES magic, zero PRG chunks, zero CHR chunks, mapper 0. -/
def demo_rom_empty : List Nat := [0x4E, 0x45, 0x53, 0x1A, 0, 0, 0, 0, 0, 0, 0, 0, 0, 0, 0, 0]

/-- The cartridge that `ines_load` builds from `demo_rom_empty`: no PRG, 8 KiB of CHR RAM. -/
def demo_rom_empty_cart : cart_t :=
  { info := { mapper := 0, mirror := NES_MIRROR_HORIZONTAL, has_battery := false,
              has_trainer := false, is_nes2 := false, prg_rom_size := 0,
              chr_rom_size := 8 * 1024, prg_ram_size := 8 * 1024 },
    prg_rom := file_bytes demo_rom_empty 16 0, chr := mem_zero, chr_is_ram := true }

/-! ## The driver loop `nes_run_frame` (`nes.c`) -/

/-- The inner loop `for (c = 0; c < cpu_cycles * 3; c++) ppu_tick(..)`: `k` ticks. -/
def ppu_tick_loop (n : nes_t) : Nat → nes_t
  | 0 => n
  | k + 1 => ppu_tick_loop (ppu_tick n) k

/-- The body of the outer loop up to the test of `frame_ready`: one CPU step, then three
PPU ticks for each cycle it returned. -/
def driver_iteration (n : nes_t) : nes_t :=
  let r := cpu6502_step n
  ppu_tick_loop r.2 (r.1 * 3)

/-- The outer loop of `nes_run_frame` with `k` iterations left. -/
def nes_run_frame_loop : Nat → nes_t → Bool × nes_t
  | 0, n => (false, n)
  | k + 1, n =>
    let n := driver_iteration n
    if n.ppu.frame_ready then (true, n) else nes_run_frame_loop k n

/-- `nes_run_frame`: the returned flag and the machine left behind.  The loop
`for (i = 0; i < max_cpu_steps; i++)` has `max_cpu_steps` iterations, none when that is
zero or negative. -/
def nes_run_frame (n : nes_t) (max_cpu_steps : Int) : Bool × nes_t :=
  let n : nes_t := { n with ppu := { n.ppu with frame_ready := false } }
  nes_run_frame_loop max_cpu_steps.toNat n

/-! ## Runs of the driver, as the claims about scheduling read them -/

/-- The machine after `k` driver iterations. -/
def driver_run (n : nes_t) : Nat → nes_t
  | 0 => n
  | k + 1 => driver_iteration (driver_run n k)

/-- The CPU cycles returned by the steps of the first `k` driver iterations. -/
def driver_cycles (n : nes_t) : Nat → Nat
  | 0 => 0
  | k + 1 => driver_cycles n k + (cpu6502_step (driver_run n k)).1

/-- The number of ticks since the start of the frame: `(scanline + 1) * 341 + dot`. -/
def ppu_clock (n : nes_t) : Int := (n.ppu.scanline + 1) * 341 + n.ppu.dot

/-- The position invariant of the PPU: scanline in `[-1, 260]`, dot in `[0, 340]`. -/
def ppu_in_grid (n : nes_t) : Prop :=
  -1 ≤ n.ppu.scanline ∧ n.ppu.scanline ≤ 260 ∧ 0 ≤ n.ppu.dot ∧ n.ppu.dot ≤ 340

instance (n : nes_t) : Decidable (ppu_in_grid n) := by
  unfold ppu_in_grid; infer_instance

/-- The PPU is about to execute the tick at (scanline 241, dot 1). -/
def at_vblank (n : nes_t) : Prop := n.ppu.scanline = 241 ∧ n.ppu.dot = 1

instance (n : nes_t) : Decidable (at_vblank n) := by
  unfold at_vblank; infer_instance

/-- The next `k` ticks from `n` include the tick at (scanline 241, dot 1). -/
def crosses_vblank (n : nes_t) (k : Nat) : Prop :=
  ∃ j, j < k ∧ at_vblank (ppu_tick_loop n j)

instance (n : nes_t) (k : Nat) : Decidable (crosses_vblank n k) := by
  unfold crosses_vblank; infer_instance

/-- The PPU ticks of the driver iteration that starts in `n` include the tick at
(scanline 241, dot 1). -/
def step_hits_vblank (n : nes_t) : Prop :=
  crosses_vblank (cpu6502_step n).2 ((cpu6502_step n).1 * 3)

instance (n : nes_t) : Decidable (step_hits_vblank n) := by
  unfold step_hits_vblank; infer_instance

/-- What no CPU bus access changes in the PPU: the position, the frame-ready flag and the
status bits other than bit 7. -/
def ppu_beam (n : nes_t) : Int × Int × Bool × Nat :=
  (n.ppu.scanline, n.ppu.dot, n.ppu.frame_ready, n.ppu.reg_status &&& 0x7F)

/-! ## The sprite-0 hit flag over time, as the claim about it reads it -/

/-- The condition under which the tick started in `n` raises the sprite-0 hit: a visible
scanline, a dot in `1..256`, not the masked left column, an opaque sprite-0 pixel, and both
rendering bits of the mask set. -/
def sprite0_hit_cond (n : nes_t) : Prop :=
  (0 ≤ n.ppu.scanline ∧ n.ppu.scanline < 240) ∧ (1 ≤ n.ppu.dot ∧ n.ppu.dot ≤ 256) ∧
  ¬ (n.ppu.dot - 1 < 8 ∧ (n.ppu.reg_mask &&& 0x02 = 0 ∨ n.ppu.reg_mask &&& 0x04 = 0)) ∧
  sprite0_pixel n n.ppu.scanline (n.ppu.dot - 1) ≠ 0 ∧
  n.ppu.reg_mask &&& 0x08 ≠ 0 ∧ n.ppu.reg_mask &&& 0x10 ≠ 0

instance (n : nes_t) : Decidable (sprite0_hit_cond n) := by
  unfold sprite0_hit_cond; infer_instance

/-- One event of a run of the machine: a PPU tick, a CPU step, or a single CPU bus access. -/
inductive machine_event where
  | tick : machine_event
  | cpu_step : machine_event
  | cpu_read : Nat → machine_event
  | cpu_write : Nat → Nat → machine_event

def run_event (n : nes_t) : machine_event → nes_t
  | machine_event.tick => ppu_tick n
  | machine_event.cpu_step => (cpu6502_step n).2
  | machine_event.cpu_read a => (nes_cpu_read n a).2
  | machine_event.cpu_write a v => nes_cpu_write n a v

/-- The event is the tick at (scanline -1, dot 1). -/
def is_prerender_tick (n : nes_t) : machine_event → Prop
  | machine_event.tick => n.ppu.scanline = -1 ∧ n.ppu.dot = 1
  | _ => False

instance (n : nes_t) (e : machine_event) : Decidable (is_prerender_tick n e) := by
  cases e <;> unfold is_prerender_tick <;> infer_instance

/-- No event of the run from `n` is the tick at (scanline -1, dot 1). -/
def no_prerender_tick (n : nes_t) : List machine_event → Prop
  | [] => True
  | e :: es => ¬ is_prerender_tick n e ∧ no_prerender_tick (run_event n e) es

instance (n : nes_t) (es : List machine_event) : Decidable (no_prerender_tick n es) := by
  induction es generalizing n with
  | nil => unfold no_prerender_tick; infer_instance
  | cons e es ih => unfold no_prerender_tick; exact instDecidableAnd

/-- How often status bit 6 goes from 0 to 1 in the run from `n`. -/
def hit_rises (n : nes_t) : List machine_event → Nat
  | [] => 0
  | e :: es =>
    (if n.ppu.reg_status &&& 0x40 = 0 ∧ (run_event n e).ppu.reg_status &&& 0x40 ≠ 0 then 1 else 0)
      + hit_rises (run_event n e) es

/-- The example machine with all-ones CHR, rendering on, and sprite 0 at `(15, 5)`, about to
execute the tick at (scanline 10, dot 20). -/
def demo_sprite0 : nes_t :=
  { demo_nes with
    cart := { demo_cart with chr := fun _ => 0xFF },
    ppu := { demo_nes.ppu with
      scanline := 10, dot := 20, reg_mask := 0x1E, reg_status := 0x00,
      oam := mem_set (mem_set demo_nes.ppu.oam 0 5) 3 15 } }

/-- The example machine at (scanline 241, dot 0), about to execute a `NOP` from the cartridge,
with NMI generation on. -/
def demo_frame : nes_t :=
  { demo_nes with ppu := { demo_nes.ppu with scanline := 241, dot := 0, reg_ctrl := 0x80 } }

/-- The example machine at (scanline 241, dot 0) with NMI generation on and `A = $02`, about
to execute `STA $4014` from RAM at `$0200`: the OAM DMA that this starts stalls the CPU. -/
def demo_dma_vblank : nes_t :=
  { set_a (demo_run [0x8D, 0x14, 0x40]) 0x02 with
    ppu := { demo_nes.ppu with scanline := 241, dot := 0, reg_ctrl := 0x80 } }

/-! ## Sprite evaluation, as the claim about it reads it -/

/-- Sprite `i` is in range on line `y` for sprite height `sprite_h`:
`OAM[4i] + 1 <= y < OAM[4i] + 1 + sprite_h`. -/
def sprite_in_range (oam : Nat → Nat) (sprite_h y : Int) (i : Nat) : Prop :=
  (oam (i * 4 + 0) : Int) + 1 ≤ y ∧ y < (oam (i * 4 + 0) : Int) + 1 + sprite_h

instance (oam : Nat → Nat) (sprite_h y : Int) (i : Nat) :
    Decidable (sprite_in_range oam sprite_h y i) := by
  unfold sprite_in_range; infer_instance

/-- The sprite height that evaluation uses: 16 when PPUCTRL bit 5 is set, else 8. -/
def eval_sprite_h (p : ppu_t) : Int := if p.reg_ctrl &&& 0x20 ≠ 0 then 16 else 8

/-- The sprites in range on line `y`, in increasing OAM index order. -/
def sprites_on_line (p : ppu_t) (y : Int) : List Nat :=
  (List.range' 0 64).filter (fun i => decide (sprite_in_range p.oam (eval_sprite_h p) y i))

/-- Entry `j` of the per-scanline sprite cache: index, y, tile, attribute, x. -/
def scan_entry (p : ppu_t) (j : Nat) : Nat × Nat × Nat × Nat × Nat :=
  (p.scan_spr_i j, p.scan_spr_y j, p.scan_spr_tile j, p.scan_spr_attr j, p.scan_spr_x j)

/-- Sprite `i` of OAM as a cache entry: its index and its four bytes. -/
def oam_entry (oam : Nat → Nat) (i : Nat) : Nat × Nat × Nat × Nat × Nat :=
  (i % 256, oam (i * 4 + 0), oam (i * 4 + 1), oam (i * 4 + 2), oam (i * 4 + 3))

/-- The example machine on scanline 3 with nine sprites at `Y = 0` (sprites 0..8) and the
others below the screen at `Y = $F0`. -/
def demo_nine : nes_t :=
  { demo_nes with ppu := { demo_nes.ppu with
      scanline := 3, dot := 0, oam := fun a => if a < 36 then 0 else 0xF0 } }

/-- A 16 KiB PRG that holds `JMP $8000` at `$8000` and the reset vector `$8000`. -/
def demo_loop_prg : Nat → Nat := fun i =>
  if i = 0 then 0x4C else if i = 1 then 0x00 else if i = 2 then 0x80
  else if i = 0x3FFD then 0x80 else 0x00

def demo_loop_cart : cart_t :=
  { info := { cart_zero.info with prg_rom_size := 16 * 1024, chr_rom_size := 8 * 1024 },
    prg_rom := demo_loop_prg, chr := mem_zero, chr_is_ram := true }

/-- The machine after `nes_reset` with the cartridge that loops on `JMP $8000`. -/
def demo_loop : nes_t := nes_reset { nes_zero with cart := demo_loop_cart }

/-- A complete 16 KiB iNES image whose header names mapper 1 (byte 6 = `$10`): the header
followed by a PRG filled with `$EA`. -/
def demo_rom_mapper1 : List Nat :=
  [0x4E, 0x45, 0x53, 0x1A, 1, 0, 0x10, 0, 0, 0, 0, 0, 0, 0, 0, 0] ++ List.replicate 16384 0xEA

/-- The example machine about to execute `PHP` placed in RAM at `$0200`. -/
def demo_php : nes_t := demo_run [0x08]

/-- The example machine about to execute `RTI` placed in RAM at `$0200`, with `SP = $FD` and
the bytes `$FF`, `$34`, `$12` at `$01FE`, `$01FF` and, after the wrap of SP, `$0100`. -/
def demo_rti : nes_t :=
  set_pc { demo_nes with
    ram := mem_set (mem_set (mem_set (mem_of_list 0x0200 [0x40]) 0x01FE 0xFF) 0x01FF 0x34)
      0x0100 0x12 } 0x0200

/-- The example machine with `SP = $00`, about to execute `JSR $0300` placed in RAM at
`$0200`, with an `RTS` at `$0300`. -/
def demo_jsr : nes_t :=
  set_sp (set_pc { demo_nes with
    ram := mem_set (mem_of_list 0x0200 [0x20, 0x00, 0x03]) 0x0300 0x60 } 0x0200) 0x00

/-- The active scroll and control latches of the PPU: `scroll_x`, `scroll_y`, `render_ctrl`. -/
def ppu_latches (n : nes_t) : Nat × Nat × Nat :=
  (n.ppu.scroll_x, n.ppu.scroll_y, n.ppu.render_ctrl)

/-- The example machine at (scanline -1, dot 0) with `$11`, `$22`, `$03` waiting in the
next-latches. -/
def demo_latch_frame : nes_t :=
  { demo_nes with ppu := { demo_nes.ppu with
      scanline := -1, dot := 0, scroll_x_next := 0x11, scroll_y_next := 0x22,
      render_ctrl_next := 0x03 } }

/-- The example machine at (scanline 100, dot 257) with `$11`, `$22`, `$03` waiting in the
next-latches. -/
def demo_latch_line : nes_t :=
  { demo_nes with ppu := { demo_nes.ppu with
      scanline := 100, dot := 257, scroll_x_next := 0x11, scroll_y_next := 0x22,
      render_ctrl_next := 0x03 } }

/-! ## Runs of PPU register accesses, as the claim about the VRAM addresses reads them -/

/-- One CPU access to a PPU register: a read of register `a`, or a write of `v` to it. -/
inductive ppu_access where
  | read : Nat → ppu_access
  | write : Nat → Nat → ppu_access

/-- The machine after a sequence of PPU register accesses. -/
def ppu_access_run (n : nes_t) : List ppu_access → nes_t
  | [] => n
  | ppu_access.read a :: es => ppu_access_run (ppu_cpu_read n a).2 es
  | ppu_access.write a v :: es => ppu_access_run (ppu_cpu_write n a v) es

/-- The value written by the access is a byte, as the `uint8_t` parameter makes it. -/
def ppu_access_byte : ppu_access → Prop
  | ppu_access.read _ => True
  | ppu_access.write _ v => v < 256

instance (e : ppu_access) : Decidable (ppu_access_byte e) := by
  cases e <;> unfold ppu_access_byte <;> infer_instance

/-- The access is to PPUDATA (register 7, `$2007` and its mirrors). -/
def ppu_access_data : ppu_access → Prop
  | ppu_access.read a => a &&& 7 = 7
  | ppu_access.write a _ => a &&& 7 = 7

instance (e : ppu_access) : Decidable (ppu_access_data e) := by
  cases e <;> unfold ppu_access_data <;> infer_instance

/-- Writes of `$03` to PPUCTRL, `$FF` three times to PPUSCROLL and `$FF` to PPUADDR, then a
read of PPUDATA. -/
def demo_vram_accesses : List ppu_access :=
  [ppu_access.write 0x2000 0x03, ppu_access.write 0x2005 0xFF, ppu_access.write 0x2005 0xFF,
   ppu_access.write 0x2005 0xFF, ppu_access.write 0x2006 0xFF, ppu_access.read 0x2007]

/-- The machine after a sequence of events: PPU ticks, CPU steps and single bus accesses. -/
def run_events (n : nes_t) : List machine_event → nes_t
  | [] => n
  | e :: es => run_events (run_event n e) es

/-- Bits 4 and 5 of the status register P. -/
def flag_bits45 (n : nes_t) : Nat := n.cpu.p &&& 0x30

/-- The number of ticks that remain before the tick at (scanline 241, dot 1), whose tick
count is `(241 + 1) * 341 + 1 = 82523`. -/
def vblank_dist (n : nes_t) : Int := (82523 - ppu_clock n) % 89342

/-! ## The pixels of a scanline, as the claim about rendering reads them -/

/-- The pixel of cached sprite `si` at column `x` of line `y`: 0 outside its eight columns,
else the pattern pixel that `sprite_pixel` samples after the flips. -/
def sprite_px_at (n : nes_t) (y x sprite_h : Int) (base_pt8 si : Nat) : Nat :=
  let spr_x := n.ppu.scan_spr_x si
  let attr := n.ppu.scan_spr_attr si
  let top : Int := (n.ppu.scan_spr_y si : Int) + 1
  if x < (spr_x : Int) ∨ x ≥ (spr_x : Int) + 8 then 0
  else
    let row : Int := y - top
    let col : Int := x - (spr_x : Int)
    let col := if attr &&& 0x40 ≠ 0 then 7 - col else col
    let row := if attr &&& 0x80 ≠ 0 then (sprite_h - 1) - row else row
    sprite_pattern_pixel n sprite_h base_pt8 (n.ppu.scan_spr_tile si) row col.toNat

/-- The pixel of cached sprite `si` at `x`, with the sprite height and the pattern table of
the active control latch. -/
def cached_sprite_px (n : nes_t) (y x : Int) (si : Nat) : Nat :=
  sprite_px_at n y x (if n.ppu.render_ctrl &&& 0x20 ≠ 0 then 16 else 8)
    (if n.ppu.render_ctrl &&& 0x08 ≠ 0 then 0x1000 else 0x0000) si

/-- The pixel of cached sprite `si` at `(x, y)`, for a position inside the sprite, read from
the design's words: the row and column inside the sprite, mirrored when attribute bit 7
(vertical flip) or bit 6 (horizontal flip) is set; for 8-pixel sprites the pattern of the
tile in the table of control bit 3; for 16-pixel sprites the table of tile bit 0 and the
tile pair `tile & $FE`, its second tile for the rows 8..15; the pixel is bit `7 - column` of
the two pattern planes of that row. -/
def claimed_sprite_px (n : nes_t) (y x si : Nat) : Nat :=
  let tile := n.ppu.scan_spr_tile si
  let attr := n.ppu.scan_spr_attr si
  let row := y - (n.ppu.scan_spr_y si + 1)
  let col := x - n.ppu.scan_spr_x si
  let col := if attr / 64 % 2 = 1 then 7 - col else col
  let pt :=
    if n.ppu.render_ctrl / 32 % 2 = 1 then
      let row := if attr / 128 % 2 = 1 then 15 - row else row
      (if tile % 2 = 1 then 0x1000 else 0) + (tile % 256 / 2 * 2 + row / 8) * 16 + row % 8
    else
      let row := if attr / 128 % 2 = 1 then 7 - row else row
      (if n.ppu.render_ctrl / 8 % 2 = 1 then 0x1000 else 0) + tile * 16 + row
  2 * (ppu_bus_read n (pt + 8) / 2 ^ (7 - col) % 2) + ppu_bus_read n pt / 2 ^ (7 - col) % 2

/-- The first cached sprite with a non-zero pixel at `x`, if there is one. -/
def first_opaque_sprite (n : nes_t) (y x : Int) : Option Nat :=
  (List.range' 0 n.ppu.scan_spr_count).find? (fun si => decide (cached_sprite_px n y x si ≠ 0))

/-- The background of the claim at pixel `x` of line `y`, read from the design's words:
world coordinates `(x + scroll_x) mod 512` and `(y + scroll_y) mod 480`; the nametable is
the base table of the control latch XOR-ed by the half each coordinate falls in; the tile
index comes from the nametable, the palette from the 2-bit quadrant field of the attribute
byte, and the pixel from bit `7 - X mod 8` of the two pattern planes of the tile row.  The
result is `(pixel, palette)`. -/
def claimed_background (n : nes_t) (x y : Nat) : Nat × Nat :=
  let X := (x + n.ppu.scroll_x) % 512
  let Y := (y + n.ppu.scroll_y) % 480
  let col := X % 256 / 8
  let row := Y % 240 / 8
  let nt := ((n.ppu.render_ctrl % 4) ^^^ (X / 256)) ^^^ (2 * (Y / 240))
  let base := 0x2000 + nt * 0x400
  let tile := ppu_bus_read n (base + row * 32 + col)
  let attr := ppu_bus_read n (base + 0x3C0 + row / 4 * 8 + col / 4)
  let quadrant := 2 * (row / 2 % 2) + col / 2 % 2
  let pal := attr / 4 ^ quadrant % 4
  let table := if n.ppu.render_ctrl / 16 % 2 = 1 then 0x1000 else 0
  let pt := table + tile * 16 + Y % 8
  let lo := ppu_bus_read n pt
  let hi := ppu_bus_read n (pt + 8)
  let bit := 7 - X % 8
  (2 * (hi / 2 ^ bit % 2) + lo / 2 ^ bit % 2, pal)

/-- The background pixel of the claim: forced to 0 when the background is disabled or when
`x < 8` and mask bit 1 is clear, else the pixel of the background at `(x, y)`. -/
def claimed_bg_px (n : nes_t) (y x : Int) : Nat :=
  if n.ppu.reg_mask &&& 0x08 = 0 ∨ (x < 8 ∧ n.ppu.reg_mask &&& 0x02 = 0) then 0
  else (claimed_background n x.toNat y.toNat).1

/-- The background palette of the claim at `(x, y)`: the attribute field of the tile. -/
def claimed_bg_palette (n : nes_t) (y x : Int) : Nat :=
  (claimed_background n x.toNat y.toNat).2

/-- The sprite of the claim: none when sprites are disabled or when `x < 8` and mask bit 2 is
clear, else the first cached sprite with a non-zero pixel at `x`. -/
def claimed_sprite (n : nes_t) (y x : Int) : Option Nat :=
  if n.ppu.reg_mask &&& 0x10 = 0 ∨ (x < 8 ∧ n.ppu.reg_mask &&& 0x04 = 0) then none
  else first_opaque_sprite n y x

/-- The colour index of the claim for pixel `x` of line `y`: the sprite palette entry when a
sprite pixel is there and the background is transparent or the sprite is in front, else the
background palette entry when the background pixel is opaque, else `palette[0]`; 6 bits. -/
def claimed_colour (n : nes_t) (y x : Int) : Nat :=
  match claimed_sprite n y x with
  | some si =>
    if claimed_bg_px n y x = 0 ∨ n.ppu.scan_spr_attr si &&& 0x20 = 0 then
      n.ppu.palette (0x10 + 4 * (n.ppu.scan_spr_attr si &&& 0x03) + cached_sprite_px n y x si)
        &&& 0x3F
    else
      n.ppu.palette (4 * claimed_bg_palette n y x + claimed_bg_px n y x) &&& 0x3F
  | none =>
    if claimed_bg_px n y x ≠ 0 then
      n.ppu.palette (4 * claimed_bg_palette n y x + claimed_bg_px n y x) &&& 0x3F
    else n.ppu.palette 0 &&& 0x3F

/-- What `sprite_pixel` returns and leaves in its out-parameters when the first sprite with
a non-zero pixel is `r`; `o` holds the out-parameters as the caller initialised them. -/
def sprite_found (n : nes_t) (y x sprite_h : Int) (base_pt8 : Nat) (o : sprite_out) :
    Option Nat → sprite_out
  | none => { o with px := 0 }
  | some j =>
    { px := sprite_px_at n y x sprite_h base_pt8 j,
      palette := (n.ppu.scan_spr_attr j &&& 0x03) % 256,
      priority := if n.ppu.scan_spr_attr j &&& 0x20 ≠ 0 then 1 else 0,
      is_sprite0 := decide (n.ppu.scan_spr_i j = 0) }

/-- The example machine on line 10 with rendering of sprites enabled, all-ones CHR, one cached
sprite (index 0, at `x = 15`, in front of the background) and `$16` in sprite palette
entry 3. -/
def demo_render : nes_t :=
  { demo_nes with
    cart := { demo_cart with chr := fun _ => 0xFF },
    ppu := { demo_nes.ppu with
      scanline := 10, dot := 0, reg_mask := 0x14, scan_spr_count := 1,
      scan_spr_y := mem_set mem_zero 0 5, scan_spr_x := mem_set mem_zero 0 15,
      palette := mem_set mem_zero 0x13 0x16 } }

/-- The example machine on line 10 with background and sprites enabled, the background
hidden in the left eight columns (mask `$1C`) and the scroll at `(3, 10)`.  CHR: tile 0 is
empty and every other tile has the row `3 3 1 1 2 2 0 0`; the nametable alternates tile 1
and tile 0, its attribute bytes are `$E4`; palette entry `i` holds `2i + 1`.  Three cached
sprites of tile 1 on the line: at `x = 40` in front (palette 1), at `x = 80` behind the
background (palette 2), at `x = 2` flipped horizontally (palette 3). -/
def demo_render_bg : nes_t :=
  { demo_nes with
    cart := { demo_cart with
      chr := fun i => if i < 16 then 0 else if i % 16 < 8 then 0xF0 else 0xCC },
    ppu := { demo_nes.ppu with
      scanline := 10, dot := 0, reg_mask := 0x1C, scroll_x := 3, scroll_y := 10,
      vram := fun i => if i < 0x3C0 then (if i % 2 = 0 then 1 else 0) else 0xE4,
      palette := fun i => if i < 32 then 2 * i + 1 else 0,
      scan_spr_count := 3,
      scan_spr_y := fun _ => 9,
      scan_spr_tile := fun _ => 1,
      scan_spr_attr := fun i => if i = 0 then 0x01 else if i = 1 then 0x22 else 0x43,
      scan_spr_x := fun i => if i = 0 then 40 else if i = 1 then 80 else 2 } }

/-- The same machine with background and sprites disabled (mask 0). -/
def demo_render_off : nes_t :=
  { demo_render_bg with ppu := { demo_render_bg.ppu with reg_mask := 0 } }

/-! ## The representation invariant: bytes are bytes

The C types make every 8-bit register and memory cell a byte.  Here they are natural numbers,
and the invariant says that each of them is below 256. -/

/-- The 8-bit CPU registers hold bytes. -/
def cpu_bytes (c : cpu6502_t) : Prop :=
  c.a < 256 ∧ c.x < 256 ∧ c.y < 256 ∧ c.sp < 256 ∧ c.p < 256

/-- What the CPU can read from the PPU holds bytes: status, read buffer, OAM, VRAM and
palette. -/
def ppu_bytes (p : ppu_t) : Prop :=
  p.reg_status < 256 ∧ p.chr_read_buffer < 256 ∧ (∀ i, p.oam i < 256) ∧
  (∀ i, p.vram i < 256) ∧ (∀ i, p.palette i < 256)

/-- The cartridge holds bytes. -/
def cart_bytes (c : cart_t) : Prop := (∀ i, c.prg_rom i < 256) ∧ (∀ i, c.chr i < 256)

/-- The machine holds bytes wherever the CPU can read one. -/
def nes_bytes (n : nes_t) : Prop :=
  cpu_bytes n.cpu ∧ ppu_bytes n.ppu ∧ cart_bytes n.cart ∧ (∀ i, n.ram i < 256) ∧
  n.last_bus < 256

/-- The event is one of the driver loop: a PPU tick or a CPU step. -/
def is_driver_event : machine_event → Prop
  | machine_event.tick => True
  | machine_event.cpu_step => True
  | _ => False

instance (e : machine_event) : Decidable (is_driver_event e) := by
  cases e <;> unfold is_driver_event <;> infer_instance

/-- What a bus write to address `a` adds to the stall counter: `513 + (cycles & 1)` at
`$4014`, nothing elsewhere. -/
def dma_stall (cycles a : Nat) : Int :=
  if a = 0x4014 then 513 + ((cycles &&& 1 : Nat) : Int) else 0

/-- The change of the stall counter over one instruction: none, or one OAM DMA. -/
def stall_delta_ok (d : Int) : Prop := d = 0 ∨ d = 513 ∨ d = 514

/-- A 16 KiB PRG that holds `STA $4014` at `$8000`, NOPs after it, and the vectors of
`demo_prg` (reset vector `$8000`). -/
def demo_dma_prg : Nat → Nat := fun i =>
  if i = 0 then 0x8D else if i = 1 then 0x14 else if i = 2 then 0x40 else demo_prg i

/-- The machine before reset with the cartridge whose program starts with `STA $4014`. -/
def demo_dma_boot : nes_t :=
  { nes_zero with cart := { demo_cart with prg_rom := demo_dma_prg } }

/-- A 16 KiB PRG that holds `LDA $00` (3 cycles) and then `STA $4014` at `$8000`. -/
def demo_lda_dma_prg : Nat → Nat := fun i =>
  if i = 0 then 0xA5 else if i = 1 then 0x00
  else if i = 2 then 0x8D else if i = 3 then 0x14 else if i = 4 then 0x40 else demo_prg i

/-- The machine before reset with the cartridge whose program is `LDA $00; STA $4014`. -/
def demo_lda_dma_boot : nes_t :=
  { nes_zero with cart := { demo_cart with prg_rom := demo_lda_dma_prg } }

/-! ## Frame lemmas: what bus accesses leave alone -/

theorem ppu_cpu_read_cpu (n : nes_t) (a : Nat) : (ppu_cpu_read n a).2.cpu = n.cpu := by
  unfold ppu_cpu_read
  simp only []
  split_ifs <;> rfl

theorem nes_cpu_read_cpu (n : nes_t) (a : Nat) : (nes_cpu_read n a).2.cpu = n.cpu := by
  unfold nes_cpu_read
  simp only []
  split_ifs <;> first | rfl | exact ppu_cpu_read_cpu n _

@[simp] theorem rd_cpu (n : nes_t) (a : Nat) : (rd n a).2.cpu = n.cpu := nes_cpu_read_cpu n a

theorem oam_dma_loop_cpu (base : Nat) (k : Nat) : ∀ (i : Nat) (n : nes_t),
    (oam_dma_loop base k i n).cpu = n.cpu := by
  induction k with
  | zero => intro i n; rfl
  | succ k ih =>
    intro i n
    simp only [oam_dma_loop]
    rw [ih]
    exact nes_cpu_read_cpu n _

theorem ppu_bus_write_cpu (n : nes_t) (a v : Nat) : (ppu_bus_write n a v).cpu = n.cpu := by
  unfold ppu_bus_write
  simp only []
  split_ifs <;> rfl

/-- A bus write changes no CPU register; only the NMI latch can move. -/
theorem ppu_cpu_write_cpu (n : nes_t) (a v : Nat) :
    (ppu_cpu_write n a v).cpu = { n.cpu with nmi_pending := (ppu_cpu_write n a v).cpu.nmi_pending } := by
  unfold ppu_cpu_write
  simp only [nes_ppu_bus_write, cpu6502_set_nmi]
  split_ifs <;> first | rfl | simp only [ppu_bus_write_cpu]

theorem nes_cpu_write_cpu (n : nes_t) (a v : Nat) :
    (nes_cpu_write n a v).cpu = { n.cpu with nmi_pending := (nes_cpu_write n a v).cpu.nmi_pending } := by
  unfold nes_cpu_write
  simp only [cart_cpu_write]
  split_ifs
  · rfl
  · exact ppu_cpu_write_cpu _ _ _
  · simp only [oam_dma_loop_cpu]
  · rfl
  · rfl
  · rfl
  · rfl

theorem wr_cpu (n : nes_t) (a v : Nat) :
    (wr n a v).cpu = { n.cpu with nmi_pending := (wr n a v).cpu.nmi_pending } :=
  nes_cpu_write_cpu n a v

@[simp] theorem wr_pc (n : nes_t) (a v : Nat) : (wr n a v).cpu.pc = n.cpu.pc := by rw [wr_cpu]
@[simp] theorem wr_a (n : nes_t) (a v : Nat) : (wr n a v).cpu.a = n.cpu.a := by rw [wr_cpu]
@[simp] theorem wr_x (n : nes_t) (a v : Nat) : (wr n a v).cpu.x = n.cpu.x := by rw [wr_cpu]
@[simp] theorem wr_y (n : nes_t) (a v : Nat) : (wr n a v).cpu.y = n.cpu.y := by rw [wr_cpu]
@[simp] theorem wr_sp (n : nes_t) (a v : Nat) : (wr n a v).cpu.sp = n.cpu.sp := by rw [wr_cpu]
@[simp] theorem wr_p (n : nes_t) (a v : Nat) : (wr n a v).cpu.p = n.cpu.p := by rw [wr_cpu]
@[simp] theorem wr_cycles (n : nes_t) (a v : Nat) : (wr n a v).cpu.cycles = n.cpu.cycles := by
  rw [wr_cpu]
@[simp] theorem wr_irq_pending (n : nes_t) (a v : Nat) :
    (wr n a v).cpu.irq_pending = n.cpu.irq_pending := by rw [wr_cpu]

theorem flag_assign_eq (n : nes_t) (f : Nat) (c : Prop) [Decidable c] :
    flag_assign n f c = set_p n (if c then n.cpu.p ||| f else n.cpu.p &&& (0xFF ^^^ f)) := by
  unfold flag_assign; split <;> rfl

/-! ## The cycle counter is untouched by everything but `add_cycles` -/

@[simp] theorem set_pc_cycles (n : nes_t) (v : Nat) : (set_pc n v).cpu.cycles = n.cpu.cycles := rfl
@[simp] theorem set_a_cycles (n : nes_t) (v : Nat) : (set_a n v).cpu.cycles = n.cpu.cycles := rfl
@[simp] theorem set_x_cycles (n : nes_t) (v : Nat) : (set_x n v).cpu.cycles = n.cpu.cycles := rfl
@[simp] theorem set_y_cycles (n : nes_t) (v : Nat) : (set_y n v).cpu.cycles = n.cpu.cycles := rfl
@[simp] theorem set_sp_cycles (n : nes_t) (v : Nat) : (set_sp n v).cpu.cycles = n.cpu.cycles := rfl
@[simp] theorem set_p_cycles (n : nes_t) (v : Nat) : (set_p n v).cpu.cycles = n.cpu.cycles := rfl

@[simp] theorem rd_cycles (n : nes_t) (a : Nat) : (rd n a).2.cpu.cycles = n.cpu.cycles := by
  rw [rd_cpu]

@[simp] theorem flag_assign_cycles (n : nes_t) (f : Nat) (c : Prop) [Decidable c] :
    (flag_assign n f c).cpu.cycles = n.cpu.cycles := by
  unfold flag_assign; split <;> rfl

@[simp] theorem set_nz_cycles (n : nes_t) (v : Nat) : (set_nz n v).cpu.cycles = n.cpu.cycles := by
  simp [set_nz]

@[simp] theorem push_cycles (n : nes_t) (v : Nat) : (push n v).cpu.cycles = n.cpu.cycles := by
  simp [push]

@[simp] theorem pull_cycles (n : nes_t) : (pull n).2.cpu.cycles = n.cpu.cycles := by
  simp [pull]

@[simp] theorem rd16_cycles (n : nes_t) (a : Nat) : (rd16 n a).2.cpu.cycles = n.cpu.cycles := by
  simp [rd16]

@[simp] theorem rd16_wrap_bug_cycles (n : nes_t) (a : Nat) :
    (rd16_wrap_bug n a).2.cpu.cycles = n.cpu.cycles := by
  simp [rd16_wrap_bug]

@[simp] theorem do_interrupt_cycles (n : nes_t) (vec : Nat) (b : Bool) :
    (do_interrupt n vec b).2.cpu.cycles = n.cpu.cycles := by
  simp [do_interrupt]

@[simp] theorem ea_imm_cycles (n : nes_t) : (ea_imm n).2.cpu.cycles = n.cpu.cycles := by
  simp [ea_imm]
@[simp] theorem ea_zp_cycles (n : nes_t) : (ea_zp n).2.cpu.cycles = n.cpu.cycles := by
  simp [ea_zp]
@[simp] theorem ea_zpx_cycles (n : nes_t) : (ea_zpx n).2.cpu.cycles = n.cpu.cycles := by
  simp [ea_zpx]
@[simp] theorem ea_zpy_cycles (n : nes_t) : (ea_zpy n).2.cpu.cycles = n.cpu.cycles := by
  simp [ea_zpy]
@[simp] theorem ea_abs_cycles (n : nes_t) : (ea_abs n).2.cpu.cycles = n.cpu.cycles := by
  simp [ea_abs]
@[simp] theorem ea_absx_cycles (n : nes_t) (b : Bool) :
    (ea_absx n b).2.cpu.cycles = n.cpu.cycles := by
  simp [ea_absx]
@[simp] theorem ea_absy_cycles (n : nes_t) (b : Bool) :
    (ea_absy n b).2.cpu.cycles = n.cpu.cycles := by
  simp [ea_absy]
@[simp] theorem ea_indx_cycles (n : nes_t) : (ea_indx n).2.cpu.cycles = n.cpu.cycles := by
  simp [ea_indx]
@[simp] theorem ea_indy_cycles (n : nes_t) (b : Bool) :
    (ea_indy n b).2.cpu.cycles = n.cpu.cycles := by
  simp [ea_indy]

@[simp] theorem branch_cycles (n : nes_t) (b : Bool) :
    (branch n b).2.cpu.cycles = n.cpu.cycles := by
  unfold branch
  simp only []
  split <;> simp

@[simp] theorem op_adc_cycles (n : nes_t) (m : Nat) : (op_adc n m).cpu.cycles = n.cpu.cycles := by
  simp [op_adc]
@[simp] theorem op_sbc_cycles (n : nes_t) (m : Nat) : (op_sbc n m).cpu.cycles = n.cpu.cycles := by
  simp [op_sbc]
@[simp] theorem op_cmp_cycles (n : nes_t) (r m : Nat) :
    (op_cmp n r m).cpu.cycles = n.cpu.cycles := by
  simp [op_cmp]
@[simp] theorem op_asl_cycles (n : nes_t) (v : Nat) : (op_asl n v).2.cpu.cycles = n.cpu.cycles := by
  simp [op_asl]
@[simp] theorem op_lsr_cycles (n : nes_t) (v : Nat) : (op_lsr n v).2.cpu.cycles = n.cpu.cycles := by
  simp [op_lsr]
@[simp] theorem op_rol_cycles (n : nes_t) (v : Nat) : (op_rol n v).2.cpu.cycles = n.cpu.cycles := by
  simp [op_rol]
@[simp] theorem op_ror_cycles (n : nes_t) (v : Nat) : (op_ror n v).2.cpu.cycles = n.cpu.cycles := by
  simp [op_ror]
@[simp] theorem op_anc_cycles (n : nes_t) (v : Nat) : (op_anc n v).cpu.cycles = n.cpu.cycles := by
  simp [op_anc]
@[simp] theorem op_alr_cycles (n : nes_t) (v : Nat) : (op_alr n v).cpu.cycles = n.cpu.cycles := by
  simp [op_alr]
@[simp] theorem op_arr_cycles (n : nes_t) (v : Nat) : (op_arr n v).cpu.cycles = n.cpu.cycles := by
  simp [op_arr]
@[simp] theorem op_sbx_cycles (n : nes_t) (v : Nat) : (op_sbx n v).cpu.cycles = n.cpu.cycles := by
  simp [op_sbx]

theorem ite_cycles {c : Prop} [Decidable c] {a b : Nat × nes_t} {k : Nat}
    (ha : a.2.cpu.cycles = k) (hb : b.2.cpu.cycles = k) :
    (if c then a else b).2.cpu.cycles = k := by
  split <;> assumption

set_option maxRecDepth 16000 in
/-- No `case` of the opcode switch touches the cycle counter. -/
theorem exec_opcode_cycles (op : Nat) (n : nes_t) :
    (exec_opcode op n).2.cpu.cycles = n.cpu.cycles := by
  unfold exec_opcode
  iterate 223
    refine ite_cycles
      (by simp only [set_pc_cycles, set_a_cycles, set_x_cycles, set_y_cycles, set_sp_cycles,
            set_p_cycles, rd_cycles, wr_cycles, flag_assign_cycles, set_nz_cycles, push_cycles,
            pull_cycles, rd16_cycles, rd16_wrap_bug_cycles, do_interrupt_cycles, ea_imm_cycles,
            ea_zp_cycles, ea_zpx_cycles, ea_zpy_cycles, ea_abs_cycles, ea_absx_cycles,
            ea_absy_cycles, ea_indx_cycles, ea_indy_cycles, branch_cycles, op_adc_cycles,
            op_sbc_cycles, op_cmp_cycles, op_asl_cycles, op_lsr_cycles, op_rol_cycles,
            op_ror_cycles, op_anc_cycles, op_alr_cycles, op_arr_cycles, op_sbx_cycles]) ?_
  rfl

/-! ## Bit masks and byte arithmetic -/

theorem and_0xFF (x : Nat) : x &&& 0xFF = x % 256 := Nat.and_pow_two_sub_one_eq_mod x 8

theorem and_0x07FF (x : Nat) : x &&& 0x07FF = x % 2048 := Nat.and_pow_two_sub_one_eq_mod x 11

/-- A single-bit mask is non-zero exactly when that bit is set. -/
theorem and_two_pow_ne_zero (x i : Nat) : x &&& 2 ^ i ≠ 0 ↔ x.testBit i = true := by
  constructor
  · intro h
    by_contra hx
    apply h
    apply Nat.eq_of_testBit_eq
    intro j
    rw [Nat.testBit_and, Nat.testBit_two_pow, Nat.zero_testBit]
    by_cases hij : i = j
    · subst hij; simp [hx]
    · simp [hij]
  · intro hx h
    have := congrArg (fun y => Nat.testBit y i) h
    simp [Nat.testBit_two_pow, hx] at this

theorem testBit7_byte (x : Nat) (h : x < 256) : x.testBit 7 = decide (128 ≤ x) := by
  rw [Nat.testBit_to_div_mod]
  congr 1
  apply propext
  omega

theorem and_0x80_ne_zero (x : Nat) (h : x < 256) : x &&& 0x80 ≠ 0 ↔ 128 ≤ x := by
  have := and_two_pow_ne_zero x 7
  rw [testBit7_byte x h] at this
  simpa using this

/-- The page-1 address `0x0100 | s` of a byte `s`. -/
theorem stack_addr (s : Nat) (h : s < 256) : 0x0100 ||| s = 256 + s := by
  have := Nat.mul_add_lt_is_or (i := 8) (b := s) (by simpa using h) 1
  simpa using this.symm

/-- The little-endian word `lo | hi << 8` of two bytes. -/
theorem word_of_bytes (lo hi : Nat) (hlo : lo < 256) (hhi : hi < 256) :
    (lo ||| (hi <<< 8)) % 65536 = lo + 256 * hi := by
  have h := Nat.mul_add_lt_is_or (i := 8) (b := lo) (by simpa using hlo) hi
  rw [Nat.shiftLeft_eq, Nat.lor_comm, Nat.mul_comm hi, ← h]
  omega

@[simp] theorem mem_set_same (m : Nat → Nat) (i v : Nat) : mem_set m i v i = v := by
  simp [mem_set]

theorem mem_set_other (m : Nat → Nat) (i v j : Nat) (h : j ≠ i) : mem_set m i v j = m j := by
  simp [mem_set, h]

/-! ## Bus accesses to RAM and to the cartridge -/

theorem nes_cpu_read_ram_eq (n : nes_t) (a : Nat) : (nes_cpu_read n a).2.ram = n.ram := by
  unfold nes_cpu_read ppu_cpu_read
  simp only []
  split_ifs <;> rfl

@[simp] theorem rd_ram (n : nes_t) (a : Nat) : (rd n a).2.ram = n.ram := nes_cpu_read_ram_eq n a

theorem nes_cpu_read_cart_eq (n : nes_t) (a : Nat) : (nes_cpu_read n a).2.cart = n.cart := by
  unfold nes_cpu_read ppu_cpu_read
  simp only []
  split_ifs <;> rfl

@[simp] theorem rd_cart (n : nes_t) (a : Nat) : (rd n a).2.cart = n.cart :=
  nes_cpu_read_cart_eq n a

theorem rd_of_ram (n : nes_t) (a : Nat) (h : a < 0x2000) :
    rd n a = (n.ram (a &&& 0x07FF), { n with last_bus := n.ram (a &&& 0x07FF) }) := by
  simp [rd, nes_cpu_read, h]

theorem rd_of_prg (n : nes_t) (a : Nat) (h : 0x8000 ≤ a) :
    rd n a = (cart_cpu_read n a, { n with last_bus := cart_cpu_read n a }) := by
  have h1 : ¬ a < 0x2000 := by omega
  have h2 : ¬ a < 0x4000 := by omega
  have h3 : a ≠ 0x4016 := by omega
  have h4 : a ≠ 0x4017 := by omega
  simp [rd, nes_cpu_read, h1, h2, h3, h4, h]

theorem wr_of_ram (n : nes_t) (a v : Nat) (h : a < 0x2000) :
    wr n a v = { n with last_bus := v, ram := mem_set n.ram (a &&& 0x07FF) v } := by
  simp [wr, nes_cpu_write, h]

/-- The cartridge read depends on the cartridge only. -/
theorem cart_cpu_read_congr (n m : nes_t) (a : Nat) (h : n.cart = m.cart) :
    cart_cpu_read n a = cart_cpu_read m a := by
  simp [cart_cpu_read, h]

/-- A push with an 8-bit stack pointer stores into page 1 of RAM, then decrements `sp`. -/
theorem push_eq (n : nes_t) (v : Nat) (h : n.cpu.sp < 256) :
    push n v =
      { n with last_bus := v, ram := mem_set n.ram (256 + n.cpu.sp) v,
               cpu := { n.cpu with sp := (n.cpu.sp + 255) % 256 } } := by
  have ha : (0x0100 ||| n.cpu.sp) < 0x2000 := by rw [stack_addr _ h]; omega
  have hm : (256 + n.cpu.sp) % 2048 = 256 + n.cpu.sp := by omega
  simp only [push, wr_of_ram _ _ _ ha, set_sp]
  rw [and_0x07FF, stack_addr _ h, hm]

/-! ## The interrupt sequence -/

/-- The effect of `do_interrupt` entered with an 8-bit stack pointer and a vector in the
cartridge: three bytes in page 1, `sp` down by three, the I flag set, PC from the vector. -/
theorem do_interrupt_eq (n : nes_t) (vec : Nat) (brk : Bool) (hsp : n.cpu.sp < 256)
    (hvec : 0x8000 ≤ vec) (hvec2 : vec + 1 < 65536) :
    do_interrupt n vec brk =
      (7, { n with
        last_bus := cart_cpu_read n (vec + 1),
        ram := mem_set (mem_set (mem_set n.ram (256 + n.cpu.sp) ((n.cpu.pc >>> 8) % 256))
                  (256 + (n.cpu.sp + 255) % 256) ((n.cpu.pc &&& 0xFF) % 256))
                  (256 + (n.cpu.sp + 254) % 256)
                  (if brk then n.cpu.p ||| P_U ||| P_B else (n.cpu.p ||| P_U) &&& (0xFF ^^^ P_B)),
        cpu := { n.cpu with
          sp := (n.cpu.sp + 253) % 256,
          p := n.cpu.p ||| P_I,
          pc := (cart_cpu_read n vec ||| (cart_cpu_read n (vec + 1) <<< 8)) % 65536 } }) := by
  have hm : ∀ x : Nat, x % 256 < 256 := fun x => Nat.mod_lt _ (by decide)
  have e2 : ((n.cpu.sp + 255) % 256 + 255) % 256 = (n.cpu.sp + 254) % 256 := by omega
  have e3 : ((n.cpu.sp + 254) % 256 + 255) % 256 = (n.cpu.sp + 253) % 256 := by omega
  have hv : (vec + 1) % 65536 = vec + 1 := Nat.mod_eq_of_lt hvec2
  have hv1 : 0x8000 ≤ vec + 1 := by omega
  unfold do_interrupt
  simp only [push_eq, hsp, hm, rd16, hv, rd_of_prg _ _ hvec, rd_of_prg _ _ hv1, set_p, set_pc,
    e2, e3]
  cases brk <;> simp [cart_cpu_read]

/-! ## C1: one event per step, in priority order -/

/-- C1: `cpu6502_step` handles exactly one event, by priority.  A positive stall counter
is decremented and the step returns 1 with PC, A, X, Y, SP, P, RAM and both latches
unchanged; else a set NMI latch is serviced through vector `$FFFA`, cleared, and the step
returns 7; else an asserted IRQ line with the I flag clear is serviced through `$FFFE`,
returns 7 and stays asserted; otherwise (a pending IRQ with I set included) the byte at PC
is fetched and executed as an opcode. -/
theorem cpu6502_step_priority (n : nes_t) :
    (0 < n.cpu_stall →
      (cpu6502_step n).1 = 1 ∧
      (cpu6502_step n).2.cpu_stall = n.cpu_stall - 1 ∧
      (cpu6502_step n).2.cpu.pc = n.cpu.pc ∧
      (cpu6502_step n).2.cpu.a = n.cpu.a ∧
      (cpu6502_step n).2.cpu.x = n.cpu.x ∧
      (cpu6502_step n).2.cpu.y = n.cpu.y ∧
      (cpu6502_step n).2.cpu.sp = n.cpu.sp ∧
      (cpu6502_step n).2.cpu.p = n.cpu.p ∧
      (cpu6502_step n).2.ram = n.ram ∧
      (cpu6502_step n).2.cpu.nmi_pending = n.cpu.nmi_pending ∧
      (cpu6502_step n).2.cpu.irq_pending = n.cpu.irq_pending) ∧
    (¬ 0 < n.cpu_stall → n.cpu.nmi_pending = true → n.cpu.sp < 256 →
      (cpu6502_step n).1 = 7 ∧
      (cpu6502_step n).2.cpu.nmi_pending = false ∧
      (cpu6502_step n).2.cpu.pc =
        (cart_cpu_read n 0xFFFA ||| (cart_cpu_read n 0xFFFB <<< 8)) % 65536 ∧
      (cpu6502_step n).2 =
        add_cycles
          (do_interrupt
            { n with cpu := { n.cpu with nmi_pending := false },
                     dbg_nmi_count := (n.dbg_nmi_count + 1) % 2 ^ 64 } 0xFFFA false).2 7) ∧
    (¬ 0 < n.cpu_stall → n.cpu.nmi_pending = false → n.cpu.irq_pending = true →
        n.cpu.p &&& P_I = 0 → n.cpu.sp < 256 →
      (cpu6502_step n).1 = 7 ∧
      (cpu6502_step n).2.cpu.irq_pending = true ∧
      (cpu6502_step n).2.cpu.pc =
        (cart_cpu_read n 0xFFFE ||| (cart_cpu_read n 0xFFFF <<< 8)) % 65536 ∧
      (cpu6502_step n).2 = add_cycles (do_interrupt n 0xFFFE false).2 7) ∧
    (¬ 0 < n.cpu_stall → n.cpu.nmi_pending = false →
        ¬ (n.cpu.irq_pending = true ∧ n.cpu.p &&& P_I = 0) →
      cpu6502_step n =
        ((exec_opcode (rd (set_pc n ((n.cpu.pc + 1) % 65536)) n.cpu.pc).1
            (rd (set_pc n ((n.cpu.pc + 1) % 65536)) n.cpu.pc).2).1,
         add_cycles
          (exec_opcode (rd (set_pc n ((n.cpu.pc + 1) % 65536)) n.cpu.pc).1
            (rd (set_pc n ((n.cpu.pc + 1) % 65536)) n.cpu.pc).2).2
          (exec_opcode (rd (set_pc n ((n.cpu.pc + 1) % 65536)) n.cpu.pc).1
            (rd (set_pc n ((n.cpu.pc + 1) % 65536)) n.cpu.pc).2).1)) := by
  refine ⟨?_, ?_, ?_, ?_⟩
  · intro hs
    simp [cpu6502_step, hs, add_cycles]
  · intro hs hn hsp
    have hd := do_interrupt_eq
      { n with cpu := { n.cpu with nmi_pending := false },
               dbg_nmi_count := (n.dbg_nmi_count + 1) % 2 ^ 64 } 0xFFFA false hsp
      (by decide) (by decide)
    simp only [cpu6502_step, hs, hn, if_true, if_false]
    rw [hd]
    simp [add_cycles, cart_cpu_read]
  · intro hs hn hi hp hsp
    have hd := do_interrupt_eq n 0xFFFE false hsp (by decide) (by decide)
    have hc : n.cpu.irq_pending = true ∧ ¬ (n.cpu.p &&& P_I ≠ 0) := ⟨hi, by simpa using hp⟩
    simp only [cpu6502_step, hs, hn, hc, if_true, if_false]
    simp only [Bool.false_eq_true, if_false, and_self, if_true]
    rw [hd]
    simp [add_cycles, hi, cart_cpu_read]
  · intro hs hn hi
    have hc : ¬ (n.cpu.irq_pending = true ∧ ¬ (n.cpu.p &&& P_I ≠ 0)) := by
      simpa using hi
    simp only [cpu6502_step, hs, hn, hc, if_false, Bool.false_eq_true]

theorem cpu6502_step_priority_witness :
    ((cpu6502_step demo_stall).1 = 1 ∧ (cpu6502_step demo_stall).2.cpu_stall = 3 - 1) ∧
    ((cpu6502_step demo_nmi).1 = 7 ∧ (cpu6502_step demo_nmi).2.cpu.nmi_pending = false) ∧
    ((cpu6502_step demo_irq).1 = 7 ∧ (cpu6502_step demo_irq).2.cpu.irq_pending = true) ∧
    cpu6502_step demo_nes =
      ((exec_opcode (rd (set_pc demo_nes ((demo_nes.cpu.pc + 1) % 65536)) demo_nes.cpu.pc).1
          (rd (set_pc demo_nes ((demo_nes.cpu.pc + 1) % 65536)) demo_nes.cpu.pc).2).1,
       add_cycles
        (exec_opcode (rd (set_pc demo_nes ((demo_nes.cpu.pc + 1) % 65536)) demo_nes.cpu.pc).1
          (rd (set_pc demo_nes ((demo_nes.cpu.pc + 1) % 65536)) demo_nes.cpu.pc).2).2
        (exec_opcode (rd (set_pc demo_nes ((demo_nes.cpu.pc + 1) % 65536)) demo_nes.cpu.pc).1
          (rd (set_pc demo_nes ((demo_nes.cpu.pc + 1) % 65536)) demo_nes.cpu.pc).2).1) :=
  ⟨⟨((cpu6502_step_priority demo_stall).1 (by decide)).1,
    ((cpu6502_step_priority demo_stall).1 (by decide)).2.1⟩,
   ⟨((cpu6502_step_priority demo_nmi).2.1 (by decide) (by decide) (by decide)).1,
    ((cpu6502_step_priority demo_nmi).2.1 (by decide) (by decide) (by decide)).2.1⟩,
   ⟨((cpu6502_step_priority demo_irq).2.2.1 (by decide) (by decide) (by decide) (by decide)
      (by decide)).1,
    ((cpu6502_step_priority demo_irq).2.2.1 (by decide) (by decide) (by decide) (by decide)
      (by decide)).2.1⟩,
   (cpu6502_step_priority demo_nes).2.2.2 (by decide) (by decide) (by decide)⟩

/-! ## C2: the returned count is added to the cycle counter -/

/-- C2: for every machine state the cycle counter after `cpu6502_step` is the counter
before plus the returned count, in the counter's 64-bit arithmetic; the sum is exact
whenever it fits in 64 bits.  This covers the stall, NMI, IRQ and instruction cases. -/
theorem cpu6502_step_cycles (n : nes_t) :
    (cpu6502_step n).2.cpu.cycles = (n.cpu.cycles + (cpu6502_step n).1) % 2 ^ 64 ∧
    (n.cpu.cycles + (cpu6502_step n).1 < 2 ^ 64 →
      (cpu6502_step n).2.cpu.cycles = n.cpu.cycles + (cpu6502_step n).1) := by
  have key : (cpu6502_step n).2.cpu.cycles = (n.cpu.cycles + (cpu6502_step n).1) % 2 ^ 64 := by
    unfold cpu6502_step
    simp only []
    split_ifs
    · rfl
    · simp only [add_cycles, do_interrupt_cycles]
    · simp only [add_cycles, do_interrupt_cycles]
    · simp only [add_cycles, exec_opcode_cycles, rd_cycles, set_pc_cycles]
  exact ⟨key, fun h => by rw [key, Nat.mod_eq_of_lt h]⟩

theorem cpu6502_step_cycles_witness :
    (cpu6502_step demo_nes).2.cpu.cycles = demo_nes.cpu.cycles + (cpu6502_step demo_nes).1 :=
  (cpu6502_step_cycles demo_nes).2 (by decide)

/-! ## C3: the interrupt sequence of NMI, IRQ and BRK -/

/-- C3: for an NMI, an IRQ or a `BRK` entered with stack pointer `S`, the step leaves the
high byte of the pushed PC at `$0100|S`, its low byte at `$0100|(S-1 mod 256)` and, at
`$0100|(S-2 mod 256)`, P with bit 5 set and bit 4 set for `BRK`, clear for NMI/IRQ; then
`SP = S-3 mod 256`, `P` has the I flag set and no other bit changed, and PC is the
little-endian word at `$FFFA` (NMI) or `$FFFE` (IRQ, `BRK`).  The pushed PC is the
interrupted PC, for `BRK` the address of the opcode plus 2, and the step returns 7. -/
theorem interrupt_sequence (n : nes_t) (pushed vec : Nat) (brk : Bool)
    (hstall : ¬ 0 < n.cpu_stall) (hsp : n.cpu.sp < 256) (hpc : n.cpu.pc < 65536)
    (hprg : ∀ i, n.cart.prg_rom i < 256)
    (hcase :
      (n.cpu.nmi_pending = true ∧ pushed = n.cpu.pc ∧ vec = 0xFFFA ∧ brk = false) ∨
      (n.cpu.nmi_pending = false ∧ n.cpu.irq_pending = true ∧ n.cpu.p &&& P_I = 0 ∧
        pushed = n.cpu.pc ∧ vec = 0xFFFE ∧ brk = false) ∨
      (n.cpu.nmi_pending = false ∧ ¬ (n.cpu.irq_pending = true ∧ n.cpu.p &&& P_I = 0) ∧
        (rd (set_pc n ((n.cpu.pc + 1) % 65536)) n.cpu.pc).1 = 0x00 ∧
        pushed = (n.cpu.pc + 2) % 65536 ∧ vec = 0xFFFE ∧ brk = true)) :
    (cpu6502_step n).1 = 7 ∧
    (cpu6502_step n).2.ram (0x0100 ||| n.cpu.sp) = pushed / 256 ∧
    (cpu6502_step n).2.ram (0x0100 ||| ((n.cpu.sp + 255) % 256)) = pushed % 256 ∧
    (cpu6502_step n).2.ram (0x0100 ||| ((n.cpu.sp + 254) % 256)) =
      (if brk then (n.cpu.p ||| 0x20) ||| 0x10 else (n.cpu.p ||| 0x20) &&& 0xEF) ∧
    (cpu6502_step n).2.cpu.sp = (n.cpu.sp + 253) % 256 ∧
    (cpu6502_step n).2.cpu.p = n.cpu.p ||| 0x04 ∧
    (cpu6502_step n).2.cpu.pc = cart_cpu_read n vec + 256 * cart_cpu_read n (vec + 1) := by
  have hm : ∀ x : Nat, x % 256 < 256 := fun x => Nat.mod_lt _ (by decide)
  have a0 : 0x0100 ||| n.cpu.sp = 256 + n.cpu.sp := stack_addr _ hsp
  have a1 : 0x0100 ||| ((n.cpu.sp + 255) % 256) = 256 + (n.cpu.sp + 255) % 256 :=
    stack_addr _ (hm _)
  have a2 : 0x0100 ||| ((n.cpu.sp + 254) % 256) = 256 + (n.cpu.sp + 254) % 256 :=
    stack_addr _ (hm _)
  have hcr : ∀ a, cart_cpu_read n a < 256 := by
    intro a
    unfold cart_cpu_read
    simp only []
    split
    · decide
    · exact hprg _
  have hword : ∀ a b, (cart_cpu_read n a ||| (cart_cpu_read n b <<< 8)) % 65536
      = cart_cpu_read n a + 256 * cart_cpu_read n b :=
    fun a b => word_of_bytes _ _ (hcr a) (hcr b)
  have hhi : ∀ x, x < 65536 → (x >>> 8) % 256 = x / 256 := by
    intro x hx
    rw [Nat.shiftRight_eq_div_pow]
    omega
  have hlo : ∀ x, (x &&& 0xFF) % 256 = x % 256 := by
    intro x
    rw [and_0xFF]
    omega
  have n1 : 256 + (n.cpu.sp + 255) % 256 ≠ 256 + n.cpu.sp := by omega
  have n2 : 256 + (n.cpu.sp + 254) % 256 ≠ 256 + n.cpu.sp := by omega
  have n3 : 256 + (n.cpu.sp + 254) % 256 ≠ 256 + (n.cpu.sp + 255) % 256 := by omega
  rw [a0, a1, a2]
  rcases hcase with ⟨hn, rfl, rfl, rfl⟩ | ⟨hn, hi, hp, rfl, rfl, rfl⟩ | ⟨hn, hi, hop, rfl, rfl, rfl⟩
  · have hd := do_interrupt_eq
      { n with cpu := { n.cpu with nmi_pending := false },
               dbg_nmi_count := (n.dbg_nmi_count + 1) % 2 ^ 64 } 0xFFFA false hsp
      (by decide) (by decide)
    simp only [cpu6502_step, hstall, hn, if_true, if_false]
    rw [hd]
    simp [add_cycles, cart_cpu_read, mem_set, n1.symm, n2.symm, n3.symm, hhi _ hpc, hlo]
    simpa [cart_cpu_read] using hword 0xFFFA 0xFFFB
  · have hd := do_interrupt_eq n 0xFFFE false hsp (by decide) (by decide)
    have hc : n.cpu.irq_pending = true ∧ ¬ (n.cpu.p &&& P_I ≠ 0) := ⟨hi, by simpa using hp⟩
    simp only [cpu6502_step, hstall, hn, hc, if_true, if_false]
    simp only [Bool.false_eq_true, if_false, and_self, if_true]
    rw [hd]
    simp [add_cycles, cart_cpu_read, mem_set, n1.symm, n2.symm, n3.symm, hhi _ hpc, hlo]
    simpa [cart_cpu_read] using hword 0xFFFE 0xFFFF
  · have hc : ¬ (n.cpu.irq_pending = true ∧ ¬ (n.cpu.p &&& P_I ≠ 0)) := by
      simpa using hi
    have hsp' : (set_pc (rd (set_pc n ((n.cpu.pc + 1) % 65536)) n.cpu.pc).2
        (((rd (set_pc n ((n.cpu.pc + 1) % 65536)) n.cpu.pc).2.cpu.pc + 1) % 65536)).cpu.sp < 256 := by
      simpa [set_pc] using hsp
    have hd := do_interrupt_eq _ 0xFFFE true hsp' (by decide) (by decide)
    have hx : exec_opcode 0x00 (rd (set_pc n ((n.cpu.pc + 1) % 65536)) n.cpu.pc).2 =
        do_interrupt (set_pc (rd (set_pc n ((n.cpu.pc + 1) % 65536)) n.cpu.pc).2
          (((rd (set_pc n ((n.cpu.pc + 1) % 65536)) n.cpu.pc).2.cpu.pc + 1) % 65536)) 0xFFFE true :=
      rfl
    simp only [cpu6502_step, hstall, hn, hc, if_false, Bool.false_eq_true, hop, hx]
    rw [hd]
    have hpc2 : (n.cpu.pc + 1) % 65536 < 65536 := Nat.mod_lt _ (by decide)
    have e1 : ((n.cpu.pc + 1) % 65536 + 1) % 65536 = (n.cpu.pc + 2) % 65536 := by omega
    have hpc3 : (n.cpu.pc + 2) % 65536 < 65536 := Nat.mod_lt _ (by decide)
    simp [add_cycles, cart_cpu_read, mem_set, n1.symm, n2.symm, n3.symm, hlo, set_pc, e1,
      hhi _ hpc3]
    simpa [cart_cpu_read] using hword 0xFFFE 0xFFFF

theorem interrupt_sequence_witness :
    ((cpu6502_step demo_nmi).1 = 7 ∧
      (cpu6502_step demo_nmi).2.ram (0x0100 ||| demo_nmi.cpu.sp) = 0x8000 / 256 ∧
      (cpu6502_step demo_nmi).2.cpu.pc = cart_cpu_read demo_nmi 0xFFFA
        + 256 * cart_cpu_read demo_nmi (0xFFFA + 1)) ∧
    ((cpu6502_step demo_irq).1 = 7 ∧
      (cpu6502_step demo_irq).2.cpu.p = demo_irq.cpu.p ||| 0x04) ∧
    ((cpu6502_step demo_brk).1 = 7 ∧
      (cpu6502_step demo_brk).2.ram (0x0100 ||| ((demo_brk.cpu.sp + 255) % 256))
        = 0x0202 % 256) := by
  have hprg : ∀ i, demo_prg i < 256 := fun i => by unfold demo_prg; split_ifs <;> decide
  have h1 := interrupt_sequence demo_nmi 0x8000 0xFFFA false (by decide) (by decide)
    (by decide) hprg (Or.inl (by decide))
  have h2 := interrupt_sequence demo_irq 0x8000 0xFFFE false (by decide) (by decide)
    (by decide) hprg (Or.inr (Or.inl (by decide)))
  have h3 := interrupt_sequence demo_brk 0x0202 0xFFFE true (by decide) (by decide)
    (by decide) hprg (Or.inr (Or.inr (by decide)))
  exact ⟨⟨h1.1, h1.2.1, h1.2.2.2.2.2.2⟩, ⟨h2.1, h2.2.2.2.2.2.1⟩, ⟨h3.1, h3.2.2.1⟩⟩

/-! ## Status flags -/

theorem flag_assign_p (n : nes_t) (f : Nat) (c : Prop) [Decidable c] :
    (flag_assign n f c).cpu.p = if c then n.cpu.p ||| f else n.cpu.p &&& (0xFF ^^^ f) := by
  unfold flag_assign; split <;> rfl

/-- Setting or clearing flag bit `i` decides that bit and leaves every other bit of a
byte as it was. -/
theorem flag_bit (p f g i j : Nat) (c : Prop) [Decidable c] (hf : f = 2 ^ i) (hg : g = 2 ^ j)
    (hi : i < 8) (hj : j < 8) :
    ((if c then p ||| f else p &&& (0xFF ^^^ f)) &&& g ≠ 0) ↔
      (if j = i then c else p &&& g ≠ 0) := by
  subst hf hg
  have h255 : (0xFF : Nat).testBit j = true := by
    have := Nat.testBit_two_pow_sub_one 8 j
    simpa [hj] using this
  rw [and_two_pow_ne_zero, and_two_pow_ne_zero]
  by_cases hc : c
  · by_cases hji : j = i
    · subst hji; simp [hc, Nat.testBit_two_pow_self]
    · have : i ≠ j := fun h => hji h.symm
      simp [hc, hji, Nat.testBit_two_pow_of_ne this]
  · by_cases hji : j = i
    · subst hji; simp [hc, Nat.testBit_two_pow_self, h255]
    · have : i ≠ j := fun h => hji h.symm
      simp [hc, hji, Nat.testBit_two_pow_of_ne this, h255]

set_option maxRecDepth 100000 in
theorem xor_0xFF_byte : ∀ m, m < 256 → m ^^^ 0xFF = 255 - m := by decide

theorem flag_assign_cpu (n : nes_t) (f : Nat) (c : Prop) [Decidable c] :
    (flag_assign n f c).cpu = { n.cpu with p := (flag_assign n f c).cpu.p } := by
  unfold flag_assign; split <;> rfl

@[simp] theorem flag_assign_a (n : nes_t) (f : Nat) (c : Prop) [Decidable c] :
    (flag_assign n f c).cpu.a = n.cpu.a := by rw [flag_assign_cpu]

@[simp] theorem set_a_p (n : nes_t) (v : Nat) : (set_a n v).cpu.p = n.cpu.p := rfl

@[simp] theorem set_a_a (n : nes_t) (v : Nat) : (set_a n v).cpu.a = v := rfl

/-- The flag idiom decides the bit it names and keeps the other seven. -/
theorem flag_assign_bit (n : nes_t) (f g i j : Nat) (c : Prop) [Decidable c] (hf : f = 2 ^ i)
    (hg : g = 2 ^ j) (hi : i < 8) (hj : j < 8) :
    ((flag_assign n f c).cpu.p &&& g ≠ 0) ↔ (if j = i then c else n.cpu.p &&& g ≠ 0) := by
  rw [flag_assign_p]
  exact flag_bit _ f g i j c hf hg hi hj

theorem op_adc_a (n : nes_t) (m : Nat) :
    (op_adc n m).cpu.a =
      (n.cpu.a + m + (if n.cpu.p &&& P_C ≠ 0 then 1 else 0)) % 65536 % 256 := by
  simp only [op_adc, set_nz, flag_assign_a, set_a_a]

/-- The value of each of the flags C, V, Z, N after `op_adc`, in terms of the 16-bit sum. -/
theorem op_adc_flags (n : nes_t) (m : Nat) :
    ((op_adc n m).cpu.p &&& 0x01 ≠ 0 ↔
      (n.cpu.a + m + (if n.cpu.p &&& P_C ≠ 0 then 1 else 0)) % 65536 > 0xFF) ∧
    ((op_adc n m).cpu.p &&& 0x40 ≠ 0 ↔
      ((n.cpu.a ^^^ (op_adc n m).cpu.a) &&& (m ^^^ (op_adc n m).cpu.a) &&& 0x80) ≠ 0) ∧
    ((op_adc n m).cpu.p &&& 0x02 ≠ 0 ↔ (op_adc n m).cpu.a = 0) ∧
    ((op_adc n m).cpu.p &&& 0x80 ≠ 0 ↔ (op_adc n m).cpu.a &&& 0x80 ≠ 0) := by
  rw [op_adc_a]
  simp only [op_adc, set_nz]
  refine ⟨?_, ?_, ?_, ?_⟩
  · rw [flag_assign_bit _ P_N 0x01 7 0 _ rfl rfl (by decide) (by decide),
      if_neg (by decide),
      flag_assign_bit _ P_Z 0x01 1 0 _ rfl rfl (by decide) (by decide),
      if_neg (by decide), set_a_p,
      flag_assign_bit _ P_V 0x01 6 0 _ rfl rfl (by decide) (by decide),
      if_neg (by decide),
      flag_assign_bit _ P_C 0x01 0 0 _ rfl rfl (by decide) (by decide),
      if_pos rfl]
  · rw [flag_assign_bit _ P_N 0x40 7 6 _ rfl rfl (by decide) (by decide),
      if_neg (by decide),
      flag_assign_bit _ P_Z 0x40 1 6 _ rfl rfl (by decide) (by decide),
      if_neg (by decide), set_a_p,
      flag_assign_bit _ P_V 0x40 6 6 _ rfl rfl (by decide) (by decide),
      if_pos rfl, flag_assign_a]
  · rw [flag_assign_bit _ P_N 0x02 7 1 _ rfl rfl (by decide) (by decide),
      if_neg (by decide),
      flag_assign_bit _ P_Z 0x02 1 1 _ rfl rfl (by decide) (by decide),
      if_pos rfl, set_a_a]
  · rw [flag_assign_bit _ P_N 0x80 7 7 _ rfl rfl (by decide) (by decide),
      if_pos rfl, flag_assign_a, set_a_a]

/-- The sign test `(x ^ r) & (y ^ r) & 0x80` of three bytes: both `x` and `y` differ from
`r` in bit 7. -/
theorem sign_test (x y r : Nat) (hx : x < 256) (hy : y < 256) (hr : r < 256) :
    ((x ^^^ r) &&& (y ^^^ r) &&& 0x80 ≠ 0) ↔ ((128 ≤ x ↔ ¬ 128 ≤ r) ∧ (128 ≤ y ↔ ¬ 128 ≤ r)) := by
  have h := and_two_pow_ne_zero ((x ^^^ r) &&& (y ^^^ r)) 7
  rw [Nat.testBit_and, Nat.testBit_xor, Nat.testBit_xor, testBit7_byte x hx, testBit7_byte y hy,
    testBit7_byte r hr] at h
  rw [show (0x80 : Nat) = 2 ^ 7 from rfl, h]
  by_cases h1 : 128 ≤ x <;> by_cases h2 : 128 ≤ y <;> by_cases h3 : 128 ≤ r <;> simp [h1, h2, h3]

/-! ## C4: ADC -/

/-- C4: for all bytes `a`, `b` and carry-in `c`, `ADC` with `A = a` and operand `b` leaves
`A = (a+b+c) mod 256`, sets C iff `a+b+c ≥ 256`, sets V iff
`(a xor res) and (b xor res) and $80` is non-zero for the new `A = res`, sets Z iff
`res = 0` and N iff bit 7 of `res` is set; opcode `$69` applies it to the byte at PC. -/
theorem adc_semantics (n : nes_t) (b c : Nat) (ha : n.cpu.a < 256) (hb : b < 256)
    (hc : c = if n.cpu.p &&& 0x01 ≠ 0 then 1 else 0) :
    (op_adc n b).cpu.a = (n.cpu.a + b + c) % 256 ∧
    ((op_adc n b).cpu.p &&& 0x01 ≠ 0 ↔ 256 ≤ n.cpu.a + b + c) ∧
    ((op_adc n b).cpu.p &&& 0x40 ≠ 0 ↔
      ((n.cpu.a ^^^ ((n.cpu.a + b + c) % 256)) &&& (b ^^^ ((n.cpu.a + b + c) % 256)) &&& 0x80)
        ≠ 0) ∧
    ((op_adc n b).cpu.p &&& 0x02 ≠ 0 ↔ (n.cpu.a + b + c) % 256 = 0) ∧
    ((op_adc n b).cpu.p &&& 0x80 ≠ 0 ↔ ((n.cpu.a + b + c) % 256).testBit 7 = true) ∧
    exec_opcode 0x69 n =
      (2, op_adc (rd (set_pc n ((n.cpu.pc + 1) % 65536)) n.cpu.pc).2
            (rd (set_pc n ((n.cpu.pc + 1) % 65536)) n.cpu.pc).1) := by
  have hc' : (if n.cpu.p &&& P_C ≠ 0 then 1 else 0) = c := by rw [hc]; rfl
  have hc1 : c ≤ 1 := by rw [hc]; split <;> omega
  have hA : (op_adc n b).cpu.a = (n.cpu.a + b + c) % 256 := by
    rw [op_adc_a, hc']; omega
  have hF := op_adc_flags n b
  rw [hA, hc'] at hF
  refine ⟨hA, ?_, hF.2.1, hF.2.2.1, ?_, rfl⟩
  · rw [hF.1]; omega
  · rw [hF.2.2.2]; exact and_two_pow_ne_zero _ 7

theorem adc_semantics_witness :
    (op_adc demo_alu 0x50).cpu.a = (0x50 + 0x50 + 1) % 256 ∧
    ((op_adc demo_alu 0x50).cpu.p &&& 0x01 ≠ 0 ↔ 256 ≤ 0x50 + 0x50 + 1) :=
  have h := adc_semantics demo_alu 0x50 1 (by decide) (by decide) (by decide)
  ⟨h.1, h.2.1⟩

/-! ## C5: SBC -/

/-- C5: for all bytes `a`, `m` and carry-in `c`, `SBC` is `ADC` of the one's complement
of `m`; it leaves `A = (a - m - (1 - c)) mod 256`, sets C iff no borrow occurred
(`a ≥ m + (1 - c)`) and sets V iff the signed result `a - m - (1 - c)`, with `a` and `m`
read as two's-complement values, lies outside `[-128, 127]`. -/
theorem sbc_semantics (n : nes_t) (m c : Nat) (ha : n.cpu.a < 256) (hm : m < 256)
    (hc : c = if n.cpu.p &&& 0x01 ≠ 0 then 1 else 0) :
    op_sbc n m = op_adc n (255 - m) ∧
    ((op_sbc n m).cpu.a : Int) = ((n.cpu.a : Int) - (m : Int) - (1 - (c : Int))) % 256 ∧
    ((op_sbc n m).cpu.p &&& 0x01 ≠ 0 ↔ m + (1 - c) ≤ n.cpu.a) ∧
    ((op_sbc n m).cpu.p &&& 0x40 ≠ 0 ↔
      (int8_of n.cpu.a - int8_of m - (1 - (c : Int)) < -128 ∨
        127 < int8_of n.cpu.a - int8_of m - (1 - (c : Int)))) := by
  have hc1 : c ≤ 1 := by rw [hc]; split <;> omega
  have hx : (m ^^^ 0xFF) % 256 = 255 - m := by
    rw [xor_0xFF_byte m hm]; omega
  have hs : op_sbc n m = op_adc n (255 - m) := by
    unfold op_sbc; rw [hx]
  have hb : 255 - m < 256 := by omega
  have h := adc_semantics n (255 - m) c ha hb hc
  rw [hs]
  refine ⟨rfl, ?_, ?_, ?_⟩
  · rw [h.1]; omega
  · rw [h.2.1]; omega
  · rw [h.2.2.1, sign_test _ _ _ ha hb (Nat.mod_lt _ (by decide))]
    unfold int8_of
    split_ifs <;> omega

theorem sbc_semantics_witness :
    op_sbc demo_alu 0xB0 = op_adc demo_alu (255 - 0xB0) ∧
    ((op_sbc demo_alu 0xB0).cpu.p &&& 0x40 ≠ 0 ↔
      (int8_of demo_alu.cpu.a - int8_of 0xB0 - (1 - ((1 : Nat) : Int)) < -128 ∨
        127 < int8_of demo_alu.cpu.a - int8_of 0xB0 - (1 - ((1 : Nat) : Int)))) :=
  have h := sbc_semantics demo_alu 0xB0 1 (by decide) (by decide) (by decide)
  ⟨h.1, h.2.2.2⟩

/-! ## Pages of 16-bit addresses -/

/-- The page mask `x & 0xFF00` of a 16-bit address keeps the page number. -/
theorem and_0xFF00 (x : Nat) (h : x < 65536) : x &&& 0xFF00 = 256 * (x / 256) := by
  apply Nat.eq_of_testBit_eq
  intro i
  have e1 : (0xFF00 : Nat) = 0xFF <<< 8 := rfl
  have e2 : 256 * (x / 256) = (x >>> 8) <<< 8 := by
    rw [Nat.shiftLeft_eq, Nat.shiftRight_eq_div_pow]; omega
  rw [e2, Nat.testBit_and, e1, Nat.testBit_shiftLeft, Nat.testBit_shiftLeft,
    Nat.testBit_shiftRight]
  have h255 : ∀ j, (0xFF : Nat).testBit j = decide (j < 8) := fun j =>
    Nat.testBit_two_pow_sub_one 8 j
  rw [h255]
  by_cases hi : 8 ≤ i
  · have e3 : 8 + (i - 8) = i := by omega
    rw [e3]
    by_cases hi2 : i - 8 < 8
    · simp [hi, hi2]
    · have hx : x.testBit i = false := by
        apply Nat.testBit_lt_two_pow
        calc x < 2 ^ 16 := h
          _ ≤ 2 ^ i := Nat.pow_le_pow_right (by decide) (by omega)
      simp [hi, hi2, hx]
  · simp [hi]

/-- Two 16-bit addresses have equal page masks exactly when they lie in the same
256-byte page. -/
theorem same_page_iff (x y : Nat) (hx : x < 65536) (hy : y < 65536) :
    (x &&& 0xFF00) = (y &&& 0xFF00) ↔ x / 256 = y / 256 := by
  rw [and_0xFF00 x hx, and_0xFF00 y hy]; omega

/-- The address of the high byte in `rd16_wrap_bug`: the next byte of the same page. -/
theorem wrap_addr (x : Nat) (h : x < 65536) :
    ((x &&& 0xFF00) ||| ((x + 1) &&& 0x00FF)) % 65536 = 256 * (x / 256) + (x + 1) % 256 := by
  rw [and_0xFF00 x h, and_0xFF]
  have hl : (x + 1) % 256 < 2 ^ 8 := Nat.mod_lt _ (by decide)
  have := Nat.mul_add_lt_is_or hl (x / 256)
  rw [show (2 : Nat) ^ 8 = 256 from rfl] at this
  rw [← this]
  omega

/-- The CPU registers do not influence what a bus read returns or does to the rest of the
machine. -/
theorem ppu_cpu_read_with_cpu (n : nes_t) (c : cpu6502_t) (a : Nat) :
    ppu_cpu_read { n with cpu := c } a =
      ((ppu_cpu_read n a).1, { (ppu_cpu_read n a).2 with cpu := c }) := by
  unfold ppu_cpu_read
  dsimp only
  split_ifs <;> rfl

theorem nes_cpu_read_with_cpu (n : nes_t) (c : cpu6502_t) (a : Nat) :
    nes_cpu_read { n with cpu := c } a =
      ((nes_cpu_read n a).1, { (nes_cpu_read n a).2 with cpu := c }) := by
  unfold nes_cpu_read
  dsimp only
  split_ifs
  · rfl
  · rw [ppu_cpu_read_with_cpu]
  · rfl
  · rfl
  · rfl
  · rfl
  · rfl

theorem rd_set_pc (n : nes_t) (v a : Nat) :
    rd (set_pc n v) a = ((rd n a).1, set_pc (rd n a).2 v) := by
  have h := nes_cpu_read_with_cpu n { n.cpu with pc := v } a
  have hc : (nes_cpu_read n a).2.cpu = n.cpu := nes_cpu_read_cpu n a
  simp only [rd, set_pc]
  rw [hc]
  exact h

/-! ## The instruction path of the step -/

theorem cpu6502_step_exec (n : nes_t) (h : instr_path n) :
    cpu6502_step n =
      ((exec_opcode (fetch_opcode n).1 (fetch_opcode n).2).1,
        add_cycles (exec_opcode (fetch_opcode n).1 (fetch_opcode n).2).2
          (exec_opcode (fetch_opcode n).1 (fetch_opcode n).2).1) := by
  obtain ⟨hs, hn, hi⟩ := h
  have hc : ¬ (n.cpu.irq_pending = true ∧ ¬ (n.cpu.p &&& P_I ≠ 0)) := by
    simpa using hi
  simp only [cpu6502_step, fetch_opcode, hs, hn, hc, if_false, Bool.false_eq_true]

theorem fetch_opcode_pc (n : nes_t) : (fetch_opcode n).2.cpu.pc = (n.cpu.pc + 1) % 65536 := by
  simp [fetch_opcode, set_pc]

theorem fetch_opcode_ram (n : nes_t) : (fetch_opcode n).2.ram = n.ram := by
  simp [fetch_opcode, set_pc]

@[simp] theorem add_cycles_pc (n : nes_t) (k : Nat) : (add_cycles n k).cpu.pc = n.cpu.pc := rfl

theorem rd16_lt (n : nes_t) (a : Nat) : (rd16 n a).1 < 65536 := by
  unfold rd16; exact Nat.mod_lt _ (by decide)

@[simp] theorem rd16_ram (n : nes_t) (a : Nat) : (rd16 n a).2.ram = n.ram := by
  simp [rd16]

/-! ## C6: the page wrap of `JMP (ptr)` -/

/-- C6: `JMP (ptr)` (opcode `$6C`) sets PC to `lo | hi<<8`, `lo` read at `ptr` and `hi`
read at `(ptr & $FF00) | ((ptr+1) & $FF)`; when the low byte of `ptr` is `$FF` that is
`ptr & $FF00` and not `ptr+1`, otherwise it is `ptr+1`.  With `$34` at `$10FF` and `$12`
at `$1000`, `JMP ($10FF)` sets `PC = $1234`. -/
theorem jmp_indirect (n : nes_t) (hpath : instr_path n) (hop : (fetch_opcode n).1 = 0x6C) :
    let s := (fetch_opcode n).2
    let ptr := (rd16 s s.cpu.pc).1
    let s1 := (rd16 s s.cpu.pc).2
    let hi_addr := ((ptr &&& 0xFF00) ||| ((ptr + 1) &&& 0x00FF)) % 65536
    let lo := (rd s1 ptr).1
    let hi := (rd (rd s1 ptr).2 hi_addr).1
    (cpu6502_step n).2.cpu.pc = (lo ||| (hi <<< 8)) % 65536 ∧
    (cpu6502_step n).1 = 5 ∧
    (ptr % 256 = 0xFF → hi_addr = ptr &&& 0xFF00 ∧ hi_addr ≠ (ptr + 1) % 65536) ∧
    (ptr % 256 ≠ 0xFF → hi_addr = ptr + 1) ∧
    (ptr = 0x10FF → n.ram (0x10FF &&& 0x07FF) = 0x34 → n.ram (0x1000 &&& 0x07FF) = 0x12 →
      (cpu6502_step n).2.cpu.pc = 0x1234) := by
  intro s ptr s1 hi_addr lo hi
  have hx : exec_opcode 0x6C s =
      (5, set_pc (rd16_wrap_bug s1 ptr).2 (rd16_wrap_bug s1 ptr).1) := rfl
  have hpc : (cpu6502_step n).2.cpu.pc = (lo ||| (hi <<< 8)) % 65536 := by
    rw [cpu6502_step_exec n hpath, hop, hx]
    rfl
  have hptr : ptr < 65536 := rd16_lt _ _
  have hw : hi_addr = 256 * (ptr / 256) + (ptr + 1) % 256 := wrap_addr ptr hptr
  refine ⟨hpc, ?_, ?_, ?_, ?_⟩
  · rw [cpu6502_step_exec n hpath, hop, hx]
  · intro hl
    rw [hw, and_0xFF00 ptr hptr]
    omega
  · intro hl
    rw [hw]
    omega
  · intro hp h1 h2
    have hs1 : s1.ram = n.ram := by
      show (rd16 s s.cpu.pc).2.ram = n.ram
      rw [rd16_ram]; exact fetch_opcode_ram n
    have ha : hi_addr = 0x1000 := by rw [hw, hp]
    have hlo : lo = 0x34 := by
      show (rd s1 ptr).1 = 0x34
      rw [hp, rd_of_ram _ _ (by decide), hs1]
      exact h1
    have hhi : hi = 0x12 := by
      show (rd (rd s1 ptr).2 hi_addr).1 = 0x12
      rw [ha, rd_of_ram _ _ (by decide), rd_ram, hs1]
      exact h2
    rw [hpc, hlo, hhi]
    rfl

theorem jmp_indirect_witness :
    (cpu6502_step demo_jmp).2.cpu.pc = 0x1234 ∧ (cpu6502_step demo_jmp).1 = 5 :=
  have h := jmp_indirect demo_jmp (by decide) (by decide)
  ⟨h.2.2.2.2 (by decide) (by decide) (by decide), h.2.1⟩

/-! ## C7: branch timing -/

theorem fetch_opcode_p (n : nes_t) : (fetch_opcode n).2.cpu.p = n.cpu.p := by
  simp [fetch_opcode, set_pc]

theorem branch_false_eq (s : nes_t) :
    branch s false = (2, set_pc (rd s s.cpu.pc).2 ((s.cpu.pc + 1) % 65536)) := by
  unfold branch
  dsimp only
  rw [rd_set_pc]
  rfl

theorem branch_true_eq (s : nes_t) :
    branch s true =
      (2 + 1 +
        (if ((s.cpu.pc + 1) % 65536 &&& 0xFF00) ≠
            (((((s.cpu.pc + 1) % 65536 : Nat) : Int) + int8_of (rd s s.cpu.pc).1) % 65536).toNat
              &&& 0xFF00
          then 1 else 0),
       set_pc (rd s s.cpu.pc).2
        (((((s.cpu.pc + 1) % 65536 : Nat) : Int) + int8_of (rd s s.cpu.pc).1) % 65536).toNat) := by
  unfold branch
  dsimp only
  rw [rd_set_pc]
  rfl

/-- What `branch` does, in terms of the offset byte at PC. -/
theorem branch_spec (s : nes_t) (c : Bool) :
    (c = false →
      (branch s c).1 = 2 ∧ (branch s c).2.cpu.pc = (s.cpu.pc + 1) % 65536) ∧
    (c = true →
      ((branch s c).2.cpu.pc : Int) =
        ((((s.cpu.pc + 1) % 65536 : Nat) : Int) + int8_of (rd s s.cpu.pc).1) % 65536 ∧
      (branch s c).1 =
        if ((s.cpu.pc + 1) % 65536) / 256 = (branch s c).2.cpu.pc / 256 then 3 else 4) := by
  constructor
  · intro hc
    subst hc
    rw [branch_false_eq]
    exact ⟨rfl, rfl⟩
  · intro hc
    subst hc
    have h1 : (s.cpu.pc + 1) % 65536 < 65536 := Nat.mod_lt _ (by decide)
    have h2 : (((((s.cpu.pc + 1) % 65536 : Nat) : Int) + int8_of (rd s s.cpu.pc).1) % 65536).toNat
        < 65536 := by omega
    have hpg := same_page_iff _ _ h1 h2
    rw [branch_true_eq]
    constructor
    · show ((((((s.cpu.pc + 1) % 65536 : Nat) : Int) + int8_of (rd s s.cpu.pc).1)
          % 65536).toNat : Int) = _
      omega
    · show 2 + 1 + (if _ ≠ _ then 1 else 0) = if _ = (((((s.cpu.pc + 1) % 65536 : Nat) : Int)
          + int8_of (rd s s.cpu.pc).1) % 65536).toNat / 256 then 3 else 4
      by_cases hq : (s.cpu.pc + 1) % 65536 / 256 = (((((s.cpu.pc + 1) % 65536 : Nat) : Int)
          + int8_of (rd s s.cpu.pc).1) % 65536).toNat / 256
      · rw [if_neg (not_not.mpr (hpg.2 hq)), if_pos hq]
      · rw [if_pos (fun e => hq (hpg.1 e)), if_neg hq]

/-- C7: for each conditional branch opcode at address `p` with signed offset `r`: if the
condition is false the step returns 2 and `PC = p+2`; if it is true
`PC = (p+2+r) mod 65536` and the step returns 3 when `p+2` and the target have the same
high byte, 4 otherwise (addresses are 16-bit). -/
theorem branch_timing (n : nes_t) (op : Nat) (hpath : instr_path n)
    (hop : (fetch_opcode n).1 = op)
    (hbr : op ∈ [0x10, 0x30, 0x50, 0x70, 0x90, 0xB0, 0xD0, 0xF0]) :
    let p := n.cpu.pc
    let r := int8_of (rd (fetch_opcode n).2 ((p + 1) % 65536)).1
    let target := (((p + 2 : Nat) : Int) + r) % 65536
    (¬ branch_taken op n.cpu.p →
      (cpu6502_step n).1 = 2 ∧ (cpu6502_step n).2.cpu.pc = (p + 2) % 65536) ∧
    (branch_taken op n.cpu.p →
      ((cpu6502_step n).2.cpu.pc : Int) = target ∧
      (cpu6502_step n).1 = if ((p + 2) % 65536) / 256 = target.toNat / 256 then 3 else 4) := by
  intro p r target
  have hs := fetch_opcode_pc n
  have hp := fetch_opcode_p n
  have e1 : ((n.cpu.pc + 1) % 65536 + 1) % 65536 = (n.cpu.pc + 2) % 65536 := by omega
  have key : ∀ c : Bool, exec_opcode op (fetch_opcode n).2 = branch (fetch_opcode n).2 c →
      (c = true ↔ branch_taken op n.cpu.p) →
      (¬ branch_taken op n.cpu.p →
        (cpu6502_step n).1 = 2 ∧ (cpu6502_step n).2.cpu.pc = (p + 2) % 65536) ∧
      (branch_taken op n.cpu.p →
        ((cpu6502_step n).2.cpu.pc : Int) = target ∧
        (cpu6502_step n).1 = if ((p + 2) % 65536) / 256 = target.toNat / 256 then 3 else 4) := by
    intro c hx hc
    have hb := branch_spec (fetch_opcode n).2 c
    rw [hs, e1] at hb
    have hstep : cpu6502_step n =
        ((branch (fetch_opcode n).2 c).1,
          add_cycles (branch (fetch_opcode n).2 c).2 (branch (fetch_opcode n).2 c).1) := by
      rw [cpu6502_step_exec n hpath, hop, hx]
    rw [hstep]
    constructor
    · intro hnt
      have : c = false := by
        cases c
        · rfl
        · exact absurd (hc.1 rfl) hnt
      exact hb.1 this
    · intro ht
      have hct : c = true := hc.2 ht
      obtain ⟨h1, h2⟩ := hb.2 hct
      have ht' : ((branch (fetch_opcode n).2 c).2.cpu.pc : Int) = target := by
        have hp0 : p = n.cpu.pc := rfl
        have hr : r = int8_of (rd (fetch_opcode n).2 ((n.cpu.pc + 1) % 65536)).1 := rfl
        have htg : target = (((p + 2 : Nat) : Int) + r) % 65536 := rfl
        rw [h1, htg, hr, hp0]
        omega
      refine ⟨ht', ?_⟩
      have : target.toNat = (branch (fetch_opcode n).2 c).2.cpu.pc := by
        rw [← ht']; omega
      rw [this]
      exact h2
  simp only [List.mem_cons, List.mem_singleton, List.not_mem_nil, or_false] at hbr
  rcases hbr with h | h | h | h | h | h | h | h <;> subst h
  · exact key _ rfl (by rw [hp]; simp [branch_taken])
  · exact key _ rfl (by rw [hp]; simp [branch_taken])
  · exact key _ rfl (by rw [hp]; simp [branch_taken])
  · exact key _ rfl (by rw [hp]; simp [branch_taken])
  · exact key _ rfl (by rw [hp]; simp [branch_taken])
  · exact key _ rfl (by rw [hp]; simp [branch_taken])
  · exact key _ rfl (by rw [hp]; simp [branch_taken])
  · exact key _ rfl (by rw [hp]; simp [branch_taken])

theorem branch_timing_witness :
    ((cpu6502_step demo_beq).2.cpu.pc = 0x030F ∧ (cpu6502_step demo_beq).1 = 4) ∧
    ((cpu6502_step demo_bne).1 = 2 ∧ (cpu6502_step demo_bne).2.cpu.pc = (0x0200 + 2) % 65536) := by
  have h1 := (branch_timing demo_beq 0xF0 (by decide) (by decide) (by decide)).2
    (by decide)
  have h2 := (branch_timing demo_bne 0xD0 (by decide) (by decide) (by decide)).1
    (by decide)
  refine ⟨⟨?_, ?_⟩, h2⟩
  · have := h1.1
    have e : ((((0x02FD + 2 : Nat) : Int) +
        int8_of (rd (fetch_opcode demo_beq).2 ((0x02FD + 1) % 65536)).1) % 65536) = 0x030F := by
      decide
    have h3 : ((cpu6502_step demo_beq).2.cpu.pc : Int) = 0x030F := this.trans e
    exact_mod_cast h3
  · decide

/-! ## C8: page-cross penalties -/

@[simp] theorem set_pc_y (n : nes_t) (v : Nat) : (set_pc n v).cpu.y = n.cpu.y := rfl

theorem rd16_cpu (n : nes_t) (a : Nat) : (rd16 n a).2.cpu = n.cpu := by
  simp [rd16]

/-- The page-cross bit computed by the indexed modes is the penalty of leaving the page. -/
theorem cross_bit (base i : Nat) (hb : base < 65536) :
    (if (true = true) ∧ (base &&& 0xFF00) ≠ (((base + i) % 65536) &&& 0xFF00) then 1 else 0)
      = page_penalty base i := by
  have h := same_page_iff base ((base + i) % 65536) hb (Nat.mod_lt _ (by decide))
  unfold page_penalty
  by_cases hq : base / 256 = ((base + i) % 65536) / 256
  · rw [if_neg (fun e => e.2 (h.2 hq)), if_neg (not_not.mpr hq)]
  · rw [if_pos ⟨rfl, fun e => hq (h.1 e)⟩, if_pos hq]

theorem ea_absx_cross (s : nes_t) :
    (ea_absx s true).1.page_cross = page_penalty (rd16 s s.cpu.pc).1 s.cpu.x := by
  have h := cross_bit (rd16 s s.cpu.pc).1 s.cpu.x (rd16_lt _ _)
  rw [← h]
  simp only [ea_absx, set_pc, rd16_cpu]

theorem ea_absy_cross (s : nes_t) :
    (ea_absy s true).1.page_cross = page_penalty (rd16 s s.cpu.pc).1 s.cpu.y := by
  have h := cross_bit (rd16 s s.cpu.pc).1 s.cpu.y (rd16_lt _ _)
  rw [← h]
  simp only [ea_absy, set_pc, rd16_cpu]

theorem ea_indy_cross (s : nes_t) :
    (ea_indy s true).1.page_cross =
      page_penalty
        (((rd (rd s s.cpu.pc).2 (rd s s.cpu.pc).1).1 |||
          ((rd (rd (rd s s.cpu.pc).2 (rd s s.cpu.pc).1).2 (((rd s s.cpu.pc).1 + 1) % 256)).1
            <<< 8)) % 65536)
        s.cpu.y := by
  have h := cross_bit
    (((rd (rd s s.cpu.pc).2 (rd s s.cpu.pc).1).1 |||
      ((rd (rd (rd s s.cpu.pc).2 (rd s s.cpu.pc).1).2 (((rd s s.cpu.pc).1 + 1) % 256)).1
        <<< 8)) % 65536) s.cpu.y (Nat.mod_lt _ (by decide))
  rw [← h]
  unfold ea_indy
  simp only [rd_set_pc, rd_cpu, set_pc_y]

theorem exec_cost_absx_read (s : nes_t) (op : Nat)
    (h : op ∈ [0xBD, 0xBC, 0x7D, 0xFD, 0x3D, 0x1D, 0x5D, 0xDD]) :
    (exec_opcode op s).1 = 4 + (ea_absx s true).1.page_cross := by
  simp only [List.mem_cons, List.mem_singleton, List.not_mem_nil, or_false] at h
  rcases h with h | h | h | h | h | h | h | h <;> subst h <;> rfl

theorem exec_cost_absy_read (s : nes_t) (op : Nat)
    (h : op ∈ [0xB9, 0xBE, 0x79, 0xF9, 0x39, 0x19, 0x59, 0xD9, 0xBF, 0xBB]) :
    (exec_opcode op s).1 = 4 + (ea_absy s true).1.page_cross := by
  simp only [List.mem_cons, List.mem_singleton, List.not_mem_nil, or_false] at h
  rcases h with h | h | h | h | h | h | h | h | h | h <;> subst h <;> rfl

theorem exec_cost_indy_read (s : nes_t) (op : Nat)
    (h : op ∈ [0xB1, 0x71, 0xF1, 0x31, 0x11, 0x51, 0xD1, 0xB3]) :
    (exec_opcode op s).1 = 5 + (ea_indy s true).1.page_cross := by
  simp only [List.mem_cons, List.mem_singleton, List.not_mem_nil, or_false] at h
  rcases h with h | h | h | h | h | h | h | h <;> subst h <;> rfl

theorem exec_cost_indexed_write (s : nes_t) (op : Nat) :
    (op ∈ [0x9D, 0x99] → (exec_opcode op s).1 = 5) ∧
    (op = 0x91 → (exec_opcode op s).1 = 6) ∧
    (op ∈ [0xFE, 0xDE, 0x1E, 0x5E, 0x3E, 0x7E] → (exec_opcode op s).1 = 7) := by
  refine ⟨?_, ?_, ?_⟩
  · intro h
    simp only [List.mem_cons, List.mem_singleton, List.not_mem_nil, or_false] at h
    rcases h with h | h <;> subst h <;> rfl
  · intro h; subst h; rfl
  · intro h
    simp only [List.mem_cons, List.mem_singleton, List.not_mem_nil, or_false] at h
    rcases h with h | h | h | h | h | h <;> subst h <;> rfl

theorem fetch_opcode_x (n : nes_t) : (fetch_opcode n).2.cpu.x = n.cpu.x := by
  simp [fetch_opcode, set_pc]

theorem fetch_opcode_y (n : nes_t) : (fetch_opcode n).2.cpu.y = n.cpu.y := by
  simp [fetch_opcode, set_pc]

/-- C8: the read opcodes in absolute,X, absolute,Y and (indirect),Y addressing (LDA, LDX,
LDY, ADC, SBC, AND, ORA, EOR, CMP, LAX, LAS) return the base cost, 4 for absolute indexed
and 5 for indirect indexed, plus 1 exactly when the indexed address lies in another
256-byte page than the base address; STA abs,X and abs,Y return 5, STA (zp),Y returns 6
and INC/DEC/ASL/LSR/ROL/ROR abs,X return 7, page crossed or not. -/
theorem page_cross_timing (n : nes_t) (op : Nat) (hpath : instr_path n)
    (hop : (fetch_opcode n).1 = op) :
    let s := (fetch_opcode n).2
    let base := (rd16 s s.cpu.pc).1
    let zp := (rd s s.cpu.pc).1
    let lo := (rd (rd s s.cpu.pc).2 zp).1
    let hi := (rd (rd (rd s s.cpu.pc).2 zp).2 ((zp + 1) % 256)).1
    let ibase := (lo ||| (hi <<< 8)) % 65536
    (op ∈ [0xBD, 0xBC, 0x7D, 0xFD, 0x3D, 0x1D, 0x5D, 0xDD] →
      (cpu6502_step n).1 = 4 + page_penalty base n.cpu.x) ∧
    (op ∈ [0xB9, 0xBE, 0x79, 0xF9, 0x39, 0x19, 0x59, 0xD9, 0xBF, 0xBB] →
      (cpu6502_step n).1 = 4 + page_penalty base n.cpu.y) ∧
    (op ∈ [0xB1, 0x71, 0xF1, 0x31, 0x11, 0x51, 0xD1, 0xB3] →
      (cpu6502_step n).1 = 5 + page_penalty ibase n.cpu.y) ∧
    (op ∈ [0x9D, 0x99] → (cpu6502_step n).1 = 5) ∧
    (op = 0x91 → (cpu6502_step n).1 = 6) ∧
    (op ∈ [0xFE, 0xDE, 0x1E, 0x5E, 0x3E, 0x7E] → (cpu6502_step n).1 = 7) := by
  intro s base zp lo hi ibase
  have hstep : (cpu6502_step n).1 = (exec_opcode op s).1 := by
    rw [cpu6502_step_exec n hpath, hop]
  have hx : s.cpu.x = n.cpu.x := fetch_opcode_x n
  have hy : s.cpu.y = n.cpu.y := fetch_opcode_y n
  have hw := exec_cost_indexed_write s op
  rw [hstep]
  refine ⟨?_, ?_, ?_, hw.1, hw.2.1, hw.2.2⟩
  · intro h
    rw [exec_cost_absx_read s op h, ea_absx_cross, hx]
  · intro h
    rw [exec_cost_absy_read s op h, ea_absy_cross, hy]
  · intro h
    rw [exec_cost_indy_read s op h, ea_indy_cross, hy]

theorem page_cross_timing_witness :
    (cpu6502_step demo_ldax).1 = 4 + 1 ∧ (cpu6502_step demo_stax).1 = 5 := by
  have h1 := (page_cross_timing demo_ldax 0xBD (by decide) (by decide)).1 (by decide)
  have h2 := (page_cross_timing demo_stax 0x9D (by decide) (by decide)).2.2.2.1 (by decide)
  refine ⟨?_, h2⟩
  rw [h1]
  decide

/-! ## C9: the stack -/

/-- C9 (amended): the 8-bit SP indexes page `$01`; a push with stack pointer `S` stores
the byte at `$0100 | S` and then decrements SP, and a pull with stack pointer `S` first
increments SP and returns the byte at `$0100 | (S+1 mod 256)`; a pull changes no RAM. -/
theorem stack_push_pull (n : nes_t) (v : Nat) (hsp : n.cpu.sp < 256) :
    (push n v).ram = mem_set n.ram (0x0100 ||| n.cpu.sp) v ∧
    (push n v).cpu.sp = (n.cpu.sp + 255) % 256 ∧
    (pull n).1 = n.ram (0x0100 ||| ((n.cpu.sp + 1) % 256)) ∧
    (pull n).2.cpu.sp = (n.cpu.sp + 1) % 256 ∧
    (pull n).2.ram = n.ram := by
  have h1 : (n.cpu.sp + 1) % 256 < 256 := Nat.mod_lt _ (by decide)
  have ha : (0x0100 ||| ((n.cpu.sp + 1) % 256)) < 0x2000 := by
    rw [stack_addr _ h1]; omega
  have hm : (0x0100 ||| ((n.cpu.sp + 1) % 256)) &&& 0x07FF = 0x0100 ||| ((n.cpu.sp + 1) % 256) := by
    rw [and_0x07FF, stack_addr _ h1]; omega
  have hpull : pull n =
      (n.ram (0x0100 ||| ((n.cpu.sp + 1) % 256)),
        { set_sp n ((n.cpu.sp + 1) % 256) with
          last_bus := n.ram (0x0100 ||| ((n.cpu.sp + 1) % 256)) }) := by
    unfold pull
    show rd (set_sp n ((n.cpu.sp + 1) % 256)) (0x0100 ||| ((n.cpu.sp + 1) % 256)) = _
    rw [rd_of_ram _ _ ha, hm]
    rfl
  rw [push_eq n v hsp, hpull, stack_addr _ hsp]
  exact ⟨rfl, rfl, rfl, rfl, rfl⟩

theorem stack_push_pull_witness :
    (push demo_stack 0xAB).ram = mem_set demo_stack.ram (0x0100 ||| demo_stack.cpu.sp) 0xAB ∧
    (pull demo_stack).1 = demo_stack.ram (0x0100 ||| ((demo_stack.cpu.sp + 1) % 256)) :=
  have h := stack_push_pull demo_stack 0xAB (by decide)
  ⟨h.1, h.2.2.1⟩

/-- C9 as stated fails: with `SP = $FD`, a push of `$AB` leaves `$01FC = $0100 | (S-1)`
untouched and writes `$01FD`, and a pull returns the byte at `$01FE`, not the one at
`$01FD = $0100 | S`. -/
theorem stack_push_pull_counterexample :
    demo_stack.cpu.sp = 0xFD ∧
    (push demo_stack 0xAB).ram (0x0100 ||| ((demo_stack.cpu.sp + 255) % 256)) ≠ 0xAB ∧
    (push demo_stack 0xAB).ram (0x0100 ||| demo_stack.cpu.sp) = 0xAB ∧
    (pull demo_stack).1 ≠ demo_stack.ram (0x0100 ||| demo_stack.cpu.sp) ∧
    (pull demo_stack).1 = 0x22 := by
  decide

/-! ## C10: the machine after reset -/

/-- The CPU after `nes_reset`: registers forced, latches and stall clear, PC from the
reset vector at `$FFFC`. -/
theorem nes_reset_cpu (n : nes_t) :
    (nes_reset n).cpu =
      { pc := (cart_cpu_read n 0xFFFC ||| (cart_cpu_read n 0xFFFD <<< 8)) % 65536,
        a := 0, x := 0, y := 0, sp := 0xFD, p := 0x24, cycles := 7,
        nmi_pending := false, irq_pending := false } ∧
    (nes_reset n).cpu_stall = 0 ∧ (nes_reset n).cart = n.cart := by
  unfold nes_reset cpu6502_reset rd16
  simp only [rd_of_prg _ _ (show 0x8000 ≤ 0xFFFC by decide),
    rd_of_prg _ _ (show 0x8000 ≤ (0xFFFC + 1) % 65536 by decide), set_pc, set_p, set_sp]
  refine ⟨?_, ?_, ?_⟩ <;> first | rfl | trivial

/-- The properties of the machine after reset that C10 lists. -/
theorem nes_reset_props (n : nes_t)
    (hsize : n.cart.info.prg_rom_size = 16 * 1024 ∨ n.cart.info.prg_rom_size = 32 * 1024)
    (hprg : ∀ i, n.cart.prg_rom i < 256) :
    (nes_reset n).cpu.pc =
      n.cart.prg_rom (n.cart.info.prg_rom_size - 4) +
        256 * n.cart.prg_rom (n.cart.info.prg_rom_size - 3) ∧
    (nes_reset n).cpu.sp = 0xFD ∧ (nes_reset n).cpu.p = 0x24 ∧
    (nes_reset n).cpu.a = 0 ∧ (nes_reset n).cpu.x = 0 ∧ (nes_reset n).cpu.y = 0 ∧
    (nes_reset n).cpu.cycles = 7 ∧ (nes_reset n).cpu.nmi_pending = false ∧
    (nes_reset n).cpu.irq_pending = false ∧ (nes_reset n).cpu_stall = 0 := by
  obtain ⟨hc, hs, _⟩ := nes_reset_cpu n
  rw [hc]
  refine ⟨?_, rfl, rfl, rfl, rfl, rfl, rfl, rfl, rfl, hs⟩
  show (cart_cpu_read n 0xFFFC ||| (cart_cpu_read n 0xFFFD <<< 8)) % 65536 = _
  have h1 : cart_cpu_read n 0xFFFC = n.cart.prg_rom (n.cart.info.prg_rom_size - 4) := by
    rcases hsize with h | h <;> simp [cart_cpu_read, h]
  have h2 : cart_cpu_read n 0xFFFD = n.cart.prg_rom (n.cart.info.prg_rom_size - 3) := by
    rcases hsize with h | h <;> simp [cart_cpu_read, h]
  rw [h1, h2]
  exact word_of_bytes _ _ (hprg _) (hprg _)

theorem nes_load_ok (file : Option (List Nat)) (m : nes_t) (h : nes_load file = Except.ok m) :
    ∃ cart, ines_load file = Except.ok cart ∧ cart.info.mapper = 0 ∧
      m = nes_reset { nes_zero with cart := cart } := by
  unfold nes_load at h
  dsimp only at h
  split at h
  · cases h
  · rename_i cart hc
    split at h
    · cases h
    · rename_i hm
      injection h with h
      exact ⟨cart, hc, by simpa using hm, h.symm⟩

/-- C10: after `nes_reset`, and so after a successful `nes_load`, of a cartridge with
16 KiB or 32 KiB of PRG, PC is the little-endian word at PRG offset `$3FFC` (16 KiB) or
`$7FFC` (32 KiB), `SP = $FD`, `P = $24`, `A = X = Y = 0`, the cycle counter is 7 and the
NMI latch, the IRQ latch and the stall counter are clear; a PRG whose last six bytes are
`00 00 00 80 00 00` gives `PC = $8000`. -/
theorem reset_state (n0 n : nes_t) (file : Option (List Nat))
    (hn : n = nes_reset n0 ∨ nes_load file = Except.ok n)
    (hsize : n.cart.info.prg_rom_size = 16 * 1024 ∨ n.cart.info.prg_rom_size = 32 * 1024)
    (hprg : ∀ i, n.cart.prg_rom i < 256) :
    (n.cart.info.prg_rom_size = 16 * 1024 →
      n.cpu.pc = n.cart.prg_rom 0x3FFC + 256 * n.cart.prg_rom 0x3FFD) ∧
    (n.cart.info.prg_rom_size = 32 * 1024 →
      n.cpu.pc = n.cart.prg_rom 0x7FFC + 256 * n.cart.prg_rom 0x7FFD) ∧
    n.cpu.sp = 0xFD ∧ n.cpu.p = 0x24 ∧ n.cpu.p = (P_I ||| P_U) ∧
    n.cpu.a = 0 ∧ n.cpu.x = 0 ∧ n.cpu.y = 0 ∧ n.cpu.cycles = 7 ∧
    n.cpu.nmi_pending = false ∧ n.cpu.irq_pending = false ∧ n.cpu_stall = 0 ∧
    ((∀ k, k < 6 →
        n.cart.prg_rom (n.cart.info.prg_rom_size - 6 + k) =
          [0x00, 0x00, 0x00, 0x80, 0x00, 0x00].getD k 0) →
      n.cpu.pc = 0x8000) := by
  have key : ∃ m : nes_t, n = nes_reset m := by
    rcases hn with h | h
    · exact ⟨n0, h⟩
    · obtain ⟨cart, _, _, hm⟩ := nes_load_ok file n h
      exact ⟨_, hm⟩
  obtain ⟨m, rfl⟩ := key
  have hcart : (nes_reset m).cart = m.cart := (nes_reset_cpu m).2.2
  rw [hcart] at hsize hprg ⊢
  obtain ⟨hpc, hsp, hp, ha, hx, hy, hcyc, hnmi, hirq, hst⟩ := nes_reset_props m hsize hprg
  refine ⟨?_, ?_, hsp, hp, ?_, ha, hx, hy, hcyc, hnmi, hirq, hst, ?_⟩
  · intro h; rw [hpc, h]
  · intro h; rw [hpc, h]
  · rw [hp]; rfl
  · intro h6
    have h2 := h6 2 (by decide)
    have h3 := h6 3 (by decide)
    have e2 : m.cart.info.prg_rom_size - 6 + 2 = m.cart.info.prg_rom_size - 4 := by
      rcases hsize with h | h <;> omega
    have e3 : m.cart.info.prg_rom_size - 6 + 3 = m.cart.info.prg_rom_size - 3 := by
      rcases hsize with h | h <;> omega
    rw [e2] at h2
    rw [e3] at h3
    rw [hpc, h2, h3]
    rfl

theorem demo_rom_length : demo_rom.length = 16400 := by
  rw [demo_rom, List.length_append, List.length_append, List.length_replicate]
  rfl

theorem demo_rom_header : ∀ i, i < 16 →
    demo_rom.getD i 0 = [0x4E, 0x45, 0x53, 0x1A, 1, 0, 0, 0, 0, 0, 0, 0, 0, 0, 0, 0].getD i 0 := by
  decide

theorem demo_rom_ines : ines_load (some demo_rom) = Except.ok demo_rom_cart := by
  have h := demo_rom_header
  have h0 := h 0 (by decide)
  have h1 := h 1 (by decide)
  have h2 := h 2 (by decide)
  have h3 := h 3 (by decide)
  have h4 := h 4 (by decide)
  have h5 := h 5 (by decide)
  have h6 := h 6 (by decide)
  have h7 := h 7 (by decide)
  have h8 := h 8 (by decide)
  simp only [List.getD_cons_zero, List.getD_cons_succ] at h0 h1 h2 h3 h4 h5 h6 h7 h8
  simp only [ines_load, read_exact, demo_rom_length, h0, h1, h2, h3, h4, h5, h6, h7, h8]
  simp [demo_rom_cart]

theorem demo_rom_nes_load :
    nes_load (some demo_rom) = Except.ok (nes_reset { nes_zero with cart := demo_rom_cart }) := by
  simp only [nes_load, demo_rom_ines]
  rfl

theorem demo_rom_tail (k : Nat) (hk : k < 6) :
    demo_rom.getD (16 + (16 * 1024 - 6 + k)) 0 = [0x00, 0x00, 0x00, 0x80, 0x00, 0x00].getD k 0 := by
  have hl : demo_hdr.length = 16 := rfl
  rw [demo_rom, List.getD_append_right _ _ _ _ (by rw [hl]; omega),
    List.getD_append_right _ _ _ _ (by rw [List.length_replicate, hl]; omega)]
  have e : 16 + (16 * 1024 - 6 + k) - demo_hdr.length
      - (List.replicate (16384 - 6) 0xEA).length = k := by
    rw [List.length_replicate, hl]; omega
  rw [e]

theorem demo_rom_bytes (b : Nat) (hb : b ∈ demo_rom) : b < 256 := by
  simp only [demo_rom, demo_hdr, List.mem_append, List.mem_replicate, List.mem_cons,
    List.mem_singleton, List.not_mem_nil, or_false] at hb
  omega

theorem file_bytes_lt (f : List Nat) (pos len i : Nat) (hf : ∀ b ∈ f, b < 256) :
    file_bytes f pos len i < 256 := by
  unfold file_bytes
  split
  · rw [List.getD_eq_getElem?_getD]
    cases hget : f[pos + i]? with
    | none => simp
    | some b => exact hf b (List.getElem?_mem hget)
  · decide

theorem reset_state_witness :
    nes_load (some demo_rom) = Except.ok (nes_reset { nes_zero with cart := demo_rom_cart }) ∧
    (nes_reset { nes_zero with cart := demo_rom_cart }).cpu.pc = 0x8000 ∧
    (nes_reset { nes_zero with cart := demo_rom_cart }).cpu.sp = 0xFD ∧
    (nes_reset { nes_zero with cart := demo_rom_cart }).cpu.cycles = 7 := by
  have demo_rom_tail' := fun k hk => demo_rom_tail k hk
  have hc : (nes_reset { nes_zero with cart := demo_rom_cart }).cart = demo_rom_cart := rfl
  have h := reset_state nes_zero (nes_reset { nes_zero with cart := demo_rom_cart })
    (some demo_rom) (Or.inr demo_rom_nes_load) (Or.inl (by rw [hc]; rfl))
    (by rw [hc]; exact fun i => file_bytes_lt _ _ _ _ demo_rom_bytes)
  refine ⟨demo_rom_nes_load, h.2.2.2.2.2.2.2.2.2.2.2.2 ?_, h.2.2.1, h.2.2.2.2.2.2.2.2.1⟩
  intro k hk
  rw [hc]
  show file_bytes demo_rom 16 (16 * 1024) (16 * 1024 - 6 + k) = _
  unfold file_bytes
  rw [if_pos (by omega)]
  exact demo_rom_tail' k hk

/-! ## C11: RAM and its mirrors -/

/-- C11: for every byte `B`, address `A` in `[$0000,$07FF]` and `k`, `j` in `0..3`, after a
CPU write of `B` to `A + k*$0800` a CPU read of `A + j*$0800` returns `B`; the write
stores `B` in RAM cell `A` and changes no other RAM cell. -/
theorem ram_round_trip (n : nes_t) (A B k j : Nat) (hA : A < 0x0800) (hk : k < 4) (hj : j < 4) :
    (nes_cpu_read (nes_cpu_write n (A + k * 0x0800) B) (A + j * 0x0800)).1 = B ∧
    (nes_cpu_write n (A + k * 0x0800) B).ram A = B ∧
    (∀ i, i ≠ A → (nes_cpu_write n (A + k * 0x0800) B).ram i = n.ram i) := by
  have hw : (A + k * 0x0800) < 0x2000 := by omega
  have hr : (A + j * 0x0800) < 0x2000 := by omega
  have ew : (A + k * 0x0800) &&& 0x07FF = A := by rw [and_0x07FF]; omega
  have er : (A + j * 0x0800) &&& 0x07FF = A := by rw [and_0x07FF]; omega
  have h1 : nes_cpu_write n (A + k * 0x0800) B =
      { n with last_bus := B, ram := mem_set n.ram A B } := by
    have := wr_of_ram n (A + k * 0x0800) B hw
    rw [ew] at this
    exact this
  have h2 : ∀ m : nes_t, (nes_cpu_read m (A + j * 0x0800)).1 = m.ram A := by
    intro m
    have := rd_of_ram m (A + j * 0x0800) hr
    rw [er] at this
    exact congrArg Prod.fst this
  rw [h2, h1]
  refine ⟨mem_set_same _ _ _, mem_set_same _ _ _, ?_⟩
  intro i hi
  exact mem_set_other _ _ _ _ hi

theorem ram_round_trip_witness :
    (nes_cpu_read (nes_cpu_write demo_nes (0x0010 + 1 * 0x0800) 0x5A) (0x0010 + 3 * 0x0800)).1
      = 0x5A :=
  (ram_round_trip demo_nes 0x0010 0x5A 1 3 (by decide) (by decide) (by decide)).1

/-! ## C14: PRG ROM at `$8000..$FFFF` -/

/-- C14: with a PRG of size `S`, 16 KiB or 32 KiB, a CPU read of an address `a` in
`$8000..$FFFF` returns `PRG[(a - $8000) mod S]`; with 16 KiB the reads of `a` and
`a + $4000` agree for `a` in `$8000..$BFFF`; a CPU write there changes nothing in the
machine except the last-bus byte. -/
theorem prg_read_write (n : nes_t) (a v : Nat)
    (hS : n.cart.info.prg_rom_size = 16 * 1024 ∨ n.cart.info.prg_rom_size = 32 * 1024)
    (ha : 0x8000 ≤ a) (ha2 : a ≤ 0xFFFF) :
    (nes_cpu_read n a).1 = n.cart.prg_rom ((a - 0x8000) % n.cart.info.prg_rom_size) ∧
    (n.cart.info.prg_rom_size = 16 * 1024 → a ≤ 0xBFFF →
      (nes_cpu_read n (a + 0x4000)).1 = (nes_cpu_read n a).1) ∧
    nes_cpu_write n a v = { n with last_bus := v } := by
  have hrd : ∀ b, 0x8000 ≤ b → (nes_cpu_read n b).1 = cart_cpu_read n b := fun b hb =>
    congrArg Prod.fst (rd_of_prg n b hb)
  have hc : ∀ b, 0x8000 ≤ b →
      cart_cpu_read n b = n.cart.prg_rom ((b - 0x8000) % n.cart.info.prg_rom_size) := by
    intro b hb
    have hb' : ¬ b < 0x8000 := by omega
    rcases hS with h | h <;> simp [cart_cpu_read, hb', h]
  refine ⟨?_, ?_, ?_⟩
  · rw [hrd a ha, hc a ha]
  · intro h16 hlow
    rw [hrd a ha, hrd (a + 0x4000) (by omega), hc a ha, hc (a + 0x4000) (by omega), h16]
    have e : (a + 0x4000 - 0x8000) % (16 * 1024) = (a - 0x8000) % (16 * 1024) := by omega
    rw [e]
  · have h1 : ¬ a < 0x2000 := by omega
    have h2 : ¬ a < 0x4000 := by omega
    have h3 : a ≠ 0x4014 := by omega
    have h4 : a ≠ 0x4016 := by omega
    simp [nes_cpu_write, cart_cpu_write, h1, h2, h3, h4, ha]

theorem prg_read_write_witness :
    (nes_cpu_read demo_nes 0xFFFD).1 = demo_nes.cart.prg_rom ((0xFFFD - 0x8000) % (16 * 1024)) ∧
    (nes_cpu_read demo_nes (0xBFFD + 0x4000)).1 = (nes_cpu_read demo_nes 0xBFFD).1 ∧
    nes_cpu_write demo_nes 0x8000 0x77 = { demo_nes with last_bus := 0x77 } :=
  ⟨(prg_read_write demo_nes 0xFFFD 0 (Or.inl rfl) (by decide) (by decide)).1,
   (prg_read_write demo_nes 0xBFFD 0 (Or.inl rfl) (by decide) (by decide)).2.1 rfl (by decide),
   (prg_read_write demo_nes 0x8000 0x77 (Or.inl rfl) (by decide) (by decide)).2.2⟩

/-! ## C15: reading PPUSTATUS -/

/-- Two successive masks are one mask. -/
theorem and_mask_mask (x a b c : Nat) (h : a &&& b = c) : x &&& a &&& b = x &&& c := by
  rw [Nat.and_assoc, h]

/-- A CPU read in `$2000..$3FFF` is the PPU register read of `$2000 | (addr & 7)`. -/
theorem nes_cpu_read_ppu (n : nes_t) (a : Nat) (h1 : 0x2000 ≤ a) (h2 : a < 0x4000) :
    nes_cpu_read n a =
      ((ppu_cpu_read n (0x2000 ||| (a &&& 7))).1,
        { (ppu_cpu_read n (0x2000 ||| (a &&& 7))).2 with
          last_bus := (ppu_cpu_read n (0x2000 ||| (a &&& 7))).1 }) := by
  have h : ¬ a < 0x2000 := by omega
  simp [nes_cpu_read, h, h2]

/-- A CPU write in `$2000..$3FFF` is the PPU register write of `$2000 | (addr & 7)`, after
the last-bus byte is set. -/
theorem nes_cpu_write_ppu (n : nes_t) (a v : Nat) (h1 : 0x2000 ≤ a) (h2 : a < 0x4000) :
    nes_cpu_write n a v = ppu_cpu_write { n with last_bus := v } (0x2000 ||| (a &&& 7)) v := by
  have h : ¬ a < 0x2000 := by omega
  simp [nes_cpu_write, h, h2]

/-- C15: a CPU read of the PPU status register (an address in `$2000..$3FFF` with
`addr & 7 = 2`) returns the status byte as it was, then clears bit 7 and the write
toggle `w`; bits 5 and 6 of the status and every other PPU field are unchanged. -/
theorem ppustatus_read (n : nes_t) (a : Nat) (h1 : 0x2000 ≤ a) (h2 : a < 0x4000)
    (h3 : a &&& 7 = 2) :
    (nes_cpu_read n a).1 = n.ppu.reg_status ∧
    (nes_cpu_read n a).2.ppu =
      { n.ppu with reg_status := n.ppu.reg_status &&& 0x7F, w := false } ∧
    (nes_cpu_read n a).2.ppu.reg_status &&& 0x80 = 0 ∧
    (nes_cpu_read n a).2.ppu.reg_status &&& 0x20 = n.ppu.reg_status &&& 0x20 ∧
    (nes_cpu_read n a).2.ppu.reg_status &&& 0x40 = n.ppu.reg_status &&& 0x40 ∧
    (nes_cpu_read n a).2.ppu.w = false := by
  have hp : ppu_cpu_read n (0x2000 ||| 2) =
      (n.ppu.reg_status,
        { n with ppu := { n.ppu with reg_status := n.ppu.reg_status &&& 0x7F, w := false } }) :=
    rfl
  rw [nes_cpu_read_ppu n a h1 h2, h3, hp]
  refine ⟨rfl, rfl, ?_, ?_, ?_, rfl⟩
  · exact (and_mask_mask _ 0x7F 0x80 0 (by decide)).trans (Nat.and_zero _)
  · exact and_mask_mask _ 0x7F 0x20 0x20 (by decide)
  · exact and_mask_mask _ 0x7F 0x40 0x40 (by decide)

theorem ppustatus_read_witness :
    (nes_cpu_read demo_vblank 0x3FFA).1 = 0xE0 ∧
    (nes_cpu_read demo_vblank 0x3FFA).2.ppu.reg_status &&& 0x80 = 0 ∧
    (nes_cpu_read demo_vblank 0x3FFA).2.ppu.w = false := by
  have h := ppustatus_read demo_vblank 0x3FFA (by decide) (by decide) (by decide)
  exact ⟨h.1, h.2.2.1, h.2.2.2.2.2⟩

/-! ## C17: writing PPUCTRL -/

/-- The update of `t` by a PPUCTRL write, bit by bit. -/
theorem ctrl_t_bits (t v i : Nat) (ht : t < 65536) :
    (((t &&& 0xF3FF) ||| ((v &&& 0x03) <<< 10)) % 65536).testBit i =
      if i = 10 then v.testBit 0 else if i = 11 then v.testBit 1 else t.testBit i := by
  have hm : ∀ k, k < 16 → (0xF3FF : Nat).testBit k = decide (k ≠ 10 ∧ k ≠ 11) := by decide
  have h3 : ∀ k, (0x03 : Nat).testBit k = decide (k < 2) := Nat.testBit_two_pow_sub_one 2
  rw [show (65536 : Nat) = 2 ^ 16 from rfl, Nat.testBit_mod_two_pow, Nat.testBit_or,
    Nat.testBit_and, Nat.testBit_shiftLeft, Nat.testBit_and, h3]
  by_cases hi : i < 16
  · rw [hm i hi]
    by_cases h10 : i = 10
    · subst h10; simp
    · by_cases h11 : i = 11
      · subst h11; simp
      · have : ¬ (10 ≤ i ∧ i - 10 < 2) := by omega
        by_cases hge : 10 ≤ i
        · have h2 : ¬ i - 10 < 2 := fun h => this ⟨hge, h⟩
          simp [hi, h10, h11, h2]
        · simp [hi, h10, h11, hge]
  · have hx : t.testBit i = false := by
      apply Nat.testBit_lt_two_pow
      calc t < 2 ^ 16 := ht
        _ ≤ 2 ^ i := Nat.pow_le_pow_right (by decide) (by omega)
    have h10 : i ≠ 10 := by omega
    have h11 : i ≠ 11 := by omega
    simp [hi, hx, h10, h11]

/-- C17: a write of `v` to PPUCTRL sets the CPU's NMI latch when bit 7 of the previous
PPUCTRL value is 0, bit 7 of `v` is 1 and status bit 7 is set, and in every other case
leaves the latch as it was; it stores `v`, copies `v` into `render_ctrl_next` and copies
bits 0..1 of `v` into bits 10..11 of `t`, the other bits of `t` unchanged. -/
theorem ppuctrl_write (n : nes_t) (a v : Nat) (h1 : 0x2000 ≤ a) (h2 : a < 0x4000)
    (h3 : a &&& 7 = 0) (ht : n.ppu.t < 65536) :
    ((n.ppu.reg_ctrl &&& 0x80 = 0 ∧ v &&& 0x80 ≠ 0 ∧ n.ppu.reg_status &&& 0x80 ≠ 0) →
      (nes_cpu_write n a v).cpu.nmi_pending = true) ∧
    (¬ (n.ppu.reg_ctrl &&& 0x80 = 0 ∧ v &&& 0x80 ≠ 0 ∧ n.ppu.reg_status &&& 0x80 ≠ 0) →
      (nes_cpu_write n a v).cpu.nmi_pending = n.cpu.nmi_pending) ∧
    (nes_cpu_write n a v).ppu.reg_ctrl = v ∧
    (nes_cpu_write n a v).ppu.render_ctrl_next = v ∧
    (nes_cpu_write n a v).ppu.t.testBit 10 = v.testBit 0 ∧
    (nes_cpu_write n a v).ppu.t.testBit 11 = v.testBit 1 ∧
    (∀ i, i ≠ 10 → i ≠ 11 → (nes_cpu_write n a v).ppu.t.testBit i = n.ppu.t.testBit i) := by
  have hw : nes_cpu_write n a v =
      { (if n.ppu.reg_ctrl &&& 0x80 = 0 ∧ v &&& 0x80 ≠ 0 ∧ n.ppu.reg_status &&& 0x80 ≠ 0 then
          cpu6502_set_nmi { n with last_bus := v } else { n with last_bus := v }) with
        ppu := { n.ppu with
          reg_ctrl := v, render_ctrl_next := v,
          t := ((n.ppu.t &&& 0xF3FF) ||| ((v &&& 0x03) <<< 10)) % 65536 } } := by
    rw [nes_cpu_write_ppu n a v h1 h2, h3]
    show ppu_cpu_write _ (0x2000 ||| 0) v = _
    unfold ppu_cpu_write
    simp only [show ((0x2000 ||| 0) &&& 7 : Nat) = 0 from rfl, if_true]
    split <;> rfl
  have hb := ctrl_t_bits n.ppu.t v
  rw [hw]
  refine ⟨?_, ?_, rfl, rfl, ?_, ?_, ?_⟩
  · intro hr
    rw [if_pos hr]; rfl
  · intro hr
    rw [if_neg hr]
  · show (((n.ppu.t &&& 0xF3FF) ||| ((v &&& 0x03) <<< 10)) % 65536).testBit 10 = _
    rw [hb 10 ht]; rfl
  · show (((n.ppu.t &&& 0xF3FF) ||| ((v &&& 0x03) <<< 10)) % 65536).testBit 11 = _
    rw [hb 11 ht]; rfl
  · intro i h10 h11
    show (((n.ppu.t &&& 0xF3FF) ||| ((v &&& 0x03) <<< 10)) % 65536).testBit i = _
    rw [hb i ht, if_neg h10, if_neg h11]

theorem ppuctrl_write_witness :
    (nes_cpu_write demo_vblank 0x2000 0x81).cpu.nmi_pending = true ∧
    (nes_cpu_write demo_vblank 0x2000 0x81).ppu.reg_ctrl = 0x81 ∧
    (nes_cpu_write demo_vblank 0x2000 0x81).ppu.t.testBit 10 = (0x81 : Nat).testBit 0 ∧
    (nes_cpu_write demo_nes 0x2008 0x01).cpu.nmi_pending = demo_nes.cpu.nmi_pending := by
  have h := ppuctrl_write demo_vblank 0x2000 0x81 (by decide) (by decide) (by decide)
    (by decide)
  have h' := ppuctrl_write demo_nes 0x2008 0x01 (by decide) (by decide) (by decide)
    (by decide)
  exact ⟨h.1 (by decide), h.2.2.1, h.2.2.2.2.1, h'.2.1 (by decide)⟩

/-! ## C18: palette RAM and its mirrors -/

theorem and_0x3FFF (x : Nat) : x &&& 0x3FFF = x % 16384 := Nat.and_pow_two_sub_one_eq_mod x 14

theorem and_0x1F (x : Nat) : x &&& 0x1F = x % 32 := Nat.and_pow_two_sub_one_eq_mod x 5

theorem and_0x0FFF (x : Nat) : x &&& 0x0FFF = x % 4096 := Nat.and_pow_two_sub_one_eq_mod x 12

theorem and_0x03FF (x : Nat) : x &&& 0x03FF = x % 1024 := Nat.and_pow_two_sub_one_eq_mod x 10

theorem ppu_bus_read_palette (n : nes_t) (a : Nat) (h : 0x3F00 ≤ a &&& 0x3FFF) :
    ppu_bus_read n a = n.ppu.palette (palette_index (a &&& 0x3FFF)) := by
  have h1 : ¬ (a &&& 0x3FFF) < 0x2000 := by omega
  have h2 : ¬ (a &&& 0x3FFF) < 0x3F00 := by omega
  simp only [ppu_bus_read, h1, h2, if_false]

theorem ppu_bus_write_palette (n : nes_t) (a v : Nat) (h : 0x3F00 ≤ a &&& 0x3FFF) :
    ppu_bus_write n a v =
      { n with ppu := { n.ppu with
          palette := mem_set n.ppu.palette (palette_index (a &&& 0x3FFF)) (v &&& 0x3F) } } := by
  have h1 : ¬ (a &&& 0x3FFF) < 0x2000 := by omega
  have h2 : ¬ (a &&& 0x3FFF) < 0x3F00 := by omega
  simp only [ppu_bus_write, h1, h2, if_false]

/-- The palette index depends on the address modulo 32 only. -/
theorem palette_index_mod (a : Nat) : palette_index a = palette_index (a % 32) := by
  unfold palette_index
  simp only [and_0x1F, Nat.mod_mod]

/-- C18: for each pair `($3F10,$3F00)`, `($3F14,$3F04)`, `($3F18,$3F08)`, `($3F1C,$3F0C)`,
after a PPU-bus write of `v` to either address a PPU-bus read of both returns `v & $3F`;
every write in `$3F00..$3FFF` stores the value masked to 6 bits and changes nothing else,
and reads and writes there decode the address modulo 32. -/
theorem palette_aliasing (n : nes_t) (v hi lo : Nat)
    (hpair : (hi, lo) ∈ [(0x3F10, 0x3F00), (0x3F14, 0x3F04), (0x3F18, 0x3F08), (0x3F1C, 0x3F0C)]) :
    (ppu_bus_read (ppu_bus_write n hi v) hi = v &&& 0x3F ∧
      ppu_bus_read (ppu_bus_write n hi v) lo = v &&& 0x3F ∧
      ppu_bus_read (ppu_bus_write n lo v) hi = v &&& 0x3F ∧
      ppu_bus_read (ppu_bus_write n lo v) lo = v &&& 0x3F) ∧
    (∀ a, 0x3F00 ≤ a → a ≤ 0x3FFF →
      ppu_bus_write n a v =
        { n with ppu := { n.ppu with
            palette := mem_set n.ppu.palette (palette_index (a % 32)) (v &&& 0x3F) } } ∧
      ppu_bus_read n a = n.ppu.palette (palette_index (a % 32)) ∧
      ppu_bus_read n a = ppu_bus_read n (0x3F00 + a % 32) ∧
      ppu_bus_write n a v = ppu_bus_write n (0x3F00 + a % 32) v) := by
  have hgen : ∀ a, 0x3F00 ≤ a → a ≤ 0x3FFF →
      ppu_bus_write n a v =
        { n with ppu := { n.ppu with
            palette := mem_set n.ppu.palette (palette_index (a % 32)) (v &&& 0x3F) } } ∧
      ppu_bus_read n a = n.ppu.palette (palette_index (a % 32)) := by
    intro a h1 h2
    have e : a &&& 0x3FFF = a := by rw [and_0x3FFF]; omega
    have h : 0x3F00 ≤ a &&& 0x3FFF := by rw [e]; exact h1
    rw [ppu_bus_write_palette n a v h, ppu_bus_read_palette n a h, e, ← palette_index_mod]
    exact ⟨rfl, rfl⟩
  have hrw : ∀ (m : nes_t) a b, 0x3F00 ≤ a → a ≤ 0x3FFF → 0x3F00 ≤ b → b ≤ 0x3FFF →
      palette_index (a % 32) = palette_index (b % 32) →
      ppu_bus_read (ppu_bus_write n a v) b = v &&& 0x3F := by
    intro m a b ha1 ha2 hb1 hb2 hidx
    have eb : b &&& 0x3FFF = b := by rw [and_0x3FFF]; omega
    have hb : 0x3F00 ≤ b &&& 0x3FFF := by rw [eb]; exact hb1
    rw [(hgen a ha1 ha2).1, ppu_bus_read_palette _ b hb, eb, palette_index_mod b, ← hidx]
    exact mem_set_same _ _ _
  refine ⟨?_, ?_⟩
  · simp only [List.mem_cons, List.mem_singleton, List.not_mem_nil, or_false, Prod.mk.injEq]
      at hpair
    rcases hpair with ⟨rfl, rfl⟩ | ⟨rfl, rfl⟩ | ⟨rfl, rfl⟩ | ⟨rfl, rfl⟩ <;>
      exact ⟨hrw n _ _ (by decide) (by decide) (by decide) (by decide) (by decide),
        hrw n _ _ (by decide) (by decide) (by decide) (by decide) (by decide),
        hrw n _ _ (by decide) (by decide) (by decide) (by decide) (by decide),
        hrw n _ _ (by decide) (by decide) (by decide) (by decide) (by decide)⟩
  · intro a h1 h2
    have h32 : (0x3F00 + a % 32) % 32 = a % 32 := by omega
    have hg := hgen a h1 h2
    have hg' := hgen (0x3F00 + a % 32) (by omega) (by omega)
    rw [h32] at hg'
    exact ⟨hg.1, hg.2, hg.2.trans hg'.2.symm, hg.1.trans hg'.1.symm⟩

theorem palette_aliasing_witness :
    ppu_bus_read (ppu_bus_write demo_nes 0x3F10 0xFF) 0x3F00 = 0xFF &&& 0x3F ∧
    ppu_bus_read (ppu_bus_write demo_nes 0x3F00 0xFF) 0x3F10 = 0xFF &&& 0x3F :=
  have h := (palette_aliasing demo_nes 0xFF 0x3F10 0x3F00 (by decide)).1
  ⟨h.2.1, h.2.2.1⟩

/-! ## C19: nametable mirroring -/

/-- The VRAM index that the code computes for a nametable address is the one of the
mirroring rule. -/
theorem mirror_nametable_addr_eq (n : nes_t) (addr : Nat) (h1 : 0x2000 ≤ addr)
    (h2 : addr ≤ 0x3EFF) :
    mirror_nametable_addr n addr &&& 0x07FF = nametable_index n.cart.info.mirror addr := by
  unfold mirror_nametable_addr nametable_index
  simp only [and_0x0FFF, and_0x03FF, and_0x07FF]
  cases hm : n.cart.info.mirror
  · simp only [reduceCtorEq, if_false, if_true]
    split <;> omega
  · simp only [reduceCtorEq, if_false]
    split <;> omega
  · simp only [if_true]
    omega

/-- C19: a PPU-bus address in `$2000..$3EFF` reads and writes `VRAM[nametable_index]`:
`P*$400 + o` with `P = T / 2` under horizontal and `P = T mod 2` under vertical mirroring,
`(addr - $2000) & $7FF` under four-screen.  So a byte written through a logical table is
read back through its mirror table, and `$3000..$3EFF` aliases `$2000..$2EFF`. -/
theorem nametable_mirroring (n : nes_t) (addr v : Nat) (h1 : 0x2000 ≤ addr)
    (h2 : addr ≤ 0x3EFF) :
    ppu_bus_read n addr = n.ppu.vram (nametable_index n.cart.info.mirror addr) ∧
    ppu_bus_write n addr v =
      { n with ppu := { n.ppu with
          vram := mem_set n.ppu.vram (nametable_index n.cart.info.mirror addr) v } } ∧
    (n.cart.info.mirror = NES_MIRROR_HORIZONTAL →
      nametable_index n.cart.info.mirror addr
        = (((addr - 0x2000) % 0x1000) / 0x0800) * 0x0400 + addr % 0x0400 ∧
      ((addr - 0x2000) % 0x0800 < 0x0400 → addr + 0x0400 ≤ 0x3EFF →
        ppu_bus_read (ppu_bus_write n addr v) (addr + 0x0400) = v)) ∧
    (n.cart.info.mirror = NES_MIRROR_VERTICAL →
      nametable_index n.cart.info.mirror addr
        = ((((addr - 0x2000) % 0x1000) / 0x0400) % 2) * 0x0400 + addr % 0x0400 ∧
      ((addr - 0x2000) % 0x1000 < 0x0800 → addr + 0x0800 ≤ 0x3EFF →
        ppu_bus_read (ppu_bus_write n addr v) (addr + 0x0800) = v)) ∧
    (n.cart.info.mirror = NES_MIRROR_FOURSCREEN →
      nametable_index n.cart.info.mirror addr = (addr - 0x2000) % 0x0800) ∧
    (0x3000 ≤ addr →
      ppu_bus_read n addr = ppu_bus_read n (addr - 0x1000) ∧
      ppu_bus_write n addr v = ppu_bus_write n (addr - 0x1000) v) := by
  have hrd : ∀ (m : nes_t) b, 0x2000 ≤ b → b ≤ 0x3EFF →
      ppu_bus_read m b = m.ppu.vram (nametable_index m.cart.info.mirror b) := by
    intro m b hb1 hb2
    have e : b &&& 0x3FFF = b := by rw [and_0x3FFF]; omega
    have c1 : ¬ b < 0x2000 := by omega
    have c2 : b < 0x3F00 := by omega
    simp only [ppu_bus_read, e, c1, c2, if_false, if_true]
    rw [mirror_nametable_addr_eq m b hb1 hb2]
  have hwr : ∀ b, 0x2000 ≤ b → b ≤ 0x3EFF →
      ppu_bus_write n b v =
        { n with ppu := { n.ppu with
            vram := mem_set n.ppu.vram (nametable_index n.cart.info.mirror b) v } } := by
    intro b hb1 hb2
    have e : b &&& 0x3FFF = b := by rw [and_0x3FFF]; omega
    have c1 : ¬ b < 0x2000 := by omega
    have c2 : b < 0x3F00 := by omega
    simp only [ppu_bus_write, e, c1, c2, if_false, if_true]
    rw [mirror_nametable_addr_eq n b hb1 hb2]
  have hback : ∀ b, 0x2000 ≤ b → b ≤ 0x3EFF →
      nametable_index n.cart.info.mirror b = nametable_index n.cart.info.mirror addr →
      ppu_bus_read (ppu_bus_write n addr v) b = v := by
    intro b hb1 hb2 hidx
    rw [hwr addr h1 h2, hrd _ b hb1 hb2]
    show mem_set n.ppu.vram _ v (nametable_index n.cart.info.mirror b) = v
    rw [hidx]
    exact mem_set_same _ _ _
  have hH : ∀ b, nametable_index NES_MIRROR_HORIZONTAL b
      = ((((b - 0x2000) % 4096) / 0x0400) / 2) * 0x0400 + b % 1024 := by
    intro b
    simp only [nametable_index, and_0x0FFF, and_0x03FF]
  have hV : ∀ b, nametable_index NES_MIRROR_VERTICAL b
      = ((((b - 0x2000) % 4096) / 0x0400) % 2) * 0x0400 + b % 1024 := by
    intro b
    simp only [nametable_index, and_0x0FFF, and_0x03FF]
  have hF : ∀ b, nametable_index NES_MIRROR_FOURSCREEN b = (b - 0x2000) % 2048 := by
    intro b
    simp only [nametable_index, and_0x07FF]
  refine ⟨hrd n addr h1 h2, hwr addr h1 h2, ?_, ?_, ?_, ?_⟩
  · intro hm
    rw [hm]
    refine ⟨?_, ?_⟩
    · rw [hH]; omega
    · intro hlow hup
      apply hback _ (by omega) hup
      rw [hm, hH, hH]
      omega
  · intro hm
    rw [hm]
    refine ⟨?_, ?_⟩
    · rw [hV]
    · intro hlow hup
      apply hback _ (by omega) hup
      rw [hm, hV, hV]
      omega
  · intro hm
    rw [hm, hF]
  · intro h3
    have hsame : nametable_index n.cart.info.mirror (addr - 0x1000)
        = nametable_index n.cart.info.mirror addr := by
      cases n.cart.info.mirror
      · rw [hH, hH]; omega
      · rw [hV, hV]; omega
      · rw [hF, hF]; omega
    rw [hrd n addr h1 h2, hrd n (addr - 0x1000) (by omega) (by omega), hwr addr h1 h2,
      hwr (addr - 0x1000) (by omega) (by omega), hsame]
    exact ⟨rfl, rfl⟩

theorem nametable_mirroring_witness :
    ppu_bus_read (ppu_bus_write demo_nes 0x2005 0x77) (0x2005 + 0x0400) = 0x77 ∧
    ppu_bus_read (ppu_bus_write demo_vertical 0x2005 0x77) (0x2005 + 0x0800) = 0x77 ∧
    ppu_bus_read demo_nes 0x3005 = ppu_bus_read demo_nes (0x3005 - 0x1000) := by
  have h := nametable_mirroring demo_nes 0x2005 0x77 (by decide) (by decide)
  have hv := nametable_mirroring demo_vertical 0x2005 0x77 (by decide) (by decide)
  have h3 := nametable_mirroring demo_nes 0x3005 0x77 (by decide) (by decide)
  exact ⟨(h.2.2.1 rfl).2 (by decide) (by decide), (hv.2.2.2.1 rfl).2 (by decide) (by decide),
    (h3.2.2.2.2.2 (by decide)).1⟩

/-! ## C12: OAM DMA -/

theorem nes_cpu_read_of_ram (n : nes_t) (a : Nat) (h : a < 0x2000) :
    nes_cpu_read n a = (n.ram (a &&& 0x07FF), { n with last_bus := n.ram (a &&& 0x07FF) }) := by
  simp [nes_cpu_read, h]

/-- The DMA loop over a source page in RAM: iterations `i .. i+k-1` fill the OAM cells
`(oam_addr + t) mod 256` with `RAM[(base + t) & $7FF]` and touch no other cell. -/
theorem oam_dma_loop_ram (base : Nat) (hb : base + 256 ≤ 0x2000) (k : Nat) :
    ∀ (i : Nat) (n : nes_t), i + k ≤ 256 →
      (oam_dma_loop base k i n).ram = n.ram ∧
      (oam_dma_loop base k i n).ppu.oam_addr = n.ppu.oam_addr ∧
      (oam_dma_loop base k i n).cpu_stall = n.cpu_stall ∧
      (∀ t, i ≤ t → t < i + k →
        (oam_dma_loop base k i n).ppu.oam ((n.ppu.oam_addr + t) % 256)
          = n.ram ((base + t) &&& 0x07FF)) ∧
      (∀ c, (∀ t, i ≤ t → t < i + k → c ≠ (n.ppu.oam_addr + t) % 256) →
        (oam_dma_loop base k i n).ppu.oam c = n.ppu.oam c) := by
  induction k with
  | zero =>
    intro i n _
    refine ⟨rfl, rfl, rfl, ?_, ?_⟩
    · intro t h1 h2; omega
    · intro c _; rfl
  | succ k ih =>
    intro i n hik
    have hrd : nes_cpu_read n ((base + i) % 65536)
        = (n.ram ((base + i) &&& 0x07FF),
            { n with last_bus := n.ram ((base + i) &&& 0x07FF) }) := by
      have e : (base + i) % 65536 = base + i := by omega
      rw [e]
      exact nes_cpu_read_of_ram n (base + i) (by omega)
    simp only [oam_dma_loop, hrd]
    obtain ⟨h1, h2, h3, h4, h5⟩ := ih (i + 1)
      { n with
        last_bus := n.ram ((base + i) &&& 0x07FF),
        ppu := { n.ppu with
          oam := mem_set n.ppu.oam ((n.ppu.oam_addr + i) % 256)
            (n.ram ((base + i) &&& 0x07FF)) } } (by omega)
    refine ⟨h1, h2, h3, ?_, ?_⟩
    · intro t ht1 ht2
      by_cases hti : t = i
      · subst hti
        rw [h5 _ (by intro u hu1 hu2; show _ ≠ (n.ppu.oam_addr + u) % 256; omega)]
        exact mem_set_same _ _ _
      · exact h4 t (by omega) (by omega)
    · intro c hc
      rw [h5 c (by intro u hu1 hu2; exact hc u (by omega) (by omega))]
      exact mem_set_other _ _ _ _ (hc i (le_refl i) (by omega))

/-- C12: a CPU write of `X < $20` to `$4014` copies the RAM page `X` into OAM starting at the
current OAM address (wrapping at 256), leaves the OAM address register (and RAM) unchanged and
adds `513 + (cycles & 1)` to `cpu_stall`.  With `$AA` at `$0200..$02FF` and `X = $02`, all 256
OAM bytes are `$AA` afterwards, and `cpu_stall` is at least 513 when it was not negative. -/
theorem oam_dma (n : nes_t) (X : Nat) (hX : X < 0x20) :
    (∀ i, i < 256 →
      (nes_cpu_write n 0x4014 X).ppu.oam ((n.ppu.oam_addr + i) % 256)
        = n.ram ((X * 256 + i) % 2048)) ∧
    (nes_cpu_write n 0x4014 X).ppu.oam_addr = n.ppu.oam_addr ∧
    (nes_cpu_write n 0x4014 X).cpu_stall
      = n.cpu_stall + (513 + ((n.cpu.cycles &&& 1 : Nat) : Int)) ∧
    (nes_cpu_write n 0x4014 X).ram = n.ram ∧
    (X = 0x02 → (∀ i, i < 256 → n.ram (0x0200 + i) = 0xAA) → 0 ≤ n.cpu_stall →
      (∀ c, c < 256 → (nes_cpu_write n 0x4014 X).ppu.oam c = 0xAA) ∧
      513 ≤ (nes_cpu_write n 0x4014 X).cpu_stall) := by
  have hbase : (X <<< 8) % 65536 = X * 256 := by
    rw [Nat.shiftLeft_eq]
    omega
  have e : nes_cpu_write n 0x4014 X =
      { oam_dma_loop (X * 256) 256 0 { n with last_bus := X } with
        cpu_stall := (oam_dma_loop (X * 256) 256 0 { n with last_bus := X }).cpu_stall
          + (513 + (((oam_dma_loop (X * 256) 256 0 { n with last_bus := X }).cpu.cycles &&& 1
              : Nat) : Int)) } := by
    unfold nes_cpu_write
    simp only []
    rw [if_neg (by decide), if_neg (by decide), if_pos trivial, hbase]
  obtain ⟨h1, h2, h3, h4, h5⟩ :=
    oam_dma_loop_ram (X * 256) (by omega) 256 0 { n with last_bus := X } (by omega)
  have hoam : ∀ i, i < 256 →
      (nes_cpu_write n 0x4014 X).ppu.oam ((n.ppu.oam_addr + i) % 256)
        = n.ram ((X * 256 + i) % 2048) := by
    intro i hi
    rw [e, ← and_0x07FF]
    exact h4 i (Nat.zero_le i) (by omega)
  have hstall : (nes_cpu_write n 0x4014 X).cpu_stall
      = n.cpu_stall + (513 + ((n.cpu.cycles &&& 1 : Nat) : Int)) := by
    rw [e]
    show (oam_dma_loop (X * 256) 256 0 { n with last_bus := X }).cpu_stall + _ = _
    rw [h3, oam_dma_loop_cpu]
  refine ⟨hoam, ?_, hstall, ?_, ?_⟩
  · rw [e]; exact h2
  · simp only [e]
    exact h1
  · intro hx hram hst
    refine ⟨?_, ?_⟩
    · intro c hc
      have hi := hoam ((c + 256 - n.ppu.oam_addr % 256) % 256) (Nat.mod_lt _ (by decide))
      have ec : (n.ppu.oam_addr + (c + 256 - n.ppu.oam_addr % 256) % 256) % 256 = c := by
        omega
      rw [ec] at hi
      rw [hi, hx]
      have em : (0x02 * 256 + (c + 256 - n.ppu.oam_addr % 256) % 256) % 2048
          = 0x0200 + (c + 256 - n.ppu.oam_addr % 256) % 256 := by omega
      rw [em]
      exact hram _ (Nat.mod_lt _ (by decide))
    · rw [hstall]
      omega

theorem oam_dma_witness :
    (∀ c, c < 256 → (nes_cpu_write demo_dma 0x4014 0x02).ppu.oam c = 0xAA) ∧
    513 ≤ (nes_cpu_write demo_dma 0x4014 0x02).cpu_stall ∧
    (nes_cpu_write demo_dma 0x4014 0x02).ppu.oam_addr = demo_dma.ppu.oam_addr := by
  have h := oam_dma demo_dma 0x02 (by decide)
  have hs := h.2.2.2.2 rfl
    (by
      intro i hi
      show (if 0x0200 ≤ 0x0200 + i ∧ 0x0200 + i < 0x0300 then 0xAA else 0) = 0xAA
      rw [if_pos ⟨by omega, by omega⟩])
    (by decide)
  exact ⟨hs.1, hs.2, h.2.1⟩

/-! ## C13: the controller port -/

/-- The shift `(uint8_t)((shift >> 1) | 0x80)` of a byte. -/
theorem pad_shift_eq (y : Nat) (h : y < 256) : ((y >>> 1) ||| 0x80) % 256 = y / 2 + 128 := by
  have e : (y >>> 1) ||| 0x80 = 2 ^ 7 + y / 2 := by
    rw [Nat.shiftRight_eq_div_pow, Nat.lor_comm]
    have h2 := Nat.mul_add_lt_is_or (show y / 2 ^ 1 < 2 ^ 7 by omega) 1
    rw [Nat.mul_one] at h2
    rw [← h2]
    omega
  rw [e]
  omega

theorem nes_cpu_read_pad_strobe (m : nes_t) (h : m.pad_strobe = true) :
    nes_cpu_read m 0x4016
      = (0x40 ||| (m.pad1_state &&& 1), { m with last_bus := 0x40 ||| (m.pad1_state &&& 1) }) := by
  unfold nes_cpu_read
  simp only []
  rw [if_neg (by decide), if_neg (by decide), if_pos trivial, if_pos h]

theorem nes_cpu_read_pad_shift (m : nes_t) (h : m.pad_strobe = false) :
    nes_cpu_read m 0x4016
      = (0x40 ||| (m.pad1_shift &&& 1),
          { m with pad1_shift := ((m.pad1_shift >>> 1) ||| 0x80) % 256,
                   last_bus := 0x40 ||| (m.pad1_shift &&& 1) }) := by
  unfold nes_cpu_read
  simp only []
  rw [if_neg (by decide), if_neg (by decide), if_pos trivial, if_neg (by simp [h])]

theorem nes_cpu_write_pad_high (m : nes_t) (v : Nat) (h : v &&& 1 ≠ 0) :
    nes_cpu_write m 0x4016 v
      = { m with last_bus := v, pad_strobe := true, pad1_shift := m.pad1_state } := by
  unfold nes_cpu_write
  simp only []
  rw [if_neg (by decide), if_neg (by decide), if_neg (by decide), if_pos trivial]
  have hs : decide (v &&& 1 ≠ 0) = true := decide_eq_true h
  simp only [hs, true_or, if_true]

theorem nes_cpu_write_pad_fall (m : nes_t) (v : Nat) (h : v &&& 1 = 0)
    (hp : m.pad_strobe = true) :
    nes_cpu_write m 0x4016 v
      = { m with last_bus := v, pad_strobe := false, pad1_shift := m.pad1_state } := by
  unfold nes_cpu_write
  simp only []
  rw [if_neg (by decide), if_neg (by decide), if_neg (by decide), if_pos trivial]
  have hs : decide (v &&& 1 ≠ 0) = false := decide_eq_false (not_not.mpr h)
  simp only [hs, hp, Bool.false_eq_true, not_false_eq_true, and_self, or_true, if_true]

/-- With the strobe low, `k` reads of `$4016` leave the shift register holding the original
byte shifted right `k` times with ones shifted in at the top. -/
theorem pad_reads_shift (s : nes_t) (hs : s.pad_strobe = false) (hx : s.pad1_shift < 256)
    (k : Nat) :
    (pad_reads s k).pad_strobe = false ∧
    (pad_reads s k).pad1_shift = (s.pad1_shift + 0xFF00) / 2 ^ (min k 8) % 256 := by
  induction k with
  | zero =>
    refine ⟨hs, ?_⟩
    show s.pad1_shift = (s.pad1_shift + 0xFF00) / 2 ^ (min 0 8) % 256
    have e : min 0 8 = 0 := by decide
    rw [e]
    omega
  | succ k ih =>
    obtain ⟨ih1, ih2⟩ := ih
    have hr := nes_cpu_read_pad_shift (pad_reads s k) ih1
    have hstep : pad_reads s (k + 1) = (nes_cpu_read (pad_reads s k) 0x4016).2 := rfl
    rw [hstep, hr]
    refine ⟨ih1, ?_⟩
    show ((pad_reads s k).pad1_shift >>> 1 ||| 0x80) % 256 = _
    rw [pad_shift_eq _ (by rw [ih2]; exact Nat.mod_lt _ (by decide)), ih2]
    by_cases hk : k < 8
    · interval_cases k <;> simp only [Nat.reduceAdd, Nat.reduceLeDiff, min_eq_left,
        Nat.reducePow, Nat.zero_le, Nat.one_le_ofNat, le_refl, Nat.min_def, if_true] <;> omega
    · have e1 : min k 8 = 8 := by omega
      have e2 : min (k + 1) 8 = 8 := by omega
      rw [e1, e2]
      omega

/-- C13: after a write to `$4016` with bit 0 set followed by one with bit 0 clear, the `k`-th
following read of `$4016` (`k = 0..7`) returns `$40 | (bit k of the controller byte)`, and every
later read returns `$41`; while the strobe is 1 a read returns `$40 | (bit 0 of the controller
byte)` and leaves the shift register alone.  With the byte `$81` the eight reads have bit 0
equal to 1,0,0,0,0,0,0,1. -/
theorem controller_shift (n : nes_t) (v1 v0 : Nat) (h1 : v1 &&& 1 ≠ 0) (h0 : v0 &&& 1 = 0)
    (hb : n.pad1_state < 256) :
    (∀ k, k < 8 →
      (nes_cpu_read (pad_reads (nes_cpu_write (nes_cpu_write n 0x4016 v1) 0x4016 v0) k) 0x4016).1
        = 0x40 ||| ((n.pad1_state >>> k) &&& 1)) ∧
    (∀ k, 8 ≤ k →
      (nes_cpu_read (pad_reads (nes_cpu_write (nes_cpu_write n 0x4016 v1) 0x4016 v0) k) 0x4016).1
        = 0x41) ∧
    (∀ m : nes_t, m.pad_strobe = true →
      (nes_cpu_read m 0x4016).1 = 0x40 ||| (m.pad1_state &&& 1) ∧
      (nes_cpu_read m 0x4016).2.pad1_shift = m.pad1_shift ∧
      (nes_cpu_read m 0x4016).2.pad_strobe = true ∧
      (nes_cpu_read m 0x4016).2.pad1_state = m.pad1_state) ∧
    (nes_cpu_write n 0x4016 v1).pad_strobe = true ∧
    (n.pad1_state = 0x81 →
      List.map
        (fun k =>
          (nes_cpu_read (pad_reads (nes_cpu_write (nes_cpu_write n 0x4016 v1) 0x4016 v0) k)
            0x4016).1 &&& 1)
        [0, 1, 2, 3, 4, 5, 6, 7] = [1, 0, 0, 0, 0, 0, 0, 1]) := by
  have hw1 := nes_cpu_write_pad_high n v1 h1
  have hw0 : nes_cpu_write (nes_cpu_write n 0x4016 v1) 0x4016 v0
      = { n with last_bus := v0, pad_strobe := false, pad1_shift := n.pad1_state } := by
    rw [hw1, nes_cpu_write_pad_fall _ v0 h0 rfl]
  have hinv : ∀ k,
      (pad_reads (nes_cpu_write (nes_cpu_write n 0x4016 v1) 0x4016 v0) k).pad_strobe = false ∧
      (pad_reads (nes_cpu_write (nes_cpu_write n 0x4016 v1) 0x4016 v0) k).pad1_shift
        = (n.pad1_state + 0xFF00) / 2 ^ (min k 8) % 256 := by
    intro k
    have h := pad_reads_shift (nes_cpu_write (nes_cpu_write n 0x4016 v1) 0x4016 v0)
      (by rw [hw0]) (by rw [hw0]; exact hb) k
    rw [hw0] at h ⊢
    exact h
  have hval : ∀ k,
      (nes_cpu_read (pad_reads (nes_cpu_write (nes_cpu_write n 0x4016 v1) 0x4016 v0) k) 0x4016).1
        = 0x40 ||| ((n.pad1_state + 0xFF00) / 2 ^ (min k 8) % 256 &&& 1) := by
    intro k
    rw [nes_cpu_read_pad_shift _ (hinv k).1, (hinv k).2]
  have hlow : ∀ k, k < 8 →
      (nes_cpu_read (pad_reads (nes_cpu_write (nes_cpu_write n 0x4016 v1) 0x4016 v0) k) 0x4016).1
        = 0x40 ||| ((n.pad1_state >>> k) &&& 1) := by
    intro k hk
    have e : (n.pad1_state + 0xFF00) / 2 ^ (min k 8) % 256 &&& 1
        = (n.pad1_state >>> k) &&& 1 := by
      rw [Nat.and_one_is_mod, Nat.and_one_is_mod, Nat.shiftRight_eq_div_pow]
      interval_cases k <;> simp only [Nat.reduceAdd, Nat.reduceLeDiff, min_eq_left,
        Nat.reducePow, Nat.zero_le, Nat.one_le_ofNat, le_refl, Nat.min_def, if_true] <;> omega
    rw [hval k, e]
  refine ⟨hlow, ?_, ?_, ?_, ?_⟩
  · intro k hk
    have e : (n.pad1_state + 0xFF00) / 2 ^ (min k 8) % 256 = 255 := by
      rw [min_eq_right hk]
      omega
    rw [hval k, e]
    rfl
  · intro m hm
    rw [nes_cpu_read_pad_strobe m hm]
    exact ⟨rfl, rfl, hm, rfl⟩
  · rw [hw1]
  · intro h81
    simp only [List.map]
    rw [hlow 0 (by decide), hlow 1 (by decide), hlow 2 (by decide), hlow 3 (by decide),
      hlow 4 (by decide), hlow 5 (by decide), hlow 6 (by decide), hlow 7 (by decide), h81]
    rfl

theorem controller_shift_witness :
    List.map
      (fun k =>
        (nes_cpu_read (pad_reads (nes_cpu_write (nes_cpu_write demo_pad 0x4016 1) 0x4016 0) k)
          0x4016).1 &&& 1)
      [0, 1, 2, 3, 4, 5, 6, 7] = [1, 0, 0, 0, 0, 0, 0, 1] ∧
    (nes_cpu_read (pad_reads (nes_cpu_write (nes_cpu_write demo_pad 0x4016 1) 0x4016 0) 8)
      0x4016).1 = 0x41 := by
  have h := controller_shift demo_pad 1 0 (by decide) (by decide) (by decide)
  exact ⟨h.2.2.2.2 rfl, h.2.1 8 (le_refl 8)⟩

/-! ## C16: reads of PPUDATA -/

/-- A read of register 7 below the palette: the old buffer is returned, the buffer is
reloaded from the bus, `v` is incremented. -/
theorem ppu_cpu_read_data_low (n : nes_t) (a : Nat) (ha : a &&& 7 = 7)
    (h : n.ppu.v &&& 0x3FFF < 0x3F00) :
    ppu_cpu_read n a =
      (n.ppu.chr_read_buffer,
        { n with ppu := { n.ppu with
            chr_read_buffer := ppu_bus_read n (n.ppu.v &&& 0x3FFF), v := ppu_v_inc n.ppu } }) := by
  have h1 : ¬ n.ppu.v &&& 0x3FFF ≥ 0x3F00 := by omega
  unfold ppu_cpu_read
  simp only [ha, nes_ppu_bus_read]
  rw [if_neg (by decide), if_neg (by decide), if_pos trivial, if_neg h1]

/-- A read of register 7 in the palette range: the bus byte is returned, the buffer is
reloaded from `$1000` below, `v` is incremented. -/
theorem ppu_cpu_read_data_high (n : nes_t) (a : Nat) (ha : a &&& 7 = 7)
    (h : 0x3F00 ≤ n.ppu.v &&& 0x3FFF) :
    ppu_cpu_read n a =
      (ppu_bus_read n (n.ppu.v &&& 0x3FFF),
        { n with ppu := { n.ppu with
            chr_read_buffer := ppu_bus_read n ((n.ppu.v &&& 0x3FFF) - 0x1000),
            v := ppu_v_inc n.ppu } }) := by
  have hlt : n.ppu.v &&& 0x3FFF < 0x4000 := by rw [and_0x3FFF]; omega
  have e : ((n.ppu.v &&& 0x3FFF) - 0x1000) % 65536 = (n.ppu.v &&& 0x3FFF) - 0x1000 := by omega
  unfold ppu_cpu_read
  simp only [ha, nes_ppu_bus_read]
  rw [if_neg (by decide), if_neg (by decide), if_pos trivial, if_pos h, e]

/-- C16 (amended): for a read of PPUDATA with `a = v & $3FFF`: if `a < $3F00` the read
returns the previous read buffer and the buffer becomes the PPU-bus byte at `a`, and the next
PPUDATA read returns that byte provided its own address (the incremented `v`, `& $3FFF`) is
again below `$3F00`; if `a >= $3F00` the read returns the palette byte at `a` and the buffer
becomes the PPU-bus byte at `a - $1000`.  In both cases `v` is then increased (as a 16-bit
value) by 32 if PPUCTRL bit 2 is set and by 1 otherwise, and nothing else changes. -/
theorem ppudata_read (n : nes_t) (addr : Nat) (ha : addr &&& 7 = 7) :
    (n.ppu.v &&& 0x3FFF < 0x3F00 →
      (ppu_cpu_read n addr).1 = n.ppu.chr_read_buffer ∧
      (ppu_cpu_read n addr).2.ppu.chr_read_buffer = ppu_bus_read n (n.ppu.v &&& 0x3FFF) ∧
      ((ppu_cpu_read n addr).2.ppu.v &&& 0x3FFF < 0x3F00 →
        (ppu_cpu_read (ppu_cpu_read n addr).2 addr).1
          = ppu_bus_read n (n.ppu.v &&& 0x3FFF))) ∧
    (0x3F00 ≤ n.ppu.v &&& 0x3FFF →
      (ppu_cpu_read n addr).1 = n.ppu.palette (palette_index (n.ppu.v &&& 0x3FFF)) ∧
      (ppu_cpu_read n addr).2.ppu.chr_read_buffer
        = ppu_bus_read n ((n.ppu.v &&& 0x3FFF) - 0x1000)) ∧
    (ppu_cpu_read n addr).2.ppu.v
      = (n.ppu.v + (if n.ppu.reg_ctrl &&& 0x04 ≠ 0 then 32 else 1)) % 65536 ∧
    (ppu_cpu_read n addr).2
      = { n with ppu := { n.ppu with
            chr_read_buffer := (ppu_cpu_read n addr).2.ppu.chr_read_buffer,
            v := (ppu_cpu_read n addr).2.ppu.v } } := by
  by_cases h : n.ppu.v &&& 0x3FFF < 0x3F00
  · have e := ppu_cpu_read_data_low n addr ha h
    refine ⟨fun _ => ⟨?_, ?_, ?_⟩, fun h2 => absurd h (by omega), ?_, ?_⟩
    · rw [e]
    · rw [e]
    · intro hnext
      rw [e] at hnext ⊢
      rw [ppu_cpu_read_data_low _ addr ha hnext]
    · rw [e]; rfl
    · rw [e]
  · have h2 : 0x3F00 ≤ n.ppu.v &&& 0x3FFF := by omega
    have e := ppu_cpu_read_data_high n addr ha h2
    refine ⟨fun h1 => absurd h1 h, fun _ => ⟨?_, ?_⟩, ?_, ?_⟩
    · rw [e]
      show ppu_bus_read n (n.ppu.v &&& 0x3FFF) = _
      have hm : (n.ppu.v &&& 0x3FFF) &&& 0x3FFF = n.ppu.v &&& 0x3FFF :=
        and_mask_mask _ _ _ _ (by decide)
      rw [ppu_bus_read_palette n _ (by rw [hm]; exact h2), hm]
    · rw [e]
    · rw [e]; rfl
    · rw [e]

theorem ppudata_read_witness :
    (ppu_cpu_read demo_ppudata_low 0x2007).1 = 0x11 ∧
    (ppu_cpu_read (ppu_cpu_read demo_ppudata_low 0x2007).2 0x2007).1 = 0x55 ∧
    (ppu_cpu_read demo_ppudata_low 0x2007).2.ppu.v = 0x2006 := by
  have h := ppudata_read demo_ppudata_low 0x2007 (by decide)
  have hl := h.1 (by decide)
  refine ⟨hl.1, (hl.2.2 (by decide)).trans (by decide), h.2.2.1.trans (by decide)⟩

/-- C16 as stated fails: with `v = $3EFF` (below `$3F00`) and increment 1, the first read
buffers the byte `$55` at `$3EFF`, but the next read is at `$3F00` and returns the palette
byte `$00` there, not the buffered byte. -/
theorem ppudata_read_counterexample :
    demo_ppudata.ppu.v &&& 0x3FFF < 0x3F00 ∧
    (ppu_cpu_read demo_ppudata 0x2007).1 = 0x11 ∧
    (ppu_cpu_read demo_ppudata 0x2007).2.ppu.chr_read_buffer = 0x55 ∧
    ppu_bus_read demo_ppudata (demo_ppudata.ppu.v &&& 0x3FFF) = 0x55 ∧
    (ppu_cpu_read (ppu_cpu_read demo_ppudata 0x2007).2 0x2007).1 = 0x00 ∧
    (ppu_cpu_read (ppu_cpu_read demo_ppudata 0x2007).2 0x2007).1
      ≠ ppu_bus_read demo_ppudata (demo_ppudata.ppu.v &&& 0x3FFF) := by
  decide

/-! ## C20: vblank and pre-render events of `ppu_tick` -/

theorem or_and_disjoint (x a b : Nat) (h : a &&& b = 0) : (x ||| a) &&& b = x &&& b := by
  rw [Nat.and_distrib_right, h, Nat.or_zero]

/-- The sprite evaluation loop leaves the status, control and position fields alone. -/
theorem eval_sprites_loop_frame (y sprite_h : Int) (k : Nat) :
    ∀ (i : Nat) (s : ppu_t × Nat),
      (eval_sprites_loop y sprite_h k i s).1.reg_status = s.1.reg_status ∧
      (eval_sprites_loop y sprite_h k i s).1.frame_ready = s.1.frame_ready ∧
      (eval_sprites_loop y sprite_h k i s).1.scanline = s.1.scanline ∧
      (eval_sprites_loop y sprite_h k i s).1.dot = s.1.dot := by
  induction k with
  | zero => intro i s; exact ⟨rfl, rfl, rfl, rfl⟩
  | succ k ih =>
    intro i s
    obtain ⟨p, found⟩ := s
    simp only [eval_sprites_loop]
    split_ifs with h1 h2
    · exact ih _ _
    · exact ih _ _
    · exact ih _ _

/-- Sprite evaluation changes the status only in bit 5. -/
theorem eval_sprites_for_scanline_frame (n : nes_t) (y : Int) :
    (eval_sprites_for_scanline n y).ppu.reg_status &&& 0x80 = n.ppu.reg_status &&& 0x80 ∧
    (eval_sprites_for_scanline n y).ppu.frame_ready = n.ppu.frame_ready ∧
    (eval_sprites_for_scanline n y).ppu.scanline = n.ppu.scanline ∧
    (eval_sprites_for_scanline n y).ppu.dot = n.ppu.dot ∧
    (eval_sprites_for_scanline n y).cpu = n.cpu := by
  have hl := fun (h : Int) => eval_sprites_loop_frame y h 64 0
    ({ n.ppu with scan_spr_count := 0, reg_status := n.ppu.reg_status &&& 0xDF }, 0)
  have hm : n.ppu.reg_status &&& 0xDF &&& 0x80 = n.ppu.reg_status &&& 0x80 :=
    and_mask_mask _ _ _ _ (by decide)
  unfold eval_sprites_for_scanline
  simp only []
  split_ifs with hh hf hf
  · refine ⟨?_, (hl 16).2.1, (hl 16).2.2.1, (hl 16).2.2.2, trivial⟩
    show ((eval_sprites_loop y 16 64 0 _).1.reg_status ||| 0x20) &&& 0x80 = _
    rw [or_and_disjoint _ _ _ (by decide), (hl 16).1]
    exact hm
  · refine ⟨?_, (hl 16).2.1, (hl 16).2.2.1, (hl 16).2.2.2, trivial⟩
    show (eval_sprites_loop y 16 64 0 _).1.reg_status &&& 0x80 = _
    rw [(hl 16).1]
    exact hm
  · refine ⟨?_, (hl 8).2.1, (hl 8).2.2.1, (hl 8).2.2.2, trivial⟩
    show ((eval_sprites_loop y 8 64 0 _).1.reg_status ||| 0x20) &&& 0x80 = _
    rw [or_and_disjoint _ _ _ (by decide), (hl 8).1]
    exact hm
  · refine ⟨?_, (hl 8).2.1, (hl 8).2.2.1, (hl 8).2.2.2, trivial⟩
    show (eval_sprites_loop y 8 64 0 _).1.reg_status &&& 0x80 = _
    rw [(hl 8).1]
    exact hm

theorem or_0x80_bit (s : Nat) : (s ||| 0x80) &&& 0x80 ≠ 0 := by
  have h := (and_two_pow_ne_zero (s ||| 0x80) 7).mpr
    (by rw [Nat.testBit_or]; exact (Bool.or_eq_true _ _).mpr (Or.inr (by decide)))
  exact h

theorem ppu_tick_eq (n : nes_t) :
    ppu_tick n = ppu_tick_advance (ppu_tick_prerender (ppu_tick_vblank (ppu_tick_sprite0
      (ppu_tick_render (ppu_tick_line_latch (ppu_tick_frame_latch n)))))) := rfl

theorem ppu_tick_frame_latch_frame (n : nes_t) :
    (ppu_tick_frame_latch n).ppu.reg_status = n.ppu.reg_status ∧
    (ppu_tick_frame_latch n).ppu.frame_ready = n.ppu.frame_ready ∧
    (ppu_tick_frame_latch n).ppu.scanline = n.ppu.scanline ∧
    (ppu_tick_frame_latch n).ppu.dot = n.ppu.dot ∧
    (ppu_tick_frame_latch n).ppu.reg_ctrl = n.ppu.reg_ctrl ∧
    (ppu_tick_frame_latch n).cpu = n.cpu := by
  unfold ppu_tick_frame_latch
  split_ifs <;> exact ⟨rfl, rfl, rfl, rfl, rfl, rfl⟩

theorem ppu_tick_line_latch_frame (n : nes_t) :
    (ppu_tick_line_latch n).ppu.reg_status = n.ppu.reg_status ∧
    (ppu_tick_line_latch n).ppu.frame_ready = n.ppu.frame_ready ∧
    (ppu_tick_line_latch n).ppu.scanline = n.ppu.scanline ∧
    (ppu_tick_line_latch n).ppu.dot = n.ppu.dot ∧
    (ppu_tick_line_latch n).ppu.reg_ctrl = n.ppu.reg_ctrl ∧
    (ppu_tick_line_latch n).cpu = n.cpu := by
  unfold ppu_tick_line_latch
  split_ifs <;> exact ⟨rfl, rfl, rfl, rfl, rfl, rfl⟩

/-- Rendering a line changes the status at most in bit 5 and leaves the position alone. -/
theorem ppu_tick_render_frame (n : nes_t) :
    (ppu_tick_render n).ppu.reg_status &&& 0x80 = n.ppu.reg_status &&& 0x80 ∧
    (ppu_tick_render n).ppu.frame_ready = n.ppu.frame_ready ∧
    (ppu_tick_render n).ppu.scanline = n.ppu.scanline ∧
    (ppu_tick_render n).ppu.dot = n.ppu.dot ∧
    (ppu_tick_render n).cpu = n.cpu := by
  unfold ppu_tick_render
  split_ifs with h
  · exact eval_sprites_for_scanline_frame n n.ppu.scanline
  · exact ⟨rfl, rfl, rfl, rfl, rfl⟩

/-- The render block does nothing off the visible scanlines. -/
theorem ppu_tick_render_off (n : nes_t) (h : ¬ (0 ≤ n.ppu.scanline ∧ n.ppu.scanline < 240)) :
    ppu_tick_render n = n := by
  unfold ppu_tick_render
  rw [if_neg (fun hc => h ⟨hc.1, hc.2.1⟩)]

/-- The sprite-0 block changes the status at most in bit 6. -/
theorem ppu_tick_sprite0_frame (n : nes_t) :
    (ppu_tick_sprite0 n).ppu.reg_status &&& 0x80 = n.ppu.reg_status &&& 0x80 ∧
    (ppu_tick_sprite0 n).ppu.frame_ready = n.ppu.frame_ready ∧
    (ppu_tick_sprite0 n).ppu.scanline = n.ppu.scanline ∧
    (ppu_tick_sprite0 n).ppu.dot = n.ppu.dot ∧
    (ppu_tick_sprite0 n).cpu = n.cpu := by
  unfold ppu_tick_sprite0
  simp only []
  split_ifs
  all_goals first
    | exact ⟨rfl, rfl, rfl, rfl, rfl⟩
    | exact ⟨or_and_disjoint n.ppu.reg_status 0x40 0x80 (by decide), rfl, rfl, rfl, rfl⟩

/-- The sprite-0 block does nothing off the visible scanlines. -/
theorem ppu_tick_sprite0_off (n : nes_t) (h : ¬ (0 ≤ n.ppu.scanline ∧ n.ppu.scanline < 240)) :
    ppu_tick_sprite0 n = n := by
  unfold ppu_tick_sprite0
  rw [if_neg (fun hc => h ⟨hc.2.1, hc.2.2.1⟩)]

theorem ppu_tick_advance_frame (n : nes_t) :
    (ppu_tick_advance n).ppu.reg_status = n.ppu.reg_status ∧
    (ppu_tick_advance n).ppu.frame_ready = n.ppu.frame_ready ∧
    (ppu_tick_advance n).cpu = n.cpu := by
  unfold ppu_tick_advance
  simp only []
  split_ifs <;> exact ⟨rfl, rfl, rfl⟩

/-- Off the visible scanlines and away from (-1, 0), the first four blocks of `ppu_tick` do
nothing. -/
theorem ppu_tick_off_screen (n : nes_t) (h : ¬ (0 ≤ n.ppu.scanline ∧ n.ppu.scanline < 240))
    (h0 : ¬ (n.ppu.scanline = -1 ∧ n.ppu.dot = 0)) :
    ppu_tick n = ppu_tick_advance (ppu_tick_prerender (ppu_tick_vblank n)) := by
  have e1 : ppu_tick_frame_latch n = n := by
    unfold ppu_tick_frame_latch
    rw [if_neg h0]
  have e2 : ppu_tick_line_latch n = n := by
    unfold ppu_tick_line_latch
    rw [if_neg (fun hc => h ⟨hc.1, hc.2.1⟩)]
  rw [ppu_tick_eq, e1, e2, ppu_tick_render_off n h, ppu_tick_sprite0_off n h]

/-- C20: `ppu_tick` at (scanline 241, dot 1) sets status bit 7 and the frame-ready flag, and
sets the CPU's NMI latch when PPUCTRL bit 7 is set and leaves the CPU alone when it is clear;
at (scanline -1, dot 1) it clears status bits 7 and 6; at any other position it leaves status
bit 7, the frame-ready flag and the NMI latch unchanged. -/
theorem ppu_tick_vblank_nmi (n : nes_t) :
    (n.ppu.scanline = 241 ∧ n.ppu.dot = 1 →
      (ppu_tick n).ppu.reg_status = n.ppu.reg_status ||| 0x80 ∧
      (ppu_tick n).ppu.reg_status &&& 0x80 ≠ 0 ∧
      (ppu_tick n).ppu.frame_ready = true ∧
      (n.ppu.reg_ctrl &&& 0x80 ≠ 0 → (ppu_tick n).cpu.nmi_pending = true) ∧
      (n.ppu.reg_ctrl &&& 0x80 = 0 → (ppu_tick n).cpu = n.cpu)) ∧
    (n.ppu.scanline = -1 ∧ n.ppu.dot = 1 →
      (ppu_tick n).ppu.reg_status = n.ppu.reg_status &&& 0x7F &&& 0xBF ∧
      (ppu_tick n).ppu.reg_status &&& 0x80 = 0 ∧
      (ppu_tick n).ppu.reg_status &&& 0x40 = 0 ∧
      (ppu_tick n).ppu.frame_ready = n.ppu.frame_ready ∧
      (ppu_tick n).cpu = n.cpu) ∧
    (¬ (n.ppu.scanline = 241 ∧ n.ppu.dot = 1) → ¬ (n.ppu.scanline = -1 ∧ n.ppu.dot = 1) →
      (ppu_tick n).ppu.reg_status &&& 0x80 = n.ppu.reg_status &&& 0x80 ∧
      (ppu_tick n).ppu.frame_ready = n.ppu.frame_ready ∧
      (ppu_tick n).cpu.nmi_pending = n.cpu.nmi_pending) := by
  refine ⟨?_, ?_, ?_⟩
  · intro h
    obtain ⟨hs, hd⟩ := h
    have e := ppu_tick_off_screen n (by omega) (by omega)
    have ev : ppu_tick_vblank n =
        { (if n.ppu.reg_ctrl &&& 0x80 ≠ 0
            then cpu6502_set_nmi
              { n with ppu := { n.ppu with reg_status := n.ppu.reg_status ||| 0x80 } }
            else { n with ppu := { n.ppu with reg_status := n.ppu.reg_status ||| 0x80 } }) with
          ppu := { (if n.ppu.reg_ctrl &&& 0x80 ≠ 0
            then cpu6502_set_nmi
              { n with ppu := { n.ppu with reg_status := n.ppu.reg_status ||| 0x80 } }
            else { n with ppu := { n.ppu with reg_status := n.ppu.reg_status ||| 0x80 } }).ppu with
            frame_ready := true } } := by
      unfold ppu_tick_vblank
      rw [if_pos ⟨hs, hd⟩]
    have hsc : (ppu_tick_vblank n).ppu.scanline = 241 := by
      rw [ev]
      by_cases hc : n.ppu.reg_ctrl &&& 0x80 ≠ 0
      · rw [if_pos hc]; exact hs
      · rw [if_neg hc]; exact hs
    have ep : ppu_tick_prerender (ppu_tick_vblank n) = ppu_tick_vblank n := by
      unfold ppu_tick_prerender
      rw [if_neg (by rw [hsc]; omega)]
    obtain ⟨a1, a2, a3⟩ := ppu_tick_advance_frame (ppu_tick_vblank n)
    rw [e, ep, a1, a2, a3, ev]
    by_cases hc : n.ppu.reg_ctrl &&& 0x80 ≠ 0
    · rw [if_pos hc]
      exact ⟨rfl, or_0x80_bit _, rfl, fun _ => rfl, fun h0 => absurd h0 hc⟩
    · rw [if_neg hc]
      exact ⟨rfl, or_0x80_bit _, rfl, fun h1 => absurd h1 hc, fun _ => rfl⟩
  · intro h
    obtain ⟨hs, hd⟩ := h
    have e := ppu_tick_off_screen n (by omega) (by omega)
    have ev : ppu_tick_vblank n = n := by
      unfold ppu_tick_vblank
      rw [if_neg (by omega)]
    have ep : ppu_tick_prerender n =
        { n with ppu := { n.ppu with reg_status := n.ppu.reg_status &&& 0x7F &&& 0xBF } } := by
      unfold ppu_tick_prerender
      rw [if_pos ⟨hs, hd⟩]
    obtain ⟨a1, a2, a3⟩ := ppu_tick_advance_frame (ppu_tick_prerender n)
    rw [e, ev, a1, a2, a3, ep]
    refine ⟨rfl, ?_, ?_, rfl, rfl⟩
    · show n.ppu.reg_status &&& 0x7F &&& 0xBF &&& 0x80 = 0
      rw [and_mask_mask _ 0xBF 0x80 0x80 (by decide), and_mask_mask _ 0x7F 0x80 0 (by decide)]
      exact Nat.and_zero _
    · show n.ppu.reg_status &&& 0x7F &&& 0xBF &&& 0x40 = 0
      rw [and_mask_mask _ 0xBF 0x40 0 (by decide)]
      exact Nat.and_zero _
  · intro hv hp
    obtain ⟨f1, f2, f3, f4, _, f6⟩ := ppu_tick_frame_latch_frame n
    obtain ⟨l1, l2, l3, l4, _, l6⟩ := ppu_tick_line_latch_frame (ppu_tick_frame_latch n)
    obtain ⟨r1, r2, r3, r4, r5⟩ :=
      ppu_tick_render_frame (ppu_tick_line_latch (ppu_tick_frame_latch n))
    obtain ⟨s1, s2, s3, s4, s5⟩ :=
      ppu_tick_sprite0_frame (ppu_tick_render (ppu_tick_line_latch (ppu_tick_frame_latch n)))
    have hsc : (ppu_tick_sprite0 (ppu_tick_render (ppu_tick_line_latch
        (ppu_tick_frame_latch n)))).ppu.scanline = n.ppu.scanline := by
      rw [s3, r3, l3, f3]
    have hdt : (ppu_tick_sprite0 (ppu_tick_render (ppu_tick_line_latch
        (ppu_tick_frame_latch n)))).ppu.dot = n.ppu.dot := by
      rw [s4, r4, l4, f4]
    have ev : ppu_tick_vblank (ppu_tick_sprite0 (ppu_tick_render (ppu_tick_line_latch
        (ppu_tick_frame_latch n)))) = ppu_tick_sprite0 (ppu_tick_render (ppu_tick_line_latch
        (ppu_tick_frame_latch n))) := by
      unfold ppu_tick_vblank
      rw [if_neg (by rw [hsc, hdt]; exact hv)]
    have ep : ppu_tick_prerender (ppu_tick_sprite0 (ppu_tick_render (ppu_tick_line_latch
        (ppu_tick_frame_latch n)))) = ppu_tick_sprite0 (ppu_tick_render (ppu_tick_line_latch
        (ppu_tick_frame_latch n))) := by
      unfold ppu_tick_prerender
      rw [if_neg (by rw [hsc, hdt]; exact hp)]
    obtain ⟨a1, a2, a3⟩ := ppu_tick_advance_frame (ppu_tick_sprite0 (ppu_tick_render
      (ppu_tick_line_latch (ppu_tick_frame_latch n))))
    rw [ppu_tick_eq, ev, ep, a1, a2, a3]
    refine ⟨?_, ?_, ?_⟩
    · rw [s1, r1, l1, f1]
    · rw [s2, r2, l2, f2]
    · rw [s5, r5, l6, f6]

theorem ppu_tick_vblank_nmi_witness :
    (ppu_tick demo_tick_vblank).ppu.reg_status = 0x80 ∧
    (ppu_tick demo_tick_vblank).ppu.frame_ready = true ∧
    (ppu_tick demo_tick_vblank).cpu.nmi_pending = true ∧
    (ppu_tick demo_tick_prerender).ppu.reg_status = 0x20 ∧
    (ppu_tick demo_tick_visible).ppu.reg_status &&& 0x80 = 0x80 := by
  have hv := (ppu_tick_vblank_nmi demo_tick_vblank).1 ⟨rfl, rfl⟩
  have hp := (ppu_tick_vblank_nmi demo_tick_prerender).2.1 ⟨rfl, rfl⟩
  have ho := (ppu_tick_vblank_nmi demo_tick_visible).2.2 (by decide) (by decide)
  exact ⟨hv.1, hv.2.2.1, hv.2.2.2.1 (by decide), hp.1, ho.1⟩

/-! ## C30: opcodes without a `case` -/

theorem ppu_cpu_read_cpu_stall (n : nes_t) (a : Nat) :
    (ppu_cpu_read n a).2.cpu_stall = n.cpu_stall := by
  unfold ppu_cpu_read
  simp only []
  split_ifs <;> rfl

theorem nes_cpu_read_cpu_stall (n : nes_t) (a : Nat) :
    (nes_cpu_read n a).2.cpu_stall = n.cpu_stall := by
  unfold nes_cpu_read
  simp only []
  split_ifs <;> first | rfl | exact ppu_cpu_read_cpu_stall n _

/-- The opcode fetch moves the PC and nothing else in the CPU. -/
theorem fetch_opcode_cpu (n : nes_t) :
    (fetch_opcode n).2.cpu = { n.cpu with pc := (n.cpu.pc + 1) % 65536 } := by
  unfold fetch_opcode
  rw [rd_cpu]
  rfl

theorem fetch_opcode_cpu_stall (n : nes_t) : (fetch_opcode n).2.cpu_stall = n.cpu_stall :=
  nes_cpu_read_cpu_stall _ _

/-- The `default:` branch of the opcode switch: two cycles, no effect. -/
theorem exec_opcode_default (op : Nat) (s : nes_t)
    (hop : op ∈ [0x02, 0x12, 0x22, 0x32, 0x42, 0x52, 0x62, 0x72, 0x92, 0xB2, 0xD2, 0xF2]) :
    exec_opcode op s = (2, s) := by
  simp only [List.mem_cons, List.mem_singleton, List.not_mem_nil, or_false] at hop
  rcases hop with h | h | h | h | h | h | h | h | h | h | h | h <;> subst h <;> rfl

/-- C30: each opcode without a `case` (`$02, $12, $22, $32, $42, $52, $62, $72, $92, $B2,
$D2, $F2`) is a 2-cycle NOP: the step returns 2, PC advances by 1 (16-bit), and A, X, Y,
SP, P, RAM, the interrupt latches and the stall counter are unchanged; the step is the opcode
fetch followed by the count of two cycles. -/
theorem unknown_opcode_nop (n : nes_t) (hpath : instr_path n)
    (hop : (fetch_opcode n).1 ∈
      [0x02, 0x12, 0x22, 0x32, 0x42, 0x52, 0x62, 0x72, 0x92, 0xB2, 0xD2, 0xF2]) :
    (cpu6502_step n).1 = 2 ∧
    (cpu6502_step n).2.cpu.pc = (n.cpu.pc + 1) % 65536 ∧
    (cpu6502_step n).2.cpu.a = n.cpu.a ∧
    (cpu6502_step n).2.cpu.x = n.cpu.x ∧
    (cpu6502_step n).2.cpu.y = n.cpu.y ∧
    (cpu6502_step n).2.cpu.sp = n.cpu.sp ∧
    (cpu6502_step n).2.cpu.p = n.cpu.p ∧
    (cpu6502_step n).2.ram = n.ram ∧
    (cpu6502_step n).2.cpu.nmi_pending = n.cpu.nmi_pending ∧
    (cpu6502_step n).2.cpu.irq_pending = n.cpu.irq_pending ∧
    (cpu6502_step n).2.cpu_stall = n.cpu_stall ∧
    (cpu6502_step n).2 = add_cycles (fetch_opcode n).2 2 := by
  have e : cpu6502_step n = (2, add_cycles (fetch_opcode n).2 2) := by
    rw [cpu6502_step_exec n hpath, exec_opcode_default _ _ hop]
  have hc := fetch_opcode_cpu n
  rw [e]
  refine ⟨rfl, ?_, ?_, ?_, ?_, ?_, ?_, ?_, ?_, ?_, ?_, rfl⟩
  · show (fetch_opcode n).2.cpu.pc = _
    rw [hc]
  · show (fetch_opcode n).2.cpu.a = _
    rw [hc]
  · show (fetch_opcode n).2.cpu.x = _
    rw [hc]
  · show (fetch_opcode n).2.cpu.y = _
    rw [hc]
  · show (fetch_opcode n).2.cpu.sp = _
    rw [hc]
  · show (fetch_opcode n).2.cpu.p = _
    rw [hc]
  · exact fetch_opcode_ram n
  · show (fetch_opcode n).2.cpu.nmi_pending = _
    rw [hc]
  · show (fetch_opcode n).2.cpu.irq_pending = _
    rw [hc]
  · exact fetch_opcode_cpu_stall n

theorem unknown_opcode_nop_witness :
    (cpu6502_step demo_unknown).1 = 2 ∧
    (cpu6502_step demo_unknown).2.cpu.pc = 0x0201 ∧
    (cpu6502_step demo_unknown).2.cpu.a = demo_unknown.cpu.a ∧
    (cpu6502_step demo_unknown).2.cpu.p = demo_unknown.cpu.p := by
  have h := unknown_opcode_nop demo_unknown (by decide) (by decide)
  exact ⟨h.1, h.2.1, h.2.2.1, h.2.2.2.2.2.2.1⟩

/-! ## C27: what `ines_load` reads from the header -/

theorem shift_nibble (b : Nat) (hb : b < 256) : (b >>> 4) <<< 4 = b &&& 0xF0 := by
  interval_cases b <;> rfl

/-- The mapper byte that the loader assembles from the two nibbles. -/
theorem mapper_byte (a b : Nat) (ha : a < 256) (hb : b < 256) :
    ((a >>> 4) % 256 ||| (((b >>> 4) % 256) <<< 4)) % 256 = (a >>> 4) ||| (b &&& 0xF0) := by
  have h1 : a >>> 4 < 256 := by rw [Nat.shiftRight_eq_div_pow]; omega
  have h2 : b >>> 4 < 256 := by rw [Nat.shiftRight_eq_div_pow]; omega
  have h3 : b &&& 0xF0 < 2 ^ 8 := Nat.lt_of_le_of_lt Nat.and_le_right (by decide)
  rw [Nat.mod_eq_of_lt h1, Nat.mod_eq_of_lt h2, shift_nibble b hb]
  exact Nat.mod_eq_of_lt (Nat.or_lt_two_pow h1 h3)

/-- The loader on a file with the NES magic that is long enough: the cartridge it builds. -/
theorem ines_load_complete (f : List Nat) (hmagic : has_nes_magic f)
    (hlen : image_len f ≤ f.length) :
    ines_load (some f) = Except.ok
      { info :=
          { is_nes2 := decide (hdr f 7 &&& 0x0C = 0x08),
            has_trainer := decide (hdr f 6 &&& 0x04 ≠ 0),
            has_battery := decide (hdr f 6 &&& 0x02 ≠ 0),
            mirror :=
              if hdr f 6 &&& 0x08 ≠ 0 then NES_MIRROR_FOURSCREEN
              else if hdr f 6 &&& 0x01 ≠ 0 then NES_MIRROR_VERTICAL else NES_MIRROR_HORIZONTAL,
            mapper := ((hdr f 6 >>> 4) % 256 ||| (((hdr f 7 >>> 4) % 256) <<< 4)) % 256,
            prg_rom_size := hdr f 4 * 16 * 1024,
            chr_rom_size := if hdr f 5 = 0 then 8 * 1024 else hdr f 5 * 8 * 1024,
            prg_ram_size := if hdr f 8 ≠ 0 then hdr f 8 * 8 * 1024 else 8 * 1024 },
        prg_rom := file_bytes f (16 + trainer_len f) (hdr f 4 * 16 * 1024),
        chr :=
          if hdr f 5 = 0 then mem_zero
          else file_bytes f (16 + trainer_len f + hdr f 4 * 16 * 1024) (hdr f 5 * 8 * 1024),
        chr_is_ram := decide (hdr f 5 = 0) } := by
  obtain ⟨m0, m1, m2, m3⟩ := hmagic
  unfold image_len at hlen
  unfold hdr at *
  by_cases ht : f.getD 6 0 &&& 0x04 ≠ 0
  · have htl : trainer_len f = 512 := by unfold trainer_len hdr; rw [if_pos ht]
    rw [htl] at hlen ⊢
    have r1 : 0 + 16 ≤ f.length := by omega
    have r2 : 16 + 512 ≤ f.length := by omega
    have r3 : 16 + 512 + f.getD 4 0 * 16 * 1024 ≤ f.length := by omega
    by_cases hc : f.getD 5 0 = 0
    · simp only [ines_load, read_exact, m0, m1, m2, m3, ht, hc, r1, r2, r3, ne_eq, not_false_eq_true, not_true_eq_false, decide_True, decide_False, if_true, if_false, and_self, and_true, true_and, and_false, false_and, Bool.false_eq_true, Nat.reduceEqDiff, not_not, decide_not, Bool.not_eq_true, Bool.not_true, Bool.not_false, Nat.zero_mul, Nat.add_zero]
    · have r4 : 16 + 512 + f.getD 4 0 * 16 * 1024 + f.getD 5 0 * 8 * 1024 ≤ f.length := by
        omega
      have hc' : ¬ f.getD 5 0 * 8 * 1024 = 0 := by omega
      simp only [ines_load, read_exact, m0, m1, m2, m3, ht, hc, r1, r2, r3, r4, hc', ne_eq, not_false_eq_true, not_true_eq_false, decide_True, decide_False, if_true, if_false, and_self, and_true, true_and, and_false, false_and, Bool.false_eq_true, Nat.reduceEqDiff, not_not, decide_not, Bool.not_eq_true, Bool.not_true, Bool.not_false, Nat.zero_mul, Nat.add_zero]
  · have htl : trainer_len f = 0 := by unfold trainer_len hdr; rw [if_neg ht]
    rw [htl] at hlen ⊢
    have r1 : 0 + 16 ≤ f.length := by omega
    have r3 : 16 + f.getD 4 0 * 16 * 1024 ≤ f.length := by omega
    by_cases hc : f.getD 5 0 = 0
    · simp only [ines_load, read_exact, m0, m1, m2, m3, ht, hc, r1, r3, ne_eq, not_false_eq_true, not_true_eq_false, decide_True, decide_False, if_true, if_false, and_self, and_true, true_and, and_false, false_and, Bool.false_eq_true, Nat.reduceEqDiff, not_not, decide_not, Bool.not_eq_true, Bool.not_true, Bool.not_false, Nat.zero_mul, Nat.add_zero]
    · have r4 : 16 + f.getD 4 0 * 16 * 1024 + f.getD 5 0 * 8 * 1024 ≤ f.length := by
        omega
      have hc' : ¬ f.getD 5 0 * 8 * 1024 = 0 := by omega
      simp only [ines_load, read_exact, m0, m1, m2, m3, ht, hc, r1, r3, r4, hc', ne_eq, not_false_eq_true, not_true_eq_false, decide_True, decide_False, if_true, if_false, and_self, and_true, true_and, and_false, false_and, Bool.false_eq_true, Nat.reduceEqDiff, not_not, decide_not, Bool.not_eq_true, Bool.not_true, Bool.not_false, Nat.zero_mul, Nat.add_zero]

theorem hdr_lt (f : List Nat) (hb : ∀ b ∈ f, b < 256) (i : Nat) : hdr f i < 256 := by
  unfold hdr
  rw [List.getD_eq_getElem?_getD]
  cases hget : f[i]? with
  | none => exact (by decide : (0 : Nat) < 256)
  | some b => exact hb b (List.getElem?_mem hget)

/-- C27: for a file of bytes that starts with the NES magic and is long enough, `ines_load`
succeeds with PRG size `byte 4 * 16 KiB`; CHR size `byte 5 * 8 KiB` of read-only CHR, or
8 KiB of zeroed CHR RAM when byte 5 is 0; mirroring four-screen if byte 6 bit 3 is set, else
vertical if bit 0 is set, else horizontal; battery = byte 6 bit 1; trainer = byte 6 bit 2;
mapper `(byte 6 >> 4) | (byte 7 & $F0)`; PRG-RAM size `byte 8 * 8 KiB`, or 8 KiB when byte 8
is 0; PRG then CHR are the file bytes after the header and the 512 trainer bytes, if any. -/
theorem ines_load_header (f : List Nat) (hb : ∀ b ∈ f, b < 256) (hmagic : has_nes_magic f)
    (hlen : image_len f ≤ f.length) :
    ∃ cart, ines_load (some f) = Except.ok cart ∧
      cart.info.prg_rom_size = hdr f 4 * 16384 ∧
      (hdr f 5 ≠ 0 → cart.info.chr_rom_size = hdr f 5 * 8192 ∧ cart.chr_is_ram = false) ∧
      (hdr f 5 = 0 →
        cart.info.chr_rom_size = 8192 ∧ cart.chr_is_ram = true ∧ ∀ i, cart.chr i = 0) ∧
      cart.info.mirror =
        (if hdr f 6 &&& 0x08 ≠ 0 then NES_MIRROR_FOURSCREEN
          else if hdr f 6 &&& 0x01 ≠ 0 then NES_MIRROR_VERTICAL else NES_MIRROR_HORIZONTAL) ∧
      (cart.info.has_battery = true ↔ hdr f 6 &&& 0x02 ≠ 0) ∧
      (cart.info.has_trainer = true ↔ hdr f 6 &&& 0x04 ≠ 0) ∧
      cart.info.mapper = (hdr f 6 >>> 4) ||| (hdr f 7 &&& 0xF0) ∧
      cart.info.prg_ram_size = (if hdr f 8 = 0 then 8192 else hdr f 8 * 8192) ∧
      (∀ i, i < hdr f 4 * 16384 →
        cart.prg_rom i = hdr f (16 + (if hdr f 6 &&& 0x04 ≠ 0 then 512 else 0) + i)) ∧
      (hdr f 5 ≠ 0 → ∀ i, i < hdr f 5 * 8192 →
        cart.chr i =
          hdr f (16 + (if hdr f 6 &&& 0x04 ≠ 0 then 512 else 0) + hdr f 4 * 16384 + i)) := by
  refine ⟨_, ines_load_complete f hmagic hlen, ?_, ?_, ?_, rfl, ?_, ?_, ?_, ?_, ?_, ?_⟩
  · show hdr f 4 * 16 * 1024 = _
    omega
  · intro h5
    refine ⟨?_, ?_⟩
    · show (if hdr f 5 = 0 then 8 * 1024 else hdr f 5 * 8 * 1024) = _
      rw [if_neg h5]
      omega
    · exact decide_eq_false h5
  · intro h5
    refine ⟨?_, ?_, ?_⟩
    · show (if hdr f 5 = 0 then 8 * 1024 else hdr f 5 * 8 * 1024) = _
      rw [if_pos h5]
    · exact decide_eq_true h5
    · intro i
      show (if hdr f 5 = 0 then mem_zero else _) i = 0
      rw [if_pos h5]
      rfl
  · exact decide_eq_true_iff
  · exact decide_eq_true_iff
  · exact mapper_byte _ _ (hdr_lt f hb 6) (hdr_lt f hb 7)
  · show (if hdr f 8 ≠ 0 then hdr f 8 * 8 * 1024 else 8 * 1024) = _
    by_cases h8 : hdr f 8 = 0
    · rw [if_neg (not_not.mpr h8), if_pos h8]
    · rw [if_pos h8, if_neg h8]
      omega
  · intro i hi
    show file_bytes f (16 + trainer_len f) (hdr f 4 * 16 * 1024) i = _
    unfold file_bytes
    rw [if_pos (by omega)]
    rfl
  · intro h5 i hi
    show (if hdr f 5 = 0 then mem_zero
      else file_bytes f (16 + trainer_len f + hdr f 4 * 16 * 1024) (hdr f 5 * 8 * 1024)) i = _
    rw [if_neg h5]
    unfold file_bytes
    rw [if_pos (by omega)]
    have e : 16 + trainer_len f + hdr f 4 * 16 * 1024 + i
        = 16 + (if hdr f 6 &&& 0x04 ≠ 0 then 512 else 0) + hdr f 4 * 16384 + i := by
      unfold trainer_len
      omega
    rw [e]
    rfl

theorem demo_rom_magic : has_nes_magic demo_rom :=
  ⟨demo_rom_header 0 (by decide), demo_rom_header 1 (by decide), demo_rom_header 2 (by decide),
    demo_rom_header 3 (by decide)⟩

theorem demo_rom_image_len : image_len demo_rom = 16400 := by
  have h4 : hdr demo_rom 4 = 1 := demo_rom_header 4 (by decide)
  have h5 : hdr demo_rom 5 = 0 := demo_rom_header 5 (by decide)
  have h6 : hdr demo_rom 6 = 0 := demo_rom_header 6 (by decide)
  unfold image_len trainer_len
  rw [h4, h5, h6]
  rfl

theorem ines_load_header_witness :
    ∃ cart, ines_load (some demo_rom) = Except.ok cart ∧
      cart.info.prg_rom_size = 16384 ∧ cart.info.chr_rom_size = 8192 ∧
      cart.chr_is_ram = true ∧ cart.info.mapper = 0 ∧
      cart.info.mirror = NES_MIRROR_HORIZONTAL := by
  obtain ⟨cart, h1, h2, _, h4, h5, _, _, h8, _⟩ :=
    ines_load_header demo_rom demo_rom_bytes demo_rom_magic
      (by rw [demo_rom_image_len, demo_rom_length])
  have e4 : hdr demo_rom 4 = 1 := demo_rom_header 4 (by decide)
  have e5 : hdr demo_rom 5 = 0 := demo_rom_header 5 (by decide)
  have e6 : hdr demo_rom 6 = 0 := demo_rom_header 6 (by decide)
  have e7 : hdr demo_rom 7 = 0 := demo_rom_header 7 (by decide)
  rw [e4] at h2
  rw [e6] at h5
  rw [e6, e7] at h8
  exact ⟨cart, h1, h2, (h4 e5).1, (h4 e5).2.1, h8, h5⟩

/-! ## C28: what `nes_load` rejects -/

/-- The loader fails on every file that lacks the NES magic or is shorter than the image its
header announces. -/
theorem ines_load_incomplete (f : List Nat)
    (h : ¬ (has_nes_magic f ∧ image_len f ≤ f.length)) :
    ∀ c, ines_load (some f) ≠ Except.ok c := by
  intro c hc
  unfold has_nes_magic image_len trainer_len hdr at h
  by_cases r1 : 0 + 16 ≤ f.length
  swap
  · exact absurd hc (by
      simp only [ines_load, read_exact, r1,
        decide_True, decide_False, not_true_eq_false, not_false_eq_true, if_false, if_true,
        and_self, and_true, true_and, and_false, false_and, Bool.false_eq_true, decide_not,
        Bool.not_eq_true, Bool.not_true, Bool.not_false, Nat.reduceEqDiff, reduceCtorEq])
  by_cases helf : f.getD 0 0 = 0x7F ∧ f.getD 1 0 = 0x45 ∧ f.getD 2 0 = 0x4C ∧ f.getD 3 0 = 0x46
  · exact absurd hc (by
      simp only [ines_load, read_exact, r1, helf,
        decide_True, decide_False, not_true_eq_false, not_false_eq_true, if_false, if_true,
        and_self, and_true, true_and, and_false, false_and, Bool.false_eq_true, decide_not,
        Bool.not_eq_true, Bool.not_true, Bool.not_false, Nat.reduceEqDiff, reduceCtorEq])
  by_cases hnes : f.getD 0 0 = 0x4E ∧ f.getD 1 0 = 0x45 ∧ f.getD 2 0 = 0x53 ∧ f.getD 3 0 = 0x1A
  swap
  · exact absurd hc (by
      simp only [ines_load, read_exact, r1, helf, hnes,
        decide_True, decide_False, not_true_eq_false, not_false_eq_true, if_false, if_true,
        and_self, and_true, true_and, and_false, false_and, Bool.false_eq_true, decide_not,
        Bool.not_eq_true, Bool.not_true, Bool.not_false, Nat.reduceEqDiff, reduceCtorEq])
  have hshort : ¬ (16 + (if f.getD 6 0 &&& 0x04 ≠ 0 then 512 else 0) + f.getD 4 0 * 16384
      + f.getD 5 0 * 8192 ≤ f.length) := fun hl => h ⟨hnes, hl⟩
  by_cases ht : f.getD 6 0 &&& 0x04 ≠ 0
  · rw [if_pos ht] at hshort
    by_cases r2 : 16 + 512 ≤ f.length
    swap
    · exact absurd hc (by
      simp only [ines_load, read_exact, r1, r2, helf, hnes, ne_eq, ht,
        decide_True, decide_False, not_true_eq_false, not_false_eq_true, if_false, if_true,
        and_self, and_true, true_and, and_false, false_and, Bool.false_eq_true, decide_not,
        Bool.not_eq_true, Bool.not_true, Bool.not_false, Nat.reduceEqDiff, reduceCtorEq])
    by_cases r3 : 16 + 512 + f.getD 4 0 * 16 * 1024 ≤ f.length
    swap
    · exact absurd hc (by
      simp only [ines_load, read_exact, r1, r2, r3, helf, hnes, ne_eq, ht,
        decide_True, decide_False, not_true_eq_false, not_false_eq_true, if_false, if_true,
        and_self, and_true, true_and, and_false, false_and, Bool.false_eq_true, decide_not,
        Bool.not_eq_true, Bool.not_true, Bool.not_false, Nat.reduceEqDiff, reduceCtorEq])
    have hc' : ¬ f.getD 5 0 * 8 * 1024 = 0 := by omega
    have r4 : ¬ (16 + 512 + f.getD 4 0 * 16 * 1024 + f.getD 5 0 * 8 * 1024 ≤ f.length) := by
      omega
    exact absurd hc (by
      simp only [ines_load, read_exact, r1, r2, r3, r4, hc', helf, hnes, ne_eq, ht,
        decide_True, decide_False, not_true_eq_false, not_false_eq_true, if_false, if_true,
        and_self, and_true, true_and, and_false, false_and, Bool.false_eq_true, decide_not,
        Bool.not_eq_true, Bool.not_true, Bool.not_false, Nat.reduceEqDiff, reduceCtorEq])
  · rw [if_neg ht] at hshort
    by_cases r3 : 16 + f.getD 4 0 * 16 * 1024 ≤ f.length
    swap
    · exact absurd hc (by
      simp only [ines_load, read_exact, r1, r3, helf, hnes, ne_eq, ht,
        decide_True, decide_False, not_true_eq_false, not_false_eq_true, if_false, if_true,
        and_self, and_true, true_and, and_false, false_and, Bool.false_eq_true, decide_not,
        Bool.not_eq_true, Bool.not_true, Bool.not_false, Nat.reduceEqDiff, reduceCtorEq])
    have hc' : ¬ f.getD 5 0 * 8 * 1024 = 0 := by omega
    have r4 : ¬ (16 + f.getD 4 0 * 16 * 1024 + f.getD 5 0 * 8 * 1024 ≤ f.length) := by
      omega
    exact absurd hc (by
      simp only [ines_load, read_exact, r1, r3, r4, hc', helf, hnes, ne_eq, ht,
        decide_True, decide_False, not_true_eq_false, not_false_eq_true, if_false, if_true,
        and_self, and_true, true_and, and_false, false_and, Bool.false_eq_true, decide_not,
        Bool.not_eq_true, Bool.not_true, Bool.not_false, Nat.reduceEqDiff, reduceCtorEq])

theorem except_error_of_not_ok {α : Type} (r : Except String α) (h : ∀ a, r ≠ Except.ok a) :
    ∃ e, r = Except.error e := by
  cases r with
  | error e => exact ⟨e, rfl⟩
  | ok a => exact absurd rfl (h a)

theorem nes_load_of_ines_error (file : Option (List Nat))
    (h : ∀ c, ines_load file ≠ Except.ok c) : ∃ e, nes_load file = Except.error e := by
  cases hres : ines_load file with
  | error e => exact ⟨e, by simp only [nes_load, hres]⟩
  | ok c => exact absurd hres (h c)

/-- C28: `nes_load` fails when the file cannot be opened, when it starts with `$7F 'E' 'L' 'F'`,
when it does not start with `'N' 'E' 'S' $1A`, when it is shorter than the 16 header bytes
plus the optional 512 trainer bytes plus the PRG and CHR sizes that the header announces,
and when the mapper number of the header is not 0.  None of these checks rejects a complete
image with the NES magic and mapper 0: `ines_load` returns its cartridge, whose mapper number
is 0, so the mapper test passes; and when the header announces at least one PRG chunk,
`nes_load` returns the machine reset with that cartridge.  (With zero PRG chunks the reset
that follows the checks divides by the PRG size, which is the subject of C29.) -/
theorem nes_load_rejects (f : List Nat) (hb : ∀ b ∈ f, b < 256) :
    (∃ e, nes_load none = Except.error e) ∧
    (has_elf_magic f → ∃ e, nes_load (some f) = Except.error e) ∧
    (¬ has_nes_magic f → ∃ e, nes_load (some f) = Except.error e) ∧
    (f.length < image_len f → ∃ e, nes_load (some f) = Except.error e) ∧
    (hdr_mapper f ≠ 0 → ∃ e, nes_load (some f) = Except.error e) ∧
    (has_nes_magic f → image_len f ≤ f.length → hdr_mapper f = 0 →
      ∃ cart, ines_load (some f) = Except.ok cart ∧ cart.info.mapper = 0 ∧
        (hdr f 4 ≠ 0 →
          nes_load (some f) = Except.ok (nes_reset { nes_zero with cart := cart }))) := by
  refine ⟨⟨_, rfl⟩, ?_, ?_, ?_, ?_, ?_⟩
  · intro helf
    apply nes_load_of_ines_error
    apply ines_load_incomplete
    intro hc
    have h1 := helf.1
    have h2 := hc.1.1
    omega
  · intro hn
    exact nes_load_of_ines_error _ (ines_load_incomplete f (fun hc => hn hc.1))
  · intro hs
    exact nes_load_of_ines_error _ (ines_load_incomplete f (fun hc => by omega))
  · intro hm
    by_cases hc : has_nes_magic f ∧ image_len f ≤ f.length
    · have e := ines_load_complete f hc.1 hc.2
      have hmap : ((hdr f 6 >>> 4) % 256 ||| (((hdr f 7 >>> 4) % 256) <<< 4)) % 256 ≠ 0 := by
        rw [mapper_byte _ _ (hdr_lt f hb 6) (hdr_lt f hb 7)]
        exact hm
      apply except_error_of_not_ok
      intro n hn
      simp only [nes_load, e] at hn
      rw [if_pos hmap] at hn
      exact Except.noConfusion hn
    · exact nes_load_of_ines_error _ (ines_load_incomplete f hc)
  · intro hmagic hlen hm
    have e := ines_load_complete f hmagic hlen
    have hmap : ¬ ((hdr f 6 >>> 4) % 256 ||| (((hdr f 7 >>> 4) % 256) <<< 4)) % 256 ≠ 0 := by
      rw [mapper_byte _ _ (hdr_lt f hb 6) (hdr_lt f hb 7)]
      exact not_not.mpr hm
    refine ⟨_, e, not_not.mp hmap, ?_⟩
    intro _
    simp only [nes_load, e]
    rw [if_neg hmap]

theorem nes_load_rejects_witness :
    hdr demo_rom 4 ≠ 0 ∧
    (∃ cart, ines_load (some demo_rom) = Except.ok cart ∧ cart.info.mapper = 0 ∧
      nes_load (some demo_rom) = Except.ok (nes_reset { nes_zero with cart := cart })) ∧
    (∃ cart, ines_load (some demo_rom_empty) = Except.ok cart ∧ cart.info.mapper = 0) ∧
    (∃ e, nes_load (some demo_elf) = Except.error e) := by
  have h4 : hdr demo_rom 4 = 1 := demo_rom_header 4 (by decide)
  have h6 : hdr demo_rom 6 = 0 := demo_rom_header 6 (by decide)
  have h7 : hdr demo_rom 7 = 0 := demo_rom_header 7 (by decide)
  have h40 : hdr demo_rom 4 ≠ 0 := by rw [h4]; decide
  obtain ⟨cart, c1, c2, c3⟩ := (nes_load_rejects demo_rom demo_rom_bytes).2.2.2.2.2
    demo_rom_magic (by rw [demo_rom_image_len, demo_rom_length])
    (by unfold hdr_mapper; rw [h6, h7]; rfl)
  obtain ⟨cart0, d1, d2, _⟩ := (nes_load_rejects demo_rom_empty (by decide)).2.2.2.2.2
    (by decide) (by decide) (by decide)
  exact ⟨h40, ⟨cart, c1, c2, c3 h40⟩, ⟨cart0, d1, d2⟩,
    (nes_load_rejects demo_elf (by decide)).2.1 (by decide)⟩

/-! ## C29: the zero divisor in `cart_cpu_read` -/

/-- Where the checked read is defined it is the read of the model. -/
theorem cart_cpu_read_checked_some (n : nes_t) (addr v : Nat)
    (h : cart_cpu_read_checked n addr = some v) : cart_cpu_read n addr = v := by
  unfold cart_cpu_read_checked at h
  unfold cart_cpu_read
  simp only [] at h ⊢
  split_ifs at h ⊢ <;> exact Option.some.inj h

/-- With at least one PRG chunk every cartridge read is defined. -/
theorem cart_cpu_read_checked_defined (n : nes_t) (addr : Nat)
    (h : n.cart.info.prg_rom_size ≠ 0) :
    cart_cpu_read_checked n addr = some (cart_cpu_read n addr) := by
  have hlt : ∀ x, x % n.cart.info.prg_rom_size < prg_alloc n.cart := by
    intro x
    unfold prg_alloc
    rw [if_pos h]
    exact Nat.mod_lt _ (Nat.pos_of_ne_zero h)
  unfold cart_cpu_read_checked cart_cpu_read
  simp only [h, hlt, if_false, if_true]
  split_ifs <;> rfl

/-- C29 fails on the code: the header-only file with zero PRG chunks is accepted by the
loader (PRG size 0, mapper 0), `nes_load` goes on to `nes_reset`, and the reset-vector read
at `$FFFC`, like every cartridge read at `$8000..$FFFF`, divides by the PRG size 0. -/
theorem reset_vector_zero_divisor :
    ines_load (some demo_rom_empty) = Except.ok demo_rom_empty_cart ∧
    demo_rom_empty_cart.info.prg_rom_size = 0 ∧ demo_rom_empty_cart.info.mapper = 0 ∧
    nes_load (some demo_rom_empty)
      = Except.ok (nes_reset { nes_zero with cart := demo_rom_empty_cart }) ∧
    cart_cpu_read_checked { nes_zero with cart := demo_rom_empty_cart } 0xFFFC = none ∧
    (∀ (n : nes_t) (addr : Nat), n.cart = demo_rom_empty_cart → 0x8000 ≤ addr →
      cart_cpu_read_checked n addr = none) := by
  refine ⟨rfl, rfl, rfl, rfl, rfl, ?_⟩
  intro n addr hc ha
  have h0 : n.cart.info.prg_rom_size = 0 := by rw [hc]; rfl
  have h1 : ¬ addr < 0x8000 := by omega
  unfold cart_cpu_read_checked
  simp only [h0, h1, if_false, if_true]

/-! ## C21: the position of the PPU -/

theorem ppu_tick_vblank_pos (n : nes_t) :
    (ppu_tick_vblank n).ppu.scanline = n.ppu.scanline ∧
    (ppu_tick_vblank n).ppu.dot = n.ppu.dot := by
  unfold ppu_tick_vblank
  simp only [cpu6502_set_nmi]
  split_ifs <;> exact ⟨rfl, rfl⟩

theorem ppu_tick_prerender_pos (n : nes_t) :
    (ppu_tick_prerender n).ppu.scanline = n.ppu.scanline ∧
    (ppu_tick_prerender n).ppu.dot = n.ppu.dot := by
  unfold ppu_tick_prerender
  simp only []
  split_ifs <;> exact ⟨rfl, rfl⟩

/-- The first six blocks of `ppu_tick` leave the position alone. -/
theorem ppu_tick_pos_before_advance (n : nes_t) :
    (ppu_tick_prerender (ppu_tick_vblank (ppu_tick_sprite0 (ppu_tick_render
      (ppu_tick_line_latch (ppu_tick_frame_latch n)))))).ppu.scanline = n.ppu.scanline ∧
    (ppu_tick_prerender (ppu_tick_vblank (ppu_tick_sprite0 (ppu_tick_render
      (ppu_tick_line_latch (ppu_tick_frame_latch n)))))).ppu.dot = n.ppu.dot := by
  obtain ⟨_, _, f3, f4, _, _⟩ := ppu_tick_frame_latch_frame n
  obtain ⟨_, _, l3, l4, _, _⟩ := ppu_tick_line_latch_frame (ppu_tick_frame_latch n)
  obtain ⟨_, _, r3, r4, _⟩ :=
    ppu_tick_render_frame (ppu_tick_line_latch (ppu_tick_frame_latch n))
  obtain ⟨_, _, s3, s4, _⟩ :=
    ppu_tick_sprite0_frame (ppu_tick_render (ppu_tick_line_latch (ppu_tick_frame_latch n)))
  obtain ⟨v3, v4⟩ := ppu_tick_vblank_pos (ppu_tick_sprite0 (ppu_tick_render
    (ppu_tick_line_latch (ppu_tick_frame_latch n))))
  obtain ⟨p3, p4⟩ := ppu_tick_prerender_pos (ppu_tick_vblank (ppu_tick_sprite0
    (ppu_tick_render (ppu_tick_line_latch (ppu_tick_frame_latch n)))))
  exact ⟨by rw [p3, v3, s3, r3, l3, f3], by rw [p4, v4, s4, r4, l4, f4]⟩

/-- The position after a tick, from the position before it. -/
theorem ppu_tick_pos (n : nes_t) :
    (ppu_tick n).ppu.dot = (if n.ppu.dot + 1 ≥ 341 then 0 else n.ppu.dot + 1) ∧
    (ppu_tick n).ppu.scanline =
      (if n.ppu.dot + 1 ≥ 341 then
        (if n.ppu.scanline + 1 ≥ 261 then -1 else n.ppu.scanline + 1)
       else n.ppu.scanline) := by
  obtain ⟨hs, hd⟩ := ppu_tick_pos_before_advance n
  rw [ppu_tick_eq]
  generalize ppu_tick_prerender (ppu_tick_vblank (ppu_tick_sprite0 (ppu_tick_render
    (ppu_tick_line_latch (ppu_tick_frame_latch n))))) = m at hs hd
  rw [← hs, ← hd]
  unfold ppu_tick_advance
  simp only []
  split_ifs <;> exact ⟨rfl, rfl⟩

/-- A tick keeps the position in the grid and moves the tick count to its cyclic
successor. -/
theorem ppu_tick_clock (n : nes_t) (h : ppu_in_grid n) :
    ppu_in_grid (ppu_tick n) ∧ ppu_clock (ppu_tick n) = (ppu_clock n + 1) % 89342 := by
  obtain ⟨hd, hs⟩ := ppu_tick_pos n
  unfold ppu_in_grid ppu_clock at *
  rw [hd, hs]
  split_ifs <;> omega

theorem ppu_tick_loop_clock (k : Nat) : ∀ (n : nes_t), ppu_in_grid n →
    ppu_in_grid (ppu_tick_loop n k) ∧
    ppu_clock (ppu_tick_loop n k) = (ppu_clock n + k) % 89342 := by
  induction k with
  | zero =>
    intro n h
    refine ⟨h, ?_⟩
    show ppu_clock n = _
    unfold ppu_in_grid ppu_clock at *
    omega
  | succ k ih =>
    intro n h
    obtain ⟨h1, h2⟩ := ppu_tick_clock n h
    obtain ⟨h3, h4⟩ := ih (ppu_tick n) h1
    refine ⟨h3, ?_⟩
    show ppu_clock (ppu_tick_loop (ppu_tick n) k) = _
    rw [h4, h2]
    push_cast
    omega

/-- C21: `ppu_tick` keeps scanline in `[-1, 260]` and dot in `[0, 340]` and moves the pair
to its cyclic successor in the 341 x 262 grid: dot + 1 when dot < 340, otherwise dot 0
and scanline + 1, with scanline 260 followed by -1; hence 89342 ticks bring
(scanline, dot) back to where it was. -/
theorem ppu_tick_grid (n : nes_t) (h : ppu_in_grid n) :
    ppu_in_grid (ppu_tick n) ∧
    (n.ppu.dot < 340 →
      (ppu_tick n).ppu.dot = n.ppu.dot + 1 ∧ (ppu_tick n).ppu.scanline = n.ppu.scanline) ∧
    (n.ppu.dot = 340 → n.ppu.scanline < 260 →
      (ppu_tick n).ppu.dot = 0 ∧ (ppu_tick n).ppu.scanline = n.ppu.scanline + 1) ∧
    (n.ppu.dot = 340 → n.ppu.scanline = 260 →
      (ppu_tick n).ppu.dot = 0 ∧ (ppu_tick n).ppu.scanline = -1) ∧
    (∀ k, ppu_in_grid (ppu_tick_loop n k)) ∧
    (ppu_tick_loop n 89342).ppu.scanline = n.ppu.scanline ∧
    (ppu_tick_loop n 89342).ppu.dot = n.ppu.dot := by
  obtain ⟨hd, hs⟩ := ppu_tick_pos n
  have hg := (ppu_tick_clock n h).1
  obtain ⟨hg2, hc2⟩ := ppu_tick_loop_clock 89342 n h
  unfold ppu_in_grid at h
  refine ⟨hg, ?_, ?_, ?_, fun k => (ppu_tick_loop_clock k n h).1, ?_, ?_⟩
  · intro h1
    rw [hd, hs, if_neg (by omega), if_neg (by omega)]
    exact ⟨rfl, rfl⟩
  · intro h1 h2
    rw [hd, hs, if_pos (by omega), if_pos (by omega), if_neg (by omega)]
    exact ⟨rfl, rfl⟩
  · intro h1 h2
    rw [hd, hs, if_pos (by omega), if_pos (by omega), if_pos (by omega)]
    exact ⟨rfl, rfl⟩
  · unfold ppu_in_grid ppu_clock at *
    omega
  · unfold ppu_in_grid ppu_clock at *
    omega

theorem ppu_tick_grid_witness :
    (ppu_tick demo_nes).ppu.dot = 1 ∧ (ppu_tick demo_nes).ppu.scanline = -1 ∧
    (ppu_tick_loop demo_nes 89342).ppu.scanline = -1 ∧
    (ppu_tick_loop demo_nes 89342).ppu.dot = 0 := by
  have h := ppu_tick_grid demo_nes (by decide)
  exact ⟨(h.2.1 (by decide)).1, (h.2.1 (by decide)).2, h.2.2.2.2.2.1, h.2.2.2.2.2.2⟩

/-! ## What the CPU cannot change in the PPU -/

theorem ppu_cpu_read_beam (n : nes_t) (a : Nat) : ppu_beam (ppu_cpu_read n a).2 = ppu_beam n := by
  unfold ppu_cpu_read ppu_beam
  simp only []
  split_ifs
  · show (n.ppu.scanline, n.ppu.dot, n.ppu.frame_ready, n.ppu.reg_status &&& 0x7F &&& 0x7F) = _
    rw [and_mask_mask _ 0x7F 0x7F 0x7F (by decide)]
  all_goals rfl

theorem nes_cpu_read_beam (n : nes_t) (a : Nat) : ppu_beam (nes_cpu_read n a).2 = ppu_beam n := by
  unfold nes_cpu_read
  simp only []
  split_ifs <;> first | rfl | exact ppu_cpu_read_beam n _

theorem oam_dma_loop_beam (base : Nat) (k : Nat) : ∀ (i : Nat) (n : nes_t),
    ppu_beam (oam_dma_loop base k i n) = ppu_beam n := by
  induction k with
  | zero => intro i n; rfl
  | succ k ih =>
    intro i n
    simp only [oam_dma_loop]
    rw [ih]
    exact nes_cpu_read_beam n _

theorem ppu_bus_write_beam (n : nes_t) (a v : Nat) : ppu_beam (ppu_bus_write n a v) = ppu_beam n := by
  unfold ppu_bus_write
  simp only []
  split_ifs <;> rfl

theorem ppu_cpu_write_beam (n : nes_t) (a v : Nat) : ppu_beam (ppu_cpu_write n a v) = ppu_beam n := by
  unfold ppu_cpu_write
  simp only [nes_ppu_bus_write, cpu6502_set_nmi]
  split_ifs <;> first | rfl | exact ppu_bus_write_beam _ _ _

theorem nes_cpu_write_beam (n : nes_t) (a v : Nat) : ppu_beam (nes_cpu_write n a v) = ppu_beam n := by
  unfold nes_cpu_write
  simp only [cart_cpu_write]
  split_ifs
  · rfl
  · exact ppu_cpu_write_beam _ _ _
  · have h := oam_dma_loop_beam ((v <<< 8) % 65536) 256 0 { n with last_bus := v }
    unfold ppu_beam at h ⊢
    simp only [] at h ⊢
    exact h
  · rfl
  · rfl
  · rfl
  · rfl

@[simp] theorem set_pc_beam (n : nes_t) (v : Nat) : ppu_beam (set_pc n v) = ppu_beam n := rfl
@[simp] theorem set_a_beam (n : nes_t) (v : Nat) : ppu_beam (set_a n v) = ppu_beam n := rfl
@[simp] theorem set_x_beam (n : nes_t) (v : Nat) : ppu_beam (set_x n v) = ppu_beam n := rfl
@[simp] theorem set_y_beam (n : nes_t) (v : Nat) : ppu_beam (set_y n v) = ppu_beam n := rfl
@[simp] theorem set_sp_beam (n : nes_t) (v : Nat) : ppu_beam (set_sp n v) = ppu_beam n := rfl
@[simp] theorem set_p_beam (n : nes_t) (v : Nat) : ppu_beam (set_p n v) = ppu_beam n := rfl

@[simp] theorem rd_beam (n : nes_t) (a : Nat) : ppu_beam (rd n a).2 = ppu_beam n :=
  nes_cpu_read_beam n a

@[simp] theorem wr_beam (n : nes_t) (a v : Nat) : ppu_beam (wr n a v) = ppu_beam n :=
  nes_cpu_write_beam n a v

@[simp] theorem flag_assign_beam (n : nes_t) (f : Nat) (c : Prop) [Decidable c] :
    ppu_beam (flag_assign n f c) = ppu_beam n := by
  unfold flag_assign; split <;> rfl

@[simp] theorem set_nz_beam (n : nes_t) (v : Nat) : ppu_beam (set_nz n v) = ppu_beam n := by
  simp [set_nz]

@[simp] theorem push_beam (n : nes_t) (v : Nat) : ppu_beam (push n v) = ppu_beam n := by
  simp [push]

@[simp] theorem pull_beam (n : nes_t) : ppu_beam (pull n).2 = ppu_beam n := by
  simp [pull]

@[simp] theorem rd16_beam (n : nes_t) (a : Nat) : ppu_beam (rd16 n a).2 = ppu_beam n := by
  simp [rd16]

@[simp] theorem rd16_wrap_bug_beam (n : nes_t) (a : Nat) :
    ppu_beam (rd16_wrap_bug n a).2 = ppu_beam n := by
  simp [rd16_wrap_bug]

@[simp] theorem do_interrupt_beam (n : nes_t) (vec : Nat) (b : Bool) :
    ppu_beam (do_interrupt n vec b).2 = ppu_beam n := by
  simp [do_interrupt]

@[simp] theorem ea_imm_beam (n : nes_t) : ppu_beam (ea_imm n).2 = ppu_beam n := by
  simp [ea_imm]
@[simp] theorem ea_zp_beam (n : nes_t) : ppu_beam (ea_zp n).2 = ppu_beam n := by
  simp [ea_zp]
@[simp] theorem ea_zpx_beam (n : nes_t) : ppu_beam (ea_zpx n).2 = ppu_beam n := by
  simp [ea_zpx]
@[simp] theorem ea_zpy_beam (n : nes_t) : ppu_beam (ea_zpy n).2 = ppu_beam n := by
  simp [ea_zpy]
@[simp] theorem ea_abs_beam (n : nes_t) : ppu_beam (ea_abs n).2 = ppu_beam n := by
  simp [ea_abs]
@[simp] theorem ea_absx_beam (n : nes_t) (b : Bool) :
    ppu_beam (ea_absx n b).2 = ppu_beam n := by
  simp [ea_absx]
@[simp] theorem ea_absy_beam (n : nes_t) (b : Bool) :
    ppu_beam (ea_absy n b).2 = ppu_beam n := by
  simp [ea_absy]
@[simp] theorem ea_indx_beam (n : nes_t) : ppu_beam (ea_indx n).2 = ppu_beam n := by
  simp [ea_indx]
@[simp] theorem ea_indy_beam (n : nes_t) (b : Bool) :
    ppu_beam (ea_indy n b).2 = ppu_beam n := by
  simp [ea_indy]

@[simp] theorem branch_beam (n : nes_t) (b : Bool) :
    ppu_beam (branch n b).2 = ppu_beam n := by
  unfold branch
  simp only []
  split <;> simp

@[simp] theorem op_adc_beam (n : nes_t) (m : Nat) : ppu_beam (op_adc n m) = ppu_beam n := by
  simp [op_adc]
@[simp] theorem op_sbc_beam (n : nes_t) (m : Nat) : ppu_beam (op_sbc n m) = ppu_beam n := by
  simp [op_sbc]
@[simp] theorem op_cmp_beam (n : nes_t) (r m : Nat) :
    ppu_beam (op_cmp n r m) = ppu_beam n := by
  simp [op_cmp]
@[simp] theorem op_asl_beam (n : nes_t) (v : Nat) : ppu_beam (op_asl n v).2 = ppu_beam n := by
  simp [op_asl]
@[simp] theorem op_lsr_beam (n : nes_t) (v : Nat) : ppu_beam (op_lsr n v).2 = ppu_beam n := by
  simp [op_lsr]
@[simp] theorem op_rol_beam (n : nes_t) (v : Nat) : ppu_beam (op_rol n v).2 = ppu_beam n := by
  simp [op_rol]
@[simp] theorem op_ror_beam (n : nes_t) (v : Nat) : ppu_beam (op_ror n v).2 = ppu_beam n := by
  simp [op_ror]
@[simp] theorem op_anc_beam (n : nes_t) (v : Nat) : ppu_beam (op_anc n v) = ppu_beam n := by
  simp [op_anc]
@[simp] theorem op_alr_beam (n : nes_t) (v : Nat) : ppu_beam (op_alr n v) = ppu_beam n := by
  simp [op_alr]
@[simp] theorem op_arr_beam (n : nes_t) (v : Nat) : ppu_beam (op_arr n v) = ppu_beam n := by
  simp [op_arr]
@[simp] theorem op_sbx_beam (n : nes_t) (v : Nat) : ppu_beam (op_sbx n v) = ppu_beam n := by
  simp [op_sbx]

theorem ite_beam {c : Prop} [Decidable c] {a b : Nat × nes_t} {k : Int × Int × Bool × Nat}
    (ha : ppu_beam a.2 = k) (hb : ppu_beam b.2 = k) :
    ppu_beam (if c then a else b).2 = k := by
  split <;> assumption

set_option maxRecDepth 16000 in
/-- No `case` of the opcode switch moves the PPU position, the frame-ready flag or a status
bit other than bit 7. -/
theorem exec_opcode_beam (op : Nat) (n : nes_t) :
    ppu_beam (exec_opcode op n).2 = ppu_beam n := by
  unfold exec_opcode
  iterate 223
    refine ite_beam
      (by simp only [set_pc_beam, set_a_beam, set_x_beam, set_y_beam, set_sp_beam,
            set_p_beam, rd_beam, wr_beam, flag_assign_beam, set_nz_beam, push_beam,
            pull_beam, rd16_beam, rd16_wrap_bug_beam, do_interrupt_beam, ea_imm_beam,
            ea_zp_beam, ea_zpx_beam, ea_zpy_beam, ea_abs_beam, ea_absx_beam,
            ea_absy_beam, ea_indx_beam, ea_indy_beam, branch_beam, op_adc_beam,
            op_sbc_beam, op_cmp_beam, op_asl_beam, op_lsr_beam, op_rol_beam,
            op_ror_beam, op_anc_beam, op_alr_beam, op_arr_beam, op_sbx_beam]) ?_
  rfl

@[simp] theorem add_cycles_beam (n : nes_t) (k : Nat) : ppu_beam (add_cycles n k) = ppu_beam n := rfl

/-- A CPU step does not move the PPU position, the frame-ready flag or a status bit other
than bit 7. -/
theorem cpu6502_step_beam (n : nes_t) : ppu_beam (cpu6502_step n).2 = ppu_beam n := by
  unfold cpu6502_step
  simp only []
  split_ifs
  · rfl
  · simp only [add_cycles_beam, do_interrupt_beam]
    rfl
  · simp only [add_cycles_beam, do_interrupt_beam]
  · simp only [add_cycles_beam, exec_opcode_beam, rd_beam, set_pc_beam]

/-! ## C22: the sprite-0 hit flag -/

theorem and_0x7F_0x40 (s : Nat) : s &&& 0x40 = (s &&& 0x7F) &&& 0x40 :=
  (and_mask_mask s 0x7F 0x40 0x40 (by decide)).symm

/-- Equal beams have equal status bit 6. -/
theorem beam_bit6 (m n : nes_t) (h : ppu_beam m = ppu_beam n) :
    m.ppu.reg_status &&& 0x40 = n.ppu.reg_status &&& 0x40 := by
  have e : m.ppu.reg_status &&& 0x7F = n.ppu.reg_status &&& 0x7F :=
    congrArg (fun b => b.2.2.2) h
  rw [and_0x7F_0x40 m.ppu.reg_status, and_0x7F_0x40 n.ppu.reg_status, e]

/-- Sprite evaluation changes the status only in bit 5. -/
theorem eval_sprites_for_scanline_bit6 (n : nes_t) (y : Int) :
    (eval_sprites_for_scanline n y).ppu.reg_status &&& 0x40 = n.ppu.reg_status &&& 0x40 := by
  have hl := fun (h : Int) => (eval_sprites_loop_frame y h 64 0
    ({ n.ppu with scan_spr_count := 0, reg_status := n.ppu.reg_status &&& 0xDF }, 0)).1
  have hm : n.ppu.reg_status &&& 0xDF &&& 0x40 = n.ppu.reg_status &&& 0x40 :=
    and_mask_mask _ _ _ _ (by decide)
  unfold eval_sprites_for_scanline
  simp only []
  split_ifs with hh hf hf
  · show ((eval_sprites_loop y 16 64 0 _).1.reg_status ||| 0x20) &&& 0x40 = _
    rw [or_and_disjoint _ _ _ (by decide), hl 16]
    exact hm
  · show (eval_sprites_loop y 16 64 0 _).1.reg_status &&& 0x40 = _
    rw [hl 16]
    exact hm
  · show ((eval_sprites_loop y 8 64 0 _).1.reg_status ||| 0x20) &&& 0x40 = _
    rw [or_and_disjoint _ _ _ (by decide), hl 8]
    exact hm
  · show (eval_sprites_loop y 8 64 0 _).1.reg_status &&& 0x40 = _
    rw [hl 8]
    exact hm

theorem ppu_tick_render_bit6 (n : nes_t) :
    (ppu_tick_render n).ppu.reg_status &&& 0x40 = n.ppu.reg_status &&& 0x40 := by
  unfold ppu_tick_render
  split_ifs with h
  · exact eval_sprites_for_scanline_bit6 n n.ppu.scanline
  · rfl

/-- The render block does nothing away from dot 0. -/
theorem ppu_tick_render_off_dot (n : nes_t) (h : n.ppu.dot ≠ 0) : ppu_tick_render n = n := by
  unfold ppu_tick_render
  rw [if_neg (fun hc => h hc.2.2)]

/-- The sprite-0 block sets bit 6 under `sprite0_hit_cond` when the bit is clear, and does
nothing otherwise. -/
theorem ppu_tick_sprite0_eq (n : nes_t) :
    ppu_tick_sprite0 n =
      if n.ppu.reg_status &&& 0x40 = 0 ∧ sprite0_hit_cond n then
        { n with ppu := { n.ppu with reg_status := n.ppu.reg_status ||| 0x40 } }
      else n := by
  unfold ppu_tick_sprite0 sprite0_hit_cond
  simp only []
  by_cases h1 : n.ppu.reg_status &&& 0x40 = 0 ∧ n.ppu.scanline ≥ 0 ∧ n.ppu.scanline < 240 ∧
      n.ppu.dot ≥ 1 ∧ n.ppu.dot ≤ 256
  · rw [if_pos h1]
    by_cases h2 : ¬ (n.ppu.dot - 1 < 8 ∧
        (¬ (n.ppu.reg_mask &&& 0x02 ≠ 0) ∨ ¬ (n.ppu.reg_mask &&& 0x04 ≠ 0)))
    · rw [if_pos h2]
      have h2' : ¬ (n.ppu.dot - 1 < 8 ∧
          (n.ppu.reg_mask &&& 0x02 = 0 ∨ n.ppu.reg_mask &&& 0x04 = 0)) := by
        simpa only [ne_eq, not_not] using h2
      by_cases h3 : sprite0_pixel n n.ppu.scanline (n.ppu.dot - 1) ≠ 0 ∧
          n.ppu.reg_mask &&& 0x08 ≠ 0 ∧ n.ppu.reg_mask &&& 0x10 ≠ 0
      · rw [if_pos h3, if_pos ⟨h1.1, ⟨h1.2.1, h1.2.2.1⟩, ⟨h1.2.2.2.1, h1.2.2.2.2⟩, h2', h3⟩]
      · rw [if_neg h3, if_neg (fun hc => h3 hc.2.2.2.2)]
    · rw [if_neg h2]
      have h2' : ¬ ¬ (n.ppu.dot - 1 < 8 ∧
          (n.ppu.reg_mask &&& 0x02 = 0 ∨ n.ppu.reg_mask &&& 0x04 = 0)) := by
        simpa only [ne_eq, not_not] using h2
      rw [if_neg (fun hc => h2' hc.2.2.2.1)]
  · rw [if_neg h1, if_neg (fun hc => h1 ⟨hc.1, hc.2.1.1, hc.2.1.2, hc.2.2.1.1, hc.2.2.1.2⟩)]

theorem ppu_tick_vblank_bit6 (n : nes_t) :
    (ppu_tick_vblank n).ppu.reg_status &&& 0x40 = n.ppu.reg_status &&& 0x40 := by
  unfold ppu_tick_vblank
  simp only [cpu6502_set_nmi]
  split_ifs <;> first | rfl | exact or_and_disjoint n.ppu.reg_status 0x80 0x40 (by decide)

/-- The pre-render block clears bit 6 at (scanline -1, dot 1) and nowhere else. -/
theorem ppu_tick_prerender_bit6 (n : nes_t) :
    (ppu_tick_prerender n).ppu.reg_status &&& 0x40 =
      if n.ppu.scanline = -1 ∧ n.ppu.dot = 1 then 0 else n.ppu.reg_status &&& 0x40 := by
  unfold ppu_tick_prerender
  simp only []
  split_ifs
  · show n.ppu.reg_status &&& 0x7F &&& 0xBF &&& 0x40 = 0
    rw [and_mask_mask _ 0xBF 0x40 0 (by decide)]
    exact Nat.and_zero _
  · rfl

/-- Status bit 6 after a tick: cleared at (scanline -1, dot 1), set under
`sprite0_hit_cond`, otherwise as before. -/
theorem ppu_tick_bit6 (n : nes_t) :
    (ppu_tick n).ppu.reg_status &&& 0x40 =
      if n.ppu.scanline = -1 ∧ n.ppu.dot = 1 then 0
      else if n.ppu.reg_status &&& 0x40 = 0 ∧ sprite0_hit_cond n then 0x40
      else n.ppu.reg_status &&& 0x40 := by
  obtain ⟨f1, _, f3, f4, _, _⟩ := ppu_tick_frame_latch_frame n
  obtain ⟨l1, _, l3, l4, _, _⟩ := ppu_tick_line_latch_frame (ppu_tick_frame_latch n)
  obtain ⟨_, _, r3, r4, _⟩ :=
    ppu_tick_render_frame (ppu_tick_line_latch (ppu_tick_frame_latch n))
  have r1 := ppu_tick_render_bit6 (ppu_tick_line_latch (ppu_tick_frame_latch n))
  rw [l1, f1] at r1
  rw [l3, f3] at r3
  rw [l4, f4] at r4
  have hm : sprite0_hit_cond n →
      ppu_tick_render (ppu_tick_line_latch (ppu_tick_frame_latch n)) = n := by
    intro hc
    unfold sprite0_hit_cond at hc
    have e1 : ppu_tick_frame_latch n = n := by
      unfold ppu_tick_frame_latch
      rw [if_neg (by omega)]
    have e2 : ppu_tick_line_latch n = n := by
      unfold ppu_tick_line_latch
      rw [if_neg (by omega)]
    rw [e1, e2, ppu_tick_render_off_dot n (by omega)]
  have hcond : sprite0_hit_cond
      (ppu_tick_render (ppu_tick_line_latch (ppu_tick_frame_latch n))) ↔ sprite0_hit_cond n := by
    constructor
    · intro hc
      by_cases hv : (0 ≤ n.ppu.scanline ∧ n.ppu.scanline < 240) ∧
          (1 ≤ n.ppu.dot ∧ n.ppu.dot ≤ 256)
      · have e1 : ppu_tick_frame_latch n = n := by
          unfold ppu_tick_frame_latch
          rw [if_neg (by omega)]
        have e2 : ppu_tick_line_latch n = n := by
          unfold ppu_tick_line_latch
          rw [if_neg (by omega)]
        rw [e1, e2, ppu_tick_render_off_dot n (by omega)] at hc
        exact hc
      · exfalso
        unfold sprite0_hit_cond at hc
        rw [r3, r4] at hc
        exact hv ⟨hc.1, hc.2.1⟩
    · intro hc
      rw [hm hc]
      exact hc
  rw [ppu_tick_eq]
  generalize ppu_tick_render (ppu_tick_line_latch (ppu_tick_frame_latch n)) = m
    at r1 r3 r4 hcond ⊢
  have s := ppu_tick_sprite0_eq m
  obtain ⟨v3, v4⟩ := ppu_tick_vblank_pos (ppu_tick_sprite0 m)
  have v1 := ppu_tick_vblank_bit6 (ppu_tick_sprite0 m)
  have p1 := ppu_tick_prerender_bit6 (ppu_tick_vblank (ppu_tick_sprite0 m))
  obtain ⟨a1, _, _⟩ := ppu_tick_advance_frame
    (ppu_tick_prerender (ppu_tick_vblank (ppu_tick_sprite0 m)))
  obtain ⟨_, _, s3, s4, _⟩ := ppu_tick_sprite0_frame m
  rw [a1, p1, v3, v4, s3, s4, r3, r4]
  by_cases hp : n.ppu.scanline = -1 ∧ n.ppu.dot = 1
  · rw [if_pos hp, if_pos hp]
  · rw [if_neg hp, if_neg hp, v1, s]
    by_cases hc : m.ppu.reg_status &&& 0x40 = 0 ∧ sprite0_hit_cond m
    · rw [if_pos hc, if_pos ⟨r1 ▸ hc.1, hcond.mp hc.2⟩]
      show (m.ppu.reg_status ||| 0x40) &&& 0x40 = 0x40
      rw [Nat.and_distrib_right, hc.1]
      rfl
    · rw [if_neg hc, if_neg (fun h => hc ⟨r1.symm ▸ h.1, hcond.mpr h.2⟩), r1]

/-- A non-zero sprite-0 pixel: sprites are shown and sprite 0 covers the pixel. -/
theorem sprite0_pixel_ne_zero (n : nes_t) (y x : Int) (h : sprite0_pixel n y x ≠ 0) :
    n.ppu.reg_mask &&& 0x10 ≠ 0 ∧
    (n.ppu.oam 0 : Int) + 1 ≤ y ∧
    y < (n.ppu.oam 0 : Int) + 1 + (if n.ppu.render_ctrl &&& 0x20 ≠ 0 then 16 else 8) ∧
    (n.ppu.oam 3 : Int) ≤ x ∧ x < (n.ppu.oam 3 : Int) + 8 := by
  unfold sprite0_pixel at h
  simp only [] at h
  by_cases c1 : n.ppu.reg_mask &&& 0x10 = 0
  · rw [if_pos c1] at h
    exact absurd rfl h
  rw [if_neg c1] at h
  by_cases c2 : x < 8 ∧ ¬ (n.ppu.reg_mask &&& 0x04 ≠ 0)
  · rw [if_pos c2] at h
    exact absurd rfl h
  rw [if_neg c2] at h
  by_cases c3 : y < (n.ppu.oam 0 : Int) + 1 ∨
      y ≥ (n.ppu.oam 0 : Int) + 1 + (if n.ppu.render_ctrl &&& 0x20 ≠ 0 then 16 else 8)
  · rw [if_pos c3] at h
    exact absurd rfl h
  rw [if_neg c3] at h
  by_cases c4 : x < (n.ppu.oam 3 : Int) ∨ x ≥ (n.ppu.oam 3 : Int) + 8
  · rw [if_pos c4] at h
    exact absurd rfl h
  refine ⟨c1, ?_, ?_, ?_, ?_⟩
  · exact not_lt.mp (fun hc => c3 (Or.inl hc))
  · exact not_le.mp (fun hc => c3 (Or.inr hc))
  · exact not_lt.mp (fun hc => c4 (Or.inl hc))
  · exact not_le.mp (fun hc => c4 (Or.inr hc))

theorem run_event_bit6 (n : nes_t) (e : machine_event) (h : ¬ is_prerender_tick n e)
    (hb : n.ppu.reg_status &&& 0x40 ≠ 0) : (run_event n e).ppu.reg_status &&& 0x40 ≠ 0 := by
  cases e with
  | tick =>
    have h' : ¬ (n.ppu.scanline = -1 ∧ n.ppu.dot = 1) := h
    show (ppu_tick n).ppu.reg_status &&& 0x40 ≠ 0
    rw [ppu_tick_bit6, if_neg h', if_neg (fun hc => hb hc.1)]
    exact hb
  | cpu_step =>
    show (cpu6502_step n).2.ppu.reg_status &&& 0x40 ≠ 0
    rw [beam_bit6 _ _ (cpu6502_step_beam n)]
    exact hb
  | cpu_read a =>
    show (nes_cpu_read n a).2.ppu.reg_status &&& 0x40 ≠ 0
    rw [beam_bit6 _ _ (nes_cpu_read_beam n a)]
    exact hb
  | cpu_write a v =>
    show (nes_cpu_write n a v).ppu.reg_status &&& 0x40 ≠ 0
    rw [beam_bit6 _ _ (nes_cpu_write_beam n a v)]
    exact hb

/-- Once set, the flag does not rise again before the next pre-render tick. -/
theorem hit_rises_set (es : List machine_event) : ∀ (n : nes_t),
    n.ppu.reg_status &&& 0x40 ≠ 0 → no_prerender_tick n es → hit_rises n es = 0 := by
  induction es with
  | nil => intro n _ _; rfl
  | cons e es ih =>
    intro n hb hn
    obtain ⟨h1, h2⟩ := hn
    show (if n.ppu.reg_status &&& 0x40 = 0 ∧ (run_event n e).ppu.reg_status &&& 0x40 ≠ 0
      then 1 else 0) + hit_rises (run_event n e) es = 0
    rw [if_neg (fun hc => hb hc.1), ih _ (run_event_bit6 n e h1 hb) h2]

theorem hit_rises_le_one (es : List machine_event) : ∀ (n : nes_t),
    no_prerender_tick n es → hit_rises n es ≤ 1 := by
  induction es with
  | nil => intro n _; exact Nat.zero_le 1
  | cons e es ih =>
    intro n hn
    obtain ⟨h1, h2⟩ := hn
    show (if n.ppu.reg_status &&& 0x40 = 0 ∧ (run_event n e).ppu.reg_status &&& 0x40 ≠ 0
      then 1 else 0) + hit_rises (run_event n e) es ≤ 1
    by_cases hc : n.ppu.reg_status &&& 0x40 = 0 ∧ (run_event n e).ppu.reg_status &&& 0x40 ≠ 0
    · rw [if_pos hc, hit_rises_set es _ hc.2 h2]
    · rw [if_neg hc]
      have := ih _ h2
      omega

theorem eval_sprites_loop_ctrl (y sprite_h : Int) (k : Nat) :
    ∀ (i : Nat) (s : ppu_t × Nat),
      (eval_sprites_loop y sprite_h k i s).1.reg_ctrl = s.1.reg_ctrl := by
  induction k with
  | zero => intro i s; rfl
  | succ k ih =>
    intro i s
    obtain ⟨p, found⟩ := s
    simp only [eval_sprites_loop]
    split_ifs with h1 h2
    · exact ih _ _
    · exact ih _ _
    · exact ih _ _

theorem eval_sprites_for_scanline_rest (n : nes_t) (y : Int) :
    (eval_sprites_for_scanline n y).cpu_stall = n.cpu_stall ∧
    (eval_sprites_for_scanline n y).cart = n.cart ∧
    (eval_sprites_for_scanline n y).ppu.reg_ctrl = n.ppu.reg_ctrl := by
  have hl := fun (h : Int) => eval_sprites_loop_ctrl y h 64 0
    ({ n.ppu with scan_spr_count := 0, reg_status := n.ppu.reg_status &&& 0xDF }, 0)
  unfold eval_sprites_for_scanline
  simp only []
  split_ifs with hh hf hf
  · exact ⟨trivial, trivial, hl 16⟩
  · exact ⟨trivial, trivial, hl 16⟩
  · exact ⟨trivial, trivial, hl 8⟩
  · exact ⟨trivial, trivial, hl 8⟩

theorem ppu_tick_render_rest (n : nes_t) :
    (ppu_tick_render n).cpu_stall = n.cpu_stall ∧ (ppu_tick_render n).cart = n.cart ∧
    (ppu_tick_render n).ppu.reg_ctrl = n.ppu.reg_ctrl := by
  unfold ppu_tick_render
  split_ifs with h
  · exact eval_sprites_for_scanline_rest n n.ppu.scanline
  · exact ⟨rfl, rfl, rfl⟩

theorem ppu_tick_sprite0_rest (n : nes_t) :
    (ppu_tick_sprite0 n).cpu_stall = n.cpu_stall ∧ (ppu_tick_sprite0 n).cart = n.cart ∧
    (ppu_tick_sprite0 n).ppu.reg_ctrl = n.ppu.reg_ctrl := by
  rw [ppu_tick_sprite0_eq]
  split_ifs <;> exact ⟨rfl, rfl, rfl⟩

/-- The vblank block: bit 7, the frame-ready flag and, with NMI generation on, the NMI latch
at (scanline 241, dot 1); nothing elsewhere. -/
theorem ppu_tick_vblank_eq (n : nes_t) :
    ppu_tick_vblank n =
      if at_vblank n then
        { n with
          ppu := { n.ppu with reg_status := n.ppu.reg_status ||| 0x80, frame_ready := true },
          cpu := if n.ppu.reg_ctrl &&& 0x80 ≠ 0 then { n.cpu with nmi_pending := true }
            else n.cpu }
      else n := by
  unfold ppu_tick_vblank at_vblank
  simp only [cpu6502_set_nmi]
  split_ifs <;> rfl

theorem ppu_tick_prerender_rest (n : nes_t) :
    (ppu_tick_prerender n).cpu_stall = n.cpu_stall ∧ (ppu_tick_prerender n).cart = n.cart ∧
    (ppu_tick_prerender n).ppu.reg_ctrl = n.ppu.reg_ctrl ∧
    (ppu_tick_prerender n).cpu = n.cpu ∧
    (ppu_tick_prerender n).ppu.frame_ready = n.ppu.frame_ready := by
  unfold ppu_tick_prerender
  simp only []
  split_ifs <;> exact ⟨rfl, rfl, rfl, rfl, rfl⟩

theorem ppu_tick_advance_rest (n : nes_t) :
    (ppu_tick_advance n).cpu_stall = n.cpu_stall ∧ (ppu_tick_advance n).cart = n.cart ∧
    (ppu_tick_advance n).ppu.reg_ctrl = n.ppu.reg_ctrl := by
  unfold ppu_tick_advance
  simp only []
  split_ifs <;> exact ⟨rfl, rfl, rfl⟩

/-- The first four blocks of `ppu_tick` change nothing outside the PPU, nor the position,
the control register or the frame-ready flag. -/
theorem ppu_tick_head (n : nes_t) :
    (ppu_tick_sprite0 (ppu_tick_render (ppu_tick_line_latch
      (ppu_tick_frame_latch n)))).cpu_stall = n.cpu_stall ∧
    (ppu_tick_sprite0 (ppu_tick_render (ppu_tick_line_latch
      (ppu_tick_frame_latch n)))).cart = n.cart ∧
    (ppu_tick_sprite0 (ppu_tick_render (ppu_tick_line_latch
      (ppu_tick_frame_latch n)))).cpu = n.cpu ∧
    (ppu_tick_sprite0 (ppu_tick_render (ppu_tick_line_latch
      (ppu_tick_frame_latch n)))).ppu.reg_ctrl = n.ppu.reg_ctrl ∧
    (ppu_tick_sprite0 (ppu_tick_render (ppu_tick_line_latch
      (ppu_tick_frame_latch n)))).ppu.frame_ready = n.ppu.frame_ready ∧
    (ppu_tick_sprite0 (ppu_tick_render (ppu_tick_line_latch
      (ppu_tick_frame_latch n)))).ppu.scanline = n.ppu.scanline ∧
    (ppu_tick_sprite0 (ppu_tick_render (ppu_tick_line_latch
      (ppu_tick_frame_latch n)))).ppu.dot = n.ppu.dot := by
  have f0 : (ppu_tick_frame_latch n).cpu_stall = n.cpu_stall ∧
      (ppu_tick_frame_latch n).cart = n.cart := by
    unfold ppu_tick_frame_latch
    split_ifs <;> exact ⟨rfl, rfl⟩
  have l0 : ∀ m : nes_t, (ppu_tick_line_latch m).cpu_stall = m.cpu_stall ∧
      (ppu_tick_line_latch m).cart = m.cart := by
    intro m
    unfold ppu_tick_line_latch
    split_ifs <;> exact ⟨rfl, rfl⟩
  obtain ⟨_, f2, f3, f4, f5, f6⟩ := ppu_tick_frame_latch_frame n
  obtain ⟨_, l2, l3, l4, l5, l6⟩ := ppu_tick_line_latch_frame (ppu_tick_frame_latch n)
  obtain ⟨_, r2, r3, r4, r6⟩ :=
    ppu_tick_render_frame (ppu_tick_line_latch (ppu_tick_frame_latch n))
  obtain ⟨ra, rb, rc⟩ := ppu_tick_render_rest (ppu_tick_line_latch (ppu_tick_frame_latch n))
  obtain ⟨_, s2, s3, s4, s6⟩ :=
    ppu_tick_sprite0_frame (ppu_tick_render (ppu_tick_line_latch (ppu_tick_frame_latch n)))
  obtain ⟨sa, sb, sc⟩ :=
    ppu_tick_sprite0_rest (ppu_tick_render (ppu_tick_line_latch (ppu_tick_frame_latch n)))
  refine ⟨?_, ?_, ?_, ?_, ?_, ?_, ?_⟩
  · rw [sa, ra, (l0 _).1, f0.1]
  · rw [sb, rb, (l0 _).2, f0.2]
  · rw [s6, r6, l6, f6]
  · rw [sc, rc, l5, f5]
  · rw [s2, r2, l2, f2]
  · rw [s3, r3, l3, f3]
  · rw [s4, r4, l4, f4]

/-- What one tick does to the CPU, the stall counter, the cartridge, PPUCTRL and the
frame-ready flag: at (scanline 241, dot 1) the flag is set, and the NMI latch with it when
PPUCTRL bit 7 is set; nothing else changes. -/
theorem ppu_tick_outside (n : nes_t) :
    (ppu_tick n).cpu_stall = n.cpu_stall ∧ (ppu_tick n).cart = n.cart ∧
    (ppu_tick n).ppu.reg_ctrl = n.ppu.reg_ctrl ∧
    (ppu_tick n).cpu =
      (if at_vblank n ∧ n.ppu.reg_ctrl &&& 0x80 ≠ 0 then { n.cpu with nmi_pending := true }
        else n.cpu) ∧
    (ppu_tick n).ppu.frame_ready = (n.ppu.frame_ready || decide (at_vblank n)) := by
  obtain ⟨h1, h2, h3, h4, h5, h6, h7⟩ := ppu_tick_head n
  rw [ppu_tick_eq]
  generalize ppu_tick_sprite0 (ppu_tick_render (ppu_tick_line_latch
    (ppu_tick_frame_latch n))) = m at h1 h2 h3 h4 h5 h6 h7
  obtain ⟨a1, a2, a3⟩ := ppu_tick_advance_rest (ppu_tick_prerender (ppu_tick_vblank m))
  obtain ⟨_, a5, a4⟩ := ppu_tick_advance_frame (ppu_tick_prerender (ppu_tick_vblank m))
  obtain ⟨p1, p2, p3, p4, p5⟩ := ppu_tick_prerender_rest (ppu_tick_vblank m)
  have hv : at_vblank m ↔ at_vblank n := by
    unfold at_vblank
    rw [h6, h7]
  rw [a1, a2, a3, a4, a5, p1, p2, p3, p4, p5, ppu_tick_vblank_eq]
  by_cases hc : at_vblank n
  · rw [if_pos (hv.mpr hc)]
    refine ⟨h1, h2, h4, ?_, ?_⟩
    · show (if m.ppu.reg_ctrl &&& 0x80 ≠ 0 then { m.cpu with nmi_pending := true } else m.cpu)
        = _
      rw [h4, h3]
      by_cases hb : n.ppu.reg_ctrl &&& 0x80 ≠ 0
      · rw [if_pos hb, if_pos ⟨hc, hb⟩]
      · rw [if_neg hb, if_neg (fun h => hb h.2)]
    · show true = _
      rw [decide_eq_true hc, Bool.or_true]
  · rw [if_neg (fun h => hc (hv.mp h))]
    refine ⟨h1, h2, h4, ?_, ?_⟩
    · rw [h3, if_neg (fun h => hc h.1)]
    · rw [h5, decide_eq_false hc, Bool.or_false]

/-! ## Runs of PPU ticks -/

theorem crosses_vblank_zero (n : nes_t) : ¬ crosses_vblank n 0 := by
  rintro ⟨j, hj, _⟩
  omega

theorem crosses_vblank_succ (n : nes_t) (k : Nat) :
    crosses_vblank n (k + 1) ↔ at_vblank n ∨ crosses_vblank (ppu_tick n) k := by
  constructor
  · rintro ⟨j, hj, h⟩
    cases j with
    | zero => exact Or.inl h
    | succ j => exact Or.inr ⟨j, by omega, h⟩
  · rintro (h | ⟨j, hj, h⟩)
    · exact ⟨0, by omega, h⟩
    · exact ⟨j + 1, by omega, h⟩

/-- A run of ticks changes nothing outside the PPU but the NMI latch; it sets the
frame-ready flag, and with PPUCTRL bit 7 set the NMI latch, exactly when it includes the
tick at (scanline 241, dot 1). -/
theorem ppu_tick_loop_outside (k : Nat) : ∀ (n : nes_t),
    (ppu_tick_loop n k).cpu_stall = n.cpu_stall ∧ (ppu_tick_loop n k).cart = n.cart ∧
    (ppu_tick_loop n k).ppu.reg_ctrl = n.ppu.reg_ctrl ∧
    (ppu_tick_loop n k).cpu =
      (if crosses_vblank n k ∧ n.ppu.reg_ctrl &&& 0x80 ≠ 0 then
        { n.cpu with nmi_pending := true } else n.cpu) ∧
    (ppu_tick_loop n k).ppu.frame_ready = (n.ppu.frame_ready || decide (crosses_vblank n k)) := by
  induction k with
  | zero =>
    intro n
    refine ⟨rfl, rfl, rfl, ?_, ?_⟩
    · rw [if_neg (fun h => crosses_vblank_zero n h.1)]
      rfl
    · rw [decide_eq_false (crosses_vblank_zero n), Bool.or_false]
      rfl
  | succ k ih =>
    intro n
    obtain ⟨t1, t2, t3, t4, t5⟩ := ppu_tick_outside n
    obtain ⟨i1, i2, i3, i4, i5⟩ := ih (ppu_tick n)
    have hs := crosses_vblank_succ n k
    show (ppu_tick_loop (ppu_tick n) k).cpu_stall = _ ∧ (ppu_tick_loop (ppu_tick n) k).cart = _ ∧
      (ppu_tick_loop (ppu_tick n) k).ppu.reg_ctrl = _ ∧ (ppu_tick_loop (ppu_tick n) k).cpu = _ ∧
      (ppu_tick_loop (ppu_tick n) k).ppu.frame_ready = _
    rw [i1, i2, i3, i4, i5, t1, t2, t3, t4, t5]
    refine ⟨rfl, rfl, rfl, ?_, ?_⟩
    · by_cases hb : n.ppu.reg_ctrl &&& 0x80 ≠ 0
      · by_cases ha : at_vblank n
        · have e1 : at_vblank n ∧ n.ppu.reg_ctrl &&& 0x80 ≠ 0 := ⟨ha, hb⟩
          have e2 : crosses_vblank n (k + 1) ∧ n.ppu.reg_ctrl &&& 0x80 ≠ 0 :=
            ⟨hs.mpr (Or.inl ha), hb⟩
          rw [if_pos e1, if_pos e2]
          by_cases hc : crosses_vblank (ppu_tick n) k
          · have e3 : crosses_vblank (ppu_tick n) k ∧ n.ppu.reg_ctrl &&& 0x80 ≠ 0 := ⟨hc, hb⟩
            rw [if_pos e3]
          · have e3 : ¬ (crosses_vblank (ppu_tick n) k ∧ n.ppu.reg_ctrl &&& 0x80 ≠ 0) :=
              fun h => hc h.1
            rw [if_neg e3]
        · have e1 : ¬ (at_vblank n ∧ n.ppu.reg_ctrl &&& 0x80 ≠ 0) := fun h => ha h.1
          rw [if_neg e1]
          by_cases hc : crosses_vblank (ppu_tick n) k
          · have e3 : crosses_vblank (ppu_tick n) k ∧ n.ppu.reg_ctrl &&& 0x80 ≠ 0 := ⟨hc, hb⟩
            have e2 : crosses_vblank n (k + 1) ∧ n.ppu.reg_ctrl &&& 0x80 ≠ 0 :=
              ⟨hs.mpr (Or.inr hc), hb⟩
            rw [if_pos e3, if_pos e2]
          · have e3 : ¬ (crosses_vblank (ppu_tick n) k ∧ n.ppu.reg_ctrl &&& 0x80 ≠ 0) :=
              fun h => hc h.1
            have e2 : ¬ (crosses_vblank n (k + 1) ∧ n.ppu.reg_ctrl &&& 0x80 ≠ 0) :=
              fun h => (hs.mp h.1).elim ha hc
            rw [if_neg e3, if_neg e2]
      · have e1 : ¬ (at_vblank n ∧ n.ppu.reg_ctrl &&& 0x80 ≠ 0) := fun h => hb h.2
        have e2 : ¬ (crosses_vblank n (k + 1) ∧ n.ppu.reg_ctrl &&& 0x80 ≠ 0) := fun h => hb h.2
        have e3 : ¬ (crosses_vblank (ppu_tick n) k ∧ n.ppu.reg_ctrl &&& 0x80 ≠ 0) :=
          fun h => hb h.2
        rw [if_neg e1, if_neg e2, if_neg e3]
    · by_cases ha : at_vblank n
      · rw [decide_eq_true ha, decide_eq_true (hs.mpr (Or.inl ha))]
        simp only [Bool.or_true, Bool.true_or]
      · by_cases hc : crosses_vblank (ppu_tick n) k
        · rw [decide_eq_true hc, decide_eq_true (hs.mpr (Or.inr hc))]
          simp only [Bool.or_true]
        · rw [decide_eq_false ha, decide_eq_false hc,
            decide_eq_false (fun h => (hs.mp h).elim ha hc)]
          simp only [Bool.or_false]

/-! ## C24: three PPU ticks for each CPU cycle -/

/-- The step adds the count it returns to the cycle counter. -/
theorem cpu6502_step_counter (n : nes_t) :
    (cpu6502_step n).2.cpu.cycles = (n.cpu.cycles + (cpu6502_step n).1) % 2 ^ 64 := by
  unfold cpu6502_step
  simp only []
  split_ifs
  · rfl
  · simp only [add_cycles, do_interrupt_cycles]
  · simp only [add_cycles, do_interrupt_cycles]
  · simp only [add_cycles, exec_opcode_cycles, rd_cycles, set_pc_cycles]

/-- One driver iteration: the cycle counter grows by the returned count and the PPU clock
by three times as much. -/
theorem driver_iteration_clock (n : nes_t) (h : ppu_in_grid n) :
    ppu_in_grid (driver_iteration n) ∧
    (driver_iteration n).cpu.cycles = (n.cpu.cycles + (cpu6502_step n).1) % 2 ^ 64 ∧
    ppu_clock (driver_iteration n) = (ppu_clock n + 3 * ((cpu6502_step n).1 : Int)) % 89342 := by
  have hb := cpu6502_step_beam n
  have hsl : (cpu6502_step n).2.ppu.scanline = n.ppu.scanline := congrArg (fun b => b.1) hb
  have hdt : (cpu6502_step n).2.ppu.dot = n.ppu.dot := congrArg (fun b => b.2.1) hb
  have hg : ppu_in_grid (cpu6502_step n).2 := by
    unfold ppu_in_grid at h ⊢
    rw [hsl, hdt]
    exact h
  have hck : ppu_clock (cpu6502_step n).2 = ppu_clock n := by
    unfold ppu_clock
    rw [hsl, hdt]
  obtain ⟨g1, g2⟩ := ppu_tick_loop_clock ((cpu6502_step n).1 * 3) _ hg
  obtain ⟨_, _, _, o4, _⟩ := ppu_tick_loop_outside ((cpu6502_step n).1 * 3) (cpu6502_step n).2
  refine ⟨g1, ?_, ?_⟩
  · show (ppu_tick_loop (cpu6502_step n).2 ((cpu6502_step n).1 * 3)).cpu.cycles = _
    rw [o4, ← cpu6502_step_counter n]
    split_ifs <;> rfl
  · show ppu_clock (ppu_tick_loop (cpu6502_step n).2 ((cpu6502_step n).1 * 3)) = _
    rw [g2, hck]
    push_cast
    congr 1
    ring

/-- After `k` driver iterations from a machine in the grid: the counter has grown by the
cycles returned, the PPU clock by three times as many. -/
theorem driver_run_clock (n : nes_t) (h : ppu_in_grid n) (hc : n.cpu.cycles < 2 ^ 64)
    (k : Nat) :
    ppu_in_grid (driver_run n k) ∧
    (driver_run n k).cpu.cycles = (n.cpu.cycles + driver_cycles n k) % 2 ^ 64 ∧
    ppu_clock (driver_run n k) = (ppu_clock n + 3 * (driver_cycles n k : Int)) % 89342 := by
  induction k with
  | zero =>
    refine ⟨h, ?_, ?_⟩
    · show n.cpu.cycles = (n.cpu.cycles + 0) % 2 ^ 64
      rw [Nat.add_zero, Nat.mod_eq_of_lt hc]
    · show ppu_clock n = (ppu_clock n + 3 * ((0 : Nat) : Int)) % 89342
      unfold ppu_in_grid ppu_clock at *
      omega
  | succ k ih =>
    obtain ⟨i1, i2, i3⟩ := ih
    obtain ⟨d1, d2, d3⟩ := driver_iteration_clock (driver_run n k) i1
    refine ⟨d1, ?_, ?_⟩
    · show (driver_iteration (driver_run n k)).cpu.cycles
        = (n.cpu.cycles + (driver_cycles n k + (cpu6502_step (driver_run n k)).1)) % 2 ^ 64
      rw [d2, i2]
      omega
    · show ppu_clock (driver_iteration (driver_run n k))
        = (ppu_clock n + 3 * ((driver_cycles n k + (cpu6502_step (driver_run n k)).1 : Nat) : Int))
          % 89342
      rw [d3, i3]
      push_cast
      omega

theorem nes_reset_ppu (n : nes_t) : (nes_reset n).ppu = ppu_reset := by
  unfold nes_reset cpu6502_reset rd16
  simp only [rd_of_prg _ _ (show 0x8000 ≤ 0xFFFC by decide),
    rd_of_prg _ _ (show 0x8000 ≤ (0xFFFC + 1) % 65536 by decide), set_pc, set_p, set_sp]

/-- C24 (amended): in every state reached from `nes_reset` by driver iterations the PPU has
been ticked three times for each CPU cycle counted: with `T` the cycles returned by the steps
so far, the position is in the grid, the cycle counter is `7 + T` in its 64-bit arithmetic and
`(scanline + 1) * 341 + dot = 3 * T mod 89342`; so, as long as the counter has not wrapped,
`(scanline + 1) * 341 + dot = (3 * (cycle counter - 7)) mod 89342`.  The steps are any steps:
instructions, interrupt service and stall cycles. -/
theorem three_ticks_per_cycle (n0 : nes_t) (k : Nat) :
    ppu_in_grid (driver_run (nes_reset n0) k) ∧
    (driver_run (nes_reset n0) k).cpu.cycles
      = (7 + driver_cycles (nes_reset n0) k) % 2 ^ 64 ∧
    ((driver_run (nes_reset n0) k).ppu.scanline + 1) * 341
        + (driver_run (nes_reset n0) k).ppu.dot
      = (3 * (driver_cycles (nes_reset n0) k : Int)) % 89342 ∧
    (7 + driver_cycles (nes_reset n0) k < 2 ^ 64 →
      ((driver_run (nes_reset n0) k).ppu.scanline + 1) * 341
          + (driver_run (nes_reset n0) k).ppu.dot
        = (3 * (((driver_run (nes_reset n0) k).cpu.cycles : Int) - 7)) % 89342) := by
  have hp := nes_reset_ppu n0
  have hcy : (nes_reset n0).cpu.cycles = 7 := by rw [(nes_reset_cpu n0).1]
  have hg : ppu_in_grid (nes_reset n0) := by
    unfold ppu_in_grid
    rw [hp]
    decide
  have hck : ppu_clock (nes_reset n0) = 0 := by
    unfold ppu_clock
    rw [hp]
    rfl
  obtain ⟨h1, h2, h3⟩ := driver_run_clock (nes_reset n0) hg (by rw [hcy]; decide) k
  rw [hcy] at h2
  rw [hck] at h3
  have h3' : ((driver_run (nes_reset n0) k).ppu.scanline + 1) * 341
      + (driver_run (nes_reset n0) k).ppu.dot
      = (3 * (driver_cycles (nes_reset n0) k : Int)) % 89342 := by
    have := h3
    unfold ppu_clock at this
    rw [this, Int.zero_add]
  refine ⟨h1, h2, h3', ?_⟩
  intro hlt
  rw [h3', h2, Nat.mod_eq_of_lt hlt]
  push_cast
  omega

theorem three_ticks_per_cycle_witness :
    ((driver_run (nes_reset { nes_zero with cart := demo_cart }) 1).ppu.scanline + 1) * 341
        + (driver_run (nes_reset { nes_zero with cart := demo_cart }) 1).ppu.dot
      = (3 * (((driver_run (nes_reset { nes_zero with cart := demo_cart }) 1).cpu.cycles : Int)
          - 7)) % 89342 := by
  have hlt : 7 + driver_cycles (nes_reset { nes_zero with cart := demo_cart }) 1 < 2 ^ 64 := by
    have e : driver_cycles (nes_reset { nes_zero with cart := demo_cart }) 1 = 2 := by
      decide
    rw [e]
    decide
  exact (three_ticks_per_cycle { nes_zero with cart := demo_cart } 1).2.2.2 hlt

/-! ## C25: `nes_run_frame` -/

/-- One driver iteration sets the frame-ready flag exactly when its ticks include the tick
at (scanline 241, dot 1); it never clears it. -/
theorem driver_iteration_frame_ready (n : nes_t) :
    (driver_iteration n).ppu.frame_ready
      = (n.ppu.frame_ready || decide (step_hits_vblank n)) := by
  have hb : (cpu6502_step n).2.ppu.frame_ready = n.ppu.frame_ready :=
    congrArg (fun b => b.2.2.1) (cpu6502_step_beam n)
  obtain ⟨_, _, _, _, o5⟩ := ppu_tick_loop_outside ((cpu6502_step n).1 * 3) (cpu6502_step n).2
  show (ppu_tick_loop (cpu6502_step n).2 ((cpu6502_step n).1 * 3)).ppu.frame_ready = _
  rw [o5, hb]
  rfl

theorem driver_run_shift (k : Nat) : ∀ (n : nes_t),
    driver_run (driver_iteration n) k = driver_run n (k + 1) := by
  induction k with
  | zero => intro n; rfl
  | succ k ih =>
    intro n
    show driver_iteration (driver_run (driver_iteration n) k) = driver_iteration (driver_run n (k + 1))
    rw [ih]

/-- The outer loop started with the flag clear: it stops after the first iteration whose
ticks include the tick at (scanline 241, dot 1), and otherwise runs all its iterations. -/
theorem nes_run_frame_loop_spec (k : Nat) : ∀ (n : nes_t), n.ppu.frame_ready = false →
    ((∀ i, i < k → ¬ step_hits_vblank (driver_run n i)) →
      nes_run_frame_loop k n = (false, driver_run n k)) ∧
    (∀ j, j < k → (∀ i, i < j → ¬ step_hits_vblank (driver_run n i)) →
      step_hits_vblank (driver_run n j) →
      nes_run_frame_loop k n = (true, driver_run n (j + 1))) := by
  induction k with
  | zero =>
    intro n _
    exact ⟨fun _ => rfl, fun j hj => absurd hj (Nat.not_lt_zero j)⟩
  | succ k ih =>
    intro n hf
    have hfr := driver_iteration_frame_ready n
    rw [hf, Bool.false_or] at hfr
    have hstep : nes_run_frame_loop (k + 1) n =
        if (driver_iteration n).ppu.frame_ready = true then (true, driver_iteration n)
        else nes_run_frame_loop k (driver_iteration n) := rfl
    constructor
    · intro hno
      have h0 : ¬ step_hits_vblank n := hno 0 (Nat.succ_pos k)
      have hfalse : (driver_iteration n).ppu.frame_ready = false := by
        rw [hfr, decide_eq_false h0]
      rw [hstep, hfalse, if_neg (by decide),
        (ih (driver_iteration n) hfalse).1
          (fun i hi => by rw [driver_run_shift]; exact hno (i + 1) (by omega)),
        driver_run_shift]
    · intro j hj hbefore hhit
      cases j with
      | zero =>
        have htrue : (driver_iteration n).ppu.frame_ready = true := by
          rw [hfr]
          exact decide_eq_true hhit
        rw [hstep, if_pos htrue]
        rfl
      | succ j =>
        have h0 : ¬ step_hits_vblank n := hbefore 0 (Nat.succ_pos j)
        have hfalse : (driver_iteration n).ppu.frame_ready = false := by
          rw [hfr, decide_eq_false h0]
        rw [hstep, hfalse, if_neg (by decide),
          (ih (driver_iteration n) hfalse).2 j (by omega)
            (fun i hi => by rw [driver_run_shift]; exact hbefore (i + 1) (by omega))
            (by rw [driver_run_shift]; exact hhit),
          driver_run_shift]

/-- C25: `nes_run_frame(n, max)` first clears the frame-ready flag; it returns true right
after the first of at most `max` CPU steps whose `3 x cycles` PPU ticks include the tick at
(scanline 241, dot 1), with the flag set and no further step executed; it returns false after
exactly `max` steps when there is no such step; and for `max <= 0` it returns false with
nothing but the flag changed. -/
theorem nes_run_frame_spec (n : nes_t) (max_cpu_steps : Int) :
    (max_cpu_steps ≤ 0 →
      nes_run_frame n max_cpu_steps
        = (false, { n with ppu := { n.ppu with frame_ready := false } })) ∧
    (∀ j : Nat, (j : Int) < max_cpu_steps →
      (∀ i, i < j → ¬ step_hits_vblank
        (driver_run { n with ppu := { n.ppu with frame_ready := false } } i)) →
      step_hits_vblank (driver_run { n with ppu := { n.ppu with frame_ready := false } } j) →
      nes_run_frame n max_cpu_steps
        = (true, driver_run { n with ppu := { n.ppu with frame_ready := false } } (j + 1)) ∧
      (nes_run_frame n max_cpu_steps).2.ppu.frame_ready = true) ∧
    ((∀ i : Nat, (i : Int) < max_cpu_steps → ¬ step_hits_vblank
        (driver_run { n with ppu := { n.ppu with frame_ready := false } } i)) →
      nes_run_frame n max_cpu_steps
        = (false, driver_run { n with ppu := { n.ppu with frame_ready := false } }
            max_cpu_steps.toNat)) := by
  have hdef : nes_run_frame n max_cpu_steps =
      nes_run_frame_loop max_cpu_steps.toNat
        { n with ppu := { n.ppu with frame_ready := false } } := rfl
  have hspec := nes_run_frame_loop_spec max_cpu_steps.toNat
    { n with ppu := { n.ppu with frame_ready := false } } rfl
  refine ⟨?_, ?_, ?_⟩
  · intro hm
    have e : max_cpu_steps.toNat = 0 := by omega
    rw [hdef, e]
    rfl
  · intro j hj hbefore hhit
    have e := hspec.2 j (by omega) hbefore hhit
    rw [hdef, e]
    refine ⟨rfl, ?_⟩
    show (driver_iteration (driver_run { n with ppu := { n.ppu with frame_ready := false } }
      j)).ppu.frame_ready = true
    rw [driver_iteration_frame_ready, decide_eq_true hhit, Bool.or_true]
  · intro hno
    rw [hdef]
    exact hspec.1 (fun i hi => hno i (by omega))

set_option maxRecDepth 100000 in
theorem nes_run_frame_spec_witness :
    nes_run_frame demo_nes 0
      = (false, { demo_nes with ppu := { demo_nes.ppu with frame_ready := false } }) ∧
    (nes_run_frame demo_frame 5).1 = true ∧
    (nes_run_frame demo_frame 5).2
      = driver_run { demo_frame with ppu := { demo_frame.ppu with frame_ready := false } } 1 := by
  have h := (nes_run_frame_spec demo_frame 5).2.1 0 (by decide)
    (fun i hi => absurd hi (Nat.not_lt_zero i)) (by decide)
  exact ⟨(nes_run_frame_spec demo_nes 0).1 (by decide), by rw [h.1], by rw [h.1]⟩

/-! ## C26: the NMI raised at the start of vblank -/

/-- A step with a positive stall counter burns one stall cycle and does nothing else. -/
theorem cpu6502_step_stalled (n : nes_t) (h : 0 < n.cpu_stall) :
    cpu6502_step n = (1, add_cycles { n with cpu_stall := n.cpu_stall - 1 } 1) := by
  unfold cpu6502_step
  rw [if_pos h]

/-- A step without stall and with the NMI latch set services the NMI. -/
theorem cpu6502_step_nmi (n : nes_t) (hs : ¬ 0 < n.cpu_stall) (hn : n.cpu.nmi_pending = true)
    (hsp : n.cpu.sp < 256) :
    (cpu6502_step n).1 = 7 ∧ (cpu6502_step n).2.cpu.nmi_pending = false ∧
    (cpu6502_step n).2.cpu.pc
      = (cart_cpu_read n 0xFFFA ||| (cart_cpu_read n 0xFFFB <<< 8)) % 65536 := by
  have hd := do_interrupt_eq
    { n with cpu := { n.cpu with nmi_pending := false },
             dbg_nmi_count := (n.dbg_nmi_count + 1) % 2 ^ 64 } 0xFFFA false hsp
    (by decide) (by decide)
  simp only [cpu6502_step, hs, hn, if_true, if_false]
  rw [hd]
  exact ⟨rfl, rfl, rfl⟩

/-- C26 (amended): when the PPU ticks of one driver iteration include the tick at
(scanline 241, dot 1) with PPUCTRL bit 7 set, the frame-ready flag and the NMI latch are set
after the iteration.  If the CPU is not stalled, the very next `cpu6502_step` services the NMI:
it returns 7, clears the latch and loads PC from `$FFFA`.  If the CPU is stalled, the next
step burns one stall cycle (it returns 1) and leaves the latch set and the PC alone, and so
does the whole next driver iteration. -/
theorem vblank_nmi (n : nes_t) (hhit : step_hits_vblank n)
    (hctrl : (driver_iteration n).ppu.reg_ctrl &&& 0x80 ≠ 0)
    (hsp : (driver_iteration n).cpu.sp < 256) :
    (driver_iteration n).ppu.frame_ready = true ∧
    (driver_iteration n).cpu.nmi_pending = true ∧
    (¬ 0 < (driver_iteration n).cpu_stall →
      (cpu6502_step (driver_iteration n)).1 = 7 ∧
      (cpu6502_step (driver_iteration n)).2.cpu.nmi_pending = false ∧
      (cpu6502_step (driver_iteration n)).2.cpu.pc
        = (cart_cpu_read (driver_iteration n) 0xFFFA
            ||| (cart_cpu_read (driver_iteration n) 0xFFFB <<< 8)) % 65536) ∧
    (0 < (driver_iteration n).cpu_stall →
      (cpu6502_step (driver_iteration n)).1 = 1 ∧
      (cpu6502_step (driver_iteration n)).2.cpu.nmi_pending = true ∧
      (cpu6502_step (driver_iteration n)).2.cpu.pc = (driver_iteration n).cpu.pc ∧
      (cpu6502_step (driver_iteration n)).2.cpu_stall = (driver_iteration n).cpu_stall - 1 ∧
      (driver_iteration (driver_iteration n)).cpu.nmi_pending = true ∧
      (driver_iteration (driver_iteration n)).cpu_stall
        = (driver_iteration n).cpu_stall - 1) := by
  obtain ⟨_, _, o3, o4, _⟩ := ppu_tick_loop_outside ((cpu6502_step n).1 * 3) (cpu6502_step n).2
  have hfr := driver_iteration_frame_ready n
  rw [decide_eq_true hhit, Bool.or_true] at hfr
  have hc3 : (cpu6502_step n).2.ppu.reg_ctrl &&& 0x80 ≠ 0 := by
    rw [← o3]
    exact hctrl
  have hnmi : (driver_iteration n).cpu.nmi_pending = true := by
    show (ppu_tick_loop (cpu6502_step n).2 ((cpu6502_step n).1 * 3)).cpu.nmi_pending = true
    rw [o4, if_pos ⟨hhit, hc3⟩]
  refine ⟨hfr, hnmi, ?_, ?_⟩
  · intro hs
    exact cpu6502_step_nmi _ hs hnmi hsp
  · intro hs
    have e := cpu6502_step_stalled _ hs
    obtain ⟨q1, _, _, q4, _⟩ := ppu_tick_loop_outside
      ((cpu6502_step (driver_iteration n)).1 * 3) (cpu6502_step (driver_iteration n)).2
    have hn2 : (cpu6502_step (driver_iteration n)).2.cpu.nmi_pending = true := by
      rw [e]
      exact hnmi
    refine ⟨by rw [e], hn2, by rw [e]; rfl, by rw [e]; rfl, ?_, ?_⟩
    · show (ppu_tick_loop (cpu6502_step (driver_iteration n)).2
        ((cpu6502_step (driver_iteration n)).1 * 3)).cpu.nmi_pending = true
      rw [q4]
      split_ifs
      · rfl
      · exact hn2
    · show (ppu_tick_loop (cpu6502_step (driver_iteration n)).2
        ((cpu6502_step (driver_iteration n)).1 * 3)).cpu_stall = _
      rw [q1, e]
      rfl

set_option maxRecDepth 100000 in
theorem vblank_nmi_witness :
    (driver_iteration demo_frame).ppu.frame_ready = true ∧
    (cpu6502_step (driver_iteration demo_frame)).1 = 7 ∧
    (cpu6502_step (driver_iteration demo_frame)).2.cpu.nmi_pending = false := by
  have h := vblank_nmi demo_frame (by decide) (by decide) (by decide)
  have h2 := h.2.2.1 (by decide)
  exact ⟨h.1, h2.1, h2.2.1⟩

set_option maxRecDepth 100000 in
/-- C26 as stated fails: `STA $4014` executed at (scanline 241, dot 0) with PPUCTRL bit 7 set
starts an OAM DMA, and the twelve ticks of the same driver iteration include the tick at
(scanline 241, dot 1).  Frame-ready and the NMI latch are set, but the CPU is stalled, so
the very next step returns 1, not 7, keeps the latch set and does not load PC from `$FFFA`. -/
theorem vblank_nmi_counterexample :
    step_hits_vblank demo_dma_vblank ∧
    (driver_iteration demo_dma_vblank).ppu.reg_ctrl &&& 0x80 ≠ 0 ∧
    (driver_iteration demo_dma_vblank).ppu.frame_ready = true ∧
    (driver_iteration demo_dma_vblank).cpu.nmi_pending = true ∧
    (driver_iteration demo_dma_vblank).cpu_stall = 514 ∧
    (cpu6502_step (driver_iteration demo_dma_vblank)).1 = 1 ∧
    (cpu6502_step (driver_iteration demo_dma_vblank)).1 ≠ 7 ∧
    (cpu6502_step (driver_iteration demo_dma_vblank)).2.cpu.nmi_pending = true ∧
    (cpu6502_step (driver_iteration demo_dma_vblank)).2.cpu.pc = 0x0203 := by
  decide

/-! ## C23: sprite evaluation -/

/-- The evaluation loop over sprites `i .. i+k-1`: every sprite in range is counted, and
those that find a free slot among the eight are cached in order. -/
theorem eval_sprites_loop_spec (y sprite_h : Int) (k : Nat) :
    ∀ (i : Nat) (p : ppu_t) (found : Nat),
      (eval_sprites_loop y sprite_h k i (p, found)).2
        = found + ((List.range' i k).filter
            (fun i => decide (sprite_in_range p.oam sprite_h y i))).length ∧
      (eval_sprites_loop y sprite_h k i (p, found)).1.oam = p.oam ∧
      (∀ j, found ≤ j → j < 8 →
        j < found + ((List.range' i k).filter
            (fun i => decide (sprite_in_range p.oam sprite_h y i))).length →
        scan_entry (eval_sprites_loop y sprite_h k i (p, found)).1 j
          = oam_entry p.oam (((List.range' i k).filter
              (fun i => decide (sprite_in_range p.oam sprite_h y i))).getD (j - found) 0)) ∧
      (∀ j, j < found →
        scan_entry (eval_sprites_loop y sprite_h k i (p, found)).1 j = scan_entry p j) := by
  induction k with
  | zero =>
    intro i p found
    refine ⟨rfl, rfl, ?_, fun j _ => rfl⟩
    intro j h1 _ h3
    simp only [List.range'_zero, List.filter_nil, List.length_nil] at h3
    omega
  | succ k ih =>
    intro i p found
    rw [List.range'_succ]
    by_cases hin : sprite_in_range p.oam sprite_h y i
    · have hcond : ¬ (y < (p.oam (i * 4 + 0) : Int) + 1 ∨
          y ≥ (p.oam (i * 4 + 0) : Int) + 1 + sprite_h) := by
        unfold sprite_in_range at hin
        omega
      have hd : decide (sprite_in_range p.oam sprite_h y i) = true := decide_eq_true hin
      simp only [List.filter_cons, hd, if_true, eval_sprites_loop, hcond, if_false,
        List.length_cons]
      by_cases hf : found < 8
      · simp only [hf, if_true]
        have hih := ih (i + 1)
          { p with
            scan_spr_i := mem_set p.scan_spr_i found (i % 256),
            scan_spr_y := mem_set p.scan_spr_y found (p.oam (i * 4 + 0)),
            scan_spr_tile := mem_set p.scan_spr_tile found (p.oam (i * 4 + 1)),
            scan_spr_attr := mem_set p.scan_spr_attr found (p.oam (i * 4 + 2)),
            scan_spr_x := mem_set p.scan_spr_x found (p.oam (i * 4 + 3)) } (found + 1)
        simp only [] at hih
        obtain ⟨i1, i2, i3, i4⟩ := hih
        refine ⟨?_, i2, ?_, ?_⟩
        · rw [i1]
          show found + 1 + _ = found + (_ + 1)
          omega
        · intro j h1 h2 h3
          by_cases hj : j = found
          · subst hj
            rw [i4 j (by omega), Nat.sub_self]
            show (mem_set p.scan_spr_i j (i % 256) j, mem_set p.scan_spr_y j _ j,
              mem_set p.scan_spr_tile j _ j, mem_set p.scan_spr_attr j _ j,
              mem_set p.scan_spr_x j _ j) = oam_entry p.oam i
            simp only [mem_set_same]
            rfl
          · rw [i3 j (by omega) h2 (by
              show j < found + 1 + _
              omega)]
            have e : j - found = (j - (found + 1)) + 1 := by omega
            rw [e, List.getD_cons_succ]
        · intro j hj
          rw [i4 j (by omega)]
          show (mem_set p.scan_spr_i found (i % 256) j, mem_set p.scan_spr_y found _ j,
            mem_set p.scan_spr_tile found _ j, mem_set p.scan_spr_attr found _ j,
            mem_set p.scan_spr_x found _ j) = scan_entry p j
          have hne : j ≠ found := by omega
          simp only [mem_set_other _ _ _ _ hne]
          rfl
      · simp only [hf, if_false]
        obtain ⟨i1, i2, i3, i4⟩ := ih (i + 1) p (found + 1)
        refine ⟨?_, i2, ?_, ?_⟩
        · rw [i1]
          omega
        · intro j h1 h2 h3
          omega
        · intro j hj
          by_cases hj8 : j < found + 1
          · exact i4 j hj8
          · omega
    · have hcond : (y < (p.oam (i * 4 + 0) : Int) + 1 ∨
          y ≥ (p.oam (i * 4 + 0) : Int) + 1 + sprite_h) := by
        unfold sprite_in_range at hin
        omega
      have hd : decide (sprite_in_range p.oam sprite_h y i) = false := decide_eq_false hin
      simp only [List.filter_cons, hd, Bool.false_eq_true, if_false, eval_sprites_loop, hcond,
        if_true]
      exact ih (i + 1) p found

/-- `eval_sprites_for_scanline` in terms of its loop. -/
theorem eval_sprites_for_scanline_eq (n : nes_t) (y : Int) :
    eval_sprites_for_scanline n y =
      { n with ppu :=
        { (if (eval_sprites_loop y (eval_sprite_h n.ppu) 64 0
              ({ n.ppu with scan_spr_count := 0, reg_status := n.ppu.reg_status &&& 0xDF }, 0)).2 > 8
            then
              { (eval_sprites_loop y (eval_sprite_h n.ppu) 64 0
                  ({ n.ppu with scan_spr_count := 0, reg_status := n.ppu.reg_status &&& 0xDF },
                    0)).1 with
                reg_status := (eval_sprites_loop y (eval_sprite_h n.ppu) 64 0
                  ({ n.ppu with scan_spr_count := 0, reg_status := n.ppu.reg_status &&& 0xDF },
                    0)).1.reg_status ||| 0x20 }
            else
              (eval_sprites_loop y (eval_sprite_h n.ppu) 64 0
                ({ n.ppu with scan_spr_count := 0, reg_status := n.ppu.reg_status &&& 0xDF },
                  0)).1) with
          scan_spr_count :=
            (if (eval_sprites_loop y (eval_sprite_h n.ppu) 64 0
                ({ n.ppu with scan_spr_count := 0, reg_status := n.ppu.reg_status &&& 0xDF },
                  0)).2 > 8
              then 8
              else (eval_sprites_loop y (eval_sprite_h n.ppu) 64 0
                ({ n.ppu with scan_spr_count := 0, reg_status := n.ppu.reg_status &&& 0xDF },
                  0)).2) % 256 } } := rfl

theorem sprites_on_line_mem (p : ppu_t) (y : Int) (i : Nat) :
    i ∈ sprites_on_line p y ↔ i < 64 ∧ sprite_in_range p.oam (eval_sprite_h p) y i := by
  unfold sprites_on_line
  rw [List.mem_filter, List.mem_range'_1, decide_eq_true_iff]
  constructor
  · rintro ⟨⟨_, h1⟩, h2⟩
    exact ⟨by omega, h2⟩
  · rintro ⟨h1, h2⟩
    exact ⟨⟨Nat.zero_le i, by omega⟩, h2⟩

theorem sprites_on_line_length (p : ppu_t) (y : Int) : (sprites_on_line p y).length ≤ 64 := by
  unfold sprites_on_line
  have h := List.length_filter_le
    (fun i => decide (sprite_in_range p.oam (eval_sprite_h p) y i)) (List.range' 0 64)
  rw [List.length_range'] at h
  exact h

theorem sprites_on_line_getD (p : ppu_t) (y : Int) (j : Nat)
    (hj : j < (sprites_on_line p y).length) : (sprites_on_line p y).getD j 0 < 64 := by
  have hm : (sprites_on_line p y).getD j 0 ∈ sprites_on_line p y := by
    rw [List.getD_eq_getElem _ _ hj]
    exact List.getElem_mem _
  exact ((sprites_on_line_mem p y _).mp hm).1

/-- C23: sprite evaluation on line `y` with height `h` (16 when PPUCTRL bit 5 is set, else 8)
takes sprite `i` as in range iff `OAM[4i] + 1 <= y < OAM[4i] + 1 + h`.  Afterwards the cached
count is `min(8, number of sprites in range)`, cache entry `j` holds the index and the y, tile,
attribute and x bytes of the `j`-th sprite in range in increasing OAM index order, and status
bit 5 is set iff more than 8 sprites are in range; OAM is unchanged. -/
theorem sprite_evaluation (n : nes_t) (y : Int) :
    (∀ i, i ∈ sprites_on_line n.ppu y ↔
      i < 64 ∧ (n.ppu.oam (i * 4) : Int) + 1 ≤ y ∧
        y < (n.ppu.oam (i * 4) : Int) + 1 + (if n.ppu.reg_ctrl &&& 0x20 ≠ 0 then 16 else 8)) ∧
    (sprites_on_line n.ppu y).Pairwise (fun a b => a < b) ∧
    (eval_sprites_for_scanline n y).ppu.scan_spr_count
      = min 8 (sprites_on_line n.ppu y).length ∧
    (∀ j, j < min 8 (sprites_on_line n.ppu y).length →
      (eval_sprites_for_scanline n y).ppu.scan_spr_i j = (sprites_on_line n.ppu y).getD j 0 ∧
      (eval_sprites_for_scanline n y).ppu.scan_spr_y j
        = n.ppu.oam ((sprites_on_line n.ppu y).getD j 0 * 4 + 0) ∧
      (eval_sprites_for_scanline n y).ppu.scan_spr_tile j
        = n.ppu.oam ((sprites_on_line n.ppu y).getD j 0 * 4 + 1) ∧
      (eval_sprites_for_scanline n y).ppu.scan_spr_attr j
        = n.ppu.oam ((sprites_on_line n.ppu y).getD j 0 * 4 + 2) ∧
      (eval_sprites_for_scanline n y).ppu.scan_spr_x j
        = n.ppu.oam ((sprites_on_line n.ppu y).getD j 0 * 4 + 3)) ∧
    ((eval_sprites_for_scanline n y).ppu.reg_status &&& 0x20 ≠ 0
      ↔ 8 < (sprites_on_line n.ppu y).length) ∧
    (eval_sprites_for_scanline n y).ppu.oam = n.ppu.oam := by
  obtain ⟨s1, s2, s3, _⟩ := eval_sprites_loop_spec y (eval_sprite_h n.ppu) 64 0
    { n.ppu with scan_spr_count := 0, reg_status := n.ppu.reg_status &&& 0xDF } 0
  obtain ⟨f1, _, _, _⟩ := eval_sprites_loop_frame y (eval_sprite_h n.ppu) 64 0
    ({ n.ppu with scan_spr_count := 0, reg_status := n.ppu.reg_status &&& 0xDF }, 0)
  have hlen := sprites_on_line_length n.ppu y
  have hL : (List.range' 0 64).filter
      (fun i => decide (sprite_in_range n.ppu.oam (eval_sprite_h n.ppu) y i))
      = sprites_on_line n.ppu y := rfl
  simp only [hL, Nat.zero_add, Nat.sub_zero] at s1 s2 s3
  rw [eval_sprites_for_scanline_eq]
  generalize eval_sprites_loop y (eval_sprite_h n.ppu) 64 0
    ({ n.ppu with scan_spr_count := 0, reg_status := n.ppu.reg_status &&& 0xDF }, 0) = R
    at s1 s2 s3 f1
  refine ⟨?_, ?_, ?_, ?_, ?_, ?_⟩
  · intro i
    rw [sprites_on_line_mem]
    rfl
  · unfold sprites_on_line
    exact List.Pairwise.filter _ (List.pairwise_lt_range' 0 64)
  · show (if R.2 > 8 then 8 else R.2) % 256 = _
    rw [s1]
    split_ifs <;> omega
  · intro j hj
    have hj8 : j < 8 := by omega
    have hjl : j < (sprites_on_line n.ppu y).length := by omega
    have he := s3 j (Nat.zero_le j) hj8 hjl
    have hi := sprites_on_line_getD n.ppu y j hjl
    have hent : scan_entry R.1 j = oam_entry n.ppu.oam ((sprites_on_line n.ppu y).getD j 0) :=
      he
    unfold scan_entry oam_entry at hent
    have h1 := congrArg (fun e => e.1) hent
    have h2 := congrArg (fun e => e.2.1) hent
    have h3 := congrArg (fun e => e.2.2.1) hent
    have h4 := congrArg (fun e => e.2.2.2.1) hent
    have h5 := congrArg (fun e => e.2.2.2.2) hent
    simp only [] at h1 h2 h3 h4 h5
    rw [Nat.mod_eq_of_lt (by omega)] at h1
    split_ifs <;> exact ⟨h1, h2, h3, h4, h5⟩
  · have hst : R.1.reg_status = n.ppu.reg_status &&& 0xDF := f1
    by_cases hf : R.2 > 8
    · rw [if_pos hf]
      show (R.1.reg_status ||| 0x20) &&& 0x20 ≠ 0 ↔ _
      have hbit : (R.1.reg_status ||| 0x20) &&& 0x20 ≠ 0 :=
        (and_two_pow_ne_zero (R.1.reg_status ||| 0x20) 5).mpr
          (by rw [Nat.testBit_or]; exact (Bool.or_eq_true _ _).mpr (Or.inr (by decide)))
      constructor
      · intro _
        omega
      · intro _
        exact hbit
    · rw [if_neg hf]
      show R.1.reg_status &&& 0x20 ≠ 0 ↔ _
      rw [hst, and_mask_mask _ 0xDF 0x20 0 (by decide), Nat.and_zero]
      constructor
      · intro h
        exact absurd rfl h
      · intro h
        omega
  · split_ifs <;> exact s2

theorem sprite_evaluation_witness :
    (eval_sprites_for_scanline demo_nine 3).ppu.scan_spr_count = 8 ∧
    (eval_sprites_for_scanline demo_nine 3).ppu.reg_status &&& 0x20 ≠ 0 ∧
    (eval_sprites_for_scanline demo_nine 3).ppu.scan_spr_i 7 = 7 := by
  have h := sprite_evaluation demo_nine 3
  have hl : (sprites_on_line demo_nine.ppu 3).length = 9 := by decide
  have h7 : (sprites_on_line demo_nine.ppu 3).getD 7 0 = 7 := by decide
  have hc := h.2.2.1
  have he := (h.2.2.2.1 7 (by rw [hl]; decide)).1
  rw [hl] at hc
  rw [h7] at he
  exact ⟨hc, h.2.2.2.2.1.mpr (by rw [hl]; decide), he⟩

/-! ## C24: the cycle counter wraps -/

/-- The three bytes of `JMP $8000` as the CPU reads them from the looping cartridge. -/
theorem demo_loop_read (m : nes_t) (hm : m.cart = demo_loop_cart) :
    cart_cpu_read m 0x8000 = 0x4C ∧ cart_cpu_read m 0x8001 = 0x00 ∧
    cart_cpu_read m 0x8002 = 0x80 := by
  unfold cart_cpu_read
  rw [hm]
  exact ⟨rfl, rfl, rfl⟩

/-- One step of the machine that loops on `JMP $8000`: three cycles, PC back at `$8000`. -/
theorem demo_loop_step (n : nes_t) (hc : n.cart = demo_loop_cart) (hpc : n.cpu.pc = 0x8000)
    (hs : n.cpu_stall = 0) (hn : n.cpu.nmi_pending = false) (hi : n.cpu.irq_pending = false) :
    cpu6502_step n =
      (3, { n with last_bus := 0x80,
                   cpu := { n.cpu with pc := 0x8000, cycles := (n.cpu.cycles + 3) % 2 ^ 64 } }) := by
  have hpath : instr_path n := by
    refine ⟨by rw [hs]; decide, hn, ?_⟩
    rw [hi]
    exact fun h => Bool.noConfusion h.1
  have hf : fetch_opcode n = (0x4C, { set_pc n 0x8001 with last_bus := 0x4C }) := by
    unfold fetch_opcode
    rw [hpc, show ((0x8000 + 1) % 65536 : Nat) = 0x8001 from rfl, rd_of_prg _ _ (by decide),
      (demo_loop_read _ (by exact hc)).1]
  have hx : exec_opcode 0x4C { set_pc n 0x8001 with last_bus := 0x4C } =
      (3, set_pc (rd16 { set_pc n 0x8001 with last_bus := 0x4C } 0x8001).2
        (rd16 { set_pc n 0x8001 with last_bus := 0x4C } 0x8001).1) := rfl
  have hr : rd16 { set_pc n 0x8001 with last_bus := 0x4C } 0x8001 =
      (0x8000, { set_pc n 0x8001 with last_bus := 0x80 }) := by
    have r1 : ∀ m : nes_t, m.cart = demo_loop_cart → cart_cpu_read m 0x8001 = 0x00 :=
      fun m hm => (demo_loop_read m hm).2.1
    have r2 : ∀ m : nes_t, m.cart = demo_loop_cart → cart_cpu_read m 0x8002 = 0x80 :=
      fun m hm => (demo_loop_read m hm).2.2
    have e : ∀ m : nes_t, rd16 m 0x8001 =
        (((rd m 0x8001).1 ||| ((rd (rd m 0x8001).2 0x8002).1 <<< 8)) % 65536,
          (rd (rd m 0x8001).2 0x8002).2) := fun _ => rfl
    rw [e, rd_of_prg _ _ (show 0x8000 ≤ 0x8001 by decide), r1 _ (by exact hc),
      rd_of_prg _ _ (show 0x8000 ≤ 0x8002 by decide), r2 _ (by exact hc)]
    refine Prod.ext ?_ ?_
    · show (0 ||| 128 <<< 8) % 65536 = 32768
      rfl
    · rfl
  rw [cpu6502_step_exec n hpath, hf, hx, hr]
  rfl

/-- The looping machine after `k` driver iterations: still at `JMP $8000`, never stalled or
interrupted, and `3 k` cycles returned. -/
theorem demo_loop_run (k : Nat) :
    (driver_run demo_loop k).cart = demo_loop_cart ∧
    (driver_run demo_loop k).cpu.pc = 0x8000 ∧
    (driver_run demo_loop k).cpu_stall = 0 ∧
    (driver_run demo_loop k).cpu.nmi_pending = false ∧
    (driver_run demo_loop k).cpu.irq_pending = false ∧
    (driver_run demo_loop k).ppu.reg_ctrl = 0 ∧
    driver_cycles demo_loop k = 3 * k := by
  induction k with
  | zero =>
    obtain ⟨hc, hs, hcart⟩ := nes_reset_cpu { nes_zero with cart := demo_loop_cart }
    have hp := nes_reset_ppu { nes_zero with cart := demo_loop_cart }
    refine ⟨hcart, ?_, hs, ?_, ?_, ?_, rfl⟩
    · show (nes_reset { nes_zero with cart := demo_loop_cart }).cpu.pc = 0x8000
      rw [hc]
      rfl
    · show (nes_reset { nes_zero with cart := demo_loop_cart }).cpu.nmi_pending = false
      rw [hc]
    · show (nes_reset { nes_zero with cart := demo_loop_cart }).cpu.irq_pending = false
      rw [hc]
    · show (nes_reset { nes_zero with cart := demo_loop_cart }).ppu.reg_ctrl = 0
      rw [hp]
      rfl
  | succ k ih =>
    obtain ⟨i1, i2, i3, i4, i5, i6, i7⟩ := ih
    have hstep := demo_loop_step (driver_run demo_loop k) i1 i2 i3 i4 i5
    obtain ⟨o1, o2, o3, o4, _⟩ := ppu_tick_loop_outside
      ((cpu6502_step (driver_run demo_loop k)).1 * 3) (cpu6502_step (driver_run demo_loop k)).2
    have hctrl : (cpu6502_step (driver_run demo_loop k)).2.ppu.reg_ctrl = 0 := by
      rw [hstep]
      exact i6
    have hcpu : (driver_run demo_loop (k + 1)).cpu = (cpu6502_step (driver_run demo_loop k)).2.cpu := by
      show (ppu_tick_loop (cpu6502_step (driver_run demo_loop k)).2
        ((cpu6502_step (driver_run demo_loop k)).1 * 3)).cpu = _
      rw [o4, if_neg (fun h => h.2 (by rw [hctrl]; rfl))]
    refine ⟨?_, ?_, ?_, ?_, ?_, ?_, ?_⟩
    · show (ppu_tick_loop (cpu6502_step (driver_run demo_loop k)).2
        ((cpu6502_step (driver_run demo_loop k)).1 * 3)).cart = _
      rw [o2, hstep]
      exact i1
    · rw [hcpu, hstep]
    · show (ppu_tick_loop (cpu6502_step (driver_run demo_loop k)).2
        ((cpu6502_step (driver_run demo_loop k)).1 * 3)).cpu_stall = _
      rw [o1, hstep]
      exact i3
    · rw [hcpu, hstep]
      exact i4
    · rw [hcpu, hstep]
      exact i5
    · show (ppu_tick_loop (cpu6502_step (driver_run demo_loop k)).2
        ((cpu6502_step (driver_run demo_loop k)).1 * 3)).ppu.reg_ctrl = _
      rw [o3, hctrl]
    · show driver_cycles demo_loop k + (cpu6502_step (driver_run demo_loop k)).1 = 3 * (k + 1)
      rw [i7, hstep]
      omega

/-- C24 as stated fails once the 64-bit cycle counter has wrapped: the machine that loops on
`JMP $8000` counts 3 cycles and 9 ticks per driver iteration, so after 6148914691236517206
iterations from reset the counter, `7 + 2^64 + 2` in 64 bits, is 9 while
`(scanline + 1) * 341 + dot` is `3 * (2^64 + 2) mod 89342 = 13694`, not
`3 * (9 - 7) mod 89342 = 6`. -/
theorem three_ticks_per_cycle_counterexample :
    (driver_run demo_loop 6148914691236517206).cpu.cycles = 9 ∧
    ((driver_run demo_loop 6148914691236517206).ppu.scanline + 1) * 341
      + (driver_run demo_loop 6148914691236517206).ppu.dot = 13694 ∧
    ((driver_run demo_loop 6148914691236517206).ppu.scanline + 1) * 341
        + (driver_run demo_loop 6148914691236517206).ppu.dot
      ≠ (3 * (((driver_run demo_loop 6148914691236517206).cpu.cycles : Int) - 7)) % 89342 := by
  have hp := nes_reset_ppu { nes_zero with cart := demo_loop_cart }
  have hcy : demo_loop.cpu.cycles = 7 := by
    show (nes_reset { nes_zero with cart := demo_loop_cart }).cpu.cycles = 7
    rw [(nes_reset_cpu { nes_zero with cart := demo_loop_cart }).1]
  have hg : ppu_in_grid demo_loop := by
    show ppu_in_grid (nes_reset { nes_zero with cart := demo_loop_cart })
    unfold ppu_in_grid
    rw [hp]
    decide
  have hck : ppu_clock demo_loop = 0 := by
    show ppu_clock (nes_reset { nes_zero with cart := demo_loop_cart }) = 0
    unfold ppu_clock
    rw [hp]
    rfl
  obtain ⟨_, h2, h3⟩ := driver_run_clock demo_loop hg (by rw [hcy]; decide)
    6148914691236517206
  rw [(demo_loop_run 6148914691236517206).2.2.2.2.2.2, hcy] at h2
  rw [(demo_loop_run 6148914691236517206).2.2.2.2.2.2, hck] at h3
  unfold ppu_clock at h3
  have e2 : (7 + 3 * 6148914691236517206) % 2 ^ 64 = 9 := by norm_num
  have e3 : (0 + 3 * ((3 * 6148914691236517206 : Nat) : Int)) % 89342 = 13694 := by norm_num
  rw [e2] at h2
  rw [e3] at h3
  refine ⟨h2, h3, ?_⟩
  rw [h3, h2]
  decide

/-! ## C40: the mapper number in the error text -/

/-- The text that `nes_load` leaves for a complete image with a mapper other than 0: the
number is formatted after `cart_free` has zeroed the cartridge, so it is always 0. -/
theorem nes_load_mapper_text (f : List Nat) (hb : ∀ b ∈ f, b < 256) (hmagic : has_nes_magic f)
    (hlen : image_len f ≤ f.length) (hm : hdr_mapper f ≠ 0) :
    nes_load (some f)
      = Except.error "unsupported mapper 0 (this build supports mapper 0 only)" := by
  have e := ines_load_complete f hmagic hlen
  have hmap : ((hdr f 6 >>> 4) % 256 ||| (((hdr f 7 >>> 4) % 256) <<< 4)) % 256 ≠ 0 := by
    rw [mapper_byte _ _ (hdr_lt f hb 6) (hdr_lt f hb 7)]
    exact hm
  simp only [nes_load, e]
  rw [if_pos hmap]
  show Except.error ("unsupported mapper " ++ toString (0 : Nat)
    ++ " (this build supports mapper 0 only)") = _
  rfl

theorem demo_rom_mapper1_header : ∀ i, i < 16 →
    hdr demo_rom_mapper1 i
      = [0x4E, 0x45, 0x53, 0x1A, 1, 0, 0x10, 0, 0, 0, 0, 0, 0, 0, 0, 0].getD i 0 := by
  decide

theorem demo_rom_mapper1_bytes : ∀ b ∈ demo_rom_mapper1, b < 256 := by
  intro b hb
  rw [demo_rom_mapper1, List.mem_append] at hb
  rcases hb with h | h
  · revert b
    decide
  · rw [List.eq_of_mem_replicate h]
    decide

/-- C40: the code does not do this.  For the complete image `demo_rom_mapper1`, whose header
names mapper 1, `ines_load` reports mapper 1 and `nes_load` rejects the image, but the text
it leaves names mapper 0: `cart_free` has zeroed the cartridge before the number is
formatted. -/
theorem mapper_error_text :
    hdr_mapper demo_rom_mapper1 = 1 ∧
    (∃ cart, ines_load (some demo_rom_mapper1) = Except.ok cart ∧ cart.info.mapper = 1) ∧
    nes_load (some demo_rom_mapper1)
      = Except.error "unsupported mapper 0 (this build supports mapper 0 only)" ∧
    nes_load (some demo_rom_mapper1)
      ≠ Except.error "unsupported mapper 1 (this build supports mapper 0 only)" := by
  have h := demo_rom_mapper1_header
  have h6 : hdr demo_rom_mapper1 6 = 0x10 := h 6 (by decide)
  have h7 : hdr demo_rom_mapper1 7 = 0 := h 7 (by decide)
  have hmagic : has_nes_magic demo_rom_mapper1 :=
    ⟨h 0 (by decide), h 1 (by decide), h 2 (by decide), h 3 (by decide)⟩
  have hlen : image_len demo_rom_mapper1 ≤ demo_rom_mapper1.length := by
    have hl : demo_rom_mapper1.length = 16400 := by
      rw [demo_rom_mapper1, List.length_append, List.length_replicate]
      rfl
    have h4 : hdr demo_rom_mapper1 4 = 1 := h 4 (by decide)
    have h5 : hdr demo_rom_mapper1 5 = 0 := h 5 (by decide)
    unfold image_len trainer_len
    rw [hl, h4, h5, h6]
    decide
  have hm : hdr_mapper demo_rom_mapper1 = 1 := by
    unfold hdr_mapper
    rw [h6, h7]
    rfl
  have ht := nes_load_mapper_text demo_rom_mapper1 demo_rom_mapper1_bytes hmagic hlen
    (by rw [hm]; decide)
  refine ⟨hm, ⟨_, ines_load_complete demo_rom_mapper1 hmagic hlen, ?_⟩, ht, ?_⟩
  · show ((hdr demo_rom_mapper1 6 >>> 4) % 256
      ||| (((hdr demo_rom_mapper1 7 >>> 4) % 256) <<< 4)) % 256 = 1
    rw [h6, h7]
    rfl
  · rw [ht]
    intro hne
    exact absurd (Except.error.inj hne) (by decide)

/-! ## C31: shifts and rotates -/

/-- The flag idiom leaves the bits of a mask `m` alone when its flag `f` is outside `m`. -/
theorem flag_keep (p f m : Nat) (c : Prop) [Decidable c] (h1 : f &&& m = 0)
    (h2 : (0xFF ^^^ f) &&& m = m) :
    (if c then p ||| f else p &&& (0xFF ^^^ f)) &&& m = p &&& m := by
  split
  · rw [Nat.and_distrib_right, h1, Nat.or_zero]
  · rw [Nat.and_assoc, h2]

/-- The flags after the common tail of the four shift operations: carry from the bit shifted
out, then `set_nz` of the result. -/
theorem shift_flags (n : nes_t) (cnd : Prop) [Decidable cnd] (r : Nat) :
    ((set_nz (flag_assign n P_C cnd) r).cpu.p &&& 0x01 ≠ 0 ↔ cnd) ∧
    ((set_nz (flag_assign n P_C cnd) r).cpu.p &&& 0x02 ≠ 0 ↔ r = 0) ∧
    ((set_nz (flag_assign n P_C cnd) r).cpu.p &&& 0x80 ≠ 0 ↔ r &&& 0x80 ≠ 0) ∧
    (set_nz (flag_assign n P_C cnd) r).cpu.p &&& 0x7C = n.cpu.p &&& 0x7C := by
  simp only [set_nz]
  refine ⟨?_, ?_, ?_, ?_⟩
  · rw [flag_assign_bit _ P_N 0x01 7 0 _ rfl rfl (by decide) (by decide), if_neg (by decide),
      flag_assign_bit _ P_Z 0x01 1 0 _ rfl rfl (by decide) (by decide), if_neg (by decide),
      flag_assign_bit _ P_C 0x01 0 0 _ rfl rfl (by decide) (by decide), if_pos rfl]
  · rw [flag_assign_bit _ P_N 0x02 7 1 _ rfl rfl (by decide) (by decide), if_neg (by decide),
      flag_assign_bit _ P_Z 0x02 1 1 _ rfl rfl (by decide) (by decide), if_pos rfl]
  · rw [flag_assign_bit _ P_N 0x80 7 7 _ rfl rfl (by decide) (by decide), if_pos rfl]
  · rw [flag_assign_p, flag_keep _ P_N 0x7C _ rfl rfl, flag_assign_p,
      flag_keep _ P_Z 0x7C _ rfl rfl, flag_assign_p, flag_keep _ P_C 0x7C _ rfl rfl]

/-- C31: for every byte `v` and carry-in `c` (bit 0 of P): ASL yields `(v << 1) & $FF` with
carry = bit 7 of `v`; LSR yields `v >> 1` with carry = bit 0 of `v`; ROL yields
`((v << 1) | c) & $FF` with carry = bit 7 of `v`; ROR yields `(v >> 1) | (c << 7)` with
carry = bit 0 of `v`; each sets Z iff the result is 0 and N iff bit 7 of the result is set,
and leaves the flags I, D, B, U and V (mask `$7C`) as they were.  Opcodes `$0A`, `$4A`,
`$2A`, `$6A` apply them to the accumulator. -/
theorem shift_rotate (n : nes_t) (v c : Nat) (hv : v < 256)
    (hc : c = if n.cpu.p &&& 0x01 ≠ 0 then 1 else 0) :
    ((op_asl n v).1 = (v <<< 1) &&& 0xFF ∧
      ((op_asl n v).2.cpu.p &&& 0x01 ≠ 0 ↔ v.testBit 7 = true) ∧
      ((op_asl n v).2.cpu.p &&& 0x02 ≠ 0 ↔ (op_asl n v).1 = 0) ∧
      ((op_asl n v).2.cpu.p &&& 0x80 ≠ 0 ↔ (op_asl n v).1.testBit 7 = true) ∧
      (op_asl n v).2.cpu.p &&& 0x7C = n.cpu.p &&& 0x7C) ∧
    ((op_lsr n v).1 = v >>> 1 ∧
      ((op_lsr n v).2.cpu.p &&& 0x01 ≠ 0 ↔ v.testBit 0 = true) ∧
      ((op_lsr n v).2.cpu.p &&& 0x02 ≠ 0 ↔ (op_lsr n v).1 = 0) ∧
      ((op_lsr n v).2.cpu.p &&& 0x80 ≠ 0 ↔ (op_lsr n v).1.testBit 7 = true) ∧
      (op_lsr n v).2.cpu.p &&& 0x7C = n.cpu.p &&& 0x7C) ∧
    ((op_rol n v).1 = ((v <<< 1) ||| c) &&& 0xFF ∧
      ((op_rol n v).2.cpu.p &&& 0x01 ≠ 0 ↔ v.testBit 7 = true) ∧
      ((op_rol n v).2.cpu.p &&& 0x02 ≠ 0 ↔ (op_rol n v).1 = 0) ∧
      ((op_rol n v).2.cpu.p &&& 0x80 ≠ 0 ↔ (op_rol n v).1.testBit 7 = true) ∧
      (op_rol n v).2.cpu.p &&& 0x7C = n.cpu.p &&& 0x7C) ∧
    ((op_ror n v).1 = (v >>> 1) ||| (c <<< 7) ∧
      ((op_ror n v).2.cpu.p &&& 0x01 ≠ 0 ↔ v.testBit 0 = true) ∧
      ((op_ror n v).2.cpu.p &&& 0x02 ≠ 0 ↔ (op_ror n v).1 = 0) ∧
      ((op_ror n v).2.cpu.p &&& 0x80 ≠ 0 ↔ (op_ror n v).1.testBit 7 = true) ∧
      (op_ror n v).2.cpu.p &&& 0x7C = n.cpu.p &&& 0x7C) ∧
    exec_opcode 0x0A n = (2, set_a (op_asl n n.cpu.a).2 (op_asl n n.cpu.a).1) ∧
    exec_opcode 0x4A n = (2, set_a (op_lsr n n.cpu.a).2 (op_lsr n n.cpu.a).1) ∧
    exec_opcode 0x2A n = (2, set_a (op_rol n n.cpu.a).2 (op_rol n n.cpu.a).1) ∧
    exec_opcode 0x6A n = (2, set_a (op_ror n n.cpu.a).2 (op_ror n n.cpu.a).1) := by
  have b7 : ∀ x : Nat, x &&& 0x80 ≠ 0 ↔ x.testBit 7 = true := fun x => and_two_pow_ne_zero x 7
  have b0 : ∀ x : Nat, x &&& 0x01 ≠ 0 ↔ x.testBit 0 = true := fun x => and_two_pow_ne_zero x 0
  have hsr : v >>> 1 < 256 := by rw [Nat.shiftRight_eq_div_pow]; omega
  have hcin : (if n.cpu.p &&& P_C ≠ 0 then 1 else 0) = c := by rw [hc]; rfl
  have hcin7 : (if n.cpu.p &&& P_C ≠ 0 then 0x80 else 0x00) = c <<< 7 := by
    rw [hc]
    show (if n.cpu.p &&& 0x01 ≠ 0 then 0x80 else 0x00) = _
    split <;> rfl
  have hc7 : c <<< 7 < 2 ^ 8 := by
    rw [hc]
    split <;> decide
  have e1 : op_asl n v = ((v <<< 1) % 256,
      set_nz (flag_assign n P_C (v &&& 0x80 ≠ 0)) ((v <<< 1) % 256)) := rfl
  have e2 : op_lsr n v = ((v >>> 1) % 256,
      set_nz (flag_assign n P_C (v &&& 0x01 ≠ 0)) ((v >>> 1) % 256)) := rfl
  have e3 : op_rol n v = (((v <<< 1) ||| (if n.cpu.p &&& P_C ≠ 0 then 1 else 0)) % 256,
      set_nz (flag_assign n P_C (v &&& 0x80 ≠ 0))
        (((v <<< 1) ||| (if n.cpu.p &&& P_C ≠ 0 then 1 else 0)) % 256)) := rfl
  have e4 : op_ror n v = (((v >>> 1) ||| (if n.cpu.p &&& P_C ≠ 0 then 0x80 else 0x00)) % 256,
      set_nz (flag_assign n P_C (v &&& 0x01 ≠ 0))
        (((v >>> 1) ||| (if n.cpu.p &&& P_C ≠ 0 then 0x80 else 0x00)) % 256)) := rfl
  refine ⟨?_, ?_, ?_, ?_, rfl, rfl, rfl, rfl⟩
  · obtain ⟨f1, f2, f3, f4⟩ := shift_flags n (v &&& 0x80 ≠ 0) ((v <<< 1) % 256)
    rw [e1]
    exact ⟨(and_0xFF _).symm, f1.trans (b7 v), f2, f3.trans (b7 _), f4⟩
  · obtain ⟨f1, f2, f3, f4⟩ := shift_flags n (v &&& 0x01 ≠ 0) ((v >>> 1) % 256)
    rw [e2]
    exact ⟨Nat.mod_eq_of_lt hsr, f1.trans (b0 v), f2, f3.trans (b7 _), f4⟩
  · obtain ⟨f1, f2, f3, f4⟩ := shift_flags n (v &&& 0x80 ≠ 0)
      (((v <<< 1) ||| (if n.cpu.p &&& P_C ≠ 0 then 1 else 0)) % 256)
    rw [e3]
    refine ⟨?_, f1.trans (b7 v), f2, f3.trans (b7 _), f4⟩
    show ((v <<< 1) ||| (if n.cpu.p &&& P_C ≠ 0 then 1 else 0)) % 256 = _
    rw [hcin, and_0xFF]
  · obtain ⟨f1, f2, f3, f4⟩ := shift_flags n (v &&& 0x01 ≠ 0)
      (((v >>> 1) ||| (if n.cpu.p &&& P_C ≠ 0 then 0x80 else 0x00)) % 256)
    rw [e4]
    refine ⟨?_, f1.trans (b0 v), f2, f3.trans (b7 _), f4⟩
    show ((v >>> 1) ||| (if n.cpu.p &&& P_C ≠ 0 then 0x80 else 0x00)) % 256 = _
    rw [hcin7]
    exact Nat.mod_eq_of_lt (Nat.or_lt_two_pow hsr hc7)

theorem shift_rotate_witness :
    (op_asl demo_alu 0x81).1 = 0x02 ∧ (op_lsr demo_alu 0x81).1 = 0x40 ∧
    (op_rol demo_alu 0x81).1 = 0x03 ∧ (op_ror demo_alu 0x81).1 = 0xC0 ∧
    ((op_ror demo_alu 0x81).2.cpu.p &&& 0x01 ≠ 0 ↔ (0x81 : Nat).testBit 0 = true) := by
  have h := shift_rotate demo_alu 0x81 1 (by decide) (by decide)
  exact ⟨h.1.1, h.2.1.1, h.2.2.1.1, h.2.2.2.1.1, h.2.2.2.1.2.1⟩

/-! ## C32: PHP, PLP and RTI -/

/-- A pull increments the 8-bit stack pointer and reads page 1 of RAM there. -/
theorem pull_eq (n : nes_t) :
    pull n =
      (n.ram (256 + (n.cpu.sp + 1) % 256),
        { n with last_bus := n.ram (256 + (n.cpu.sp + 1) % 256),
                 cpu := { n.cpu with sp := (n.cpu.sp + 1) % 256 } }) := by
  have h1 : (n.cpu.sp + 1) % 256 < 256 := Nat.mod_lt _ (by decide)
  have ha : (0x0100 ||| ((n.cpu.sp + 1) % 256)) < 0x2000 := by
    rw [stack_addr _ h1]; omega
  have hm : (256 + (n.cpu.sp + 1) % 256) % 2048 = 256 + (n.cpu.sp + 1) % 256 := by omega
  unfold pull
  show rd (set_sp n ((n.cpu.sp + 1) % 256)) (0x0100 ||| ((n.cpu.sp + 1) % 256)) = _
  rw [rd_of_ram _ _ ha, and_0x07FF, stack_addr _ h1, hm]
  rfl

/-- `PHP` after the opcode fetch. -/
theorem exec_php (s : nes_t) (hsp : s.cpu.sp < 256) :
    exec_opcode 0x08 s =
      (3, { s with last_bus := (s.cpu.p ||| P_B ||| P_U) % 256,
                   ram := mem_set s.ram (256 + s.cpu.sp) ((s.cpu.p ||| P_B ||| P_U) % 256),
                   cpu := { s.cpu with sp := (s.cpu.sp + 255) % 256 } }) := by
  have e : exec_opcode 0x08 s = (3, push s ((s.cpu.p ||| P_B ||| P_U) % 256)) := rfl
  rw [e, push_eq _ _ hsp]

/-- `PLP` after the opcode fetch. -/
theorem exec_plp (s : nes_t) :
    exec_opcode 0x28 s =
      (4, { s with last_bus := s.ram (256 + (s.cpu.sp + 1) % 256),
                   cpu := { s.cpu with
                     sp := (s.cpu.sp + 1) % 256,
                     p := (s.ram (256 + (s.cpu.sp + 1) % 256) ||| P_U) &&& (0xFF ^^^ P_B) } }) := by
  have e : exec_opcode 0x28 s
      = (4, set_p (pull s).2 (((pull s).1 ||| P_U) &&& (0xFF ^^^ P_B))) := rfl
  rw [e, pull_eq]
  rfl

/-- `RTI` after the opcode fetch. -/
theorem exec_rti (s : nes_t) :
    exec_opcode 0x40 s =
      (6, { s with last_bus := s.ram (256 + (s.cpu.sp + 3) % 256),
                   cpu := { s.cpu with
                     sp := (s.cpu.sp + 3) % 256,
                     p := (s.ram (256 + (s.cpu.sp + 1) % 256) ||| P_U) &&& (0xFF ^^^ P_B),
                     pc := ((s.ram (256 + (s.cpu.sp + 3) % 256) <<< 8)
                       ||| s.ram (256 + (s.cpu.sp + 2) % 256)) % 65536 } }) := by
  have e : exec_opcode 0x40 s
      = (6, set_pc (pull (pull (set_p (pull s).2
              (((pull s).1 ||| P_U) &&& (0xFF ^^^ P_B)))).2).2
            ((((pull (pull (set_p (pull s).2
              (((pull s).1 ||| P_U) &&& (0xFF ^^^ P_B)))).2).1 <<< 8)
              ||| (pull (set_p (pull s).2
                (((pull s).1 ||| P_U) &&& (0xFF ^^^ P_B)))).1) % 65536)) := rfl
  have e2 : ((s.cpu.sp + 1) % 256 + 1) % 256 = (s.cpu.sp + 2) % 256 := by omega
  have e3 : ((s.cpu.sp + 2) % 256 + 1) % 256 = (s.cpu.sp + 3) % 256 := by omega
  rw [e]
  simp only [pull_eq, set_p, set_pc, e2, e3]

/-- C32: `PHP` (opcode `$08`) stores `P | $30` at the stack address `$0100 | S`, decrements
SP and leaves P unchanged; `PLP` (`$28`) and `RTI` (`$40`) load P with the pulled byte with
bit 5 set and bit 4 clear, `P = (pulled | $20) & $EF`; `RTI` then pulls the low and the high
byte of PC and sets PC to that word, without adding 1. -/
theorem php_plp_rti (n : nes_t) (hpath : instr_path n) (hsp : n.cpu.sp < 256)
    (hp : n.cpu.p < 256) :
    ((fetch_opcode n).1 = 0x08 →
      (cpu6502_step n).1 = 3 ∧
      (cpu6502_step n).2.ram = mem_set n.ram (0x0100 ||| n.cpu.sp) (n.cpu.p ||| 0x30) ∧
      (cpu6502_step n).2.cpu.p = n.cpu.p ∧
      (cpu6502_step n).2.cpu.sp = (n.cpu.sp + 255) % 256) ∧
    ((fetch_opcode n).1 = 0x28 →
      (cpu6502_step n).1 = 4 ∧
      (cpu6502_step n).2.cpu.p
        = (n.ram (0x0100 ||| ((n.cpu.sp + 1) % 256)) ||| 0x20) &&& 0xEF ∧
      (cpu6502_step n).2.cpu.sp = (n.cpu.sp + 1) % 256 ∧
      (cpu6502_step n).2.ram = n.ram) ∧
    ((fetch_opcode n).1 = 0x40 →
      (cpu6502_step n).1 = 6 ∧
      (cpu6502_step n).2.cpu.p
        = (n.ram (0x0100 ||| ((n.cpu.sp + 1) % 256)) ||| 0x20) &&& 0xEF ∧
      (cpu6502_step n).2.cpu.pc
        = ((n.ram (0x0100 ||| ((n.cpu.sp + 3) % 256)) <<< 8)
            ||| n.ram (0x0100 ||| ((n.cpu.sp + 2) % 256))) % 65536 ∧
      (cpu6502_step n).2.cpu.sp = (n.cpu.sp + 3) % 256 ∧
      (cpu6502_step n).2.ram = n.ram) := by
  have hm : ∀ x : Nat, x % 256 < 256 := fun x => Nat.mod_lt _ (by decide)
  have hc := fetch_opcode_cpu n
  have hr := fetch_opcode_ram n
  have hs : (fetch_opcode n).2.cpu.sp = n.cpu.sp := by rw [hc]
  have hpp : (fetch_opcode n).2.cpu.p = n.cpu.p := by rw [hc]
  have hst := cpu6502_step_exec n hpath
  refine ⟨?_, ?_, ?_⟩
  · intro hop
    rw [hop, exec_php _ (by rw [hs]; exact hsp)] at hst
    rw [hst]
    have hv : (n.cpu.p ||| P_B ||| P_U) % 256 = n.cpu.p ||| 0x30 := by
      have h1 : n.cpu.p ||| P_B ||| P_U = n.cpu.p ||| 0x30 := by
        rw [Nat.lor_assoc]
        rfl
      rw [h1]
      exact Nat.mod_eq_of_lt (Nat.or_lt_two_pow (n := 8) hp (by decide))
    refine ⟨rfl, ?_, ?_, ?_⟩
    · show mem_set (fetch_opcode n).2.ram (256 + (fetch_opcode n).2.cpu.sp)
        (((fetch_opcode n).2.cpu.p ||| P_B ||| P_U) % 256) = _
      rw [hr, hs, hpp, hv, stack_addr _ hsp]
    · show (fetch_opcode n).2.cpu.p = _
      exact hpp
    · show ((fetch_opcode n).2.cpu.sp + 255) % 256 = _
      rw [hs]
  · intro hop
    rw [hop, exec_plp] at hst
    rw [hst]
    refine ⟨rfl, ?_, ?_, ?_⟩
    · show ((fetch_opcode n).2.ram (256 + ((fetch_opcode n).2.cpu.sp + 1) % 256) ||| P_U)
        &&& (0xFF ^^^ P_B) = _
      rw [hr, hs, stack_addr _ (hm _)]
      rfl
    · show ((fetch_opcode n).2.cpu.sp + 1) % 256 = _
      rw [hs]
    · exact hr
  · intro hop
    rw [hop, exec_rti] at hst
    rw [hst]
    refine ⟨rfl, ?_, ?_, ?_, ?_⟩
    · show ((fetch_opcode n).2.ram (256 + ((fetch_opcode n).2.cpu.sp + 1) % 256) ||| P_U)
        &&& (0xFF ^^^ P_B) = _
      rw [hr, hs, stack_addr _ (hm _)]
      rfl
    · show (((fetch_opcode n).2.ram (256 + ((fetch_opcode n).2.cpu.sp + 3) % 256) <<< 8)
        ||| (fetch_opcode n).2.ram (256 + ((fetch_opcode n).2.cpu.sp + 2) % 256)) % 65536 = _
      rw [hr, hs, stack_addr _ (hm _), stack_addr _ (hm _)]
    · show ((fetch_opcode n).2.cpu.sp + 3) % 256 = _
      rw [hs]
    · exact hr

theorem php_plp_rti_witness :
    ((cpu6502_step demo_php).1 = 3 ∧
      (cpu6502_step demo_php).2.ram = mem_set demo_php.ram (0x0100 ||| 0xFD) (0x24 ||| 0x30) ∧
      (cpu6502_step demo_php).2.cpu.p = 0x24) ∧
    ((cpu6502_step demo_rti).1 = 6 ∧ (cpu6502_step demo_rti).2.cpu.p = 0xEF ∧
      (cpu6502_step demo_rti).2.cpu.pc = 0x1234 ∧ (cpu6502_step demo_rti).2.cpu.sp = 0x00) := by
  have h1 := (php_plp_rti demo_php (by decide) (by decide) (by decide)).1 (by decide)
  have h2 := (php_plp_rti demo_rti (by decide) (by decide) (by decide)).2.2 (by decide)
  exact ⟨⟨h1.1, h1.2.1, h1.2.2.1⟩, ⟨h2.1, h2.2.1, h2.2.2.1, h2.2.2.2.1⟩⟩

/-! ## C39: JSR and RTS -/

theorem rd16_cpu_stall (n : nes_t) (a : Nat) : (rd16 n a).2.cpu_stall = n.cpu_stall := by
  unfold rd16 rd
  simp only []
  rw [nes_cpu_read_cpu_stall, nes_cpu_read_cpu_stall]

/-- The 16-bit word put together from its high and its low byte. -/
theorem word_split (r : Nat) (h : r < 65536) :
    ((((r >>> 8) % 256) <<< 8) ||| (r &&& 0xFF)) % 65536 = r := by
  have h1 : (r >>> 8) % 256 < 256 := Nat.mod_lt _ (by decide)
  have h2 : r &&& 0xFF < 256 := by rw [and_0xFF]; exact Nat.mod_lt _ (by decide)
  rw [Nat.lor_comm, word_of_bytes _ _ h2 h1, and_0xFF, Nat.shiftRight_eq_div_pow]
  omega

/-- `JSR` after the opcode fetch: the target is the word at PC, the address of the last byte
of the instruction goes on the stack, high byte first. -/
theorem exec_jsr (s : nes_t) (hsp : s.cpu.sp < 256) :
    (exec_opcode 0x20 s).1 = 6 ∧
    (exec_opcode 0x20 s).2.cpu =
      { s.cpu with pc := (rd16 s s.cpu.pc).1, sp := (s.cpu.sp + 254) % 256 } ∧
    (exec_opcode 0x20 s).2.ram =
      mem_set (mem_set s.ram (256 + s.cpu.sp)
          (((((s.cpu.pc + 2) % 65536 + 65535) % 65536) >>> 8) % 256))
        (256 + (s.cpu.sp + 255) % 256)
        ((((s.cpu.pc + 2) % 65536 + 65535) % 65536) &&& 0xFF) ∧
    (exec_opcode 0x20 s).2.cpu_stall = s.cpu_stall := by
  have hm : ∀ x : Nat, x % 256 < 256 := fun x => Nat.mod_lt _ (by decide)
  have e : exec_opcode 0x20 s =
      (6, set_pc (push (push (set_pc (rd16 s s.cpu.pc).2
          (((rd16 s s.cpu.pc).2.cpu.pc + 2) % 65536))
          ((((((rd16 s s.cpu.pc).2.cpu.pc + 2) % 65536 + 65535) % 65536) >>> 8) % 256))
          (((((rd16 s s.cpu.pc).2.cpu.pc + 2) % 65536 + 65535) % 65536) &&& 0xFF))
        (rd16 s s.cpu.pc).1) := rfl
  have h1 : (set_pc (rd16 s s.cpu.pc).2
      (((rd16 s s.cpu.pc).2.cpu.pc + 2) % 65536)).cpu.sp < 256 := by
    show (rd16 s s.cpu.pc).2.cpu.sp < 256
    rw [rd16_cpu]
    exact hsp
  have e2 : ((s.cpu.sp + 255) % 256 + 255) % 256 = (s.cpu.sp + 254) % 256 := by omega
  rw [e, push_eq _ _ h1, push_eq _ _ (hm _)]
  simp only [set_pc, rd16_cpu, rd16_ram, rd16_cpu_stall, e2]
  exact ⟨trivial, trivial, trivial, trivial⟩

/-- `RTS` after the opcode fetch: PC is the word pulled from the stack, plus one. -/
theorem exec_rts (s : nes_t) :
    exec_opcode 0x60 s =
      (6, { s with last_bus := s.ram (256 + (s.cpu.sp + 2) % 256),
                   cpu := { s.cpu with
                     sp := (s.cpu.sp + 2) % 256,
                     pc := (((s.ram (256 + (s.cpu.sp + 2) % 256) <<< 8)
                       ||| s.ram (256 + (s.cpu.sp + 1) % 256)) % 65536 + 1) % 65536 } }) := by
  have e : exec_opcode 0x60 s
      = (6, set_pc (set_pc (pull (pull s).2).2
              ((((pull (pull s).2).1 <<< 8) ||| (pull s).1) % 65536))
            (((set_pc (pull (pull s).2).2
              ((((pull (pull s).2).1 <<< 8) ||| (pull s).1) % 65536)).cpu.pc + 1) % 65536)) := rfl
  have e2 : ((s.cpu.sp + 1) % 256 + 1) % 256 = (s.cpu.sp + 2) % 256 := by omega
  rw [e]
  simp only [pull_eq, set_pc, e2]

/-- C39: `JSR t` located at `p`, executed with stack pointer `S`, returns 6 and leaves
`PC = t`; an `RTS` executed next at `t`, in any machine `m` that has the CPU registers and the
RAM that the `JSR` left and is neither stalled nor interrupted, returns 6 and leaves
`PC = p + 3` (mod 65536) and `SP = S`, for every `S`, the wrapping `$00` and `$01` included.
The machine that the `JSR` leaves is itself such an `m` when no interrupt arrives. -/
theorem jsr_rts (n m : nes_t) (hpath : instr_path n)
    (hsp : n.cpu.sp < 256) (hjsr : (fetch_opcode n).1 = 0x20)
    (hcpu : m.cpu = (cpu6502_step n).2.cpu) (hram : m.ram = (cpu6502_step n).2.ram)
    (hmpath : instr_path m) (hrts : (fetch_opcode m).1 = 0x60) :
    (cpu6502_step n).1 = 6 ∧
    (cpu6502_step n).2.cpu.pc = (rd16 (fetch_opcode n).2 ((n.cpu.pc + 1) % 65536)).1 ∧
    (cpu6502_step n).2.cpu.sp = (n.cpu.sp + 254) % 256 ∧
    instr_path (cpu6502_step n).2 ∧
    (cpu6502_step m).1 = 6 ∧
    (cpu6502_step m).2.cpu.pc = (n.cpu.pc + 3) % 65536 ∧
    (cpu6502_step m).2.cpu.sp = n.cpu.sp := by
  have hc := fetch_opcode_cpu n
  have hr := fetch_opcode_ram n
  have hs : (fetch_opcode n).2.cpu.sp = n.cpu.sp := by rw [hc]
  have hst := cpu6502_step_exec n hpath
  rw [hjsr] at hst
  obtain ⟨j1, j2, j3, j4⟩ := exec_jsr (fetch_opcode n).2 (by rw [hs]; exact hsp)
  have hpc1 : (fetch_opcode n).2.cpu.pc = (n.cpu.pc + 1) % 65536 := fetch_opcode_pc n
  rw [hpc1, hs, hc] at j2
  rw [hpc1, hs, hr] at j3
  -- the machine after the JSR
  have k1 : (cpu6502_step n).1 = 6 := by rw [hst]; exact j1
  have k2 : (cpu6502_step n).2.cpu.pc
      = (rd16 (fetch_opcode n).2 ((n.cpu.pc + 1) % 65536)).1 := by
    rw [hst]
    show (exec_opcode 0x20 (fetch_opcode n).2).2.cpu.pc = _
    rw [j2]
  have k3 : (cpu6502_step n).2.cpu.sp = (n.cpu.sp + 254) % 256 := by
    rw [hst]
    show (exec_opcode 0x20 (fetch_opcode n).2).2.cpu.sp = _
    rw [j2]
  have k4 : (cpu6502_step n).2.ram =
      mem_set (mem_set n.ram (256 + n.cpu.sp)
          ((((((n.cpu.pc + 1) % 65536 + 2) % 65536 + 65535) % 65536) >>> 8) % 256))
        (256 + (n.cpu.sp + 255) % 256)
        (((((n.cpu.pc + 1) % 65536 + 2) % 65536 + 65535) % 65536) &&& 0xFF) := by
    rw [hst]
    show (exec_opcode 0x20 (fetch_opcode n).2).2.ram = _
    rw [j3]
  have k5 : instr_path (cpu6502_step n).2 := by
    obtain ⟨p1, p2, p3⟩ := hpath
    rw [hst]
    refine ⟨?_, ?_, ?_⟩
    · show ¬ 0 < (exec_opcode 0x20 (fetch_opcode n).2).2.cpu_stall
      rw [j4, fetch_opcode_cpu_stall]
      exact p1
    · show (exec_opcode 0x20 (fetch_opcode n).2).2.cpu.nmi_pending = false
      rw [j2]
      exact p2
    · show ¬ ((exec_opcode 0x20 (fetch_opcode n).2).2.cpu.irq_pending = true ∧
        (exec_opcode 0x20 (fetch_opcode n).2).2.cpu.p &&& P_I = 0)
      rw [j2]
      exact p3
  -- the RTS
  have hmc := fetch_opcode_cpu m
  have hmr := fetch_opcode_ram m
  have hms : (fetch_opcode m).2.cpu.sp = (n.cpu.sp + 254) % 256 := by rw [hmc, hcpu]; exact k3
  have hmst := cpu6502_step_exec m hmpath
  rw [hrts, exec_rts] at hmst
  have a1 : ((n.cpu.sp + 254) % 256 + 1) % 256 = (n.cpu.sp + 255) % 256 := by omega
  have a2 : ((n.cpu.sp + 254) % 256 + 2) % 256 = n.cpu.sp := by omega
  have hne : 256 + n.cpu.sp ≠ 256 + (n.cpu.sp + 255) % 256 := by omega
  have hlo : m.ram (256 + (n.cpu.sp + 255) % 256)
      = ((((n.cpu.pc + 1) % 65536 + 2) % 65536 + 65535) % 65536) &&& 0xFF := by
    rw [hram, k4, mem_set_same]
  have hhi : m.ram (256 + n.cpu.sp)
      = (((((n.cpu.pc + 1) % 65536 + 2) % 65536 + 65535) % 65536) >>> 8) % 256 := by
    rw [hram, k4, mem_set_other _ _ _ _ hne, mem_set_same]
  have hret : (((n.cpu.pc + 1) % 65536 + 2) % 65536 + 65535) % 65536
      = (n.cpu.pc + 2) % 65536 := by omega
  refine ⟨k1, k2, k3, k5, ?_, ?_, ?_⟩
  · rw [hmst]
  · rw [hmst]
    show ((((fetch_opcode m).2.ram (256 + ((fetch_opcode m).2.cpu.sp + 2) % 256) <<< 8)
      ||| (fetch_opcode m).2.ram (256 + ((fetch_opcode m).2.cpu.sp + 1) % 256)) % 65536 + 1)
      % 65536 = _
    rw [hmr, hms, a1, a2, hlo, hhi, hret,
      word_split ((n.cpu.pc + 2) % 65536) (Nat.mod_lt _ (by decide))]
    omega
  · rw [hmst]
    show ((fetch_opcode m).2.cpu.sp + 2) % 256 = _
    rw [hms, a2]

set_option maxRecDepth 100000 in
theorem jsr_rts_witness :
    (cpu6502_step demo_jsr).1 = 6 ∧ (cpu6502_step demo_jsr).2.cpu.pc = 0x0300 ∧
    (cpu6502_step demo_jsr).2.cpu.sp = 0xFE ∧
    (cpu6502_step (cpu6502_step demo_jsr).2).1 = 6 ∧
    (cpu6502_step (cpu6502_step demo_jsr).2).2.cpu.pc = 0x0203 ∧
    (cpu6502_step (cpu6502_step demo_jsr).2).2.cpu.sp = 0x00 := by
  have h := jsr_rts demo_jsr (cpu6502_step demo_jsr).2 (by decide) (by decide)
    (by decide) rfl rfl (by decide) (by decide)
  have e : (cpu6502_step demo_jsr).2.cpu.pc = 0x0300 := by decide
  exact ⟨h.1, e, h.2.2.1, h.2.2.2.2.1, h.2.2.2.2.2.1, h.2.2.2.2.2.2⟩

/-! ## C35: the scroll and control latches -/

theorem eval_sprites_loop_latches (y sprite_h : Int) (k : Nat) :
    ∀ (i : Nat) (s : ppu_t × Nat),
      (eval_sprites_loop y sprite_h k i s).1.scroll_x = s.1.scroll_x ∧
      (eval_sprites_loop y sprite_h k i s).1.scroll_y = s.1.scroll_y ∧
      (eval_sprites_loop y sprite_h k i s).1.render_ctrl = s.1.render_ctrl := by
  induction k with
  | zero => intro i s; exact ⟨rfl, rfl, rfl⟩
  | succ k ih =>
    intro i s
    obtain ⟨p, found⟩ := s
    simp only [eval_sprites_loop]
    split_ifs with h1 h2
    · exact ih _ _
    · exact ih _ _
    · exact ih _ _

theorem eval_sprites_for_scanline_latches (n : nes_t) (y : Int) :
    ppu_latches (eval_sprites_for_scanline n y) = ppu_latches n := by
  have hl := fun (h : Int) => eval_sprites_loop_latches y h 64 0
    ({ n.ppu with scan_spr_count := 0, reg_status := n.ppu.reg_status &&& 0xDF }, 0)
  unfold eval_sprites_for_scanline ppu_latches
  simp only []
  split_ifs with hh hf hf
  · exact Prod.ext (hl 16).1 (Prod.ext (hl 16).2.1 (hl 16).2.2)
  · exact Prod.ext (hl 16).1 (Prod.ext (hl 16).2.1 (hl 16).2.2)
  · exact Prod.ext (hl 8).1 (Prod.ext (hl 8).2.1 (hl 8).2.2)
  · exact Prod.ext (hl 8).1 (Prod.ext (hl 8).2.1 (hl 8).2.2)

theorem render_scanline_latches (n : nes_t) (y : Int) :
    ppu_latches (render_scanline n y) = ppu_latches n := by
  unfold ppu_latches render_scanline
  rfl

theorem ppu_tick_render_latches (n : nes_t) :
    ppu_latches (ppu_tick_render n) = ppu_latches n := by
  unfold ppu_tick_render
  split_ifs with h
  · simp only []
    rw [render_scanline_latches]
    exact eval_sprites_for_scanline_latches n n.ppu.scanline
  · rfl

theorem ppu_tick_sprite0_latches (n : nes_t) :
    ppu_latches (ppu_tick_sprite0 n) = ppu_latches n := by
  unfold ppu_tick_sprite0
  simp only []
  split_ifs <;> rfl

theorem ppu_tick_vblank_latches (n : nes_t) :
    ppu_latches (ppu_tick_vblank n) = ppu_latches n := by
  unfold ppu_tick_vblank
  simp only [cpu6502_set_nmi]
  split_ifs <;> rfl

theorem ppu_tick_prerender_latches (n : nes_t) :
    ppu_latches (ppu_tick_prerender n) = ppu_latches n := by
  unfold ppu_tick_prerender
  simp only []
  split_ifs <;> rfl

theorem ppu_tick_advance_latches (n : nes_t) :
    ppu_latches (ppu_tick_advance n) = ppu_latches n := by
  unfold ppu_tick_advance
  simp only []
  split_ifs <;> rfl

/-- The latches after a tick are those that its first two blocks leave. -/
theorem ppu_tick_latches (n : nes_t) :
    ppu_latches (ppu_tick n)
      = ppu_latches (ppu_tick_line_latch (ppu_tick_frame_latch n)) := by
  rw [ppu_tick_eq, ppu_tick_advance_latches, ppu_tick_prerender_latches,
    ppu_tick_vblank_latches, ppu_tick_sprite0_latches, ppu_tick_render_latches]

theorem ppu_cpu_read_latches (n : nes_t) (a : Nat) :
    ppu_latches (ppu_cpu_read n a).2 = ppu_latches n := by
  unfold ppu_cpu_read
  simp only []
  split_ifs <;> rfl

theorem nes_cpu_read_latches (n : nes_t) (a : Nat) :
    ppu_latches (nes_cpu_read n a).2 = ppu_latches n := by
  unfold nes_cpu_read
  simp only []
  split_ifs <;> first | rfl | exact ppu_cpu_read_latches n _

theorem oam_dma_loop_latches (base : Nat) (k : Nat) : ∀ (i : Nat) (n : nes_t),
    ppu_latches (oam_dma_loop base k i n) = ppu_latches n := by
  induction k with
  | zero => intro i n; rfl
  | succ k ih =>
    intro i n
    simp only [oam_dma_loop]
    rw [ih]
    exact nes_cpu_read_latches n _

theorem ppu_bus_write_latches (n : nes_t) (a v : Nat) :
    ppu_latches (ppu_bus_write n a v) = ppu_latches n := by
  unfold ppu_bus_write
  simp only []
  split_ifs <;> rfl

theorem ppu_cpu_write_latches (n : nes_t) (a v : Nat) :
    ppu_latches (ppu_cpu_write n a v) = ppu_latches n := by
  unfold ppu_cpu_write
  simp only [nes_ppu_bus_write, cpu6502_set_nmi]
  split_ifs <;> first | rfl | exact ppu_bus_write_latches _ _ _

theorem nes_cpu_write_latches (n : nes_t) (a v : Nat) :
    ppu_latches (nes_cpu_write n a v) = ppu_latches n := by
  unfold nes_cpu_write
  simp only [cart_cpu_write]
  split_ifs
  · rfl
  · exact ppu_cpu_write_latches _ _ _
  · have h := oam_dma_loop_latches ((v <<< 8) % 65536) 256 0 { n with last_bus := v }
    unfold ppu_latches at h ⊢
    simp only [] at h ⊢
    exact h
  · rfl
  · rfl
  · rfl
  · rfl

/-- C35: the active latches `scroll_x`, `scroll_y`, `render_ctrl` change only at the two latch
points.  The tick at (scanline -1, dot 0) copies `scroll_x_next`, `scroll_y_next` and
`render_ctrl_next` into them; a tick at dot 257 of a visible scanline (0..239) copies
`scroll_x_next` and `render_ctrl_next` and leaves `scroll_y`; every other tick leaves the
three unchanged, and so does every write to and read of a PPU register and every CPU bus
write or read (an OAM DMA included). -/
theorem scroll_latches (n : nes_t) :
    (n.ppu.scanline = -1 ∧ n.ppu.dot = 0 →
      (ppu_tick n).ppu.scroll_x = n.ppu.scroll_x_next ∧
      (ppu_tick n).ppu.scroll_y = n.ppu.scroll_y_next ∧
      (ppu_tick n).ppu.render_ctrl = n.ppu.render_ctrl_next) ∧
    ((0 ≤ n.ppu.scanline ∧ n.ppu.scanline ≤ 239) ∧ n.ppu.dot = 257 →
      (ppu_tick n).ppu.scroll_x = n.ppu.scroll_x_next ∧
      (ppu_tick n).ppu.render_ctrl = n.ppu.render_ctrl_next ∧
      (ppu_tick n).ppu.scroll_y = n.ppu.scroll_y) ∧
    (¬ (n.ppu.scanline = -1 ∧ n.ppu.dot = 0) →
      ¬ ((0 ≤ n.ppu.scanline ∧ n.ppu.scanline ≤ 239) ∧ n.ppu.dot = 257) →
      (ppu_tick n).ppu.scroll_x = n.ppu.scroll_x ∧
      (ppu_tick n).ppu.scroll_y = n.ppu.scroll_y ∧
      (ppu_tick n).ppu.render_ctrl = n.ppu.render_ctrl) ∧
    (∀ a v,
      (ppu_cpu_write n a v).ppu.scroll_x = n.ppu.scroll_x ∧
      (ppu_cpu_write n a v).ppu.scroll_y = n.ppu.scroll_y ∧
      (ppu_cpu_write n a v).ppu.render_ctrl = n.ppu.render_ctrl ∧
      ppu_latches (ppu_cpu_read n a).2 = ppu_latches n ∧
      ppu_latches (nes_cpu_write n a v) = ppu_latches n ∧
      ppu_latches (nes_cpu_read n a).2 = ppu_latches n) := by
  have ht := ppu_tick_latches n
  have h1 : (ppu_tick n).ppu.scroll_x
      = (ppu_tick_line_latch (ppu_tick_frame_latch n)).ppu.scroll_x :=
    congrArg (fun b => b.1) ht
  have h2 : (ppu_tick n).ppu.scroll_y
      = (ppu_tick_line_latch (ppu_tick_frame_latch n)).ppu.scroll_y :=
    congrArg (fun b => b.2.1) ht
  have h3 : (ppu_tick n).ppu.render_ctrl
      = (ppu_tick_line_latch (ppu_tick_frame_latch n)).ppu.render_ctrl :=
    congrArg (fun b => b.2.2) ht
  rw [h1, h2, h3]
  refine ⟨?_, ?_, ?_, ?_⟩
  · intro h
    have e1 : ppu_tick_frame_latch n =
        { n with ppu := { n.ppu with
            scroll_x := n.ppu.scroll_x_next, scroll_y := n.ppu.scroll_y_next,
            render_ctrl := n.ppu.render_ctrl_next } } := by
      unfold ppu_tick_frame_latch
      rw [if_pos h]
    have e2 : ppu_tick_line_latch (ppu_tick_frame_latch n) = ppu_tick_frame_latch n := by
      unfold ppu_tick_line_latch
      rw [if_neg]
      rw [e1]
      intro hc
      have := hc.1
      have := h.1
      simp only [] at *
      omega
    rw [e2, e1]
    exact ⟨rfl, rfl, rfl⟩
  · intro h
    have e1 : ppu_tick_frame_latch n = n := by
      unfold ppu_tick_frame_latch
      rw [if_neg (fun hc => by omega)]
    have e2 : ppu_tick_line_latch n =
        { n with ppu := { n.ppu with
            scroll_x := n.ppu.scroll_x_next, render_ctrl := n.ppu.render_ctrl_next } } := by
      unfold ppu_tick_line_latch
      rw [if_pos ⟨h.1.1, by omega, h.2⟩]
    rw [e1, e2]
    exact ⟨rfl, rfl, rfl⟩
  · intro hf hl
    have e1 : ppu_tick_frame_latch n = n := by
      unfold ppu_tick_frame_latch
      rw [if_neg hf]
    have e2 : ppu_tick_line_latch n = n := by
      unfold ppu_tick_line_latch
      rw [if_neg (fun hc => hl ⟨⟨hc.1, by omega⟩, hc.2.2⟩)]
    rw [e1, e2]
    exact ⟨rfl, rfl, rfl⟩
  · intro a v
    have hw := ppu_cpu_write_latches n a v
    exact ⟨congrArg (fun b => b.1) hw, congrArg (fun b => b.2.1) hw,
      congrArg (fun b => b.2.2) hw, ppu_cpu_read_latches n a, nes_cpu_write_latches n a v,
      nes_cpu_read_latches n a⟩

theorem scroll_latches_witness :
    ppu_latches (ppu_tick demo_latch_frame) = (0x11, 0x22, 0x03) ∧
    ppu_latches (ppu_tick demo_latch_line) = (0x11, 0x00, 0x03) ∧
    ppu_latches (ppu_tick demo_tick_visible) = (0x00, 0x00, 0x00) := by
  have h1 := (scroll_latches demo_latch_frame).1 (by decide)
  have h2 := (scroll_latches demo_latch_line).2.1 (by decide)
  have h3 := (scroll_latches demo_tick_visible).2.2.1 (by decide) (by decide)
  exact ⟨Prod.ext h1.1 (Prod.ext h1.2.1 h1.2.2), Prod.ext h2.1 (Prod.ext h2.2.2 h2.2.1),
    Prod.ext h3.1 (Prod.ext h3.2.1 h3.2.2)⟩

/-! ## C33: the width of the VRAM addresses -/

theorem or_lt_15 (a b : Nat) (ha : a < 2 ^ 15) (hb : b < 2 ^ 15) :
    (a ||| b) % 65536 < 0x8000 :=
  Nat.lt_of_le_of_lt (Nat.mod_le _ _) (Nat.or_lt_two_pow ha hb)

theorem and_lt_15 (a m : Nat) (ha : a < 0x8000) : a &&& m < 2 ^ 15 :=
  Nat.lt_of_le_of_lt Nat.and_le_left ha

theorem ppu_v_inc_lt (p : ppu_t) : ppu_v_inc p < 0x10000 :=
  Nat.mod_lt _ (by decide)

theorem ppu_bus_write_vt (n : nes_t) (a v : Nat) :
    (ppu_bus_write n a v).ppu.v = n.ppu.v ∧ (ppu_bus_write n a v).ppu.t = n.ppu.t ∧
    (ppu_bus_write n a v).ppu.reg_ctrl = n.ppu.reg_ctrl := by
  unfold ppu_bus_write
  simp only []
  split_ifs <;> exact ⟨rfl, rfl, rfl⟩

/-- A register read leaves `t`; it leaves `v` unless it reads PPUDATA, which increments `v`
on 16 bits. -/
theorem ppu_cpu_read_vt (n : nes_t) (a : Nat) :
    (ppu_cpu_read n a).2.ppu.t = n.ppu.t ∧
    (a &&& 7 ≠ 7 → (ppu_cpu_read n a).2.ppu.v = n.ppu.v) ∧
    (a &&& 7 = 7 → (ppu_cpu_read n a).2.ppu.v = ppu_v_inc n.ppu) := by
  unfold ppu_cpu_read
  simp only []
  split_ifs with h2 h4 h7 hp
  · exact ⟨rfl, fun _ => rfl, fun h => by omega⟩
  · exact ⟨rfl, fun _ => rfl, fun h => by omega⟩
  · exact ⟨rfl, fun h => absurd h7 h, fun _ => rfl⟩
  · exact ⟨rfl, fun h => absurd h7 h, fun _ => rfl⟩
  · exact ⟨rfl, fun _ => rfl, fun h => absurd h h7⟩

/-- A register write of a byte keeps `t` on 15 bits; a write other than to PPUDATA leaves `v`
or copies `t` into it, and a write to PPUDATA increments `v` on 16 bits. -/
theorem ppu_cpu_write_vt (n : nes_t) (a v : Nat) (hv : v < 256) (ht : n.ppu.t < 0x8000) :
    (ppu_cpu_write n a v).ppu.t < 0x8000 ∧
    (a &&& 7 ≠ 7 → (ppu_cpu_write n a v).ppu.v = n.ppu.v ∨
      (ppu_cpu_write n a v).ppu.v = (ppu_cpu_write n a v).ppu.t) ∧
    (a &&& 7 = 7 → (ppu_cpu_write n a v).ppu.v = ppu_v_inc n.ppu) := by
  have s10 : (v &&& 0x03) <<< 10 < 2 ^ 15 := by
    have : v &&& 0x03 ≤ 0x03 := Nat.and_le_right
    rw [Nat.shiftLeft_eq]; omega
  have s3 : v >>> 3 < 2 ^ 15 := by
    rw [Nat.shiftRight_eq_div_pow]; omega
  have s12 : (v &&& 0x07) <<< 12 < 2 ^ 15 := by
    have : v &&& 0x07 ≤ 0x07 := Nat.and_le_right
    rw [Nat.shiftLeft_eq]; omega
  have s2 : (v &&& 0xF8) <<< 2 < 2 ^ 15 := by
    have : v &&& 0xF8 ≤ 0xF8 := Nat.and_le_right
    rw [Nat.shiftLeft_eq]; omega
  have s8 : (v &&& 0x3F) <<< 8 < 2 ^ 15 := by
    have : v &&& 0x3F ≤ 0x3F := Nat.and_le_right
    rw [Nat.shiftLeft_eq]; omega
  have sv : v < 2 ^ 15 := by omega
  unfold ppu_cpu_write
  simp only [nes_ppu_bus_write, cpu6502_set_nmi]
  split_ifs with h0 hn h1 h3 h4 h5 hw h6 hw h7
  · exact ⟨or_lt_15 _ _ (and_lt_15 _ _ ht) s10, fun _ => Or.inl rfl, fun h => by omega⟩
  · exact ⟨or_lt_15 _ _ (and_lt_15 _ _ ht) s10, fun _ => Or.inl rfl, fun h => by omega⟩
  · exact ⟨ht, fun _ => Or.inl rfl, fun h => by omega⟩
  · exact ⟨ht, fun _ => Or.inl rfl, fun h => by omega⟩
  · exact ⟨ht, fun _ => Or.inl rfl, fun h => by omega⟩
  · exact ⟨or_lt_15 _ _ (and_lt_15 _ _ (or_lt_15 _ _ (and_lt_15 _ _ ht) s12)) s2,
      fun _ => Or.inl rfl, fun h => by omega⟩
  · exact ⟨or_lt_15 _ _ (and_lt_15 _ _ ht) s3, fun _ => Or.inl rfl, fun h => by omega⟩
  · exact ⟨or_lt_15 _ _ (and_lt_15 _ _ ht) sv, fun _ => Or.inr rfl, fun h => by omega⟩
  · exact ⟨or_lt_15 _ _ (and_lt_15 _ _ ht) s8, fun _ => Or.inl rfl, fun h => by omega⟩
  · obtain ⟨b1, b2, b3⟩ := ppu_bus_write_vt n (n.ppu.v &&& 0x3FFF) v
    refine ⟨?_, fun h => absurd h7 h, fun _ => ?_⟩
    · show (ppu_bus_write n (n.ppu.v &&& 0x3FFF) v).ppu.t < 0x8000
      rw [b2]; exact ht
    · show ppu_v_inc (ppu_bus_write n (n.ppu.v &&& 0x3FFF) v).ppu = ppu_v_inc n.ppu
      unfold ppu_v_inc
      rw [b1, b3]
  · exact ⟨ht, fun _ => Or.inl rfl, fun h => absurd h h7⟩

/-- The invariant of a run of register accesses: `t` on 15 bits and `v` on 16, and `v` on 15
bits as long as PPUDATA has not been accessed. -/
theorem ppu_access_run_vt (es : List ppu_access) : ∀ (n : nes_t),
    n.ppu.t < 0x8000 → n.ppu.v < 0x10000 → (∀ e ∈ es, ppu_access_byte e) →
    (ppu_access_run n es).ppu.t < 0x8000 ∧ (ppu_access_run n es).ppu.v < 0x10000 ∧
    (n.ppu.v < 0x8000 → (∀ e ∈ es, ¬ ppu_access_data e) →
      (ppu_access_run n es).ppu.v < 0x8000) := by
  induction es with
  | nil => intro n ht hv _; exact ⟨ht, hv, fun h _ => h⟩
  | cons e es ih =>
    intro n ht hv hb
    have hb' : ∀ e' ∈ es, ppu_access_byte e' := fun e' he' => hb e' (List.mem_cons_of_mem _ he')
    cases e with
    | read a =>
      obtain ⟨r1, r2, r3⟩ := ppu_cpu_read_vt n a
      have hv' : (ppu_cpu_read n a).2.ppu.v < 0x10000 := by
        by_cases h7 : a &&& 7 = 7
        · rw [r3 h7]; exact ppu_v_inc_lt _
        · rw [r2 h7]; exact hv
      obtain ⟨i1, i2, i3⟩ := ih (ppu_cpu_read n a).2 (by rw [r1]; exact ht) hv' hb'
      refine ⟨i1, i2, fun h15 hd => ?_⟩
      have h7 : a &&& 7 ≠ 7 := hd _ (List.mem_cons_self _ _)
      exact i3 (by rw [r2 h7]; exact h15) (fun e' he' => hd e' (List.mem_cons_of_mem _ he'))
    | write a v =>
      have hbyte : v < 256 := hb _ (List.mem_cons_self _ _)
      obtain ⟨w1, w2, w3⟩ := ppu_cpu_write_vt n a v hbyte ht
      have hv' : (ppu_cpu_write n a v).ppu.v < 0x10000 := by
        by_cases h7 : a &&& 7 = 7
        · rw [w3 h7]; exact ppu_v_inc_lt _
        · rcases w2 h7 with h | h
          · rw [h]; exact hv
          · rw [h]; omega
      obtain ⟨i1, i2, i3⟩ := ih (ppu_cpu_write n a v) w1 hv' hb'
      refine ⟨i1, i2, fun h15 hd => ?_⟩
      have h7 : a &&& 7 ≠ 7 := hd _ (List.mem_cons_self _ _)
      refine i3 ?_ (fun e' he' => hd e' (List.mem_cons_of_mem _ he'))
      rcases w2 h7 with h | h
      · rw [h]; exact h15
      · rw [h]; exact w1

/-- C33 (amended): in every state reached from `ppu_reset` by a sequence of CPU reads and
writes of the PPU registers (the written values being bytes), the temporary VRAM address `t`
is a 15-bit value, `t < $8000`, and the current VRAM address `v` is a 16-bit value,
`v < $10000`; `v < $8000` holds as long as the sequence has no access to PPUDATA. -/
theorem vram_address_bits (n : nes_t) (es : List ppu_access) (hn : n.ppu = ppu_reset)
    (hb : ∀ e ∈ es, ppu_access_byte e) :
    (ppu_access_run n es).ppu.t < 0x8000 ∧ (ppu_access_run n es).ppu.v < 0x10000 ∧
    ((∀ e ∈ es, ¬ ppu_access_data e) → (ppu_access_run n es).ppu.v < 0x8000) := by
  have ht : n.ppu.t < 0x8000 := by rw [hn]; decide
  have hv : n.ppu.v < 0x8000 := by rw [hn]; decide
  obtain ⟨i1, i2, i3⟩ := ppu_access_run_vt es n ht (by omega) hb
  exact ⟨i1, i2, i3 hv⟩

set_option maxRecDepth 100000 in
theorem vram_address_bits_witness :
    (ppu_access_run demo_nes demo_vram_accesses).ppu.t < 0x8000 ∧
    (ppu_access_run demo_nes demo_vram_accesses).ppu.v < 0x10000 ∧
    (ppu_access_run demo_nes (demo_vram_accesses.take 5)).ppu.v < 0x8000 := by
  have h := vram_address_bits demo_nes demo_vram_accesses rfl (by decide)
  have h5 := vram_address_bits demo_nes (demo_vram_accesses.take 5) rfl (by decide)
  exact ⟨h.1, h.2.1, h5.2.2 (by decide)⟩

set_option maxRecDepth 100000 in
/-- C33 as stated fails for `v`: from the reset PPU, writing `$03` to PPUCTRL, `$FF` three
times to PPUSCROLL and `$FF` to PPUADDR leaves `t = v = $7FFF`, and one read of PPUDATA then
increments `v` to `$8000`, which is not a 15-bit value. -/
theorem vram_address_bits_counterexample :
    demo_nes.ppu = ppu_reset ∧
    (ppu_access_run demo_nes (demo_vram_accesses.take 5)).ppu.v = 0x7FFF ∧
    (ppu_access_run demo_nes demo_vram_accesses).ppu.v = 0x8000 ∧
    ¬ (ppu_access_run demo_nes demo_vram_accesses).ppu.v < 0x8000 := by
  have hp : demo_nes.ppu = ppu_reset := rfl
  refine ⟨hp, ?_, ?_, ?_⟩ <;> decide

/-! ## Bits 4 and 5 of P through the opcode switch -/

@[simp] theorem set_pc_bits45 (n : nes_t) (v : Nat) : flag_bits45 (set_pc n v) = flag_bits45 n :=
  rfl
@[simp] theorem set_a_bits45 (n : nes_t) (v : Nat) : flag_bits45 (set_a n v) = flag_bits45 n :=
  rfl
@[simp] theorem set_x_bits45 (n : nes_t) (v : Nat) : flag_bits45 (set_x n v) = flag_bits45 n :=
  rfl
@[simp] theorem set_y_bits45 (n : nes_t) (v : Nat) : flag_bits45 (set_y n v) = flag_bits45 n :=
  rfl
@[simp] theorem set_sp_bits45 (n : nes_t) (v : Nat) : flag_bits45 (set_sp n v) = flag_bits45 n :=
  rfl

theorem set_p_bits45 (n : nes_t) (v : Nat) : flag_bits45 (set_p n v) = v &&& 0x30 := rfl

@[simp] theorem rd_bits45 (n : nes_t) (a : Nat) : flag_bits45 (rd n a).2 = flag_bits45 n := by
  unfold flag_bits45
  rw [rd_cpu]

@[simp] theorem wr_bits45 (n : nes_t) (a v : Nat) : flag_bits45 (wr n a v) = flag_bits45 n := by
  unfold flag_bits45
  rw [wr_p]

theorem flag_assign_bits45 (n : nes_t) (f : Nat) (c : Prop) [Decidable c]
    (h1 : f &&& 0x30 = 0) (h2 : (0xFF ^^^ f) &&& 0x30 = 0x30) :
    flag_bits45 (flag_assign n f c) = flag_bits45 n := by
  unfold flag_bits45
  rw [flag_assign_p]
  exact flag_keep _ f 0x30 c h1 h2

@[simp] theorem flag_assign_C_bits45 (n : nes_t) (c : Prop) [Decidable c] :
    flag_bits45 (flag_assign n P_C c) = flag_bits45 n := flag_assign_bits45 n _ c rfl rfl
@[simp] theorem flag_assign_Z_bits45 (n : nes_t) (c : Prop) [Decidable c] :
    flag_bits45 (flag_assign n P_Z c) = flag_bits45 n := flag_assign_bits45 n _ c rfl rfl
@[simp] theorem flag_assign_V_bits45 (n : nes_t) (c : Prop) [Decidable c] :
    flag_bits45 (flag_assign n P_V c) = flag_bits45 n := flag_assign_bits45 n _ c rfl rfl
@[simp] theorem flag_assign_N_bits45 (n : nes_t) (c : Prop) [Decidable c] :
    flag_bits45 (flag_assign n P_N c) = flag_bits45 n := flag_assign_bits45 n _ c rfl rfl

/-- The explicit flag instructions set or clear one of C, I, D, V. -/
theorem or_flag_bits45 (n : nes_t) (f : Nat) (h1 : f &&& 0x30 = 0) :
    (n.cpu.p ||| f) &&& 0x30 = flag_bits45 n :=
  or_and_disjoint _ _ _ h1

theorem and_flag_bits45 (n : nes_t) (f : Nat) (h2 : (0xFF ^^^ f) &&& 0x30 = 0x30) :
    (n.cpu.p &&& (0xFF ^^^ f)) &&& 0x30 = flag_bits45 n := by
  unfold flag_bits45
  rw [Nat.and_assoc, h2]

@[simp] theorem sec_bits45 (n : nes_t) : (n.cpu.p ||| P_C) &&& 0x30 = flag_bits45 n :=
  or_flag_bits45 n _ rfl
@[simp] theorem sei_bits45 (n : nes_t) : (n.cpu.p ||| P_I) &&& 0x30 = flag_bits45 n :=
  or_flag_bits45 n _ rfl
@[simp] theorem sed_bits45 (n : nes_t) : (n.cpu.p ||| P_D) &&& 0x30 = flag_bits45 n :=
  or_flag_bits45 n _ rfl
@[simp] theorem clc_bits45 (n : nes_t) :
    (n.cpu.p &&& (0xFF ^^^ P_C)) &&& 0x30 = flag_bits45 n := and_flag_bits45 n _ rfl
@[simp] theorem cli_bits45 (n : nes_t) :
    (n.cpu.p &&& (0xFF ^^^ P_I)) &&& 0x30 = flag_bits45 n := and_flag_bits45 n _ rfl
@[simp] theorem clv_bits45 (n : nes_t) :
    (n.cpu.p &&& (0xFF ^^^ P_V)) &&& 0x30 = flag_bits45 n := and_flag_bits45 n _ rfl
@[simp] theorem cld_bits45 (n : nes_t) :
    (n.cpu.p &&& (0xFF ^^^ P_D)) &&& 0x30 = flag_bits45 n := and_flag_bits45 n _ rfl

/-- What `PLP` and `RTI` load into P has bit 5 set and bit 4 clear, whatever was pulled. -/
theorem plp_bits45 (x : Nat) : ((x ||| P_U) &&& (0xFF ^^^ P_B)) &&& 0x30 = 0x20 := by
  apply Nat.eq_of_testBit_eq
  intro i
  have e1 : ((0xFF ^^^ P_B) &&& 0x30 : Nat) = 2 ^ 5 := rfl
  have e2 : (P_U : Nat) = 2 ^ 5 := rfl
  rw [Nat.and_assoc, e1, e2, show (0x20 : Nat) = 2 ^ 5 from rfl, Nat.testBit_and,
    Nat.testBit_or, Nat.testBit_two_pow]
  by_cases h : 5 = i <;> simp [h]

@[simp] theorem set_nz_bits45 (n : nes_t) (v : Nat) : flag_bits45 (set_nz n v) = flag_bits45 n := by
  simp only [set_nz, flag_assign_Z_bits45, flag_assign_N_bits45]

@[simp] theorem push_bits45 (n : nes_t) (v : Nat) : flag_bits45 (push n v) = flag_bits45 n := by
  simp only [push, set_sp_bits45, wr_bits45]

@[simp] theorem pull_bits45 (n : nes_t) : flag_bits45 (pull n).2 = flag_bits45 n := by
  simp only [pull, set_sp_bits45, rd_bits45]

@[simp] theorem rd16_bits45 (n : nes_t) (a : Nat) : flag_bits45 (rd16 n a).2 = flag_bits45 n := by
  simp only [rd16, rd_bits45]

@[simp] theorem rd16_wrap_bug_bits45 (n : nes_t) (a : Nat) :
    flag_bits45 (rd16_wrap_bug n a).2 = flag_bits45 n := by
  simp only [rd16_wrap_bug, rd_bits45]

@[simp] theorem do_interrupt_bits45 (n : nes_t) (vec : Nat) (b : Bool) :
    flag_bits45 (do_interrupt n vec b).2 = flag_bits45 n := by
  simp only [do_interrupt, set_pc_bits45, rd16_bits45, set_p_bits45, push_bits45, sei_bits45]

@[simp] theorem ea_imm_bits45 (n : nes_t) : flag_bits45 (ea_imm n).2 = flag_bits45 n := by
  simp only [ea_imm, set_pc_bits45]
@[simp] theorem ea_zp_bits45 (n : nes_t) : flag_bits45 (ea_zp n).2 = flag_bits45 n := by
  simp only [ea_zp, set_pc_bits45, rd_bits45]
@[simp] theorem ea_zpx_bits45 (n : nes_t) : flag_bits45 (ea_zpx n).2 = flag_bits45 n := by
  simp only [ea_zpx, set_pc_bits45, rd_bits45]
@[simp] theorem ea_zpy_bits45 (n : nes_t) : flag_bits45 (ea_zpy n).2 = flag_bits45 n := by
  simp only [ea_zpy, set_pc_bits45, rd_bits45]
@[simp] theorem ea_abs_bits45 (n : nes_t) : flag_bits45 (ea_abs n).2 = flag_bits45 n := by
  simp only [ea_abs, set_pc_bits45, rd16_bits45]
@[simp] theorem ea_absx_bits45 (n : nes_t) (b : Bool) :
    flag_bits45 (ea_absx n b).2 = flag_bits45 n := by
  simp only [ea_absx, set_pc_bits45, rd16_bits45]
@[simp] theorem ea_absy_bits45 (n : nes_t) (b : Bool) :
    flag_bits45 (ea_absy n b).2 = flag_bits45 n := by
  simp only [ea_absy, set_pc_bits45, rd16_bits45]
@[simp] theorem ea_indx_bits45 (n : nes_t) : flag_bits45 (ea_indx n).2 = flag_bits45 n := by
  simp only [ea_indx, set_pc_bits45, rd_bits45]
@[simp] theorem ea_indy_bits45 (n : nes_t) (b : Bool) :
    flag_bits45 (ea_indy n b).2 = flag_bits45 n := by
  simp only [ea_indy, set_pc_bits45, rd_bits45]

@[simp] theorem branch_bits45 (n : nes_t) (b : Bool) :
    flag_bits45 (branch n b).2 = flag_bits45 n := by
  unfold branch
  simp only []
  split <;> simp only [set_pc_bits45, rd_bits45]

@[simp] theorem op_adc_bits45 (n : nes_t) (m : Nat) : flag_bits45 (op_adc n m) = flag_bits45 n := by
  simp only [op_adc, set_nz_bits45, set_a_bits45, flag_assign_C_bits45, flag_assign_V_bits45]
@[simp] theorem op_sbc_bits45 (n : nes_t) (m : Nat) : flag_bits45 (op_sbc n m) = flag_bits45 n := by
  simp only [op_sbc, op_adc_bits45]
@[simp] theorem op_cmp_bits45 (n : nes_t) (r m : Nat) :
    flag_bits45 (op_cmp n r m) = flag_bits45 n := by
  simp only [op_cmp, set_nz_bits45, flag_assign_C_bits45]
@[simp] theorem op_asl_bits45 (n : nes_t) (v : Nat) :
    flag_bits45 (op_asl n v).2 = flag_bits45 n := by
  simp only [op_asl, set_nz_bits45, flag_assign_C_bits45]
@[simp] theorem op_lsr_bits45 (n : nes_t) (v : Nat) :
    flag_bits45 (op_lsr n v).2 = flag_bits45 n := by
  simp only [op_lsr, set_nz_bits45, flag_assign_C_bits45]
@[simp] theorem op_rol_bits45 (n : nes_t) (v : Nat) :
    flag_bits45 (op_rol n v).2 = flag_bits45 n := by
  simp only [op_rol, set_nz_bits45, flag_assign_C_bits45]
@[simp] theorem op_ror_bits45 (n : nes_t) (v : Nat) :
    flag_bits45 (op_ror n v).2 = flag_bits45 n := by
  simp only [op_ror, set_nz_bits45, flag_assign_C_bits45]
@[simp] theorem op_anc_bits45 (n : nes_t) (v : Nat) : flag_bits45 (op_anc n v) = flag_bits45 n := by
  simp only [op_anc, set_nz_bits45, set_a_bits45, flag_assign_C_bits45]
@[simp] theorem op_alr_bits45 (n : nes_t) (v : Nat) : flag_bits45 (op_alr n v) = flag_bits45 n := by
  simp only [op_alr, op_lsr_bits45, set_a_bits45]
@[simp] theorem op_arr_bits45 (n : nes_t) (v : Nat) : flag_bits45 (op_arr n v) = flag_bits45 n := by
  simp only [op_arr, op_ror_bits45, set_a_bits45, flag_assign_C_bits45, flag_assign_V_bits45]
@[simp] theorem op_sbx_bits45 (n : nes_t) (v : Nat) : flag_bits45 (op_sbx n v) = flag_bits45 n := by
  simp only [op_sbx, set_nz_bits45, set_x_bits45, flag_assign_C_bits45]

theorem ite_bits45 {c : Prop} [Decidable c] {a b : Nat × nes_t} {k : Nat}
    (ha : flag_bits45 a.2 = k ∨ flag_bits45 a.2 = 0x20)
    (hb : flag_bits45 b.2 = k ∨ flag_bits45 b.2 = 0x20) :
    flag_bits45 (if c then a else b).2 = k ∨ flag_bits45 (if c then a else b).2 = 0x20 := by
  split <;> assumption

set_option maxRecDepth 16000 in
/-- Every `case` of the opcode switch leaves bits 4 and 5 of P as they were, or loads P with
bit 5 set and bit 4 clear (`PLP`, `RTI`). -/
theorem exec_opcode_bits45 (op : Nat) (n : nes_t) :
    flag_bits45 (exec_opcode op n).2 = flag_bits45 n ∨
    flag_bits45 (exec_opcode op n).2 = 0x20 := by
  unfold exec_opcode
  iterate 223
    refine ite_bits45
      (by simp only [set_pc_bits45, set_a_bits45, set_x_bits45, set_y_bits45, set_sp_bits45,
            set_p_bits45, rd_bits45, wr_bits45, flag_assign_C_bits45, flag_assign_Z_bits45,
            flag_assign_V_bits45, flag_assign_N_bits45, sec_bits45, sei_bits45, sed_bits45,
            clc_bits45, cli_bits45, clv_bits45, cld_bits45, plp_bits45, set_nz_bits45,
            push_bits45, pull_bits45, rd16_bits45, rd16_wrap_bug_bits45, do_interrupt_bits45,
            ea_imm_bits45, ea_zp_bits45, ea_zpx_bits45, ea_zpy_bits45, ea_abs_bits45,
            ea_absx_bits45, ea_absy_bits45, ea_indx_bits45, ea_indy_bits45, branch_bits45,
            op_adc_bits45, op_sbc_bits45, op_cmp_bits45, op_asl_bits45, op_lsr_bits45,
            op_rol_bits45, op_ror_bits45, op_anc_bits45, op_alr_bits45, op_arr_bits45,
            op_sbx_bits45, eq_self_iff_true, true_or, or_true]) ?_
  exact Or.inl rfl

@[simp] theorem add_cycles_bits45 (n : nes_t) (k : Nat) :
    flag_bits45 (add_cycles n k) = flag_bits45 n := rfl

/-- A CPU step keeps bits 4 and 5 of P, or leaves them as `$20`. -/
theorem cpu6502_step_bits45 (n : nes_t) :
    flag_bits45 (cpu6502_step n).2 = flag_bits45 n ∨ flag_bits45 (cpu6502_step n).2 = 0x20 := by
  unfold cpu6502_step
  simp only []
  split_ifs
  · exact Or.inl rfl
  · left
    simp only [add_cycles_bits45, do_interrupt_bits45]
    rfl
  · left
    simp only [add_cycles_bits45, do_interrupt_bits45]
  · simp only [add_cycles_bits45]
    have h := exec_opcode_bits45 (rd (set_pc n ((n.cpu.pc + 1) % 65536)) n.cpu.pc).1
      (rd (set_pc n ((n.cpu.pc + 1) % 65536)) n.cpu.pc).2
    rw [rd_bits45, set_pc_bits45] at h
    exact h

/-! ## C37: bits 4 and 5 of P -/

theorem cpu6502_reset_p (n : nes_t) : (cpu6502_reset n).cpu.p = 0x24 := by
  unfold cpu6502_reset
  show (rd16 _ 0xFFFC).2.cpu.p = _
  rw [rd16_cpu]
  rfl

/-- No event of the machine changes bits 4 and 5 of P, other than to `$20`. -/
theorem run_event_bits45 (n : nes_t) (e : machine_event) :
    flag_bits45 (run_event n e) = flag_bits45 n ∨ flag_bits45 (run_event n e) = 0x20 := by
  cases e with
  | tick =>
    left
    show (ppu_tick n).cpu.p &&& 0x30 = n.cpu.p &&& 0x30
    rw [(ppu_tick_outside n).2.2.2.1]
    split <;> rfl
  | cpu_step => exact cpu6502_step_bits45 n
  | cpu_read a =>
    left
    show (nes_cpu_read n a).2.cpu.p &&& 0x30 = n.cpu.p &&& 0x30
    rw [nes_cpu_read_cpu]
  | cpu_write a v =>
    left
    show (nes_cpu_write n a v).cpu.p &&& 0x30 = n.cpu.p &&& 0x30
    rw [nes_cpu_write_cpu]

theorem run_events_bits45 (es : List machine_event) : ∀ (n : nes_t),
    flag_bits45 n = 0x20 → flag_bits45 (run_events n es) = 0x20 := by
  induction es with
  | nil => intro n h; exact h
  | cons e es ih =>
    intro n h
    refine ih (run_event n e) ?_
    rcases run_event_bits45 n e with h1 | h1
    · rw [h1]; exact h
    · exact h1

/-- C37: after `cpu6502_reset`, and in every state reached from there by CPU steps (any
opcodes, interrupt service and stall cycles), with PPU ticks and bus accesses between them
in any order and for any memory contents, bit 5 of P is set and bit 4 is clear:
`P & $30 = $20`.  Every single step preserves this. -/
theorem status_bits_4_5 (n0 : nes_t) (es : List machine_event) :
    (cpu6502_reset n0).cpu.p &&& 0x30 = 0x20 ∧
    (run_events (cpu6502_reset n0) es).cpu.p &&& 0x30 = 0x20 ∧
    (run_events (nes_reset n0) es).cpu.p &&& 0x30 = 0x20 ∧
    (∀ n : nes_t, n.cpu.p &&& 0x30 = 0x20 → (cpu6502_step n).2.cpu.p &&& 0x30 = 0x20) := by
  have h0 : flag_bits45 (cpu6502_reset n0) = 0x20 := by
    unfold flag_bits45
    rw [cpu6502_reset_p]
    rfl
  have h1 : flag_bits45 (nes_reset n0) = 0x20 := by
    unfold flag_bits45
    rw [(nes_reset_cpu n0).1]
    show (0x24 &&& 0x30 : Nat) = 0x20
    rfl
  refine ⟨h0, run_events_bits45 es _ h0, run_events_bits45 es _ h1, ?_⟩
  intro n hn
  rcases cpu6502_step_bits45 n with h | h
  · exact h.trans hn
  · exact h

/-! ## C38: a frame within 29781 steps -/

theorem branch_ret_pos (n : nes_t) (b : Bool) : 1 ≤ (branch n b).1 := by
  unfold branch
  dsimp only
  split
  · exact (by decide : 1 ≤ 2)
  · exact Nat.le_add_right_of_le (by decide : 1 ≤ 2 + 1)

theorem ite_ret_pos {c : Prop} [Decidable c] {a b : Nat × nes_t}
    (ha : 1 ≤ a.1) (hb : 1 ≤ b.1) : 1 ≤ (if c then a else b).1 := by
  split <;> assumption

set_option maxRecDepth 16000 in
/-- Every `case` of the opcode switch returns at least one cycle. -/
theorem exec_opcode_ret_pos (op : Nat) (n : nes_t) : 1 ≤ (exec_opcode op n).1 := by
  unfold exec_opcode
  iterate 223
    refine ite_ret_pos
      (by first
        | exact branch_ret_pos _ _
        | (dsimp only [do_interrupt]; omega)) ?_
  exact (by decide : 1 ≤ 2)

/-- Every CPU step returns at least one cycle. -/
theorem cpu6502_step_ret_pos (n : nes_t) : 1 ≤ (cpu6502_step n).1 := by
  unfold cpu6502_step
  dsimp only
  split_ifs
  · exact Nat.le_refl 1
  · exact (by decide : 1 ≤ 7)
  · exact (by decide : 1 ≤ 7)
  · exact exec_opcode_ret_pos _ _

/-- In the grid, the position (241, 1) is the tick count 82523. -/
theorem at_vblank_iff_clock (n : nes_t) (h : ppu_in_grid n) :
    at_vblank n ↔ ppu_clock n = 82523 := by
  unfold at_vblank ppu_clock
  unfold ppu_in_grid at h
  omega

/-- A run of `k` ticks includes the tick at (241, 1) exactly when fewer than `k` ticks
remain before it. -/
theorem crosses_vblank_iff (n : nes_t) (h : ppu_in_grid n) (k : Nat) :
    crosses_vblank n k ↔ vblank_dist n < k := by
  have hc : 0 ≤ ppu_clock n ∧ ppu_clock n < 89342 := by
    unfold ppu_in_grid at h
    unfold ppu_clock
    omega
  unfold crosses_vblank vblank_dist
  constructor
  · rintro ⟨j, hj, hv⟩
    obtain ⟨g1, g2⟩ := ppu_tick_loop_clock j n h
    rw [at_vblank_iff_clock _ g1, g2] at hv
    omega
  · intro hd
    have hnn : 0 ≤ (82523 - ppu_clock n) % 89342 := Int.emod_nonneg _ (by decide)
    refine ⟨((82523 - ppu_clock n) % 89342).toNat, by omega, ?_⟩
    obtain ⟨g1, g2⟩ := ppu_tick_loop_clock ((82523 - ppu_clock n) % 89342).toNat n h
    rw [at_vblank_iff_clock _ g1, g2, Int.toNat_of_nonneg hnn]
    omega

/-- A driver iteration whose ticks do not include the tick at (241, 1) brings it nearer by
three ticks for each cycle of its step. -/
theorem driver_iteration_dist (n : nes_t) (h : ppu_in_grid n) (hm : ¬ step_hits_vblank n) :
    ppu_in_grid (driver_iteration n) ∧
    vblank_dist (driver_iteration n) + 3 ≤ vblank_dist n := by
  have hc : 0 ≤ ppu_clock n ∧ ppu_clock n < 89342 := by
    unfold ppu_in_grid at h
    unfold ppu_clock
    omega
  obtain ⟨d1, _, d3⟩ := driver_iteration_clock n h
  have hb := cpu6502_step_beam n
  have hsl : (cpu6502_step n).2.ppu.scanline = n.ppu.scanline := congrArg (fun b => b.1) hb
  have hdt : (cpu6502_step n).2.ppu.dot = n.ppu.dot := congrArg (fun b => b.2.1) hb
  have hg : ppu_in_grid (cpu6502_step n).2 := by
    unfold ppu_in_grid at h ⊢
    rw [hsl, hdt]
    exact h
  have hd : vblank_dist (cpu6502_step n).2 = vblank_dist n := by
    unfold vblank_dist ppu_clock
    rw [hsl, hdt]
  have hpos := cpu6502_step_ret_pos n
  have hno : ¬ vblank_dist n < (((cpu6502_step n).1 * 3 : Nat) : Int) := by
    intro hlt
    apply hm
    unfold step_hits_vblank
    rw [crosses_vblank_iff _ hg, hd]
    exact hlt
  refine ⟨d1, ?_⟩
  unfold vblank_dist at hno ⊢
  rw [d3]
  push_cast at hno
  omega

/-- As long as no iteration includes the tick at (241, 1), each of them uses up at least
three of the ticks that remain before it. -/
theorem driver_run_dist (n : nes_t) (h : ppu_in_grid n) (k : Nat)
    (hm : ∀ i, i < k → ¬ step_hits_vblank (driver_run n i)) :
    ppu_in_grid (driver_run n k) ∧ vblank_dist (driver_run n k) + 3 * (k : Int) ≤ vblank_dist n := by
  induction k with
  | zero =>
    refine ⟨h, ?_⟩
    show vblank_dist n + 3 * ((0 : Nat) : Int) ≤ vblank_dist n
    omega
  | succ k ih =>
    obtain ⟨i1, i2⟩ := ih (fun i hi => hm i (by omega))
    obtain ⟨j1, j2⟩ := driver_iteration_dist (driver_run n k) i1 (hm k (by omega))
    refine ⟨j1, ?_⟩
    show vblank_dist (driver_iteration (driver_run n k)) + 3 * ((k + 1 : Nat) : Int) ≤ _
    push_cast
    omega

/-- Among the first 29781 driver iterations from a machine in the grid, one includes the tick
at (241, 1). -/
theorem driver_run_hits (n : nes_t) (h : ppu_in_grid n) :
    ∃ j, j < 29781 ∧ step_hits_vblank (driver_run n j) ∧
      ∀ i, i < j → ¬ step_hits_vblank (driver_run n i) := by
  have hex : ∃ j, j < 29781 ∧ step_hits_vblank (driver_run n j) := by
    by_contra hne
    have hm : ∀ i, i < 29781 → ¬ step_hits_vblank (driver_run n i) :=
      fun i hi hs => hne ⟨i, hi, hs⟩
    obtain ⟨_, g2⟩ := driver_run_dist n h 29781 hm
    have h0 : 0 ≤ vblank_dist (driver_run n 29781) := Int.emod_nonneg _ (by decide)
    have h1 : vblank_dist n < 89342 := Int.emod_lt_of_pos _ (by decide)
    push_cast at g2
    omega
  classical
  refine ⟨Nat.find hex, (Nat.find_spec hex).1, (Nat.find_spec hex).2, fun i hi hs => ?_⟩
  exact Nat.find_min hex hi ⟨by have := (Nat.find_spec hex).1; omega, hs⟩

/-- C38: for every machine whose PPU position is in the grid (scanline in `[-1, 260]`, dot in
`[0, 340]`) and every budget `max >= 29781`, `nes_run_frame(n, max)` returns true.  Every CPU
step returns at least 1 cycle, hence at least 3 PPU ticks, so one of the first 29781 driver
iterations includes the tick at (scanline 241, dot 1), and the call returns after the first
such iteration with the frame-ready flag set. -/
theorem nes_run_frame_returns (n : nes_t) (max_cpu_steps : Int) (h : ppu_in_grid n)
    (hmax : 29781 ≤ max_cpu_steps) :
    (nes_run_frame n max_cpu_steps).1 = true ∧
    (nes_run_frame n max_cpu_steps).2.ppu.frame_ready = true ∧
    (∀ m : nes_t, 1 ≤ (cpu6502_step m).1) ∧
    (∃ j, j < 29781 ∧
      step_hits_vblank (driver_run { n with ppu := { n.ppu with frame_ready := false } } j) ∧
      nes_run_frame n max_cpu_steps
        = (true, driver_run { n with ppu := { n.ppu with frame_ready := false } } (j + 1))) := by
  have hg : ppu_in_grid { n with ppu := { n.ppu with frame_ready := false } } := h
  obtain ⟨j, hj, hhit, hmin⟩ := driver_run_hits _ hg
  have hk : j < max_cpu_steps.toNat := by omega
  have hrun := (nes_run_frame_loop_spec max_cpu_steps.toNat
    { n with ppu := { n.ppu with frame_ready := false } } rfl).2 j hk hmin hhit
  have e : nes_run_frame n max_cpu_steps
      = (true, driver_run { n with ppu := { n.ppu with frame_ready := false } } (j + 1)) := hrun
  refine ⟨by rw [e], ?_, cpu6502_step_ret_pos, ⟨j, hj, hhit, e⟩⟩
  rw [e]
  show (driver_iteration (driver_run
    { n with ppu := { n.ppu with frame_ready := false } } j)).ppu.frame_ready = true
  rw [driver_iteration_frame_ready, decide_eq_true hhit, Bool.or_true]

theorem nes_run_frame_returns_witness :
    (nes_run_frame demo_nes 29781).1 = true ∧
    (nes_run_frame demo_nes 29781).2.ppu.frame_ready = true :=
  have h := nes_run_frame_returns demo_nes 29781 (by decide) (by decide)
  ⟨h.1, h.2.1⟩

/-! ## C36: the pixels of a rendered scanline -/

theorem plane_pixel_lt (lo hi bit : Nat) : plane_pixel lo hi bit < 4 := by
  unfold plane_pixel
  have h1 : (hi >>> bit) &&& 1 ≤ 1 := Nat.and_le_right
  have h2 : (lo >>> bit) &&& 1 < 2 ^ 2 := Nat.lt_of_le_of_lt Nat.and_le_right (by decide)
  have h3 : ((hi >>> bit) &&& 1) <<< 1 < 2 ^ 2 := by
    rw [Nat.shiftLeft_eq]
    have : (2 : Nat) ^ 2 = 4 := rfl
    omega
  have h4 := Nat.or_lt_two_pow h3 h2
  have : (2 : Nat) ^ 2 = 4 := rfl
  exact Nat.lt_of_le_of_lt (Nat.mod_le _ _) (by omega)

theorem sprite_px_at_lt (n : nes_t) (y x sprite_h : Int) (base_pt8 si : Nat) :
    sprite_px_at n y x sprite_h base_pt8 si < 4 := by
  unfold sprite_px_at
  dsimp only
  split
  · decide
  · unfold sprite_pattern_pixel
    exact plane_pixel_lt _ _ _

theorem pal_select_lt (q a : Nat) :
    (if q = 0 then (a &&& 0x03) % 256
      else if q = 1 then ((a >>> 2) &&& 0x03) % 256
      else if q = 2 then ((a >>> 4) &&& 0x03) % 256
      else if q = 3 then ((a >>> 6) &&& 0x03) % 256
      else 0) < 4 := by
  have h3 : ∀ b : Nat, (b &&& 0x03) % 256 < 4 := fun b =>
    Nat.lt_of_le_of_lt (Nat.mod_le _ _) (Nat.lt_of_le_of_lt Nat.and_le_right (by decide))
  split_ifs
  · exact h3 _
  · exact h3 _
  · exact h3 _
  · exact h3 _
  · decide

theorem ppu_get_bg_pixel_lt (n : nes_t) (x y : Int) :
    (ppu_get_bg_pixel n x y).1 < 4 ∧ (ppu_get_bg_pixel n x y).2 < 4 := by
  unfold ppu_get_bg_pixel
  dsimp only
  split
  · exact ⟨by decide, by decide⟩
  · exact ⟨plane_pixel_lt _ _ _, pal_select_lt _ _⟩

theorem ppu_bus_read_mod (n : nes_t) (a : Nat) :
    ppu_bus_read n (a % 65536) = ppu_bus_read n a := by
  have e : (a % 65536) &&& 0x3FFF = a &&& 0x3FFF := by
    rw [and_0x3FFF, and_0x3FFF]
    omega
  unfold ppu_bus_read
  dsimp only
  rw [e]

theorem and_3 (x : Nat) : x &&& 0x03 = x % 4 := Nat.and_pow_two_sub_one_eq_mod x 2

theorem and_7 (x : Nat) : x &&& 7 = x % 8 := Nat.and_pow_two_sub_one_eq_mod x 3

theorem and_255 (x : Nat) : x &&& 255 = x % 256 := Nat.and_pow_two_sub_one_eq_mod x 8

theorem bit1_test (a : Nat) : a &&& 2 ≠ 0 ↔ a / 2 % 2 = 1 := by
  have h := and_two_pow_ne_zero a 1
  rw [Nat.testBit_to_div_mod] at h
  simpa using h

theorem bit4_test (a : Nat) : a &&& 0x10 ≠ 0 ↔ a / 16 % 2 = 1 := by
  have h := and_two_pow_ne_zero a 4
  rw [Nat.testBit_to_div_mod] at h
  simpa using h

/-- The pattern pixel is twice the bit of the high plane plus the bit of the low plane. -/
theorem plane_pixel_eq (lo hi bit : Nat) :
    plane_pixel lo hi bit = 2 * (hi / 2 ^ bit % 2) + lo / 2 ^ bit % 2 := by
  unfold plane_pixel
  rw [Nat.and_one_is_mod, Nat.and_one_is_mod, Nat.shiftRight_eq_div_pow,
    Nat.shiftRight_eq_div_pow, Nat.shiftLeft_eq]
  have h1 : hi / 2 ^ bit % 2 < 2 := Nat.mod_lt _ (by decide)
  have h2 : lo / 2 ^ bit % 2 < 2 ^ 1 := Nat.mod_lt _ (by decide)
  have e := Nat.mul_add_lt_is_or h2 (hi / 2 ^ bit % 2)
  rw [Nat.mul_comm (hi / 2 ^ bit % 2) (2 ^ 1), ← e]
  have : (2 : Nat) ^ 1 = 2 := rfl
  omega

/-- The nametable that the renderer picks. -/
theorem nametable_select (rc X Y : Nat) (hX : X < 512) (hY : Y < 480) :
    (if Y ≥ 240 then (if X ≥ 256 then (rc &&& 0x03) ^^^ 1 else rc &&& 0x03) ^^^ 2
      else (if X ≥ 256 then (rc &&& 0x03) ^^^ 1 else rc &&& 0x03))
      = ((rc % 4) ^^^ (X / 256)) ^^^ (2 * (Y / 240)) := by
  rw [and_3]
  by_cases h1 : X ≥ 256 <;> by_cases h2 : Y ≥ 240
  · have e1 : X / 256 = 1 := by omega
    have e2 : Y / 240 = 1 := by omega
    rw [if_pos h2, if_pos h1, e1, e2]
  · have e1 : X / 256 = 1 := by omega
    have e2 : Y / 240 = 0 := by omega
    rw [if_neg h2, if_pos h1, e1, e2, Nat.mul_zero, Nat.xor_zero]
  · have e1 : X / 256 = 0 := by omega
    have e2 : Y / 240 = 1 := by omega
    rw [if_pos h2, if_neg h1, e1, e2, Nat.xor_zero]
  · have e1 : X / 256 = 0 := by omega
    have e2 : Y / 240 = 0 := by omega
    rw [if_neg h2, if_neg h1, e1, e2, Nat.mul_zero, Nat.xor_zero, Nat.xor_zero]

/-- The palette field of attribute byte `a` for quadrant `q`, as the `switch` selects it. -/
theorem quadrant_select (q a : Nat) (hq : q < 4) :
    (if q = 0 then (a &&& 0x03) % 256
      else if q = 1 then ((a >>> 2) &&& 0x03) % 256
      else if q = 2 then ((a >>> 4) &&& 0x03) % 256
      else if q = 3 then ((a >>> 6) &&& 0x03) % 256
      else 0) = a / 4 ^ q % 4 := by
  have hm : ∀ b : Nat, (b &&& 0x03) % 256 = b % 4 := by
    intro b
    rw [and_3]
    omega
  interval_cases q
  · rw [if_pos rfl, hm]
    show a % 4 = a / 1 % 4
    rw [Nat.div_one]
  · rw [if_neg (by decide), if_pos rfl, hm, Nat.shiftRight_eq_div_pow]
    rfl
  · rw [if_neg (by decide), if_neg (by decide), if_pos rfl, hm, Nat.shiftRight_eq_div_pow]
    rfl
  · rw [if_neg (by decide), if_neg (by decide), if_neg (by decide), if_pos rfl, hm,
      Nat.shiftRight_eq_div_pow]
    rfl

/-- The quadrant of a tile: bit 1 of its row and bit 1 of its column. -/
theorem quadrant_eq (row col : Nat) :
    ((if row &&& 2 ≠ 0 then 2 else 0) ||| (if col &&& 2 ≠ 0 then 1 else 0) : Nat)
      = 2 * (row / 2 % 2) + col / 2 % 2 := by
  have hr : row / 2 % 2 = 0 ∨ row / 2 % 2 = 1 := by omega
  have hc : col / 2 % 2 = 0 ∨ col / 2 % 2 = 1 := by omega
  by_cases h1 : row &&& 2 ≠ 0 <;> by_cases h2 : col &&& 2 ≠ 0
  · rw [if_pos h1, if_pos h2, (bit1_test row).mp h1, (bit1_test col).mp h2]
    rfl
  · have e2 : col / 2 % 2 = 0 := by
      rcases hc with h | h
      · exact h
      · exact absurd ((bit1_test col).mpr h) h2
    rw [if_pos h1, if_neg h2, (bit1_test row).mp h1, e2]
    rfl
  · have e1 : row / 2 % 2 = 0 := by
      rcases hr with h | h
      · exact h
      · exact absurd ((bit1_test row).mpr h) h1
    rw [if_neg h1, if_pos h2, e1, (bit1_test col).mp h2]
    rfl
  · have e1 : row / 2 % 2 = 0 := by
      rcases hr with h | h
      · exact h
      · exact absurd ((bit1_test row).mpr h) h1
    have e2 : col / 2 % 2 = 0 := by
      rcases hc with h | h
      · exact h
      · exact absurd ((bit1_test col).mpr h) h2
    rw [if_neg h1, if_neg h2, e1, e2]
    rfl

theorem ppu_bus_read_congr (n : nes_t) (a b : Nat) (h : a % 16384 = b % 16384) :
    ppu_bus_read n a = ppu_bus_read n b := by
  unfold ppu_bus_read
  dsimp only
  rw [and_0x3FFF, and_0x3FFF, h]

theorem pattern_table_eq (rc : Nat) :
    (if rc &&& 0x10 ≠ 0 then 0x1000 else 0x0000 : Nat) = if rc / 16 % 2 = 1 then 0x1000 else 0 := by
  by_cases h : rc &&& 0x10 ≠ 0
  · rw [if_pos h, if_pos ((bit4_test rc).mp h)]
  · rw [if_neg h, if_neg (fun h4 => h ((bit4_test rc).mpr h4))]

/-- With the background enabled, `ppu_get_bg_pixel` returns the background of the claim. -/
theorem ppu_get_bg_pixel_eq (n : nes_t) (x y : Nat) (h : n.ppu.reg_mask &&& 0x08 ≠ 0) :
    ppu_get_bg_pixel n (x : Int) (y : Int) = claimed_background n x y := by
  have hX : (((x : Int) + (n.ppu.scroll_x : Int)) % 512).toNat = (x + n.ppu.scroll_x) % 512 := by
    omega
  have hT : Int.tmod ((y : Int) + (n.ppu.scroll_y : Int)) 480
      = (((y + n.ppu.scroll_y) % 480 : Nat) : Int) := by
    rw [Int.tmod_eq_emod (by omega) (by decide)]
    omega
  have hY : (if Int.tmod ((y : Int) + (n.ppu.scroll_y : Int)) 480 < 0
      then Int.tmod ((y : Int) + (n.ppu.scroll_y : Int)) 480 + 480
      else Int.tmod ((y : Int) + (n.ppu.scroll_y : Int)) 480).toNat
      = (y + n.ppu.scroll_y) % 480 := by
    rw [hT, if_neg (by omega)]
    rfl
  have hXlt : (x + n.ppu.scroll_x) % 512 < 512 := Nat.mod_lt _ (by decide)
  have hYlt : (y + n.ppu.scroll_y) % 480 < 480 := Nat.mod_lt _ (by decide)
  unfold ppu_get_bg_pixel claimed_background nes_ppu_bus_read
  dsimp only
  rw [if_neg (by simpa using h), hX, hY]
  generalize (x + n.ppu.scroll_x) % 512 = X at hXlt ⊢
  generalize (y + n.ppu.scroll_y) % 480 = Y at hYlt ⊢
  rw [nametable_select _ X Y hXlt hYlt, and_255, and_7, and_7, quadrant_eq, pattern_table_eq,
    plane_pixel_eq]
  generalize ((n.ppu.render_ctrl % 4) ^^^ (X / 256)) ^^^ (2 * (Y / 240)) = nt
  generalize (if n.ppu.render_ctrl / 16 % 2 = 1 then 0x1000 else 0 : Nat) = tb
  have eT := ppu_bus_read_congr n
    (((8192 + nt * 1024) % 65536 + Y % 240 / 8 * 32 + X % 256 / 8) % 65536)
    (8192 + nt * 1024 + Y % 240 / 8 * 32 + X % 256 / 8) (by omega)
  have eA := ppu_bus_read_congr n
    (((8192 + nt * 1024) % 65536 + 960 + Y % 240 / 8 / 4 * 8 + X % 256 / 8 / 4) % 65536)
    (8192 + nt * 1024 + 960 + Y % 240 / 8 / 4 * 8 + X % 256 / 8 / 4) (by omega)
  rw [eT, eA, quadrant_select _ _ (by omega)]
  generalize ppu_bus_read n (8192 + nt * 1024 + Y % 240 / 8 * 32 + X % 256 / 8) = tile
  have eL := ppu_bus_read_congr n ((tb + tile * 16 + Y % 240 % 8) % 65536)
    (tb + tile * 16 + Y % 8) (by omega)
  have eH := ppu_bus_read_congr n (((tb + tile * 16 + Y % 240 % 8) % 65536 + 8) % 65536)
    (tb + tile * 16 + Y % 8 + 8) (by omega)
  have eB : 7 - X % 256 % 8 = 7 - X % 8 := by omega
  rw [eL, eH, eB]

/-- `ppu_get_bg_pixel` at integer coordinates that are not negative. -/
theorem ppu_get_bg_pixel_claimed (n : nes_t) (x y : Int) (hx : 0 ≤ x) (hy : 0 ≤ y)
    (h : n.ppu.reg_mask &&& 0x08 ≠ 0) :
    ppu_get_bg_pixel n x y = claimed_background n x.toNat y.toNat := by
  have e := ppu_get_bg_pixel_eq n x.toNat y.toNat h
  rw [Int.toNat_of_nonneg hx, Int.toNat_of_nonneg hy] at e
  exact e

theorem claimed_background_lt (n : nes_t) (x y : Nat) :
    (claimed_background n x y).1 < 4 ∧ (claimed_background n x y).2 < 4 := by
  unfold claimed_background
  dsimp only
  constructor
  · omega
  · exact Nat.mod_lt _ (by decide)

/-- The loop of `sprite_pixel` returns the first cached sprite, from `si` on, with a non-zero
pixel at `x`. -/
theorem sprite_pixel_loop_spec (n : nes_t) (y x sprite_h : Int) (base_pt8 : Nat)
    (o : sprite_out) (k : Nat) : ∀ (si : Nat),
    sprite_pixel_loop n y x sprite_h base_pt8 o k si =
      sprite_found n y x sprite_h base_pt8 o
        ((List.range' si k).find?
          (fun j => decide (sprite_px_at n y x sprite_h base_pt8 j ≠ 0))) := by
  induction k with
  | zero => intro si; rfl
  | succ k ih =>
    intro si
    rw [List.range'_succ, List.find?_cons]
    unfold sprite_pixel_loop
    dsimp only
    by_cases hx : x < (n.ppu.scan_spr_x si : Int) ∨ x ≥ (n.ppu.scan_spr_x si : Int) + 8
    · have h0 : sprite_px_at n y x sprite_h base_pt8 si = 0 := by
        unfold sprite_px_at
        dsimp only
        rw [if_pos hx]
      rw [if_pos hx, h0]
      simp only [ne_eq, not_true_eq_false, decide_False]
      exact ih (si + 1)
    · have hp : sprite_px_at n y x sprite_h base_pt8 si =
          sprite_pattern_pixel n sprite_h base_pt8 (n.ppu.scan_spr_tile si)
            (if n.ppu.scan_spr_attr si &&& 0x80 ≠ 0
              then (sprite_h - 1) - (y - ((n.ppu.scan_spr_y si : Int) + 1))
              else y - ((n.ppu.scan_spr_y si : Int) + 1))
            (if n.ppu.scan_spr_attr si &&& 0x40 ≠ 0
              then 7 - (x - (n.ppu.scan_spr_x si : Int))
              else x - (n.ppu.scan_spr_x si : Int)).toNat := by
        unfold sprite_px_at
        dsimp only
        rw [if_neg hx]
      rw [if_neg hx]
      simp only [decide_eq_true_eq]
      rw [← hp]
      by_cases h0 : sprite_px_at n y x sprite_h base_pt8 si = 0
      · rw [if_pos h0, h0]
        simp only [ne_eq, not_true_eq_false, decide_False]
        exact ih (si + 1)
      · rw [if_neg h0]
        simp only [ne_eq, h0, not_false_eq_true, decide_True]
        rfl

/-- The sprite palette entry that the renderer reads for palette `p` and pixel `s`. -/
theorem sprite_palette_read (n : nes_t) (p s : Nat) (hp : p < 4) (hs : s < 4) (h0 : s ≠ 0) :
    nes_ppu_bus_read n ((0x3F10 + 1 + p * 4 + (s - 1)) % 65536)
      = n.ppu.palette (0x10 + 4 * p + s) := by
  interval_cases p <;> interval_cases s <;> first | exact absurd rfl h0 | rfl

/-- The background palette entry that the renderer reads for palette `p` and pixel `s`. -/
theorem bg_palette_read (n : nes_t) (p s : Nat) (hp : p < 4) (hs : s < 4) (h0 : s ≠ 0) :
    nes_ppu_bus_read n ((0x3F00 + 1 + p * 4 + (s - 1)) % 65536)
      = n.ppu.palette (4 * p + s) := by
  interval_cases p <;> interval_cases s <;> first | exact absurd rfl h0 | rfl

/-- `sprite_pixel` returns the sprite of the claim. -/
theorem sprite_pixel_eq (n : nes_t) (y x : Int) (o : sprite_out) :
    sprite_pixel n y x o =
      sprite_found n y x (if n.ppu.render_ctrl &&& 0x20 ≠ 0 then 16 else 8)
        (if n.ppu.render_ctrl &&& 0x08 ≠ 0 then 0x1000 else 0x0000) o (claimed_sprite n y x) := by
  have hl := sprite_pixel_loop_spec n y x (if n.ppu.render_ctrl &&& 0x20 ≠ 0 then 16 else 8)
    (if n.ppu.render_ctrl &&& 0x08 ≠ 0 then 0x1000 else 0x0000) o n.ppu.scan_spr_count 0
  have hd : sprite_pixel n y x o =
      if n.ppu.reg_mask &&& 0x10 = 0 ∨ (x < 8 ∧ n.ppu.reg_mask &&& 0x04 = 0) then
        { o with px := 0 }
      else sprite_pixel_loop n y x (if n.ppu.render_ctrl &&& 0x20 ≠ 0 then 16 else 8)
        (if n.ppu.render_ctrl &&& 0x08 ≠ 0 then 0x1000 else 0x0000) o n.ppu.scan_spr_count 0 := by
    unfold sprite_pixel
    dsimp only
    by_cases h1 : n.ppu.reg_mask &&& 0x10 = 0 <;> by_cases h2 : x < 8 <;>
      by_cases h3 : n.ppu.reg_mask &&& 0x04 = 0 <;>
      simp only [h1, h2, h3, ne_eq, not_true_eq_false, not_false_eq_true, decide_True,
        decide_False, Bool.false_eq_true, Bool.not_eq_true, if_true, if_false, true_or,
        or_true, false_or, or_false, and_true, true_and, and_false, false_and, not_not,
        decide_not, Bool.not_true, Bool.not_false, and_self]
  rw [hd, hl]
  unfold claimed_sprite first_opaque_sprite cached_sprite_px
  by_cases hc : n.ppu.reg_mask &&& 0x10 = 0 ∨ (x < 8 ∧ n.ppu.reg_mask &&& 0x04 = 0)
  · have e1 : (if n.ppu.reg_mask &&& 0x10 = 0 ∨ (x < 8 ∧ n.ppu.reg_mask &&& 0x04 = 0)
        then (none : Option Nat) else
          (List.range' 0 n.ppu.scan_spr_count).find? (fun si => decide (sprite_px_at n y x
            (if n.ppu.render_ctrl &&& 0x20 ≠ 0 then 16 else 8)
            (if n.ppu.render_ctrl &&& 0x08 ≠ 0 then 0x1000 else 0x0000) si ≠ 0))) = none :=
      if_pos hc
    rw [e1, if_pos hc]
    rfl
  · have e1 : (if n.ppu.reg_mask &&& 0x10 = 0 ∨ (x < 8 ∧ n.ppu.reg_mask &&& 0x04 = 0)
        then (none : Option Nat) else
          (List.range' 0 n.ppu.scan_spr_count).find? (fun si => decide (sprite_px_at n y x
            (if n.ppu.render_ctrl &&& 0x20 ≠ 0 then 16 else 8)
            (if n.ppu.render_ctrl &&& 0x08 ≠ 0 then 0x1000 else 0x0000) si ≠ 0))) =
          (List.range' 0 n.ppu.scan_spr_count).find? (fun si => decide (sprite_px_at n y x
            (if n.ppu.render_ctrl &&& 0x20 ≠ 0 then 16 else 8)
            (if n.ppu.render_ctrl &&& 0x08 ≠ 0 then 0x1000 else 0x0000) si ≠ 0)) :=
      if_neg hc
    rw [e1, if_neg hc]

theorem ppu_get_bg_pixel_off (n : nes_t) (x y : Int) (h : n.ppu.reg_mask &&& 0x08 = 0) :
    ppu_get_bg_pixel n x y = (0, 0) := by
  unfold ppu_get_bg_pixel
  dsimp only
  rw [if_pos (by simpa using h)]

theorem claimed_bg_px_lt (n : nes_t) (y x : Int) : claimed_bg_px n y x < 4 := by
  unfold claimed_bg_px
  split
  · decide
  · exact (claimed_background_lt n x.toNat y.toNat).1

/-- The background pixel that `render_scanline` works with is the one of the claim, and it
is opaque exactly when it is not 0. -/
theorem render_bg_px (n : nes_t) (y x : Int) (hx : 0 ≤ x) (hy : 0 ≤ y) :
    (if x < 8 ∧ ¬ (n.ppu.reg_mask &&& 0x02 ≠ 0) then 0 else (ppu_get_bg_pixel n x y).1)
      = claimed_bg_px n y x ∧
    (claimed_bg_px n y x ≠ 0 → n.ppu.reg_mask &&& 0x08 ≠ 0) := by
  unfold claimed_bg_px
  by_cases h8 : n.ppu.reg_mask &&& 0x08 = 0
  · rw [ppu_get_bg_pixel_off n x y h8, if_pos (Or.inl h8)]
    refine ⟨?_, fun h => absurd rfl h⟩
    split <;> rfl
  · rw [ppu_get_bg_pixel_claimed n x y hx hy h8]
    by_cases h2 : x < 8 ∧ n.ppu.reg_mask &&& 0x02 = 0
    · have e : x < 8 ∧ ¬ (n.ppu.reg_mask &&& 0x02 ≠ 0) := ⟨h2.1, not_not.mpr h2.2⟩
      rw [if_pos e, if_pos (Or.inr h2)]
      exact ⟨rfl, fun _ => h8⟩
    · have e : ¬ (x < 8 ∧ ¬ (n.ppu.reg_mask &&& 0x02 ≠ 0)) :=
        fun hc => h2 ⟨hc.1, not_not.mp hc.2⟩
      rw [if_neg e, if_neg (fun hc => hc.elim h8 h2)]
      exact ⟨rfl, fun _ => h8⟩

/-- The three-way choice of `render_scanline` for one pixel. -/
theorem render_pixel_def (n : nes_t) (y x : Int) (bg : Nat) (sp : sprite_out)
    (hbg : (if x < 8 ∧ ¬ (n.ppu.reg_mask &&& 0x02 ≠ 0) then 0 else (ppu_get_bg_pixel n x y).1)
      = bg)
    (hsp : sprite_pixel n y x { px := 0, palette := 0, priority := 0, is_sprite0 := false }
      = sp) :
    render_pixel n y x =
      if (sp.px ≠ 0 ∧ n.ppu.reg_mask &&& 0x10 ≠ 0) ∧
          (¬ (bg ≠ 0 ∧ n.ppu.reg_mask &&& 0x08 ≠ 0) ∨ sp.priority = 0) then
        nes_ppu_bus_read n ((0x3F10 + 1 + sp.palette * 4 + (sp.px - 1)) % 65536) &&& 0x3F
      else if bg ≠ 0 ∧ n.ppu.reg_mask &&& 0x08 ≠ 0 then
        nes_ppu_bus_read n ((0x3F00 + 1 + (ppu_get_bg_pixel n x y).2 * 4 + (bg - 1)) % 65536)
          &&& 0x3F
      else n.ppu.palette 0 &&& 0x3F := by
  unfold render_pixel
  dsimp only
  rw [hbg, hsp]
  simp only [Bool.and_eq_true, decide_eq_true_eq]

/-- The colour index that `render_scanline` computes for a pixel is the one of the claim. -/
theorem render_pixel_eq (n : nes_t) (y x : Int) (hx : 0 ≤ x) (hy : 0 ≤ y) :
    render_pixel n y x = claimed_colour n y x := by
  obtain ⟨hB, hB8⟩ := render_bg_px n y x hx hy
  have hS := sprite_pixel_eq n y x { px := 0, palette := 0, priority := 0, is_sprite0 := false }
  rw [render_pixel_def n y x _ _ hB hS]
  have hBlt := claimed_bg_px_lt n y x
  have hPlt := (ppu_get_bg_pixel_lt n x y).2
  have hPeq : claimed_bg_px n y x ≠ 0 → claimed_bg_palette n y x = (ppu_get_bg_pixel n x y).2 := by
    intro h0
    unfold claimed_bg_palette
    rw [ppu_get_bg_pixel_claimed n x y hx hy (hB8 h0)]
  unfold claimed_colour
  generalize claimed_bg_px n y x = B at hB8 hBlt hPeq ⊢
  generalize (ppu_get_bg_pixel n x y).2 = P at hPlt hPeq ⊢
  generalize claimed_bg_palette n y x = Q at hPeq ⊢
  cases hc : claimed_sprite n y x with
  | none =>
    dsimp only [sprite_found]
    rw [if_neg (fun h => h.1.1 rfl)]
    by_cases h0 : B = 0
    · rw [if_neg (fun h => h.1 h0), if_neg (fun h => h h0)]
    · rw [if_pos ⟨h0, hB8 h0⟩, if_pos h0, bg_palette_read n P B hPlt hBlt h0, hPeq h0]
  | some si =>
    have hfind : first_opaque_sprite n y x = some si ∧ n.ppu.reg_mask &&& 0x10 ≠ 0 := by
      unfold claimed_sprite at hc
      by_cases hd : n.ppu.reg_mask &&& 0x10 = 0 ∨ (x < 8 ∧ n.ppu.reg_mask &&& 0x04 = 0)
      · rw [if_pos hd] at hc
        exact Option.noConfusion hc
      · rw [if_neg hd] at hc
        exact ⟨hc, fun h => hd (Or.inl h)⟩
    have hpx : cached_sprite_px n y x si ≠ 0 := by
      have := List.find?_some hfind.1
      simpa using this
    have hpxlt : cached_sprite_px n y x si < 4 := sprite_px_at_lt _ _ _ _ _ _
    have h3 : ∀ a : Nat, (a &&& 0x03) % 256 = a &&& 0x03 := fun a =>
      Nat.mod_eq_of_lt (Nat.lt_of_le_of_lt Nat.and_le_right (by decide))
    have h3lt : ∀ a : Nat, a &&& 0x03 < 4 := fun a =>
      Nat.lt_of_le_of_lt Nat.and_le_right (by decide)
    dsimp only [sprite_found]
    change (if (cached_sprite_px n y x si ≠ 0 ∧ n.ppu.reg_mask &&& 0x10 ≠ 0) ∧
        (¬ (B ≠ 0 ∧ n.ppu.reg_mask &&& 0x08 ≠ 0) ∨
          (if n.ppu.scan_spr_attr si &&& 0x20 ≠ 0 then 1 else 0) = 0) then
        nes_ppu_bus_read n ((0x3F10 + 1 + (n.ppu.scan_spr_attr si &&& 0x03) % 256 * 4
          + (cached_sprite_px n y x si - 1)) % 65536) &&& 0x3F
      else if B ≠ 0 ∧ n.ppu.reg_mask &&& 0x08 ≠ 0 then
        nes_ppu_bus_read n ((0x3F00 + 1 + P * 4 + (B - 1)) % 65536) &&& 0x3F
      else n.ppu.palette 0 &&& 0x3F) = _
    rw [h3]
    by_cases hfront : B = 0 ∨ n.ppu.scan_spr_attr si &&& 0x20 = 0
    · have hcond : (cached_sprite_px n y x si ≠ 0 ∧ n.ppu.reg_mask &&& 0x10 ≠ 0) ∧
          (¬ (B ≠ 0 ∧ n.ppu.reg_mask &&& 0x08 ≠ 0) ∨
            (if n.ppu.scan_spr_attr si &&& 0x20 ≠ 0 then 1 else 0) = 0) := by
        refine ⟨⟨hpx, hfind.2⟩, ?_⟩
        rcases hfront with h | h
        · exact Or.inl (fun hh => hh.1 h)
        · exact Or.inr (by rw [if_neg (not_not.mpr h)])
      rw [if_pos hcond, if_pos hfront,
        sprite_palette_read n _ _ (h3lt _) hpxlt hpx]
    · have hb0 : B ≠ 0 := fun h => hfront (Or.inl h)
      have ha : n.ppu.scan_spr_attr si &&& 0x20 ≠ 0 := fun h => hfront (Or.inr h)
      have hcond : ¬ ((cached_sprite_px n y x si ≠ 0 ∧ n.ppu.reg_mask &&& 0x10 ≠ 0) ∧
          (¬ (B ≠ 0 ∧ n.ppu.reg_mask &&& 0x08 ≠ 0) ∨
            (if n.ppu.scan_spr_attr si &&& 0x20 ≠ 0 then 1 else 0) = 0)) := by
        rintro ⟨_, h | h⟩
        · exact h ⟨hb0, hB8 hb0⟩
        · rw [if_pos ha] at h
          exact absurd h (by decide)
      rw [if_neg hcond, if_pos ⟨hb0, hB8 hb0⟩, if_neg hfront,
        bg_palette_read n P B hPlt hBlt hb0, hPeq hb0]

/-- The first element of `si, si+1, .., si+k-1` that satisfies `p`. -/
theorem find_range_some (p : Nat → Bool) (k : Nat) : ∀ (si j : Nat),
    (List.range' si k).find? p = some j ↔
      (si ≤ j ∧ j < si + k) ∧ p j = true ∧ ∀ i, si ≤ i → i < j → p i = false := by
  induction k with
  | zero =>
    intro si j
    constructor
    · intro h; exact Option.noConfusion h
    · rintro ⟨⟨h1, h2⟩, _⟩; omega
  | succ k ih =>
    intro si j
    rw [List.range'_succ, List.find?_cons]
    cases hp : p si with
    | true =>
      constructor
      · intro h
        have e : si = j := Option.some.inj h
        subst e
        exact ⟨⟨Nat.le_refl _, by omega⟩, hp, fun i h1 h2 => by omega⟩
      · rintro ⟨⟨h1, _⟩, _, h3⟩
        by_cases e : si = j
        · rw [e]
        · have := h3 si (Nat.le_refl _) (by omega)
          rw [hp] at this
          exact Bool.noConfusion this
    | false =>
      rw [ih (si + 1) j]
      constructor
      · rintro ⟨⟨h1, h2⟩, h3, h4⟩
        refine ⟨⟨by omega, by omega⟩, h3, fun i hi1 hi2 => ?_⟩
        by_cases e : i = si
        · rw [e]; exact hp
        · exact h4 i (by omega) hi2
      · rintro ⟨⟨h1, h2⟩, h3, h4⟩
        have hne : si ≠ j := by
          intro e
          rw [e] at hp
          rw [hp] at h3
          exact Bool.noConfusion h3
        exact ⟨⟨by omega, by omega⟩, h3, fun i hi1 hi2 => h4 i (by omega) hi2⟩

/-- The loop of `render_scanline` stores the colour of each of its pixels and nothing else. -/
theorem render_scanline_loop_spec (n : nes_t) (y : Int) (hy : 0 ≤ y) (k : Nat) :
    ∀ (x0 : Nat) (fb : Nat → Nat),
    (∀ x : Nat, x0 ≤ x → x < x0 + k →
      render_scanline_loop n y k x0 fb (y * 256 + (x : Int)).toNat
        = nes_palette_rgb (render_pixel n y (x : Int))) ∧
    (∀ i : Nat, (∀ x : Nat, x0 ≤ x → x < x0 + k → i ≠ (y * 256 + (x : Int)).toNat) →
      render_scanline_loop n y k x0 fb i = fb i) := by
  induction k with
  | zero =>
    intro x0 fb
    exact ⟨fun x h1 h2 => by omega, fun i _ => rfl⟩
  | succ k ih =>
    intro x0 fb
    obtain ⟨i1, i2⟩ := ih (x0 + 1)
      (mem_set fb (y * 256 + (x0 : Int)).toNat (nes_palette_rgb (render_pixel n y (x0 : Int))))
    have e : render_scanline_loop n y (k + 1) x0 fb =
        render_scanline_loop n y k (x0 + 1)
          (mem_set fb (y * 256 + (x0 : Int)).toNat
            (nes_palette_rgb (render_pixel n y (x0 : Int)))) := rfl
    rw [e]
    constructor
    · intro x h1 h2
      by_cases hx : x = x0
      · subst hx
        rw [i2 _ (fun x' h1' h2' => by omega), mem_set_same]
      · exact i1 x (by omega) (by omega)
    · intro i hi
      rw [i2 i (fun x h1 h2 => hi x (by omega) (by omega)),
        mem_set_other _ _ _ _ (hi x0 (Nat.le_refl _) (by omega))]

theorem bit_test (a i : Nat) : a &&& 2 ^ i ≠ 0 ↔ a / 2 ^ i % 2 = 1 := by
  have h := and_two_pow_ne_zero a i
  rw [Nat.testBit_to_div_mod] at h
  simpa using h

theorem and_0xFE (t : Nat) : t &&& 0xFE = t % 256 / 2 * 2 := by
  have h : ∀ b : Nat, b < 256 → b &&& 0xFE = b / 2 * 2 := by
    intro b hb
    interval_cases b <;> rfl
  have e : t &&& 0xFE = (t % 256) &&& 0xFE := by
    rw [← and_0xFF, and_mask_mask _ 0xFF 0xFE 0xFE (by decide)]
  rw [e, h _ (Nat.mod_lt _ (by decide))]

theorem sample_congr (n : nes_t) (a1 a1' a2 a2' b b' : Nat) (h1 : a1 % 16384 = a1' % 16384)
    (h2 : a2 % 16384 = a2' % 16384) (hb : b = b') :
    2 * (ppu_bus_read n a2 / 2 ^ b % 2) + ppu_bus_read n a1 / 2 ^ b % 2
      = 2 * (ppu_bus_read n a2' / 2 ^ b' % 2) + ppu_bus_read n a1' / 2 ^ b' % 2 := by
  rw [ppu_bus_read_congr n a1 a1' h1, ppu_bus_read_congr n a2 a2' h2, hb]

/-- The pixel that the renderer samples from a cached sprite, at a position inside it. -/
theorem cached_sprite_px_eq (n : nes_t) (y x si : Nat)
    (hx : n.ppu.scan_spr_x si ≤ x ∧ x < n.ppu.scan_spr_x si + 8)
    (hy : n.ppu.scan_spr_y si + 1 ≤ y ∧
      y < n.ppu.scan_spr_y si + 1 + (if n.ppu.render_ctrl / 32 % 2 = 1 then 16 else 8)) :
    cached_sprite_px n (y : Int) (x : Int) si = claimed_sprite_px n y x si := by
  have b3 : n.ppu.render_ctrl &&& 0x08 ≠ 0 ↔ n.ppu.render_ctrl / 8 % 2 = 1 :=
    bit_test n.ppu.render_ctrl 3
  have b5 : n.ppu.render_ctrl &&& 0x20 ≠ 0 ↔ n.ppu.render_ctrl / 32 % 2 = 1 :=
    bit_test n.ppu.render_ctrl 5
  have b6 : n.ppu.scan_spr_attr si &&& 0x40 ≠ 0 ↔ n.ppu.scan_spr_attr si / 64 % 2 = 1 :=
    bit_test (n.ppu.scan_spr_attr si) 6
  have b7 : n.ppu.scan_spr_attr si &&& 0x80 ≠ 0 ↔ n.ppu.scan_spr_attr si / 128 % 2 = 1 :=
    bit_test (n.ppu.scan_spr_attr si) 7
  have b0 : n.ppu.scan_spr_tile si &&& 1 ≠ 0 ↔ n.ppu.scan_spr_tile si % 2 = 1 := by
    rw [Nat.and_one_is_mod]
    omega
  obtain ⟨r0, hr0⟩ : ∃ r0, y = n.ppu.scan_spr_y si + 1 + r0 :=
    ⟨y - (n.ppu.scan_spr_y si + 1), by omega⟩
  obtain ⟨c0, hc0⟩ : ∃ c0, x = n.ppu.scan_spr_x si + c0 :=
    ⟨x - n.ppu.scan_spr_x si, by omega⟩
  subst hr0 hc0
  have er : n.ppu.scan_spr_y si + 1 + r0 - (n.ppu.scan_spr_y si + 1) = r0 := by omega
  have ec : n.ppu.scan_spr_x si + c0 - n.ppu.scan_spr_x si = c0 := by omega
  have er' : ((n.ppu.scan_spr_y si + 1 + r0 : Nat) : Int) - ((n.ppu.scan_spr_y si : Int) + 1)
      = (r0 : Int) := by omega
  have ec' : ((n.ppu.scan_spr_x si + c0 : Nat) : Int) - (n.ppu.scan_spr_x si : Int)
      = (c0 : Int) := by omega
  have hc : c0 < 8 := by omega
  unfold cached_sprite_px sprite_px_at sprite_pattern_pixel claimed_sprite_px nes_ppu_bus_read
  dsimp only
  rw [if_neg (by omega), plane_pixel_eq]
  have em : ∀ a b : Int, Int.emod a b = a % b := fun _ _ => rfl
  simp only [b3, b5, b6, b7, b0, and_0xFE, er, ec, er', ec', em]
  generalize n.ppu.scan_spr_tile si = tile
  generalize n.ppu.scan_spr_attr si = attr
  by_cases h5 : n.ppu.render_ctrl / 32 % 2 = 1
  · rw [if_pos h5] at hy
    have hr : r0 < 16 := by omega
    simp only [h5, if_true]
    refine sample_congr n _ _ _ _ _ _ ?_ ?_ ?_
    · split_ifs <;> omega
    · split_ifs <;> omega
    · split_ifs <;> omega
  · rw [if_neg h5] at hy
    have hr : r0 < 8 := by omega
    simp only [h5, if_false]
    refine sample_congr n _ _ _ _ _ _ ?_ ?_ ?_
    · split_ifs <;> omega
    · split_ifs <;> omega
    · split_ifs <;> omega

theorem claimed_colour_lt (n : nes_t) (y x : Int) : claimed_colour n y x < 64 := by
  have h : ∀ a : Nat, a &&& 0x3F < 64 := fun a =>
    Nat.lt_of_le_of_lt Nat.and_le_right (by decide)
  unfold claimed_colour
  split
  · split <;> exact h _
  · split <;> exact h _

/-- C36: for every `x` in `0..255` of a visible scanline `y` (`0..239`), `render_scanline`
stores at `framebuffer[y*256 + x]`, a cell of the 256 x 240 framebuffer, the RGB table entry
of the colour index `c` of the claim (`claimed_colour`): with `bg` the background pixel,
forced to 0 when the background is disabled or when `x < 8` and mask bit 1 is clear, and `sp`
the pixel of the first cached sprite with a non-zero pixel at `x`, none when sprites are
disabled or when `x < 8` and mask bit 2 is clear: if there is such a sprite and (`bg = 0` or
its attribute bit 5 is clear), `c` is the palette entry `$10 + 4 * sprite palette + sp`; else
if `bg != 0`, the palette entry `4 * background palette + bg`; else `palette[0]`; masked to
6 bits.  The background pixel and
palette are those of `claimed_background`: the tile of the nametable at the scrolled
position, the bits of its two pattern planes and the quadrant field of its attribute byte;
`ppu_get_bg_pixel` returns exactly them when the background is enabled.  The pixel of a
cached sprite is 0 outside its eight columns and, for a sprite that covers the line, the
pattern pixel of `claimed_sprite_px` inside them.  No other framebuffer cell changes, and
with background and sprites both disabled the whole line has the colour of `palette[0]`. -/
theorem render_scanline_pixels (n : nes_t) (y : Int) (hy : 0 ≤ y) (hy2 : y < 240) :
    (∀ x : Nat, x < 256 →
      (y * 256 + (x : Int)).toNat < 256 * 240 ∧
      (render_scanline n y).ppu.framebuffer (y * 256 + (x : Int)).toNat
        = nes_palette_rgb (claimed_colour n y (x : Int))) ∧
    (∀ i : Nat, (∀ x : Nat, x < 256 → i ≠ (y * 256 + (x : Int)).toNat) →
      (render_scanline n y).ppu.framebuffer i = n.ppu.framebuffer i) ∧
    (∀ x : Int, claimed_colour n y x < 64) ∧
    (∀ (x : Int) (si : Nat), first_opaque_sprite n y x = some si ↔
      si < n.ppu.scan_spr_count ∧ cached_sprite_px n y x si ≠ 0 ∧
        ∀ j, j < si → cached_sprite_px n y x j = 0) ∧
    (n.ppu.reg_mask &&& 0x08 = 0 → n.ppu.reg_mask &&& 0x10 = 0 → ∀ x : Nat, x < 256 →
      (render_scanline n y).ppu.framebuffer (y * 256 + (x : Int)).toNat
        = nes_palette_rgb (n.ppu.palette 0)) ∧
    (n.ppu.reg_mask &&& 0x08 ≠ 0 → ∀ x : Nat, x < 256 →
      ppu_get_bg_pixel n (x : Int) y = claimed_background n x y.toNat) ∧
    (∀ x si : Nat, x < 256 →
      (¬ (n.ppu.scan_spr_x si ≤ x ∧ x < n.ppu.scan_spr_x si + 8) →
        cached_sprite_px n y (x : Int) si = 0) ∧
      (n.ppu.scan_spr_x si ≤ x ∧ x < n.ppu.scan_spr_x si + 8 →
        (n.ppu.scan_spr_y si : Int) + 1 ≤ y ∧
          y < (n.ppu.scan_spr_y si : Int) + 1 +
            (if n.ppu.render_ctrl / 32 % 2 = 1 then 16 else 8) →
        cached_sprite_px n y (x : Int) si = claimed_sprite_px n y.toNat x si)) := by
  obtain ⟨l1, l2⟩ := render_scanline_loop_spec n y hy 256 0 n.ppu.framebuffer
  have hfb : (render_scanline n y).ppu.framebuffer
      = render_scanline_loop n y 256 0 n.ppu.framebuffer := by
    simp only [render_scanline]
  have hpix : ∀ x : Nat, x < 256 →
      (render_scanline n y).ppu.framebuffer (y * 256 + (x : Int)).toNat
        = nes_palette_rgb (claimed_colour n y (x : Int)) := by
    intro x hx
    rw [hfb, l1 x (Nat.zero_le _) (by omega), render_pixel_eq n y (x : Int) (by omega) hy]
  refine ⟨fun x hx => ⟨by omega, hpix x hx⟩, ?_, claimed_colour_lt n y, ?_, ?_, ?_, ?_⟩
  · intro i hi
    rw [hfb]
    exact l2 i (fun x _ h2 => hi x (by omega))
  · intro x si
    unfold first_opaque_sprite
    rw [find_range_some]
    constructor
    · rintro ⟨⟨_, h2⟩, h3, h4⟩
      refine ⟨by omega, by simpa using h3, fun j hj => ?_⟩
      have := h4 j (Nat.zero_le _) hj
      simpa using this
    · rintro ⟨h1, h2, h3⟩
      refine ⟨⟨Nat.zero_le _, by omega⟩, by simpa using h2, fun j _ hj => ?_⟩
      have := h3 j hj
      simpa using this
  · intro h8 h10 x hx
    rw [hpix x hx]
    have hs : claimed_sprite n y (x : Int) = none := by
      unfold claimed_sprite
      rw [if_pos (Or.inl h10)]
    have hb : claimed_bg_px n y (x : Int) = 0 := by
      unfold claimed_bg_px
      rw [if_pos (Or.inl h8)]
    unfold claimed_colour
    rw [hs]
    dsimp only
    rw [if_neg (fun h => h hb)]
    unfold nes_palette_rgb
    rw [and_mask_mask _ 0x3F 0x3F 0x3F (by decide)]
  · intro h8 x _
    have e := ppu_get_bg_pixel_claimed n (x : Int) y (by omega) hy h8
    rw [Int.toNat_ofNat] at e
    exact e
  · intro x si _
    constructor
    · intro hout
      unfold cached_sprite_px sprite_px_at
      dsimp only
      rw [if_pos (by omega)]
    · intro hin hrow
      have e := cached_sprite_px_eq n y.toNat x si hin (by
        constructor
        · omega
        · split_ifs at hrow ⊢ <;> omega)
      rw [Int.toNat_of_nonneg hy] at e
      exact e

set_option maxRecDepth 100000 in
theorem render_scanline_pixels_witness :
    ((render_scanline demo_render_bg 10).ppu.framebuffer 2658 = 0xFFB71E7B ∧
      (render_scanline demo_render_bg 10).ppu.framebuffer 2605 = 0xFF4F4F4F ∧
      (render_scanline demo_render_bg 10).ppu.framebuffer 2640 = 0xFF008F32 ∧
      (render_scanline demo_render_bg 10).ppu.framebuffer 2645 = 0xFFFEC4EA ∧
      (render_scanline demo_render_bg 10).ppu.framebuffer 2561 = 0xFF002A88 ∧
      (render_scanline demo_render_bg 10).ppu.framebuffer 2564 = 0xFFB8B8B8 ∧
      (render_scanline demo_render_bg 10).ppu.framebuffer 2680 = 0xFF002A88) ∧
    (ppu_get_bg_pixel demo_render_bg 98 10 = (2, 2) ∧
      ppu_get_bg_pixel demo_render_bg 45 10 = (3, 3) ∧
      ppu_get_bg_pixel demo_render_bg 80 10 = (1, 3) ∧
      ppu_get_bg_pixel demo_render_bg 85 10 = (0, 3)) ∧
    (first_opaque_sprite demo_render_bg 10 45 = some 0 ∧
      first_opaque_sprite demo_render_bg 10 80 = some 1 ∧
      first_opaque_sprite demo_render_bg 10 4 = some 2 ∧
      first_opaque_sprite demo_render_bg 10 98 = none) ∧
    (cached_sprite_px demo_render_bg 10 45 0 = 2 ∧
      cached_sprite_px demo_render_bg 10 80 1 = 3 ∧
      cached_sprite_px demo_render_bg 10 4 2 = 2 ∧
      cached_sprite_px demo_render_bg 10 98 0 = 0) ∧
    (render_scanline demo_render_off 10).ppu.framebuffer 2658 = 0xFF002A88 ∧
    ((render_scanline demo_render 10).ppu.framebuffer 2580 = 0xFFB53120 ∧
      first_opaque_sprite demo_render 10 20 = some 0) := by
  have h := render_scanline_pixels demo_render_bg 10 (by decide) (by decide)
  have ho := render_scanline_pixels demo_render_off 10 (by decide) (by decide)
  have hr := render_scanline_pixels demo_render 10 (by decide) (by decide)
  have c98 : claimed_colour demo_render_bg 10 ((98 : Nat) : Int) = 0x15 := by decide
  have c45 : claimed_colour demo_render_bg 10 ((45 : Nat) : Int) = 0x2D := by decide
  have c80 : claimed_colour demo_render_bg 10 ((80 : Nat) : Int) = 0x1B := by decide
  have c85 : claimed_colour demo_render_bg 10 ((85 : Nat) : Int) = 0x35 := by decide
  have c1 : claimed_colour demo_render_bg 10 ((1 : Nat) : Int) = 0x01 := by decide
  have c4 : claimed_colour demo_render_bg 10 ((4 : Nat) : Int) = 0x3D := by decide
  have c120 : claimed_colour demo_render_bg 10 ((120 : Nat) : Int) = 0x01 := by decide
  have c20 : claimed_colour demo_render 10 ((20 : Nat) : Int) = 0x16 := by decide
  have b98 := h.2.2.2.2.2.1 (by decide) 98 (by decide)
  have b45 := h.2.2.2.2.2.1 (by decide) 45 (by decide)
  have b80 := h.2.2.2.2.2.1 (by decide) 80 (by decide)
  have b85 := h.2.2.2.2.2.1 (by decide) 85 (by decide)
  have s45 := (h.2.2.2.2.2.2 45 0 (by decide)).2 (by decide) (by decide)
  have s80 := (h.2.2.2.2.2.2 80 1 (by decide)).2 (by decide) (by decide)
  have s4 := (h.2.2.2.2.2.2 4 2 (by decide)).2 (by decide) (by decide)
  have s98 := (h.2.2.2.2.2.2 98 0 (by decide)).1 (by decide)
  have p98 := (h.1 98 (by decide)).2
  have p45 := (h.1 45 (by decide)).2
  have p80 := (h.1 80 (by decide)).2
  have p85 := (h.1 85 (by decide)).2
  have p1 := (h.1 1 (by decide)).2
  have p4 := (h.1 4 (by decide)).2
  have p120 := (h.1 120 (by decide)).2
  have p20 := (hr.1 20 (by decide)).2
  have poff := ho.2.2.2.2.1 (by decide) (by decide) 98 (by decide)
  rw [c98] at p98
  rw [c45] at p45
  rw [c80] at p80
  rw [c85] at p85
  rw [c1] at p1
  rw [c4] at p4
  rw [c120] at p120
  rw [c20] at p20
  exact ⟨⟨p98, p45, p80, p85, p1, p4, p120⟩,
    ⟨b98.trans (by decide), b45.trans (by decide), b80.trans (by decide),
      b85.trans (by decide)⟩,
    ⟨by decide, by decide, by decide, by decide⟩,
    ⟨s45.trans (by decide), s80.trans (by decide), s4.trans (by decide), s98⟩,
    poff, p20, by decide⟩

/-! ## Bytes stay bytes: bus accesses -/

theorem mem_set_bytes (m : Nat → Nat) (k v : Nat) (hm : ∀ i, m i < 256) (hv : v < 256) :
    ∀ i, mem_set m k v i < 256 := by
  intro i
  unfold mem_set
  split
  · exact hv
  · exact hm i

theorem and_lt_left (a b : Nat) (h : a < 256) : a &&& b < 256 :=
  Nat.lt_of_le_of_lt Nat.and_le_left h

theorem and_lt_right (a b : Nat) (h : b < 256) : a &&& b < 256 :=
  Nat.lt_of_le_of_lt Nat.and_le_right h

theorem or_lt_256 (a b : Nat) (ha : a < 256) (hb : b < 256) : a ||| b < 256 :=
  (Nat.or_lt_two_pow ha hb : a ||| b < 2 ^ 8)

theorem xor_lt_256 (a b : Nat) (ha : a < 256) (hb : b < 256) : a ^^^ b < 256 :=
  (Nat.xor_lt_two_pow ha hb : a ^^^ b < 2 ^ 8)

theorem mod_lt_256 (a : Nat) : a % 256 < 256 := Nat.mod_lt _ (by decide)

theorem ppu_bus_read_lt (n : nes_t) (a : Nat) (hp : ppu_bytes n.ppu) (hc : cart_bytes n.cart) :
    ppu_bus_read n a < 256 := by
  unfold ppu_bus_read
  dsimp only
  split_ifs
  · exact hc.2 _
  · exact hp.2.2.2.1 _
  · exact hp.2.2.2.2 _

theorem ppu_bus_write_bytes (n : nes_t) (a v : Nat) (hv : v < 256) (h : nes_bytes n) :
    nes_bytes (ppu_bus_write n a v) := by
  obtain ⟨h1, h2, h3, h4, h5⟩ := h
  unfold ppu_bus_write
  dsimp only
  split_ifs
  · exact ⟨h1, h2, ⟨h3.1, mem_set_bytes _ _ _ h3.2 hv⟩, h4, h5⟩
  · exact ⟨h1, h2, h3, h4, h5⟩
  · exact ⟨h1, ⟨h2.1, h2.2.1, h2.2.2.1, mem_set_bytes _ _ _ h2.2.2.2.1 hv, h2.2.2.2.2⟩,
      h3, h4, h5⟩
  · exact ⟨h1, ⟨h2.1, h2.2.1, h2.2.2.1, h2.2.2.2.1,
      mem_set_bytes _ _ _ h2.2.2.2.2 (and_lt_left _ _ hv)⟩, h3, h4, h5⟩

theorem ppu_cpu_read_bytes (n : nes_t) (a : Nat) (h : nes_bytes n) :
    (ppu_cpu_read n a).1 < 256 ∧ nes_bytes (ppu_cpu_read n a).2 := by
  obtain ⟨h1, h2, h3, h4, h5⟩ := h
  have hb := fun a => ppu_bus_read_lt n a h2 h3
  unfold ppu_cpu_read
  dsimp only [nes_ppu_bus_read]
  split_ifs
  · exact ⟨h2.1, h1, ⟨and_lt_left _ _ h2.1, h2.2⟩, h3, h4, h5⟩
  · exact ⟨h2.2.2.1 _, h1, h2, h3, h4, h5⟩
  · exact ⟨hb _, h1, ⟨h2.1, hb _, h2.2.2⟩, h3, h4, h5⟩
  · exact ⟨h2.2.1, h1, ⟨h2.1, hb _, h2.2.2⟩, h3, h4, h5⟩
  · exact ⟨by show (0 : Nat) < 256; decide, h1, h2, h3, h4, h5⟩

theorem cart_cpu_read_lt (n : nes_t) (a : Nat) (hc : cart_bytes n.cart) :
    cart_cpu_read n a < 256 := by
  unfold cart_cpu_read
  dsimp only
  split
  · decide
  · exact hc.1 _

theorem nes_cpu_read_bytes (n : nes_t) (a : Nat) (h : nes_bytes n) :
    (nes_cpu_read n a).1 < 256 ∧ nes_bytes (nes_cpu_read n a).2 := by
  have key : ∀ r : Nat × nes_t, r.1 < 256 → nes_bytes r.2 →
      (r.1, ({ r.2 with last_bus := r.1 } : nes_t)).1 < 256 ∧
        nes_bytes (r.1, ({ r.2 with last_bus := r.1 } : nes_t)).2 :=
    fun r hv hr => ⟨hv, hr.1, hr.2.1, hr.2.2.1, hr.2.2.2.1, hv⟩
  have hpad : ∀ s : Nat, 0x40 ||| (s &&& 1) < 256 := fun s =>
    or_lt_256 _ _ (by decide) (and_lt_right _ _ (by decide))
  obtain ⟨h1, h2, h3, h4, h5⟩ := h
  unfold nes_cpu_read
  dsimp only
  refine key _ ?_ ?_
  · split_ifs
    · exact h4 _
    · exact (ppu_cpu_read_bytes n _ ⟨h1, h2, h3, h4, h5⟩).1
    · exact hpad _
    · exact hpad _
    · show (0x40 : Nat) < 256; decide
    · exact cart_cpu_read_lt n a h3
    · exact h5
  · split_ifs
    · exact ⟨h1, h2, h3, h4, h5⟩
    · exact (ppu_cpu_read_bytes n _ ⟨h1, h2, h3, h4, h5⟩).2
    · exact ⟨h1, h2, h3, h4, h5⟩
    · exact ⟨h1, h2, h3, h4, h5⟩
    · exact ⟨h1, h2, h3, h4, h5⟩
    · exact ⟨h1, h2, h3, h4, h5⟩
    · exact ⟨h1, h2, h3, h4, h5⟩

theorem oam_dma_loop_bytes (base : Nat) (k : Nat) : ∀ (i : Nat) (n : nes_t),
    nes_bytes n → nes_bytes (oam_dma_loop base k i n) := by
  induction k with
  | zero => intro i n h; exact h
  | succ k ih =>
    intro i n h
    obtain ⟨r1, r2⟩ := nes_cpu_read_bytes n ((base + i) % 65536) h
    simp only [oam_dma_loop]
    apply ih
    obtain ⟨h1, h2, h3, h4, h5⟩ := r2
    exact ⟨h1, ⟨h2.1, h2.2.1, mem_set_bytes _ _ _ h2.2.2.1 r1, h2.2.2.2⟩, h3, h4, h5⟩

theorem ppu_cpu_write_bytes (n : nes_t) (a v : Nat) (hv : v < 256) (h : nes_bytes n) :
    nes_bytes (ppu_cpu_write n a v) := by
  have h' := h
  obtain ⟨h1, h2, h3, h4, h5⟩ := h
  unfold ppu_cpu_write
  dsimp only [nes_ppu_bus_write, cpu6502_set_nmi]
  split_ifs
  all_goals first
    | exact ⟨h1, h2, h3, h4, h5⟩
    | exact ⟨h1, ⟨h2.1, h2.2.1, mem_set_bytes _ _ _ h2.2.2.1 hv, h2.2.2.2⟩, h3, h4, h5⟩
    | (obtain ⟨b1, b2, b3, b4, b5⟩ := ppu_bus_write_bytes n (n.ppu.v &&& 0x3FFF) v hv h'
       exact ⟨b1, b2, b3, b4, b5⟩)

theorem nes_cpu_write_bytes (n : nes_t) (a v : Nat) (hv : v < 256) (h : nes_bytes n) :
    nes_bytes (nes_cpu_write n a v) := by
  have hl : nes_bytes { n with last_bus := v } := ⟨h.1, h.2.1, h.2.2.1, h.2.2.2.1, hv⟩
  have hd := oam_dma_loop_bytes ((v <<< 8) % 65536) 256 0 { n with last_bus := v } hl
  unfold nes_cpu_write
  dsimp only [cart_cpu_write]
  generalize oam_dma_loop ((v <<< 8) % 65536) 256 0 { n with last_bus := v } = m at hd ⊢
  split_ifs
  · exact ⟨h.1, h.2.1, h.2.2.1, mem_set_bytes _ _ _ h.2.2.2.1 hv, hv⟩
  · exact ppu_cpu_write_bytes _ _ _ hv hl
  · exact ⟨hd.1, hd.2.1, hd.2.2.1, hd.2.2.2.1, hd.2.2.2.2⟩
  · exact hl
  · exact hl
  · exact hl
  · exact hl

/-! ## Bytes stay bytes: the CPU helpers -/

theorem nes_bytes_a (n : nes_t) (h : nes_bytes n) : n.cpu.a < 256 := h.1.1
theorem nes_bytes_x (n : nes_t) (h : nes_bytes n) : n.cpu.x < 256 := h.1.2.1
theorem nes_bytes_y (n : nes_t) (h : nes_bytes n) : n.cpu.y < 256 := h.1.2.2.1
theorem nes_bytes_sp (n : nes_t) (h : nes_bytes n) : n.cpu.sp < 256 := h.1.2.2.2.1
theorem nes_bytes_p (n : nes_t) (h : nes_bytes n) : n.cpu.p < 256 := h.1.2.2.2.2

theorem set_pc_bytes (n : nes_t) (v : Nat) (h : nes_bytes n) : nes_bytes (set_pc n v) := h

theorem set_a_bytes (n : nes_t) (v : Nat) (h : nes_bytes n) (hv : v < 256) :
    nes_bytes (set_a n v) :=
  ⟨⟨hv, h.1.2⟩, h.2⟩

theorem set_x_bytes (n : nes_t) (v : Nat) (h : nes_bytes n) (hv : v < 256) :
    nes_bytes (set_x n v) :=
  ⟨⟨h.1.1, hv, h.1.2.2⟩, h.2⟩

theorem set_y_bytes (n : nes_t) (v : Nat) (h : nes_bytes n) (hv : v < 256) :
    nes_bytes (set_y n v) :=
  ⟨⟨h.1.1, h.1.2.1, hv, h.1.2.2.2⟩, h.2⟩

theorem set_sp_bytes (n : nes_t) (v : Nat) (h : nes_bytes n) (hv : v < 256) :
    nes_bytes (set_sp n v) :=
  ⟨⟨h.1.1, h.1.2.1, h.1.2.2.1, hv, h.1.2.2.2.2⟩, h.2⟩

theorem set_p_bytes (n : nes_t) (v : Nat) (h : nes_bytes n) (hv : v < 256) :
    nes_bytes (set_p n v) :=
  ⟨⟨h.1.1, h.1.2.1, h.1.2.2.1, h.1.2.2.2.1, hv⟩, h.2⟩

theorem add_cycles_bytes (n : nes_t) (k : Nat) (h : nes_bytes n) : nes_bytes (add_cycles n k) :=
  h

theorem P_C_lt : P_C < 256 := by decide
theorem P_Z_lt : P_Z < 256 := by decide
theorem P_I_lt : P_I < 256 := by decide
theorem P_D_lt : P_D < 256 := by decide
theorem P_B_lt : P_B < 256 := by decide
theorem P_U_lt : P_U < 256 := by decide
theorem P_V_lt : P_V < 256 := by decide
theorem P_N_lt : P_N < 256 := by decide
theorem lit_FF_lt : (0xFF : Nat) < 256 := by decide

theorem flag_assign_bytes (n : nes_t) (f : Nat) (c : Prop) [Decidable c] (h : nes_bytes n)
    (hf : f < 256) : nes_bytes (flag_assign n f c) := by
  rw [flag_assign_eq]
  apply set_p_bytes _ _ h
  split
  · exact or_lt_256 _ _ h.1.2.2.2.2 hf
  · exact and_lt_left _ _ h.1.2.2.2.2

theorem set_nz_bytes (n : nes_t) (v : Nat) (h : nes_bytes n) : nes_bytes (set_nz n v) := by
  unfold set_nz
  exact flag_assign_bytes _ _ _ (flag_assign_bytes _ _ _ h P_Z_lt) P_N_lt

theorem rd_lt (n : nes_t) (a : Nat) (h : nes_bytes n) : (rd n a).1 < 256 :=
  (nes_cpu_read_bytes n a h).1

theorem rd_bytes (n : nes_t) (a : Nat) (h : nes_bytes n) : nes_bytes (rd n a).2 :=
  (nes_cpu_read_bytes n a h).2

theorem wr_bytes (n : nes_t) (a v : Nat) (h : nes_bytes n) (hv : v < 256) :
    nes_bytes (wr n a v) :=
  nes_cpu_write_bytes n a v hv h

theorem push_bytes (n : nes_t) (v : Nat) (h : nes_bytes n) (hv : v < 256) :
    nes_bytes (push n v) := by
  unfold push
  exact set_sp_bytes _ _ (wr_bytes _ _ _ h hv) (mod_lt_256 _)

theorem pull_lt (n : nes_t) (h : nes_bytes n) : (pull n).1 < 256 := by
  unfold pull
  exact rd_lt _ _ (set_sp_bytes _ _ h (mod_lt_256 _))

theorem pull_bytes (n : nes_t) (h : nes_bytes n) : nes_bytes (pull n).2 := by
  unfold pull
  exact rd_bytes _ _ (set_sp_bytes _ _ h (mod_lt_256 _))

theorem rd16_bytes (n : nes_t) (a : Nat) (h : nes_bytes n) : nes_bytes (rd16 n a).2 := by
  unfold rd16
  exact rd_bytes _ _ (rd_bytes _ _ h)

theorem rd16_wrap_bug_bytes (n : nes_t) (a : Nat) (h : nes_bytes n) :
    nes_bytes (rd16_wrap_bug n a).2 := by
  unfold rd16_wrap_bug
  exact rd_bytes _ _ (rd_bytes _ _ h)

theorem do_interrupt_bytes (n : nes_t) (vector : Nat) (b : Bool) (h : nes_bytes n) :
    nes_bytes (do_interrupt n vector b).2 := by
  have h1 := push_bytes n ((n.cpu.pc >>> 8) % 256) h (mod_lt_256 _)
  have h2 := push_bytes _ ((((push n ((n.cpu.pc >>> 8) % 256)).cpu.pc) &&& 0xFF) % 256) h1
    (mod_lt_256 _)
  unfold do_interrupt
  dsimp only
  apply set_pc_bytes
  apply rd16_bytes
  refine set_p_bytes _ _ (push_bytes _ _ h2 ?_) ?_
  · split
    · exact or_lt_256 _ _ (or_lt_256 _ _ (nes_bytes_p _ h2) P_U_lt) P_B_lt
    · exact and_lt_left _ _ (or_lt_256 _ _ (nes_bytes_p _ h2) P_U_lt)
  · exact or_lt_256 _ _ (nes_bytes_p _ (push_bytes _ _ h2 (by
      split
      · exact or_lt_256 _ _ (or_lt_256 _ _ (nes_bytes_p _ h2) P_U_lt) P_B_lt
      · exact and_lt_left _ _ (or_lt_256 _ _ (nes_bytes_p _ h2) P_U_lt)))) P_I_lt

theorem ea_imm_bytes (n : nes_t) (h : nes_bytes n) : nes_bytes (ea_imm n).2 := h

theorem ea_zp_bytes (n : nes_t) (h : nes_bytes n) : nes_bytes (ea_zp n).2 := by
  unfold ea_zp
  exact rd_bytes _ _ (set_pc_bytes _ _ h)

theorem ea_zpx_bytes (n : nes_t) (h : nes_bytes n) : nes_bytes (ea_zpx n).2 := by
  unfold ea_zpx
  exact rd_bytes _ _ (set_pc_bytes _ _ h)

theorem ea_zpy_bytes (n : nes_t) (h : nes_bytes n) : nes_bytes (ea_zpy n).2 := by
  unfold ea_zpy
  exact rd_bytes _ _ (set_pc_bytes _ _ h)

theorem ea_abs_bytes (n : nes_t) (h : nes_bytes n) : nes_bytes (ea_abs n).2 := by
  unfold ea_abs
  exact set_pc_bytes _ _ (rd16_bytes _ _ h)

theorem ea_absx_bytes (n : nes_t) (b : Bool) (h : nes_bytes n) : nes_bytes (ea_absx n b).2 := by
  unfold ea_absx
  exact set_pc_bytes _ _ (rd16_bytes _ _ h)

theorem ea_absy_bytes (n : nes_t) (b : Bool) (h : nes_bytes n) : nes_bytes (ea_absy n b).2 := by
  unfold ea_absy
  exact set_pc_bytes _ _ (rd16_bytes _ _ h)

theorem ea_indx_bytes (n : nes_t) (h : nes_bytes n) : nes_bytes (ea_indx n).2 := by
  unfold ea_indx
  exact rd_bytes _ _ (rd_bytes _ _ (rd_bytes _ _ (set_pc_bytes _ _ h)))

theorem ea_indy_bytes (n : nes_t) (b : Bool) (h : nes_bytes n) : nes_bytes (ea_indy n b).2 := by
  unfold ea_indy
  exact rd_bytes _ _ (rd_bytes _ _ (rd_bytes _ _ (set_pc_bytes _ _ h)))

theorem branch_bytes (n : nes_t) (b : Bool) (h : nes_bytes n) : nes_bytes (branch n b).2 := by
  have hr := rd_bytes _ n.cpu.pc (set_pc_bytes n ((n.cpu.pc + 1) % 65536) h)
  unfold branch
  dsimp only
  split
  · exact hr
  · exact set_pc_bytes _ _ hr

theorem op_adc_bytes (n : nes_t) (m : Nat) (h : nes_bytes n) : nes_bytes (op_adc n m) := by
  unfold op_adc
  exact set_nz_bytes _ _ (set_a_bytes _ _
    (flag_assign_bytes _ _ _ (flag_assign_bytes _ _ _ h P_C_lt) P_V_lt) (mod_lt_256 _))

theorem op_sbc_bytes (n : nes_t) (m : Nat) (h : nes_bytes n) : nes_bytes (op_sbc n m) :=
  op_adc_bytes _ _ h

theorem op_cmp_bytes (n : nes_t) (r m : Nat) (h : nes_bytes n) : nes_bytes (op_cmp n r m) := by
  unfold op_cmp
  exact set_nz_bytes _ _ (flag_assign_bytes _ _ _ h P_C_lt)

theorem op_asl_lt (n : nes_t) (v : Nat) : (op_asl n v).1 < 256 := mod_lt_256 _
theorem op_lsr_lt (n : nes_t) (v : Nat) : (op_lsr n v).1 < 256 := mod_lt_256 _
theorem op_rol_lt (n : nes_t) (v : Nat) : (op_rol n v).1 < 256 := mod_lt_256 _
theorem op_ror_lt (n : nes_t) (v : Nat) : (op_ror n v).1 < 256 := mod_lt_256 _

theorem op_asl_bytes (n : nes_t) (v : Nat) (h : nes_bytes n) : nes_bytes (op_asl n v).2 := by
  unfold op_asl
  exact set_nz_bytes _ _ (flag_assign_bytes _ _ _ h P_C_lt)

theorem op_lsr_bytes (n : nes_t) (v : Nat) (h : nes_bytes n) : nes_bytes (op_lsr n v).2 := by
  unfold op_lsr
  exact set_nz_bytes _ _ (flag_assign_bytes _ _ _ h P_C_lt)

theorem op_rol_bytes (n : nes_t) (v : Nat) (h : nes_bytes n) : nes_bytes (op_rol n v).2 := by
  unfold op_rol
  exact set_nz_bytes _ _ (flag_assign_bytes _ _ _ h P_C_lt)

theorem op_ror_bytes (n : nes_t) (v : Nat) (h : nes_bytes n) : nes_bytes (op_ror n v).2 := by
  unfold op_ror
  exact set_nz_bytes _ _ (flag_assign_bytes _ _ _ h P_C_lt)

theorem op_anc_bytes (n : nes_t) (m : Nat) (h : nes_bytes n) : nes_bytes (op_anc n m) := by
  unfold op_anc
  exact flag_assign_bytes _ _ _
    (set_nz_bytes _ _ (set_a_bytes _ _ h (and_lt_left _ _ h.1.1))) P_C_lt

theorem op_alr_bytes (n : nes_t) (m : Nat) (h : nes_bytes n) : nes_bytes (op_alr n m) := by
  unfold op_alr
  exact set_a_bytes _ _ (op_lsr_bytes _ _ (set_a_bytes _ _ h (and_lt_left _ _ h.1.1)))
    (op_lsr_lt _ _)

theorem op_arr_bytes (n : nes_t) (m : Nat) (h : nes_bytes n) : nes_bytes (op_arr n m) := by
  unfold op_arr
  exact flag_assign_bytes _ _ _ (flag_assign_bytes _ _ _
    (set_a_bytes _ _ (op_ror_bytes _ _ (set_a_bytes _ _ h (and_lt_left _ _ h.1.1)))
      (op_ror_lt _ _)) P_C_lt) P_V_lt

theorem op_sbx_bytes (n : nes_t) (m : Nat) (h : nes_bytes n) : nes_bytes (op_sbx n m) := by
  unfold op_sbx
  exact set_nz_bytes _ _ (flag_assign_bytes _ _ _ (set_x_bytes _ _ h (mod_lt_256 _)) P_C_lt)

theorem ite_bytes {c : Prop} [Decidable c] {a b : Nat × nes_t}
    (ha : nes_bytes a.2) (hb : nes_bytes b.2) : nes_bytes (if c then a else b).2 := by
  split
  · exact ha
  · exact hb

set_option maxHeartbeats 4000000 in
set_option maxRecDepth 100000 in
/-- The opcode switch keeps bytes bytes. -/
theorem exec_opcode_bytes (op : Nat) (s : nes_t) (h : nes_bytes s) :
    nes_bytes (exec_opcode op s).2 := by
  unfold exec_opcode
  iterate 223
    refine ite_bytes (by
      try dsimp only
      repeat' (with_reducible first
        | exact h
        | exact mod_lt_256 _
        | exact P_C_lt | exact P_Z_lt | exact P_I_lt | exact P_D_lt | exact P_B_lt
        | exact P_U_lt | exact P_V_lt | exact P_N_lt | exact lit_FF_lt
        | exact op_asl_lt _ _ | exact op_lsr_lt _ _ | exact op_rol_lt _ _ | exact op_ror_lt _ _
        | refine set_pc_bytes _ _ ?_
        | refine set_a_bytes _ _ ?_ ?_
        | refine set_x_bytes _ _ ?_ ?_
        | refine set_y_bytes _ _ ?_ ?_
        | refine set_sp_bytes _ _ ?_ ?_
        | refine set_p_bytes _ _ ?_ ?_
        | refine flag_assign_bytes _ _ _ ?_ ?_
        | refine set_nz_bytes _ _ ?_
        | refine rd_bytes _ _ ?_
        | refine rd_lt _ _ ?_
        | refine wr_bytes _ _ _ ?_ ?_
        | refine push_bytes _ _ ?_ ?_
        | refine pull_bytes _ ?_
        | refine pull_lt _ ?_
        | refine rd16_bytes _ _ ?_
        | refine rd16_wrap_bug_bytes _ _ ?_
        | refine do_interrupt_bytes _ _ _ ?_
        | refine ea_imm_bytes _ ?_
        | refine ea_zp_bytes _ ?_
        | refine ea_zpx_bytes _ ?_
        | refine ea_zpy_bytes _ ?_
        | refine ea_abs_bytes _ ?_
        | refine ea_absx_bytes _ _ ?_
        | refine ea_absy_bytes _ _ ?_
        | refine ea_indx_bytes _ ?_
        | refine ea_indy_bytes _ _ ?_
        | refine branch_bytes _ _ ?_
        | refine op_adc_bytes _ _ ?_
        | refine op_sbc_bytes _ _ ?_
        | refine op_cmp_bytes _ _ _ ?_
        | refine op_asl_bytes _ _ ?_
        | refine op_lsr_bytes _ _ ?_
        | refine op_rol_bytes _ _ ?_
        | refine op_ror_bytes _ _ ?_
        | refine op_anc_bytes _ _ ?_
        | refine op_alr_bytes _ _ ?_
        | refine op_arr_bytes _ _ ?_
        | refine op_sbx_bytes _ _ ?_
        | refine nes_bytes_a _ ?_
        | refine nes_bytes_x _ ?_
        | refine nes_bytes_y _ ?_
        | refine nes_bytes_sp _ ?_
        | refine nes_bytes_p _ ?_
        | refine and_lt_right _ _ ?_
        | refine or_lt_256 _ _ ?_ ?_
        | refine xor_lt_256 _ _ ?_ ?_)) ?_
  exact h

/-! ## The stall counter through bus accesses and CPU helpers -/

theorem oam_dma_loop_stall (base : Nat) (k : Nat) : ∀ (i : Nat) (n : nes_t),
    (oam_dma_loop base k i n).cpu_stall = n.cpu_stall := by
  induction k with
  | zero => intro i n; rfl
  | succ k ih =>
    intro i n
    simp only [oam_dma_loop]
    rw [ih]
    exact nes_cpu_read_cpu_stall n _

theorem ppu_bus_write_stall (n : nes_t) (a v : Nat) :
    (ppu_bus_write n a v).cpu_stall = n.cpu_stall := by
  unfold ppu_bus_write
  simp only []
  split_ifs <;> rfl

theorem ppu_cpu_write_stall (n : nes_t) (a v : Nat) :
    (ppu_cpu_write n a v).cpu_stall = n.cpu_stall := by
  unfold ppu_cpu_write
  simp only [nes_ppu_bus_write, cpu6502_set_nmi]
  split_ifs <;> first | rfl | simp only [ppu_bus_write_stall]

/-- A bus write adds `513 + (cycles & 1)` to the stall counter at `$4014` and leaves it alone
at every other address. -/
theorem nes_cpu_write_stall (n : nes_t) (a v : Nat) :
    (nes_cpu_write n a v).cpu_stall = n.cpu_stall + dma_stall n.cpu.cycles a := by
  have hd := oam_dma_loop_stall ((v <<< 8) % 65536) 256 0 { n with last_bus := v }
  have hc := oam_dma_loop_cpu ((v <<< 8) % 65536) 256 0 { n with last_bus := v }
  unfold nes_cpu_write dma_stall
  dsimp only [cart_cpu_write]
  generalize oam_dma_loop ((v <<< 8) % 65536) 256 0 { n with last_bus := v } = m at hd hc ⊢
  by_cases ha : a = 0x4014
  · subst ha
    rw [if_neg (by decide), if_neg (by decide), if_pos rfl, if_pos rfl]
    show m.cpu_stall + (513 + ((m.cpu.cycles &&& 1 : Nat) : Int)) = _
    rw [hd, hc]
  · rw [if_neg ha, if_neg ha, Int.add_zero]
    split_ifs
    all_goals first | rfl | exact ppu_cpu_write_stall _ _ _

theorem set_pc_stall (n : nes_t) (v : Nat) : (set_pc n v).cpu_stall = n.cpu_stall := rfl
theorem set_a_stall (n : nes_t) (v : Nat) : (set_a n v).cpu_stall = n.cpu_stall := rfl
theorem set_x_stall (n : nes_t) (v : Nat) : (set_x n v).cpu_stall = n.cpu_stall := rfl
theorem set_y_stall (n : nes_t) (v : Nat) : (set_y n v).cpu_stall = n.cpu_stall := rfl
theorem set_sp_stall (n : nes_t) (v : Nat) : (set_sp n v).cpu_stall = n.cpu_stall := rfl
theorem set_p_stall (n : nes_t) (v : Nat) : (set_p n v).cpu_stall = n.cpu_stall := rfl

theorem set_pc_sp (n : nes_t) (v : Nat) : (set_pc n v).cpu.sp = n.cpu.sp := rfl
theorem set_sp_sp (n : nes_t) (v : Nat) : (set_sp n v).cpu.sp = v := rfl
theorem rd_sp (n : nes_t) (a : Nat) : (rd n a).2.cpu.sp = n.cpu.sp := by rw [rd_cpu]
theorem rd16_sp (n : nes_t) (a : Nat) : (rd16 n a).2.cpu.sp = n.cpu.sp := by rw [rd16_cpu]
theorem push_sp (n : nes_t) (v : Nat) : (push n v).cpu.sp = (n.cpu.sp + 255) % 256 := by
  unfold push
  rw [set_sp_sp, wr_sp]

theorem rd_stall (n : nes_t) (a : Nat) : (rd n a).2.cpu_stall = n.cpu_stall :=
  nes_cpu_read_cpu_stall n a

theorem wr_stall (n : nes_t) (a v : Nat) :
    (wr n a v).cpu_stall = n.cpu_stall + dma_stall n.cpu.cycles a :=
  nes_cpu_write_stall n a v

theorem flag_assign_stall (n : nes_t) (f : Nat) (c : Prop) [Decidable c] :
    (flag_assign n f c).cpu_stall = n.cpu_stall := by
  unfold flag_assign; split <;> rfl

theorem set_nz_stall (n : nes_t) (v : Nat) : (set_nz n v).cpu_stall = n.cpu_stall := by
  simp only [set_nz, flag_assign_stall]

theorem stack_not_dma (c sp : Nat) (h : sp < 256) : dma_stall c (0x0100 ||| sp) = 0 := by
  have e : 0x0100 ||| sp = 256 + sp := stack_addr _ h
  unfold dma_stall
  rw [if_neg (by omega)]

/-- A push writes into page 1, never to `$4014`. -/
theorem push_stall (n : nes_t) (v : Nat) (h : n.cpu.sp < 256) :
    (push n v).cpu_stall = n.cpu_stall := by
  unfold push
  rw [set_sp_stall, wr_stall, stack_not_dma _ _ h, Int.add_zero]

theorem pull_stall (n : nes_t) : (pull n).2.cpu_stall = n.cpu_stall := by
  simp only [pull, rd_stall, set_sp_stall]

theorem rd16_stall (n : nes_t) (a : Nat) : (rd16 n a).2.cpu_stall = n.cpu_stall := by
  simp only [rd16, rd_stall]

theorem rd16_wrap_bug_stall (n : nes_t) (a : Nat) :
    (rd16_wrap_bug n a).2.cpu_stall = n.cpu_stall := by
  simp only [rd16_wrap_bug, rd_stall]

theorem mod_256_lt_true (x : Nat) : (x % 256 < 256) = True := eq_true (mod_lt_256 x)

theorem do_interrupt_stall (n : nes_t) (vec : Nat) (b : Bool) (h : n.cpu.sp < 256) :
    (do_interrupt n vec b).2.cpu_stall = n.cpu_stall := by
  simp only [do_interrupt, set_pc_stall, rd16_stall, set_p_stall, push_stall, push_sp,
    mod_256_lt_true, h]

theorem ea_imm_stall (n : nes_t) : (ea_imm n).2.cpu_stall = n.cpu_stall := rfl
theorem ea_zp_stall (n : nes_t) : (ea_zp n).2.cpu_stall = n.cpu_stall := by
  simp only [ea_zp, rd_stall, set_pc_stall]
theorem ea_zpx_stall (n : nes_t) : (ea_zpx n).2.cpu_stall = n.cpu_stall := by
  simp only [ea_zpx, rd_stall, set_pc_stall]
theorem ea_zpy_stall (n : nes_t) : (ea_zpy n).2.cpu_stall = n.cpu_stall := by
  simp only [ea_zpy, rd_stall, set_pc_stall]
theorem ea_abs_stall (n : nes_t) : (ea_abs n).2.cpu_stall = n.cpu_stall := by
  simp only [ea_abs, rd16_stall, set_pc_stall]
theorem ea_absx_stall (n : nes_t) (b : Bool) : (ea_absx n b).2.cpu_stall = n.cpu_stall := by
  simp only [ea_absx, rd16_stall, set_pc_stall]
theorem ea_absy_stall (n : nes_t) (b : Bool) : (ea_absy n b).2.cpu_stall = n.cpu_stall := by
  simp only [ea_absy, rd16_stall, set_pc_stall]
theorem ea_indx_stall (n : nes_t) : (ea_indx n).2.cpu_stall = n.cpu_stall := by
  simp only [ea_indx, rd_stall, set_pc_stall]
theorem ea_indy_stall (n : nes_t) (b : Bool) : (ea_indy n b).2.cpu_stall = n.cpu_stall := by
  simp only [ea_indy, rd_stall, set_pc_stall]

theorem branch_stall (n : nes_t) (b : Bool) : (branch n b).2.cpu_stall = n.cpu_stall := by
  unfold branch
  simp only []
  split <;> simp only [rd_stall, set_pc_stall]

theorem op_adc_stall (n : nes_t) (m : Nat) : (op_adc n m).cpu_stall = n.cpu_stall := by
  simp only [op_adc, set_nz_stall, set_a_stall, flag_assign_stall]
theorem op_sbc_stall (n : nes_t) (m : Nat) : (op_sbc n m).cpu_stall = n.cpu_stall := by
  simp only [op_sbc, op_adc_stall]
theorem op_cmp_stall (n : nes_t) (r m : Nat) : (op_cmp n r m).cpu_stall = n.cpu_stall := by
  simp only [op_cmp, set_nz_stall, flag_assign_stall]
theorem op_asl_stall (n : nes_t) (v : Nat) : (op_asl n v).2.cpu_stall = n.cpu_stall := by
  simp only [op_asl, set_nz_stall, flag_assign_stall]
theorem op_lsr_stall (n : nes_t) (v : Nat) : (op_lsr n v).2.cpu_stall = n.cpu_stall := by
  simp only [op_lsr, set_nz_stall, flag_assign_stall]
theorem op_rol_stall (n : nes_t) (v : Nat) : (op_rol n v).2.cpu_stall = n.cpu_stall := by
  simp only [op_rol, set_nz_stall, flag_assign_stall]
theorem op_ror_stall (n : nes_t) (v : Nat) : (op_ror n v).2.cpu_stall = n.cpu_stall := by
  simp only [op_ror, set_nz_stall, flag_assign_stall]
theorem op_anc_stall (n : nes_t) (v : Nat) : (op_anc n v).cpu_stall = n.cpu_stall := by
  simp only [op_anc, set_nz_stall, set_a_stall, flag_assign_stall]
theorem op_alr_stall (n : nes_t) (v : Nat) : (op_alr n v).cpu_stall = n.cpu_stall := by
  simp only [op_alr, op_lsr_stall, set_a_stall]
theorem op_arr_stall (n : nes_t) (v : Nat) : (op_arr n v).cpu_stall = n.cpu_stall := by
  simp only [op_arr, op_ror_stall, set_a_stall, flag_assign_stall]
theorem op_sbx_stall (n : nes_t) (v : Nat) : (op_sbx n v).cpu_stall = n.cpu_stall := by
  simp only [op_sbx, set_nz_stall, set_x_stall, flag_assign_stall]

theorem stall_delta_self (x : Int) : stall_delta_ok (x - x) := Or.inl (Int.sub_self x)

theorem stall_delta_dma (x : Int) (c a : Nat) : stall_delta_ok (x + dma_stall c a - x) := by
  have hc : c &&& 1 = 0 ∨ c &&& 1 = 1 := by
    have := Nat.and_one_is_mod c
    omega
  unfold stall_delta_ok dma_stall
  split
  · rcases hc with h | h <;> rw [h] <;> omega
  · omega

theorem ite_stall {c : Prop} [Decidable c] {a b : Nat × nes_t} {x : Int}
    (ha : stall_delta_ok (a.2.cpu_stall - x)) (hb : stall_delta_ok (b.2.cpu_stall - x)) :
    stall_delta_ok ((if c then a else b).2.cpu_stall - x) := by
  split
  · exact ha
  · exact hb

set_option maxHeartbeats 4000000 in
set_option maxRecDepth 100000 in
/-- Over the opcode switch the stall counter stays, or grows by the 513 or 514 cycles of one
OAM DMA. -/
theorem exec_opcode_stall (op : Nat) (s : nes_t) (hsp : s.cpu.sp < 256) :
    stall_delta_ok ((exec_opcode op s).2.cpu_stall - s.cpu_stall) := by
  unfold exec_opcode
  iterate 223
    refine ite_stall (by
      simp only [set_pc_stall, set_a_stall, set_x_stall, set_y_stall, set_sp_stall,
        set_p_stall, rd_stall, wr_stall, flag_assign_stall, set_nz_stall, push_stall,
        pull_stall, rd16_stall, rd16_wrap_bug_stall, do_interrupt_stall, ea_imm_stall,
        ea_zp_stall, ea_zpx_stall, ea_zpy_stall, ea_abs_stall, ea_absx_stall,
        ea_absy_stall, ea_indx_stall, ea_indy_stall, branch_stall, op_adc_stall,
        op_sbc_stall, op_cmp_stall, op_asl_stall, op_lsr_stall, op_rol_stall,
        op_ror_stall, op_anc_stall, op_alr_stall, op_arr_stall, op_sbx_stall,
        set_pc_sp, rd16_sp, push_sp, mod_256_lt_true, hsp, stall_delta_self,
        stall_delta_dma]) ?_
  exact stall_delta_self _

/-! ## Bytes stay bytes: steps, ticks and reset -/

theorem cpu6502_step_bytes (n : nes_t) (h : nes_bytes n) : nes_bytes (cpu6502_step n).2 := by
  unfold cpu6502_step
  dsimp only
  split_ifs
  · exact h
  · exact add_cycles_bytes _ _ (do_interrupt_bytes _ _ _ h)
  · exact add_cycles_bytes _ _ (do_interrupt_bytes _ _ _ h)
  · exact add_cycles_bytes _ _ (exec_opcode_bytes _ _ (rd_bytes _ _ (set_pc_bytes _ _ h)))

theorem eval_sprites_loop_bytes (y sprite_h : Int) (k : Nat) :
    ∀ (i : Nat) (s : ppu_t × Nat), ppu_bytes s.1 →
      ppu_bytes (eval_sprites_loop y sprite_h k i s).1 := by
  induction k with
  | zero => intro i s h; exact h
  | succ k ih =>
    intro i s h
    obtain ⟨p, found⟩ := s
    simp only [eval_sprites_loop]
    split_ifs with h1 h2
    · exact ih _ _ h
    · exact ih _ _ h
    · exact ih _ _ h

theorem eval_sprites_for_scanline_bytes (n : nes_t) (y : Int) (h : nes_bytes n) :
    nes_bytes (eval_sprites_for_scanline n y) := by
  obtain ⟨h1, h2, h3, h4, h5⟩ := h
  have h0 : ppu_bytes { n.ppu with scan_spr_count := 0, reg_status := n.ppu.reg_status &&& 0xDF } :=
    ⟨and_lt_left _ _ h2.1, h2.2⟩
  have hl := fun (sh : Int) => eval_sprites_loop_bytes y sh 64 0
    ({ n.ppu with scan_spr_count := 0, reg_status := n.ppu.reg_status &&& 0xDF }, 0) h0
  unfold eval_sprites_for_scanline
  simp only []
  split_ifs with hh hf hf
  · exact ⟨h1, ⟨or_lt_256 _ _ (hl 16).1 (by decide), (hl 16).2⟩, h3, h4, h5⟩
  · exact ⟨h1, hl 16, h3, h4, h5⟩
  · exact ⟨h1, ⟨or_lt_256 _ _ (hl 8).1 (by decide), (hl 8).2⟩, h3, h4, h5⟩
  · exact ⟨h1, hl 8, h3, h4, h5⟩

theorem render_scanline_bytes (n : nes_t) (y : Int) (h : nes_bytes n) :
    nes_bytes (render_scanline n y) := by
  obtain ⟨h1, h2, h3, h4, h5⟩ := h
  unfold render_scanline
  exact ⟨h1, ⟨h2.1, h2.2.1, h2.2.2.1, h2.2.2.2.1, h2.2.2.2.2⟩, h3, h4, h5⟩

theorem ppu_tick_bytes (n : nes_t) (h : nes_bytes n) : nes_bytes (ppu_tick n) := by
  have b1 : ∀ m : nes_t, nes_bytes m → nes_bytes (ppu_tick_frame_latch m) := by
    intro m hm
    unfold ppu_tick_frame_latch
    split_ifs
    · exact hm
    · exact hm
  have b2 : ∀ m : nes_t, nes_bytes m → nes_bytes (ppu_tick_line_latch m) := by
    intro m hm
    unfold ppu_tick_line_latch
    split_ifs
    · exact hm
    · exact hm
  have b3 : ∀ m : nes_t, nes_bytes m → nes_bytes (ppu_tick_render m) := by
    intro m hm
    unfold ppu_tick_render
    split_ifs
    · exact render_scanline_bytes _ _ (eval_sprites_for_scanline_bytes _ _ hm)
    · exact hm
  have b4 : ∀ m : nes_t, nes_bytes m → nes_bytes (ppu_tick_sprite0 m) := by
    intro m hm
    rw [ppu_tick_sprite0_eq]
    split_ifs
    all_goals first
      | exact hm
      | exact ⟨hm.1, ⟨or_lt_256 _ _ hm.2.1.1 (by decide), hm.2.1.2⟩, hm.2.2⟩
  have b5 : ∀ m : nes_t, nes_bytes m → nes_bytes (ppu_tick_vblank m) := by
    intro m hm
    rw [ppu_tick_vblank_eq]
    split_ifs
    all_goals first
      | exact hm
      | exact ⟨hm.1, ⟨or_lt_256 _ _ hm.2.1.1 (by decide), hm.2.1.2⟩, hm.2.2⟩
  have b6 : ∀ m : nes_t, nes_bytes m → nes_bytes (ppu_tick_prerender m) := by
    intro m hm
    unfold ppu_tick_prerender
    simp only []
    split_ifs
    · exact ⟨hm.1, ⟨and_lt_left _ _ (and_lt_left _ _ hm.2.1.1), hm.2.1.2⟩, hm.2.2⟩
    · exact hm
  have b7 : ∀ m : nes_t, nes_bytes m → nes_bytes (ppu_tick_advance m) := by
    intro m hm
    unfold ppu_tick_advance
    simp only []
    split_ifs
    all_goals exact hm
  rw [ppu_tick_eq]
  exact b7 _ (b6 _ (b5 _ (b4 _ (b3 _ (b2 _ (b1 _ h))))))

theorem zero_lt_256 : (0 : Nat) < 256 := by decide

theorem mem_zero_bytes : ∀ i, mem_zero i < 256 := fun _ => zero_lt_256

theorem cpu6502_reset_bytes (n : nes_t) (hp : ppu_bytes n.ppu) (hc : cart_bytes n.cart)
    (hr : ∀ i, n.ram i < 256) (hl : n.last_bus < 256) : nes_bytes (cpu6502_reset n) := by
  have hz : nes_bytes { n with cpu := cpu_zero } :=
    ⟨⟨zero_lt_256, zero_lt_256, zero_lt_256, zero_lt_256, zero_lt_256⟩, hp, hc, hr, hl⟩
  have h0 := set_p_bytes _ ((P_I ||| P_U) % 256)
    (set_sp_bytes _ 0xFD hz (by decide)) (mod_lt_256 _)
  have h1 := set_pc_bytes _
    (rd16 (set_p (set_sp { n with cpu := cpu_zero } 0xFD) ((P_I ||| P_U) % 256)) 0xFFFC).1
    (rd16_bytes _ 0xFFFC h0)
  unfold cpu6502_reset
  exact ⟨⟨h1.1.1, h1.1.2.1, h1.1.2.2.1, h1.1.2.2.2.1, h1.1.2.2.2.2⟩, h1.2⟩

theorem nes_reset_bytes (n : nes_t) (hc : cart_bytes n.cart) : nes_bytes (nes_reset n) := by
  unfold nes_reset
  exact cpu6502_reset_bytes _
    ⟨(by decide : (0xA0 : Nat) < 256), zero_lt_256, mem_zero_bytes, mem_zero_bytes,
      mem_zero_bytes⟩ hc mem_zero_bytes zero_lt_256

theorem cpu6502_reset_stall (n : nes_t) : (cpu6502_reset n).cpu_stall = n.cpu_stall := by
  simp only [cpu6502_reset, set_pc_stall, rd16_stall, set_p_stall, set_sp_stall]

theorem nes_reset_stall (n : nes_t) : (nes_reset n).cpu_stall = 0 := by
  simp only [nes_reset, cpu6502_reset_stall]

/-! ## C34: the stall counter -/

/-- Over one step without a pending stall the stall counter stays, or grows by the 513 or 514
cycles of one OAM DMA. -/
theorem cpu6502_step_stall (n : nes_t) (hs : ¬ 0 < n.cpu_stall) (hsp : n.cpu.sp < 256) :
    stall_delta_ok ((cpu6502_step n).2.cpu_stall - n.cpu_stall) := by
  have hi : ∀ (m : nes_t) (vec : Nat), m.cpu.sp < 256 → m.cpu_stall = n.cpu_stall →
      stall_delta_ok ((add_cycles (do_interrupt m vec false).2
        (do_interrupt m vec false).1).cpu_stall - n.cpu_stall) := by
    intro m vec hm he
    show stall_delta_ok ((do_interrupt m vec false).2.cpu_stall - n.cpu_stall)
    rw [do_interrupt_stall _ _ _ hm, he]
    exact stall_delta_self _
  unfold cpu6502_step
  dsimp only
  rw [if_neg hs]
  split_ifs
  · exact hi _ _ hsp rfl
  · exact hi _ _ hsp rfl
  · have hf : (rd (set_pc n ((n.cpu.pc + 1) % 65536)) n.cpu.pc).2.cpu_stall = n.cpu_stall :=
      (rd_stall _ _).trans (set_pc_stall _ _)
    have hx := exec_opcode_stall (rd (set_pc n ((n.cpu.pc + 1) % 65536)) n.cpu.pc).1
      (rd (set_pc n ((n.cpu.pc + 1) % 65536)) n.cpu.pc).2
      (by rw [rd_sp, set_pc_sp]; exact hsp)
    rw [hf] at hx
    exact hx

/-- The invariant of the driver's events: bytes are bytes and the stall counter is within
`0..514`. -/
theorem run_events_stall (es : List machine_event) : ∀ (n : nes_t),
    (∀ e ∈ es, is_driver_event e) → nes_bytes n → 0 ≤ n.cpu_stall → n.cpu_stall ≤ 514 →
    nes_bytes (run_events n es) ∧ 0 ≤ (run_events n es).cpu_stall ∧
      (run_events n es).cpu_stall ≤ 514 := by
  induction es with
  | nil => intro n _ hb h0 h1; exact ⟨hb, h0, h1⟩
  | cons e es ih =>
    intro n hes hb h0 h1
    have he := hes e (List.mem_cons_self _ _)
    have hrest : ∀ e' ∈ es, is_driver_event e' := fun e' h' => hes e' (List.mem_cons_of_mem _ h')
    show nes_bytes (run_events (run_event n e) es) ∧ _
    cases e with
    | tick =>
      exact ih _ hrest (ppu_tick_bytes n hb)
        (by show 0 ≤ (ppu_tick n).cpu_stall; rw [(ppu_tick_outside n).1]; exact h0)
        (by show (ppu_tick n).cpu_stall ≤ 514; rw [(ppu_tick_outside n).1]; exact h1)
    | cpu_step =>
      have hb' := cpu6502_step_bytes n hb
      by_cases hs : 0 < n.cpu_stall
      · have e1 : (cpu6502_step n).2.cpu_stall = n.cpu_stall - 1 := by
          rw [cpu6502_step_stalled n hs]
          rfl
        exact ih _ hrest hb'
          (by show 0 ≤ (cpu6502_step n).2.cpu_stall; omega)
          (by show (cpu6502_step n).2.cpu_stall ≤ 514; omega)
      · have hd := cpu6502_step_stall n hs hb.1.2.2.2.1
        unfold stall_delta_ok at hd
        exact ih _ hrest hb'
          (by show 0 ≤ (cpu6502_step n).2.cpu_stall; omega)
          (by show (cpu6502_step n).2.cpu_stall ≤ 514; omega)
    | cpu_read a => exact absurd he (by unfold is_driver_event; exact not_false)
    | cpu_write a v => exact absurd he (by unfold is_driver_event; exact not_false)

/-- C34: in every state reached from `nes_reset` by CPU steps (and the PPU ticks the driver
puts between them) the stall counter satisfies `0 ≤ cpu_stall ≤ 514`.  While it is positive a
step only decrements it and counts one cycle, so it makes no bus write and no OAM DMA; when
it is zero, the step leaves it at zero or performs one DMA, which sets it to exactly 513 or
514.  The cartridge is taken to hold bytes, as its C arrays do. -/
theorem stall_counter (n0 : nes_t) (es : List machine_event) (hcart : cart_bytes n0.cart)
    (hes : ∀ e ∈ es, is_driver_event e) :
    0 ≤ (run_events (nes_reset n0) es).cpu_stall ∧
    (run_events (nes_reset n0) es).cpu_stall ≤ 514 ∧
    (0 < (run_events (nes_reset n0) es).cpu_stall →
      cpu6502_step (run_events (nes_reset n0) es) =
        (1, add_cycles { run_events (nes_reset n0) es with
          cpu_stall := (run_events (nes_reset n0) es).cpu_stall - 1 } 1)) ∧
    ((run_events (nes_reset n0) es).cpu_stall = 0 →
      (cpu6502_step (run_events (nes_reset n0) es)).2.cpu_stall = 0 ∨
      (cpu6502_step (run_events (nes_reset n0) es)).2.cpu_stall = 513 ∨
      (cpu6502_step (run_events (nes_reset n0) es)).2.cpu_stall = 514) := by
  have hr := run_events_stall es (nes_reset n0) hes (nes_reset_bytes n0 hcart)
    (by rw [nes_reset_stall]) (by rw [nes_reset_stall]; decide)
  generalize run_events (nes_reset n0) es = n at hr ⊢
  obtain ⟨hb, h0, h1⟩ := hr
  refine ⟨h0, h1, cpu6502_step_stalled n, ?_⟩
  intro hz
  have hd := cpu6502_step_stall n (by omega) hb.1.2.2.2.1
  unfold stall_delta_ok at hd
  rw [hz, Int.sub_zero] at hd
  exact hd

theorem demo_prg_bytes (i : Nat) : demo_prg i < 256 := by
  unfold demo_prg
  split_ifs <;> decide

theorem demo_dma_boot_bytes : cart_bytes demo_dma_boot.cart := by
  refine ⟨fun i => ?_, mem_zero_bytes⟩
  show demo_dma_prg i < 256
  unfold demo_dma_prg
  split_ifs
  · decide
  · decide
  · decide
  · exact demo_prg_bytes i

theorem demo_lda_dma_boot_bytes : cart_bytes demo_lda_dma_boot.cart := by
  refine ⟨fun i => ?_, mem_zero_bytes⟩
  show demo_lda_dma_prg i < 256
  unfold demo_lda_dma_prg
  split_ifs
  · decide
  · decide
  · decide
  · decide
  · decide
  · exact demo_prg_bytes i

set_option maxRecDepth 100000 in
theorem stall_counter_witness :
    cart_bytes demo_dma_boot.cart ∧ cart_bytes demo_lda_dma_boot.cart ∧
    (∀ e ∈ [machine_event.cpu_step, machine_event.tick, machine_event.tick,
      machine_event.tick, machine_event.cpu_step], is_driver_event e) ∧
    ((run_events (nes_reset demo_dma_boot) []).cpu_stall = 0 ∧
      (run_events (nes_reset demo_dma_boot) []).cpu.cycles = 7 ∧
      (cpu6502_step (run_events (nes_reset demo_dma_boot) [])).1 = 4 ∧
      (cpu6502_step (run_events (nes_reset demo_dma_boot) [])).2.cpu_stall = 514) ∧
    ((run_events (nes_reset demo_dma_boot)
        [machine_event.cpu_step, machine_event.tick, machine_event.tick,
         machine_event.tick]).cpu_stall = 514 ∧
      cpu6502_step (run_events (nes_reset demo_dma_boot)
        [machine_event.cpu_step, machine_event.tick, machine_event.tick,
         machine_event.tick]) =
        (1, add_cycles { run_events (nes_reset demo_dma_boot)
            [machine_event.cpu_step, machine_event.tick, machine_event.tick,
             machine_event.tick] with
          cpu_stall := (run_events (nes_reset demo_dma_boot)
            [machine_event.cpu_step, machine_event.tick, machine_event.tick,
             machine_event.tick]).cpu_stall - 1 } 1)) ∧
    ((run_events (nes_reset demo_dma_boot)
        [machine_event.cpu_step, machine_event.tick, machine_event.tick,
         machine_event.tick, machine_event.cpu_step]).cpu_stall = 513 ∧
      0 ≤ (run_events (nes_reset demo_dma_boot)
        [machine_event.cpu_step, machine_event.tick, machine_event.tick,
         machine_event.tick, machine_event.cpu_step]).cpu_stall ∧
      (run_events (nes_reset demo_dma_boot)
        [machine_event.cpu_step, machine_event.tick, machine_event.tick,
         machine_event.tick, machine_event.cpu_step]).cpu_stall ≤ 514) ∧
    ((run_events (nes_reset demo_lda_dma_boot) [machine_event.cpu_step]).cpu_stall = 0 ∧
      (run_events (nes_reset demo_lda_dma_boot) [machine_event.cpu_step]).cpu.cycles = 10 ∧
      ((cpu6502_step (run_events (nes_reset demo_lda_dma_boot)
          [machine_event.cpu_step])).2.cpu_stall = 0 ∨
        (cpu6502_step (run_events (nes_reset demo_lda_dma_boot)
          [machine_event.cpu_step])).2.cpu_stall = 513 ∨
        (cpu6502_step (run_events (nes_reset demo_lda_dma_boot)
          [machine_event.cpu_step])).2.cpu_stall = 514) ∧
      (cpu6502_step (run_events (nes_reset demo_lda_dma_boot)
        [machine_event.cpu_step])).2.cpu_stall = 513) := by
  have s1 := stall_counter demo_dma_boot
    [machine_event.cpu_step, machine_event.tick, machine_event.tick, machine_event.tick]
    demo_dma_boot_bytes (by decide)
  have s2 := stall_counter demo_dma_boot
    [machine_event.cpu_step, machine_event.tick, machine_event.tick, machine_event.tick,
     machine_event.cpu_step] demo_dma_boot_bytes (by decide)
  have s3 := stall_counter demo_lda_dma_boot [machine_event.cpu_step] demo_lda_dma_boot_bytes
    (by decide)
  have e1 : (run_events (nes_reset demo_dma_boot)
      [machine_event.cpu_step, machine_event.tick, machine_event.tick,
       machine_event.tick]).cpu_stall = 514 := by decide
  have e3 : (run_events (nes_reset demo_lda_dma_boot) [machine_event.cpu_step]).cpu_stall = 0 := by
    decide
  exact ⟨demo_dma_boot_bytes, demo_lda_dma_boot_bytes, by decide,
    ⟨by decide, by decide, by decide, by decide⟩,
    ⟨e1, s1.2.2.1 (by rw [e1]; decide)⟩,
    ⟨by decide, s2.1, s2.2.1⟩,
    ⟨e3, by decide, s3.2.2.2 e3, by decide⟩⟩

end NES
